import Mathlib

/-!
# dwl: floating-base system model

A shallow embedding of `dwl/model/FloatingBaseSystem.cpp` together with the
helpers of `dwl/utils/RigidBodyDynamics.cpp` and `dwl/utils/URDF.cpp` it calls.

Conventions of the embedding

* A dynamic Eigen vector (`Eigen::VectorXd`) is a `List α`. The scalar type `α`
  is left abstract: the mapping code only moves scalars around, it never
  computes with them, so every statement holds for `double` bit for bit.
* `rbd::Vector6d` is a function from the six coordinates `Coords6d`.
* Every range-checked Eigen access (`v(i)`, `segment`, the comma initialiser)
  is an operation that may fail with `Failure.eigenAssert`; the function's own
  `assert` on the joint dimension fails with `Failure.jointDimension`.
* Memory that the source leaves uninitialised (a freshly sized vector) is read
  from an explicit parameter `uninit : Nat → α`.
* `unsigned int` is `Nat`; where the source can wrap, the arithmetic is taken
  modulo `2 ^ 32` explicitly.
-/

namespace dwl

/-! ## Eigen vectors -/

/-- The ways an operation of the model can stop without a result. -/
inductive Failure where
  /-- The `assert(joint_state.size() == getJointDoF())` of the source. -/
  | jointDimension
  /-- A range assertion inside Eigen (index, block or comma initialiser). -/
  | eigenAssert
  /-- A dereference of an end iterator or of a null pointer, `top()` of an
  empty stack, or an index past the end of a `std::vector`. -/
  | badDeref
  /-- The step budget of a loop of the embedding ran out. -/
  | outOfFuel
  /-- The call `exit(EXIT_FAILURE)` that follows a `FATAL` message. -/
  | fatalExit
  deriving DecidableEq, Repr

/-- Whether the program itself reports the failure: a failed assertion and a
fatal exit are reported. A bad dereference is not: the source runs into it
unchecked and the language leaves what happens next undefined. -/
def Failure.reported : Failure → Bool
  | .jointDimension => true
  | .eigenAssert => true
  | .fatalExit => true
  | .badDeref => false
  | .outOfFuel => false

namespace Eigen

/-- A vector of `n` rows whose coefficients were never written. -/
def uninitialized {α : Type} (uninit : Nat → α) (n : Nat) : List α :=
  (List.range n).map uninit

/-- `v.resize(n)`: nothing happens when the size already is `n`, otherwise the
storage is reallocated and its contents are unspecified. -/
def resize {α : Type} (uninit : Nat → α) (v : List α) (n : Nat) : List α :=
  if v.length = n then v else uninitialized uninit n

/-- `v(i)` as an rvalue. -/
def coeff {α : Type} (v : List α) (i : Nat) : Except Failure α :=
  match v[i]? with
  | some x => .ok x
  | none => .error .eigenAssert

/-- `v(i) = x`. -/
def setCoeff {α : Type} (v : List α) (i : Nat) (x : α) : Except Failure (List α) :=
  if i < v.length then .ok (v.set i x) else .error .eigenAssert

/-- `v.segment(start, n)` as an rvalue. -/
def segment {α : Type} (v : List α) (start n : Nat) : Except Failure (List α) :=
  if start + n ≤ v.length then .ok ((v.drop start).take n) else .error .eigenAssert

/-- `dst.segment(start, n) = src`. -/
def setSegment {α : Type} (dst : List α) (start n : Nat) (src : List α) :
    Except Failure (List α) :=
  if start + n ≤ dst.length ∧ src.length = n then
    .ok (dst.take start ++ src ++ dst.drop (start + n))
  else .error .eigenAssert

/-- `dst = src` on dynamic vectors: the destination takes the size and the
coefficients of the source. -/
def assign {α : Type} (_dst src : List α) : List α := src

/-- `dst << b₁, b₂, …`: the blocks must fill `dst` exactly; the size of `dst`
does not change. -/
def commaInit {α : Type} (dst : List α) (blocks : List (List α)) : Except Failure (List α) :=
  if blocks.flatten.length = dst.length then .ok blocks.flatten else .error .eigenAssert

end Eigen

/-! ## `dwl::rbd` -/

namespace rbd

/-- The six base coordinates, in the order of the name table of
`coord6dToName`: `{"AX", "AY", "AZ", "LX", "LY", "LZ"}`. -/
inductive Coords6d where
  | AX | AY | AZ | LX | LY | LZ
  deriving DecidableEq, Repr, Fintype

/-- The numeric value of the enumerator. -/
def Coords6d.toNat : Coords6d → Nat
  | .AX => 0 | .AY => 1 | .AZ => 2 | .LX => 3 | .LY => 4 | .LZ => 5

/-- The cast `rbd::Coords6d(n)`. A value above 5 names no enumerator; every
`if … else` chain of the model sends it to its last branch, the one of `LZ`. -/
def Coords6d.cast : Nat → Coords6d
  | 0 => .AX | 1 => .AY | 2 => .AZ | 3 => .LX | 4 => .LY | _ => .LZ

/-- The fixed-size `rbd::Vector6d`. -/
abbrev Vector6d (α : Type) := Coords6d → α

/-- The rows of a `Vector6d`, first to last. -/
def Vector6d.toList {α : Type} (v : Vector6d α) : List α :=
  (List.range 6).map (fun i => v (Coords6d.cast i))

/-- `Vector6d::Zero()`. -/
def Vector6d.Zero {α : Type} [Zero α] : Vector6d α := fun _ => 0

/-- `v(c) = x` on a `Vector6d`. -/
def Vector6d.set {α : Type} (v : Vector6d α) (c : Coords6d) (x : α) : Vector6d α :=
  fun d => if d = c then x else v d

/-- `v << top, bottom` with two 3-row blocks. -/
def Vector6d.ofBlocks {α : Type} (v : Vector6d α) (top bottom : List α) : Vector6d α :=
  fun c => ((top ++ bottom)[c.toNat]?).getD (v c)

/-- `angularPart`: `vector.topRows<3>()`. -/
def angularPart {α : Type} (vector : Vector6d α) : List α :=
  (vector.toList).take 3

/-- `linearPart`: `vector.bottomRows<3>()`. -/
def linearPart {α : Type} (vector : Vector6d α) : List α :=
  (vector.toList).drop 3

/-- `coord6dToName`. -/
def coord6dToName (coord : Coords6d) : String :=
  (["AX", "AY", "AZ", "LX", "LY", "LZ"][coord.toNat]?).getD ""

end rbd

/-! ## `std::string` and `std::map` keyed by strings -/

/-- `a < b` on `std::string`: the lexicographic order of the characters. -/
def stringLess (a b : String) : Bool := decide (a.toList < b.toList)

/-- A `std::map<std::string, β>`: the entries in increasing key order, as an
iteration over the map visits them. -/
abbrev StdMap (β : Type) := List (String × β)

namespace StdMap

/-- `m.find(k)`: the mapped value, or `none` for the end iterator. -/
def find {β : Type} (m : StdMap β) (k : String) : Option β :=
  match m with
  | [] => none
  | (k', v) :: rest => if k' = k then some v else find rest k

/-- `m.count(k)`. -/
def count {β : Type} (m : StdMap β) (k : String) : Nat :=
  match find m k with
  | some _ => 1
  | none => 0

/-- `m[k] = v`: insert at the key's place in the order, or overwrite. -/
def assign {β : Type} (m : StdMap β) (k : String) (v : β) : StdMap β :=
  match m with
  | [] => [(k, v)]
  | (k', v') :: rest =>
    if stringLess k k' then (k, v) :: (k', v') :: rest
    else if k' = k then (k, v) :: rest
    else (k', v') :: assign rest k v

/-- `m.size()`. -/
def size {β : Type} (m : StdMap β) : Nat := m.length

/-- The keys in iteration order. -/
def keys {β : Type} (m : StdMap β) : List String := m.map Prod.fst

end StdMap

/-- `unsigned int` arithmetic wraps at `2 ^ 32`. -/
def UINT_MOD : Nat := 2 ^ 32

/-- `a - b` on `unsigned int`. -/
def usub (a b : Nat) : Nat := (a + (UINT_MOD - b % UINT_MOD)) % UINT_MOD

/-- `a + b` on `unsigned int`. -/
def uadd (a b : Nat) : Nat := (a + b) % UINT_MOD

/-- `std::numeric_limits<unsigned int>::max()`. -/
def UINT_MAX : Nat := UINT_MOD - 1

/-! ## The parsed robot description (`urdf::ModelInterface`, an external library)

`urdf::parseURDF` is not part of the repository. Its result is an input of
the embedding. A shared pointer to a joint is the joint it points to; a shared
pointer to a link is the name of that link, resolved through `links_`; a null
pointer is `none`. -/

namespace urdf

/-- The joint types of `urdf::Joint`. -/
inductive JointKind where
  | UNKNOWN | REVOLUTE | CONTINUOUS | PRISMATIC | FLOATING | PLANAR | FIXED
  deriving DecidableEq, Repr

/-- The record `urdf::JointLimits`. -/
structure JointLimits (α : Type) where
  lower : α
  upper : α
  effort : α
  velocity : α
  deriving DecidableEq, Repr

/-- The record `urdf::Vector3`. -/
structure Vector3 (α : Type) where
  x : α
  y : α
  z : α
  deriving DecidableEq, Repr

/-- The fields of `urdf::Joint` that the repository reads. -/
structure Joint (α : Type) where
  name : String
  type : JointKind
  axis : Vector3 α
  child_link_name : String
  parent_link_name : String
  limits : Option (JointLimits α)
  deriving DecidableEq, Repr

/-- The fields of `urdf::Link` that the repository reads. -/
structure Link (α : Type) where
  name : String
  /-- `parent_joint`: the name of the joint it points to. -/
  parent_joint : Option String
  /-- `getParent()`: the name of the parent link. -/
  parent_link : Option String
  child_joints : List (Joint α)
  /-- `child_links`: the names of the links they point to. -/
  child_links : List String
  deriving DecidableEq, Repr

/-- The fields of `urdf::ModelInterface` that the repository reads. -/
structure ModelInterface (α : Type) where
  links_ : StdMap (Link α)
  joints_ : StdMap (Joint α)
  /-- `getRoot()`: the name of the root link. -/
  root_link_ : Option String
  deriving DecidableEq, Repr

end urdf

namespace urdf_model

/-- `urdf_model::JointID`: joint name to index. -/
abbrev JointID := StdMap Nat

/-- `urdf_model::LinkID`: link name to index. -/
abbrev LinkID := StdMap Nat

/-- `urdf_model::JointLimits`: joint name to limits. -/
abbrev JointLimits (α : Type) := StdMap (urdf.JointLimits α)

/-- `urdf_model::JointAxis`: joint name to axis. -/
abbrev JointAxis (α : Type) := StdMap (urdf.Vector3 α)

/-- Modelled from the spec: the enumeration `urdf_model::JointType` is declared
in `URDF.h`, which is not among the sources; `URDF.cpp` names the classes
`free`, `fixed`, `floating` and treats every other value as all joints. -/
inductive JointType where
  | free | fixed | floating | all
  deriving DecidableEq, Repr

/-- Modelled from the spec: the enumeration `urdf_model::JointMotion` is declared
in `URDF.h`, which is not among the sources. `URDF.cpp` names its values;
`resetFromURDFModel` tests `joint_motion == 6` for the full motion and casts any
other value to the base coordinate of the same number. -/
inductive JointMotion where
  | RX | RY | RZ | TX | TY | TZ | FULL
  deriving DecidableEq, Repr

/-- The numeric value of the enumerator. -/
def JointMotion.toNat : JointMotion → Nat
  | .RX => 0 | .RY => 1 | .RZ => 2 | .TX => 3 | .TY => 4 | .TZ => 5 | .FULL => 6

variable {α : Type} [Zero α] [DecidableEq α]

/-- The classification step of `getJointNames`: the joint table and the running
index after `current_joint` has been looked at. -/
def classifyJoint (type : JointType) (current_joint : urdf.Joint α)
    (joints : JointID) (joint_idx : Nat) : Except Failure (JointID × Nat) :=
  if type = .free then
    if current_joint.type = .FLOATING ∨ current_joint.type = .PRISMATIC ∨
        current_joint.type = .REVOLUTE ∨ current_joint.type = .CONTINUOUS then
      .ok (StdMap.assign joints current_joint.name joint_idx, joint_idx + 1)
    else .ok (joints, joint_idx)
  else if type = .fixed then
    if current_joint.type = .FIXED then
      .ok (StdMap.assign joints current_joint.name joint_idx, joint_idx + 1)
    else .ok (joints, joint_idx)
  else if type = .floating then
    let (joints, joint_idx) :=
      if current_joint.type = .FLOATING then
        (StdMap.assign joints current_joint.name joint_idx, joint_idx + 1)
      else (joints, joint_idx)
    if current_joint.type = .PRISMATIC ∨ current_joint.type = .REVOLUTE ∨
        current_joint.type = .CONTINUOUS then
      match current_joint.limits with
      | none => .error .badDeref
      | some limits =>
        if limits.effort = 0 then
          .ok (StdMap.assign joints current_joint.name joint_idx, joint_idx + 1)
        else .ok (joints, joint_idx)
    else .ok (joints, joint_idx)
  else
    if current_joint.type = .FIXED then
      .ok (StdMap.assign joints current_joint.name UINT_MAX, joint_idx)
    else .ok (StdMap.assign joints current_joint.name joint_idx, joint_idx + 1)

/-- The `while (link_stack.size() > 0)` loop of `getJointNames`. The stacks are
lists with the top first; an entry of the link stack is the link its pointer
refers to, `none` for the null pointer that `link_map[name]` yields for a name
it does not hold. -/
def getJointNamesLoop (link_map : StdMap (urdf.Link α)) (type : JointType) :
    Nat → List (Option (urdf.Link α)) → List Nat → Nat → JointID → Except Failure JointID
  | _, [], _, _, joints => .ok joints
  | 0, _ :: _, _, _, _ => .error .outOfFuel
  | _ + 1, _ :: _, [], _, _ => .error .badDeref
  | _ + 1, none :: _, _ :: _, _, _ => .error .badDeref
  | fuel + 1, some current_link :: link_rest, branch_idx :: branch_rest, joint_idx, joints =>
    match current_link.child_joints[branch_idx]? with
    | some current_joint =>
      let branch_index_stack := 0 :: (branch_idx + 1) :: branch_rest
      let link_stack :=
        StdMap.find link_map current_joint.child_link_name :: some current_link :: link_rest
      match classifyJoint type current_joint joints joint_idx with
      | .error e => .error e
      | .ok (joints, joint_idx) =>
        getJointNamesLoop link_map type fuel link_stack branch_index_stack joint_idx joints
    | none =>
      getJointNamesLoop link_map type fuel link_rest branch_rest joint_idx joints

/-- `getJointNames(joints, urdf_model, type)`. The first argument is the
content of the output table on entry. -/
def getJointNames (fuel : Nat) (joints : JointID) (model : urdf.ModelInterface α)
    (type : JointType) : Except Failure JointID :=
  match model.root_link_ with
  | none => .error .badDeref
  | some root_name =>
    match StdMap.find model.links_ root_name with
    | none => .error .badDeref
    | some root =>
      let branch_index_stack := if root.child_joints.length > 0 then [0] else []
      getJointNamesLoop model.links_ type fuel [some root] branch_index_stack 0 joints

/-- The `while` loop of `getEndEffectors` for one fixed joint, started at
`parent_link`: `true` when it leaves through the `break` (the child link is
recorded as an end-effector), `false` when its condition fails. -/
def endEffectorWalk (model : urdf.ModelInterface α) (root_link_name : String)
    (num_childs : Nat) : Nat → Option (urdf.Link α) → Except Failure Bool
  | _, none => .error .badDeref
  | fuel, some parent_link =>
    if parent_link.name ≠ root_link_name ∧ num_childs = 0 then
      match fuel with
      | 0 => .error .outOfFuel
      | fuel + 1 =>
        match parent_link.parent_joint with
        | none => .error .badDeref
        | some parent_joint_name =>
          match StdMap.find model.joints_ parent_joint_name with
          | none => .error .badDeref
          | some parent_joint =>
            if parent_joint.type = .PRISMATIC ∨ parent_joint.type = .REVOLUTE then .ok true
            else
              endEffectorWalk model root_link_name num_childs fuel
                (parent_link.parent_link.bind (StdMap.find model.links_))
    else .ok false

/-- The `for` loop of `getEndEffectors` over the fixed joints. -/
def getEndEffectorsLoop (fuel : Nat) (model : urdf.ModelInterface α)
    (root_link_name : String) :
    List (String × Nat) → LinkID → Nat → Except Failure LinkID
  | [], end_effectors, _ => .ok end_effectors
  | (joint_name, _) :: rest, end_effectors, end_effector_idx =>
    match StdMap.find model.joints_ joint_name with
    | none => .error .badDeref
    | some current_joint =>
      let parent_link := StdMap.find model.links_ current_joint.parent_link_name
      match StdMap.find model.links_ current_joint.child_link_name with
      | none => .error .badDeref
      | some child_link =>
        let num_childs := child_link.child_joints.length
        match endEffectorWalk model root_link_name num_childs fuel parent_link with
        | .error e => .error e
        | .ok true =>
          getEndEffectorsLoop fuel model root_link_name rest
            (StdMap.assign end_effectors current_joint.child_link_name end_effector_idx)
            (end_effector_idx + 1)
        | .ok false =>
          getEndEffectorsLoop fuel model root_link_name rest end_effectors end_effector_idx

/-- `getEndEffectors(end_effectors, urdf_model)`. The first table argument is
the content of the output table on entry. -/
def getEndEffectors (fuel : Nat) (end_effectors : LinkID) (model : urdf.ModelInterface α) :
    Except Failure LinkID := do
  let fixed_joints ← getJointNames fuel [] model .fixed
  match model.root_link_.bind (StdMap.find model.links_) with
  | none => .error .badDeref
  | some world_link =>
    match world_link.child_links[0]? with
    | none => .error .badDeref
    | some root_link_name =>
      getEndEffectorsLoop fuel model root_link_name fixed_joints end_effectors 0

/-- The second `for` loop of `getJointLimits`. (The first loop only counts into a
local variable that is never read.) -/
def getJointLimitsLoop (model : urdf.ModelInterface α) :
    List (String × Nat) → JointLimits α → Except Failure (JointLimits α)
  | [], joint_limits => .ok joint_limits
  | (joint_name, _) :: rest, joint_limits =>
    match StdMap.find model.joints_ joint_name with
    | none => .error .badDeref
    | some current_joint =>
      if current_joint.type ≠ .FLOATING then
        match current_joint.limits with
        | none => .error .badDeref
        | some limits =>
          if limits.effort ≠ 0 then
            getJointLimitsLoop model rest
              (StdMap.assign joint_limits joint_name
                { lower := limits.lower, upper := limits.upper,
                  velocity := limits.velocity, effort := limits.effort })
          else getJointLimitsLoop model rest joint_limits
      else getJointLimitsLoop model rest joint_limits

/-- `getJointLimits(joint_limits, urdf_model)`. -/
def getJointLimits (fuel : Nat) (joint_limits : JointLimits α)
    (model : urdf.ModelInterface α) : Except Failure (JointLimits α) := do
  let free_joints ← getJointNames fuel [] model .free
  getJointLimitsLoop model free_joints joint_limits

/-- The `for` loop of `getJointAxis`. Its test `type != FLOATING || type != FIXED`
holds for every joint, so the axis is always copied. -/
def getJointAxisLoop (model : urdf.ModelInterface α) :
    List (String × Nat) → JointAxis α → Except Failure (JointAxis α)
  | [], joints => .ok joints
  | (joint_name, _) :: rest, joints =>
    match StdMap.find model.joints_ joint_name with
    | none => .error .badDeref
    | some current_joint =>
      if current_joint.type ≠ .FLOATING ∨ current_joint.type ≠ .FIXED then
        getJointAxisLoop model rest (StdMap.assign joints joint_name current_joint.axis)
      else
        getJointAxisLoop model rest (StdMap.assign joints joint_name ⟨0, 0, 0⟩)

/-- `getJointAxis(joints, urdf_model, type)`. -/
def getJointAxis (fuel : Nat) (joints : JointAxis α) (model : urdf.ModelInterface α)
    (type : JointType) : Except Failure (JointAxis α) := do
  let joint_ids ← getJointNames fuel [] model type
  getJointAxisLoop model joint_ids joints

/-- The `for` loop of `getFloatingBaseJointMotion`. Each `break` of the source
leaves this loop, so the table is returned as it stands at that point. -/
def getFloatingBaseJointMotionLoop (model : urdf.ModelInterface α) :
    List (String × urdf.Vector3 α) → JointID → Except Failure JointID
  | [], joints => .ok joints
  | (joint_name, _) :: rest, joints =>
    match StdMap.find model.joints_ joint_name with
    | none => .error .badDeref
    | some current_joint =>
      if current_joint.type = .FLOATING then
        getFloatingBaseJointMotionLoop model rest
          (StdMap.assign joints joint_name JointMotion.FULL.toNat)
      else if current_joint.type = .REVOLUTE ∨ current_joint.type = .CONTINUOUS then
        if current_joint.axis.x ≠ 0 then
          .ok (StdMap.assign joints joint_name JointMotion.RX.toNat)
        else if current_joint.axis.y ≠ 0 then
          .ok (StdMap.assign joints joint_name JointMotion.RY.toNat)
        else if current_joint.axis.z ≠ 0 then
          .ok (StdMap.assign joints joint_name JointMotion.RZ.toNat)
        else getFloatingBaseJointMotionLoop model rest joints
      else if current_joint.type = .PRISMATIC then
        if current_joint.axis.x ≠ 0 then
          .ok (StdMap.assign joints joint_name JointMotion.TX.toNat)
        else if current_joint.axis.y ≠ 0 then
          .ok (StdMap.assign joints joint_name JointMotion.TY.toNat)
        else if current_joint.axis.z ≠ 0 then
          .ok (StdMap.assign joints joint_name JointMotion.TZ.toNat)
        else getFloatingBaseJointMotionLoop model rest joints
      else getFloatingBaseJointMotionLoop model rest joints

/-- `getFloatingBaseJointMotion(joints, urdf_model)`. -/
def getFloatingBaseJointMotion (fuel : Nat) (joints : JointID)
    (model : urdf.ModelInterface α) : Except Failure JointID := do
  let joint_axis ← getJointAxis fuel [] model .floating
  getFloatingBaseJointMotionLoop model joint_axis joints

end urdf_model

/-! ## The RBDL model (an external library; only what the model reads) -/

/-- The part of `RigidBodyDynamics::Model` that `FloatingBaseSystem` reads. The
model is produced by `URDFReadFromString`, which is not part of the repository,
so it is an input of the construction. -/
structure RBDModel where
  /-- `lambda[i]`: the parent of movable body `i`. -/
  lambda : List Nat
  /-- `mJoints[i].q_index`. -/
  q_index : List Nat
  /-- `fixed_body_discriminator`. -/
  fixed_body_discriminator : Nat
  /-- `mFixedBodies[i].mMovableParent`. -/
  mMovableParent : List Nat
  /-- `mBodyNameMap`. -/
  mBodyNameMap : StdMap Nat
  deriving DecidableEq, Repr

/-- `GetBodyName` of RBDL: the name registered for the id, the empty string
when there is none. -/
def RBDModel.GetBodyName (m : RBDModel) (body_id : Nat) : String :=
  match m.mBodyNameMap.find? (fun e => e.2 = body_id) with
  | some e => e.1
  | none => ""

/-- `GetBodyId` of RBDL: the id registered for the name, the largest
`unsigned int` when there is none. -/
def RBDModel.GetBodyId (m : RBDModel) (body_name : String) : Nat :=
  match StdMap.find m.mBodyNameMap body_name with
  | some body_id => body_id
  | none => UINT_MAX

/-- `IsFixedBodyId` of RBDL. -/
def RBDModel.IsFixedBodyId (m : RBDModel) (body_id : Nat) : Bool :=
  decide (body_id ≥ m.fixed_body_discriminator) && decide (body_id < UINT_MAX) &&
    decide (body_id - m.fixed_body_discriminator < m.mMovableParent.length)

/-- Modelled from the spec: the supplementary configuration file. It is read
through `YamlWrapper`, which is not among the sources. Under the namespace
`robot` it holds an optional foot-name list (`feet`) and a default-posture map
(`default_pose`, joint name to value); a read of an absent key reports `false`
and leaves its output argument as it was. -/
structure SystemDescription (α : Type) where
  feet : Option (List String)
  default_pose : StdMap α

namespace model

/-- Modelled from the spec: the enumeration `TypeOfSystem` is declared in
`FloatingBaseSystem.h`, which is not among the sources; its four values are
the ones the source file names. -/
inductive TypeOfSystem where
  | FixedBase | FloatingBase | ConstrainedFloatingBase | VirtualFloatingBase
  deriving DecidableEq, Repr, Fintype

/-- Modelled from the spec: the enumeration `TypeOfEndEffector` is declared in
a header that is not among the sources. The source file singles out the value
`ALL`; every other value selects the feet. -/
inductive TypeOfEndEffector where
  | ALL | FOOT
  deriving DecidableEq, Repr

/-- Modelled from the spec: the record `FloatingBaseJoint` is declared in
`FloatingBaseSystem.h`, which is not among the sources. The spec gives a slot
the fields active, constrained, generalized-coordinate index and name; the
source file reads and writes exactly these four. -/
structure FloatingBaseJoint where
  active : Bool
  constrained : Bool
  id : Nat
  name : String
  deriving DecidableEq, Repr

/-- Modelled from the spec: the one-argument constructor `FloatingBaseJoint(status)`
used by the member initialisers `floating_ax_(full)`: only the active flag is
given, the slot is unconstrained and carries no joint yet. -/
def FloatingBaseJoint.ofStatus (status : Bool) : FloatingBaseJoint :=
  { active := status, constrained := false, id := 0, name := "" }

/-- Modelled from the spec: the three-argument constructor
`FloatingBaseJoint(status, id, name)` used by `resetFromURDFModel`. -/
def FloatingBaseJoint.mk3 (status : Bool) (id : Nat) (name : String) : FloatingBaseJoint :=
  { active := status, constrained := false, id := id, name := name }

/-- The state of a `FloatingBaseSystem` object. The computed floating-point
members `grav_acc_`, `grav_dir_`, `com_system_`, `comd_system_` and the two
file names `urdf_`, `yarf_` are not part of this record; no operation below
reads them. -/
structure FloatingBaseSystem (α : Type) where
  rbd_model_ : RBDModel
  joint_limits_ : urdf_model.JointLimits α
  num_system_joints_ : Nat
  num_floating_joints_ : Nat
  num_joints_ : Nat
  floating_ax_ : FloatingBaseJoint
  floating_ay_ : FloatingBaseJoint
  floating_az_ : FloatingBaseJoint
  floating_lx_ : FloatingBaseJoint
  floating_ly_ : FloatingBaseJoint
  floating_lz_ : FloatingBaseJoint
  joints_ : urdf_model.JointID
  floating_joint_names_ : List String
  joint_names_ : List String
  floating_body_name_ : String
  type_of_system_ : TypeOfSystem
  end_effectors_ : urdf_model.LinkID
  feet_ : urdf_model.LinkID
  end_effector_names_ : List String
  foot_names_ : List String
  num_end_effectors_ : Nat
  num_feet_ : Nat
  default_joint_pos_ : List α
  full_state_ : List α
  joint_state_ : List α
  deriving DecidableEq, Repr

namespace FloatingBaseSystem

open rbd

variable {α : Type}

/-- The constructor `FloatingBaseSystem(full, _num_joints)`. The members that
the initialiser list does not name are default-constructed: empty tables and
vectors, and the default RBDL model `rbd0`. -/
def new (rbd0 : RBDModel) (full : Bool) (_num_joints : Nat) : FloatingBaseSystem α :=
  { rbd_model_ := rbd0
    joint_limits_ := []
    num_system_joints_ := 0
    num_floating_joints_ := 6 * full.toNat
    num_joints_ := _num_joints
    floating_ax_ := .ofStatus full
    floating_ay_ := .ofStatus full
    floating_az_ := .ofStatus full
    floating_lx_ := .ofStatus full
    floating_ly_ := .ofStatus full
    floating_lz_ := .ofStatus full
    joints_ := []
    floating_joint_names_ := []
    joint_names_ := []
    floating_body_name_ := ""
    type_of_system_ := .FixedBase
    end_effectors_ := []
    feet_ := []
    end_effector_names_ := []
    foot_names_ := []
    num_end_effectors_ := 0
    num_feet_ := 0
    default_joint_pos_ := []
    full_state_ := []
    joint_state_ := [] }

/-- `setFloatingBaseJoint(joint)`: the six slots take the joint, each with the
number of its own coordinate as id. -/
def setFloatingBaseJoint (s : FloatingBaseSystem α) (joint : FloatingBaseJoint) :
    FloatingBaseSystem α :=
  { s with
    floating_ax_ := { joint with id := Coords6d.AX.toNat }
    floating_ay_ := { joint with id := Coords6d.AY.toNat }
    floating_az_ := { joint with id := Coords6d.AZ.toNat }
    floating_lx_ := { joint with id := Coords6d.LX.toNat }
    floating_ly_ := { joint with id := Coords6d.LY.toNat }
    floating_lz_ := { joint with id := Coords6d.LZ.toNat } }

/-- `setFloatingBaseJoint(joint, joint_coord)`. -/
def setFloatingBaseJointCoord (s : FloatingBaseSystem α) (joint : FloatingBaseJoint)
    (joint_coord : Coords6d) : FloatingBaseSystem α :=
  if joint_coord = .AX then { s with floating_ax_ := joint }
  else if joint_coord = .AY then { s with floating_ay_ := joint }
  else if joint_coord = .AZ then { s with floating_az_ := joint }
  else if joint_coord = .LX then { s with floating_lx_ := joint }
  else if joint_coord = .LY then { s with floating_ly_ := joint }
  else { s with floating_lz_ := joint }

/-- `setJoint`. -/
def setJoint (s : FloatingBaseSystem α) (id : Nat) (name : String) : FloatingBaseSystem α :=
  { s with joints_ := StdMap.assign s.joints_ name id }

/-- `setFloatingBaseConstraint`. -/
def setFloatingBaseConstraint (s : FloatingBaseSystem α) (joint_id : Coords6d) :
    FloatingBaseSystem α :=
  if joint_id = .AX then { s with floating_ax_ := { s.floating_ax_ with constrained := true } }
  else if joint_id = .AY then
    { s with floating_ay_ := { s.floating_ay_ with constrained := true } }
  else if joint_id = .AZ then
    { s with floating_az_ := { s.floating_az_ with constrained := true } }
  else if joint_id = .LX then
    { s with floating_lx_ := { s.floating_lx_ with constrained := true } }
  else if joint_id = .LY then
    { s with floating_ly_ := { s.floating_ly_ with constrained := true } }
  else { s with floating_lz_ := { s.floating_lz_ with constrained := true } }

/-- `setTypeOfDynamicSystem`. -/
def setTypeOfDynamicSystem (s : FloatingBaseSystem α) (type_of_system : TypeOfSystem) :
    FloatingBaseSystem α :=
  { s with type_of_system_ := type_of_system }

/-- `setSystemDoF`. -/
def setSystemDoF (s : FloatingBaseSystem α) (num_dof : Nat) : FloatingBaseSystem α :=
  { s with num_system_joints_ := num_dof }

/-- `setJointDoF`. -/
def setJointDoF (s : FloatingBaseSystem α) (num_joints : Nat) : FloatingBaseSystem α :=
  { s with num_joints_ := num_joints }

/-- `getSystemDoF`. -/
def getSystemDoF (s : FloatingBaseSystem α) : Nat := s.num_system_joints_

/-- `getFloatingBaseDoF`. -/
def getFloatingBaseDoF (s : FloatingBaseSystem α) : Nat := s.num_floating_joints_

/-- `getJointDoF`. -/
def getJointDoF (s : FloatingBaseSystem α) : Nat := s.num_joints_

/-- `getTypeOfDynamicSystem`. -/
def getTypeOfDynamicSystem (s : FloatingBaseSystem α) : TypeOfSystem := s.type_of_system_

/-- `getNumberOfEndEffectors`. -/
def getNumberOfEndEffectors (s : FloatingBaseSystem α) (type : TypeOfEndEffector) : Nat :=
  if type = .ALL then s.num_end_effectors_ else s.num_feet_

/-- `getEndEffectors`. -/
def getEndEffectors (s : FloatingBaseSystem α) (type : TypeOfEndEffector) :
    urdf_model.LinkID :=
  if type = .ALL then s.end_effectors_ else s.feet_

/-- `getEndEffectorNames`. -/
def getEndEffectorNames (s : FloatingBaseSystem α) (type : TypeOfEndEffector) : List String :=
  if type = .ALL then s.end_effector_names_ else s.foot_names_

/-- `getFloatingBaseJoint`. -/
def getFloatingBaseJoint (s : FloatingBaseSystem α) (joint : Coords6d) : FloatingBaseJoint :=
  if joint = .AX then s.floating_ax_
  else if joint = .AY then s.floating_ay_
  else if joint = .AZ then s.floating_az_
  else if joint = .LX then s.floating_lx_
  else if joint = .LY then s.floating_ly_
  else s.floating_lz_

/-- `isFullyFloatingBase`. -/
def isFullyFloatingBase (s : FloatingBaseSystem α) : Bool :=
  if s.floating_ax_.active && s.floating_ay_.active &&
      s.floating_az_.active && s.floating_lx_.active &&
      s.floating_ly_.active && s.floating_lz_.active then true
  else false

/-- `hasFloatingBaseConstraints`. -/
def hasFloatingBaseConstraints (s : FloatingBaseSystem α) : Bool :=
  if s.floating_ax_.constrained || s.floating_ay_.constrained ||
      s.floating_az_.constrained || s.floating_lx_.constrained ||
      s.floating_ly_.constrained || s.floating_lz_.constrained then true
  else false

/-- One guarded write `if (slot.active) virtual_base(slot.id) = base_state(c)` of
`toGeneralizedJointState`. -/
def writeSlot (slot : FloatingBaseJoint) (x : α) (virtual_base : List α) :
    Except Failure (List α) :=
  if slot.active then Eigen.setCoeff virtual_base slot.id x else .ok virtual_base

/-- `toGeneralizedJointState`. The result is the reference to `full_state_` that
the source returns, paired with the object state after the call. -/
def toGeneralizedJointState (s : FloatingBaseSystem α) (uninit : Nat → α)
    (base_state : Vector6d α) (joint_state : List α) :
    Except Failure (List α × FloatingBaseSystem α) :=
  if joint_state.length ≠ s.getJointDoF then .error .jointDimension
  else if s.getTypeOfDynamicSystem = .FloatingBase ∨
      s.getTypeOfDynamicSystem = .ConstrainedFloatingBase then do
    let full ← Eigen.commaInit s.full_state_
      [linearPart base_state, angularPart base_state, joint_state]
    pure (full, { s with full_state_ := full })
  else if s.getTypeOfDynamicSystem = .VirtualFloatingBase then do
    let base_dof := s.getFloatingBaseDoF
    let vb0 := Eigen.uninitialized uninit base_dof
    let vb1 ← writeSlot s.floating_ax_ (base_state .AX) vb0
    let vb2 ← writeSlot s.floating_ay_ (base_state .AY) vb1
    let vb3 ← writeSlot s.floating_az_ (base_state .AZ) vb2
    let vb4 ← writeSlot s.floating_lx_ (base_state .LX) vb3
    let vb5 ← writeSlot s.floating_ly_ (base_state .LY) vb4
    let virtual_base ← writeSlot s.floating_lz_ (base_state .LZ) vb5
    let full ← Eigen.commaInit s.full_state_ [virtual_base, joint_state]
    pure (full, { s with full_state_ := full })
  else
    let full := Eigen.assign s.full_state_ joint_state
    .ok (full, { s with full_state_ := full })

/-- The body of the loop over `base_idx` in `fromGeneralizedJointState`. -/
def readSlot (s : FloatingBaseSystem α) (generalized_state : List α)
    (base_state : Vector6d α) (base_idx : Nat) : Except Failure (Vector6d α) :=
  let base_coord := Coords6d.cast base_idx
  let joint := s.getFloatingBaseJoint base_coord
  if joint.active then do
    let x ← Eigen.coeff generalized_state joint.id
    pure (base_state.set base_coord x)
  else .ok base_state

/-- `fromGeneralizedJointState`. The arguments `base_state` and `joint_state` are
the contents of the two output references on entry; the result is their
contents on return. -/
def fromGeneralizedJointState [Zero α] (s : FloatingBaseSystem α) (uninit : Nat → α)
    (base_state : Vector6d α) (joint_state : List α) (generalized_state : List α) :
    Except Failure (Vector6d α × List α) :=
  let resized := Eigen.resize uninit joint_state s.getJointDoF
  if s.getTypeOfDynamicSystem = .FloatingBase ∨
      s.getTypeOfDynamicSystem = .ConstrainedFloatingBase then do
    let top ← Eigen.segment generalized_state Coords6d.LX.toNat 3
    let bottom ← Eigen.segment generalized_state Coords6d.AX.toNat 3
    let tail ← Eigen.segment generalized_state 6 s.getJointDoF
    pure (base_state.ofBlocks top bottom, Eigen.assign resized tail)
  else if s.getTypeOfDynamicSystem = .VirtualFloatingBase then do
    let base ← (List.range 6).foldlM (readSlot s generalized_state) base_state
    let tail ← Eigen.segment generalized_state s.getFloatingBaseDoF s.getJointDoF
    pure (base, Eigen.assign resized tail)
  else
    .ok (Vector6d.Zero, Eigen.assign resized generalized_state)

/-- `getFloatingBaseJointCoordinate(id)`: the number of the first coordinate, in
the order AX, AY, AZ, LX, LY, LZ, whose slot is active and carries the id. When
there is none the source prints an error message and returns 0. -/
def getFloatingBaseJointCoordinate (s : FloatingBaseSystem α) (id : Nat) : Nat :=
  if s.floating_ax_.active ∧ s.floating_ax_.id = id then Coords6d.AX.toNat
  else if s.floating_ay_.active ∧ s.floating_ay_.id = id then Coords6d.AY.toNat
  else if s.floating_az_.active ∧ s.floating_az_.id = id then Coords6d.AZ.toNat
  else if s.floating_lx_.active ∧ s.floating_lx_.id = id then Coords6d.LX.toNat
  else if s.floating_ly_.active ∧ s.floating_ly_.id = id then Coords6d.LY.toNat
  else if s.floating_lz_.active ∧ s.floating_lz_.id = id then Coords6d.LZ.toNat
  else 0

/-- `getJointId`: the mapped value of `joints_.find(joint_name)`; for a name
that the table lacks the source dereferences the end iterator. -/
def getJointId (s : FloatingBaseSystem α) (joint_name : String) : Except Failure Nat :=
  match StdMap.find s.joints_ joint_name with
  | some id => .ok id
  | none => .error .badDeref

/-- `getJoints`. -/
def getJoints (s : FloatingBaseSystem α) : urdf_model.JointID := s.joints_

/-- `getJointLimits`. -/
def getJointLimits (s : FloatingBaseSystem α) : urdf_model.JointLimits α := s.joint_limits_

/-- `getJointLimit`: the mapped value of `joint_limits_.find(name)`. -/
def getJointLimit (s : FloatingBaseSystem α) (name : String) :
    Except Failure (urdf.JointLimits α) :=
  match StdMap.find s.joint_limits_ name with
  | some limits => .ok limits
  | none => .error .badDeref

/-- `getLowerLimit(name)`. -/
def getLowerLimit (s : FloatingBaseSystem α) (name : String) : Except Failure α :=
  (s.getJointLimit name).map (fun joint => joint.lower)

/-- `getUpperLimit(name)`. -/
def getUpperLimit (s : FloatingBaseSystem α) (name : String) : Except Failure α :=
  (s.getJointLimit name).map (fun joint => joint.upper)

/-- `getVelocityLimit(name)`. -/
def getVelocityLimit (s : FloatingBaseSystem α) (name : String) : Except Failure α :=
  (s.getJointLimit name).map (fun joint => joint.velocity)

/-- `getEffortLimit(name)`. -/
def getEffortLimit (s : FloatingBaseSystem α) (name : String) : Except Failure α :=
  (s.getJointLimit name).map (fun joint => joint.effort)

/-- `getJointNames`. -/
def getJointNames (s : FloatingBaseSystem α) : List String := s.joint_names_

/-- `getEndEffectorId`: the mapped value of `end_effectors_.find(contact_name)`. -/
def getEndEffectorId (s : FloatingBaseSystem α) (contact_name : String) : Except Failure Nat :=
  match StdMap.find s.end_effectors_ contact_name with
  | some id => .ok id
  | none => .error .badDeref

/-- `getDefaultPosture`. -/
def getDefaultPosture (s : FloatingBaseSystem α) : List α := s.default_joint_pos_

/-- The `do … while (parent_id != base_id)` loop of `getBranch`: the result is
`pos_idx` and `num_dof` when the loop is left. -/
def getBranchLoop (m : RBDModel) (base_id : Nat) :
    Nat → Nat → Nat → Nat → Except Failure (Nat × Nat)
  | 0, _, _, _ => .error .outOfFuel
  | fuel + 1, parent_id, _, num_dof =>
    match m.q_index[parent_id]?, m.lambda[parent_id]? with
    | some q, some parent =>
      if parent ≠ base_id then getBranchLoop m base_id fuel parent q (num_dof + 1)
      else .ok (q, num_dof + 1)
    | _, _ => .error .badDeref

/-- `getBranch(pos_idx, num_dof, body_name)`. The argument `pos_idx` is the
content of the first output reference on entry; the result is the content of
the two output references on return. -/
def getBranch (s : FloatingBaseSystem α) (fuel : Nat) (pos_idx : Nat) (body_name : String) :
    Except Failure (Nat × Nat) :=
  -- Getting the body id
  let body_id := s.rbd_model_.GetBodyId body_name
  -- Getting the base joint id
  let base_id := if s.isFullyFloatingBase then 6 else s.getFloatingBaseDoF
  -- Setting the state values of a specific branch to the joint state
  let movable :=
    if s.rbd_model_.IsFixedBodyId body_id then
      let fixed_idx := s.rbd_model_.fixed_body_discriminator
      s.rbd_model_.mMovableParent[body_id - fixed_idx]?
    else some body_id
  match movable with
  | none => .error .badDeref
  | some parent_id =>
    if parent_id ≠ base_id then getBranchLoop s.rbd_model_ base_id fuel parent_id pos_idx 0
    else .ok (pos_idx, 0)

/-- The statement `q_index -= 6` or `q_index -= getFloatingBaseDoF()` of the two
branch-state functions. -/
def removeBaseIndex (s : FloatingBaseSystem α) (q_index : Nat) : Nat :=
  if s.isFullyFloatingBase then usub q_index 6 else usub q_index s.getFloatingBaseDoF

/-- `setBranchState(new_joint_state, branch_state, body_name)`. The argument
`q_garbage` is the content of the uninitialised local `q_index`; the result is
the content of `new_joint_state` on return. -/
def setBranchState (s : FloatingBaseSystem α) (fuel : Nat) (q_garbage : Nat)
    (new_joint_state branch_state : List α) (body_name : String) : Except Failure (List α) :=
  -- Getting the branch properties
  match s.getBranch fuel q_garbage body_name with
  | .error e => .error e
  | .ok (q_index, num_dof) =>
    -- Removing the base index
    let q := s.removeBaseIndex q_index
    if branch_state.length ≠ num_dof then .error .fatalExit
    else Eigen.setSegment new_joint_state q num_dof branch_state

/-- `getBranchState(joint_state, body_name)`. -/
def getBranchState (s : FloatingBaseSystem α) (fuel : Nat) (q_garbage : Nat)
    (joint_state : List α) (body_name : String) : Except Failure (List α) :=
  -- Getting the branch properties
  match s.getBranch fuel q_garbage body_name with
  | .error e => .error e
  | .ok (q_index, num_dof) =>
    -- Removing the base index
    let q := s.removeBaseIndex q_index
    Eigen.segment joint_state q num_dof

/-- `compareString`. -/
def compareString (a b : String) : Bool := stringLess a b

/-- `std::sort(first, last, compareString)`: the arrangement of the names in
which no name is followed by one that compares below it. -/
def sortNames (names : List String) : List String :=
  names.insertionSort (fun a b => compareString b a = false)

/-- The body of the loop of `resetSystemDescription` over the sorted foot
names: a foot that the end-effector table lacks is added to it. -/
def addFoot (s : FloatingBaseSystem α) (name : String) : FloatingBaseSystem α :=
  if StdMap.count s.end_effectors_ name = 0 then
    let id := StdMap.size s.end_effectors_ + 1
    { s with
      end_effectors_ := StdMap.assign s.end_effectors_ name id
      end_effector_names_ := s.end_effector_names_ ++ [name] }
  else s

/-- The body of the loop of `resetSystemDescription` over the joint indices. -/
def readPosture (file : SystemDescription α) (s : FloatingBaseSystem α) (j : Nat) :
    Except Failure (FloatingBaseSystem α) :=
  match s.joint_names_[j]? with
  | none => .error .badDeref
  | some name =>
    match StdMap.find file.default_pose name with
    | some joint_pos =>
      match Eigen.setCoeff s.default_joint_pos_ j joint_pos with
      | .error e => .error e
      | .ok default_joint_pos => .ok { s with default_joint_pos_ := default_joint_pos }
    | none => .ok s

/-- The first block of `resetSystemDescription`: reading and setting up the
foot names. -/
def readFeet (s : FloatingBaseSystem α) (file : SystemDescription α) : FloatingBaseSystem α :=
  match file.feet with
  | some feet =>
    let foot_names := sortNames feet
    foot_names.foldl addFoot
      { s with foot_names_ := foot_names, num_feet_ := foot_names.length }
  | none => s

/-- `resetSystemDescription`, on the content of the file it names. -/
def resetSystemDescription (s : FloatingBaseSystem α) (file : SystemDescription α) :
    Except Failure (FloatingBaseSystem α) :=
  let withFeet := readFeet s file
  (List.range withFeet.num_joints_).foldlM (readPosture file) withFeet

/-- The body of the loop of `resetFromURDFModel` over the floating-joint
motions. -/
def setFloatingSlot (floating_joint_names : urdf_model.JointID) (s : FloatingBaseSystem α)
    (jnt : String × Nat) : Except Failure (FloatingBaseSystem α) :=
  let joint_name := jnt.1
  let joint_motion := jnt.2
  match StdMap.find floating_joint_names joint_name with
  | none => .error .badDeref
  | some joint_id =>
    let s := { s with floating_joint_names_ := s.floating_joint_names_ ++ [joint_name] }
    let joint := FloatingBaseJoint.mk3 true joint_id joint_name
    if joint_motion = 6 then .ok (s.setFloatingBaseJoint joint)
    else .ok (s.setFloatingBaseJointCoord joint (Coords6d.cast joint_motion))

/-- The body of the loop of `resetFromURDFModel` over the free joints. -/
def setActuatedJoint (floating_joint_names : urdf_model.JointID) (s : FloatingBaseSystem α)
    (jnt : String × Nat) : FloatingBaseSystem α :=
  let joint_name := jnt.1
  let joint_id := usub jnt.2 s.num_floating_joints_
  if s.num_floating_joints_ > 0 then
    if StdMap.find floating_joint_names joint_name = none then s.setJoint joint_id joint_name
    else s
  else if s.num_floating_joints_ = 0 then s.setJoint joint_id joint_name
  else s

/-- The derivation of the system type and of the system DoF in
`resetFromURDFModel` (the block that starts with
`num_system_joints_ = num_floating_joints_ + num_joints_`). -/
def deriveTypeOfSystem (s : FloatingBaseSystem α) : FloatingBaseSystem α :=
  let s := { s with num_system_joints_ := s.num_floating_joints_ + s.num_joints_ }
  if s.isFullyFloatingBase then
    let s := { s with num_system_joints_ := 6 + s.num_joints_ }
    if s.hasFloatingBaseConstraints then { s with type_of_system_ := .ConstrainedFloatingBase }
    else { s with type_of_system_ := .FloatingBase }
  else if s.num_floating_joints_ > 0 then { s with type_of_system_ := .VirtualFloatingBase }
  else { s with type_of_system_ := .FixedBase }

/-- The end of `resetFromURDFModel`: the number of end-effectors, the default
for the feet, and the sizes of the state vectors. -/
def finishReset (uninit : Nat → α) (s : FloatingBaseSystem α) : FloatingBaseSystem α :=
  let s := { s with num_end_effectors_ := StdMap.size s.end_effectors_ }
  let s :=
    if s.num_feet_ = 0 then
      { s with
        num_feet_ := s.num_end_effectors_
        foot_names_ := s.end_effector_names_
        feet_ := s.end_effectors_ }
    else s
  let s :=
    if s.getTypeOfDynamicSystem = .FloatingBase ∨
        s.getTypeOfDynamicSystem = .ConstrainedFloatingBase then
      { s with full_state_ := Eigen.resize uninit s.full_state_ (6 + s.getJointDoF) }
    else if s.getTypeOfDynamicSystem = .VirtualFloatingBase then
      let base_dof := s.getFloatingBaseDoF
      { s with full_state_ := Eigen.resize uninit s.full_state_ (base_dof + s.getJointDoF) }
    else
      { s with full_state_ := Eigen.resize uninit s.full_state_ s.getJointDoF }
  { s with joint_state_ := Eigen.resize uninit s.joint_state_ s.getJointDoF }

/-- The block of `resetFromURDFModel` under `if (num_floating_joints_ > 0)`. -/
def setFloatingSlots [Zero α] [DecidableEq α] (fuel : Nat) (model : urdf.ModelInterface α)
    (floating_joint_names : urdf_model.JointID) (s : FloatingBaseSystem α) :
    Except Failure (FloatingBaseSystem α) :=
  if s.num_floating_joints_ > 0 then
    match urdf_model.getFloatingBaseJointMotion fuel [] model with
    | .error e => .error e
    | .ok floating_joint_motions =>
      floating_joint_motions.foldlM (setFloatingSlot floating_joint_names) s
  else .ok s

/-- The call `if (!system_file.empty()) resetSystemDescription(system_file)`. -/
def resetOptionalDescription (s : FloatingBaseSystem α)
    (system_file : Option (SystemDescription α)) : Except Failure (FloatingBaseSystem α) :=
  match system_file with
  | some file => resetSystemDescription s file
  | none => .ok s

/-- `resetFromURDFModel(urdf_model, system_file)`. The description string is
represented by what the two external parsers make of it: `rbd` is the result of
`URDFReadFromString`, `model` the result of `urdf::parseURDF`. The
supplementary file is `none` for the empty file name. The counters are far
below `2 ^ 32`, so their sums are not reduced; the two differences are. The
states `s1`, `s2`, … are the object after each block of the source. -/
def resetFromURDFModel [Zero α] [DecidableEq α] (fuel : Nat) (uninit : Nat → α)
    (s : FloatingBaseSystem α) (rbd : RBDModel) (model : urdf.ModelInterface α)
    (system_file : Option (SystemDescription α)) : Except Failure (FloatingBaseSystem α) := do
  let s1 := { s with rbd_model_ := rbd }
  -- Getting information about the floating-base joints
  let floating_joint_names ← urdf_model.getJointNames fuel [] model .floating
  let s2 := { s1 with num_floating_joints_ := StdMap.size floating_joint_names }
  let s3 ← setFloatingSlots fuel model floating_joint_names s2
  -- Getting the floating-base body name
  let base_id := if s3.isFullyFloatingBase then 6 else s3.getFloatingBaseDoF
  let s4 := { s3 with floating_body_name_ := s3.rbd_model_.GetBodyName base_id }
  -- Getting the information about the actuated joints
  let free_joint_names ← urdf_model.getJointNames fuel [] model .free
  let joint_limits ← urdf_model.getJointLimits fuel s4.joint_limits_ model
  let s5 := { s4 with joint_limits_ := joint_limits }
  let num_free_joints := StdMap.size free_joint_names
  let s6 := { s5 with num_joints_ := usub num_free_joints s5.num_floating_joints_ }
  let s7 := free_joint_names.foldl (setActuatedJoint floating_joint_names) s6
  -- Getting the joint name list
  let s8 := { s7 with joint_names_ := s7.joint_names_ ++ StdMap.keys s7.joints_ }
  -- Getting the floating-base system information
  let s9 := deriveTypeOfSystem s8
  -- Getting the end-effectors information
  let end_effectors ← urdf_model.getEndEffectors fuel s9.end_effectors_ model
  let s10 := { s9 with end_effectors_ := end_effectors }
  -- Getting the end-effector name list
  let s11 :=
    { s10 with end_effector_names_ := s10.end_effector_names_ ++ StdMap.keys s10.end_effectors_ }
  -- Resetting the system description
  let s12 := { s11 with default_joint_pos_ := List.replicate s11.num_joints_ 0 }
  let s13 ← resetOptionalDescription s12 system_file
  -- Defining the number of end-effectors, the feet and the state vectors
  pure (finishReset uninit s13)

end FloatingBaseSystem

end model

/-! ## The floating-base inverse dynamics (`RigidBodyDynamics.cpp`)

The solver works on a `RigidBodyDynamics::Model` with the spatial algebra of
RBDL, an external library. The model is a record of the members the solver
reads and writes; the operations of the library are a parameter of the
embedding, a record `Math`, and every property of them that a statement needs
is a hypothesis of that statement. The scalars are an arbitrary ring `K`.

The vectors `Q`, `QDot`, `QDDot`, `Tau`, the list `f_ext` and the per-body
arrays of the model are functions of the index: every index that the loops form
is a body index below `mBodies.size()` or a coordinate of such a body, and the
range assertions of Eigen and of `std::vector` are outside this model. -/

namespace RigidBodyDynamics

/-- `Math::SpatialVector`: six coordinates, angular first. -/
abbrev SpatialVector (K : Type) := Fin 6 → K

/-- `Math::Vector3d`. -/
abbrev Vector3d (K : Type) := Fin 3 → K

/-- What `jcalc(model, i, Q, QDot)` of RBDL writes for joint `i`: the
transform from the parent, the joint velocity, the velocity-product
acceleration and the motion subspace. -/
structure JointCalc (K ST : Type) where
  X_lambda : ST
  v_J : SpatialVector K
  c_J : SpatialVector K
  S : SpatialVector K
  multdof3_S : Fin 6 → Fin 3 → K

/-- The operations of RBDL that the solver calls, on the spatial transforms
`ST` and the spatial rigid-body inertias `RI`. -/
structure Math (K ST RI : Type) where
  /-- `X * Y` on spatial transforms. -/
  compose : ST → ST → ST
  /-- `X.apply(v)` on a spatial vector. -/
  apply : ST → SpatialVector K → SpatialVector K
  /-- `X.apply(I)` on a spatial inertia. -/
  applyInertia : ST → RI → RI
  /-- `X.applyTranspose(f)`. -/
  applyTranspose : ST → SpatialVector K → SpatialVector K
  /-- `X.toMatrixAdjoint() * f`. -/
  adjointMul : ST → SpatialVector K → SpatialVector K
  /-- `I * v`. -/
  inertiaMul : RI → SpatialVector K → SpatialVector K
  /-- `I + J` on spatial inertias. -/
  inertiaAdd : RI → RI → RI
  /-- `I.toMatrix().inverse() * f`. -/
  inverseMul : RI → SpatialVector K → SpatialVector K
  /-- `crossm(v, w)`. -/
  crossm : SpatialVector K → SpatialVector K → SpatialVector K
  /-- `crossf(v, f)`. -/
  crossf : SpatialVector K → SpatialVector K → SpatialVector K
  /-- `jcalc` for joint `i` at `Q`, `QDot`. -/
  jcalc : Nat → (Nat → K) → (Nat → K) → JointCalc K ST

/-- The members of `RigidBodyDynamics::Model` that the solver reads and
writes. -/
structure Model (K ST RI : Type) where
  /-- `mBodies.size()`. -/
  mBodies_size : Nat
  /-- `mBodies[i].mIsVirtual`. -/
  mIsVirtual : Nat → Bool
  /-- `mu[i]`: the children of body `i`. -/
  mu : Nat → List Nat
  lambda : Nat → Nat
  /-- `mJoints[i].q_index`. -/
  q_index : Nat → Nat
  /-- `mJoints[i].mDoFCount`. -/
  mDoFCount : Nat → Nat
  gravity : Vector3d K
  X_lambda : Nat → ST
  X_base : Nat → ST
  v : Nat → SpatialVector K
  a : Nat → SpatialVector K
  c : Nat → SpatialVector K
  c_J : Nat → SpatialVector K
  v_J : Nat → SpatialVector K
  S : Nat → SpatialVector K
  multdof3_S : Nat → Fin 6 → Fin 3 → K
  I : Nat → RI
  Ic : Nat → RI
  f : Nat → SpatialVector K

end RigidBodyDynamics

namespace rbd

open RigidBodyDynamics

variable {K ST RI : Type}

/-- The constant `SpatialVectorZero`. -/
def SpatialVectorZero [Zero K] : SpatialVector K := fun _ => 0

/-- `v.segment<3>(start)` of a spatial vector, for `start` 0 or 3. -/
def segment3 (v : SpatialVector K) (start : Fin 4) : Vector3d K :=
  fun j => v ⟨start.val + j.val, by omega⟩

/-- `x << top, bottom` on a spatial vector and two 3-vectors. -/
def commaInit33 (top bottom : Vector3d K) : SpatialVector K :=
  fun i => if h : i.val < 3 then top ⟨i.val, h⟩ else bottom ⟨i.val - 3, by omega⟩

/-- `a.dot(b)` on spatial vectors. -/
def dot [Ring K] (a b : SpatialVector K) : K :=
  (List.finRange 6).foldl (fun acc i => acc + a i * b i) 0

/-- `S * u` for the 6×3 motion subspace of a joint with three degrees of
freedom. -/
def multdof3Mul [Ring K] (S : Fin 6 → Fin 3 → K) (u : Vector3d K) : SpatialVector K :=
  fun i => S i 0 * u 0 + S i 1 * u 1 + S i 2 * u 2

/-- `S.transpose() * x`. -/
def multdof3TransposeMul [Ring K] (S : Fin 6 → Fin 3 → K) (x : SpatialVector K) : Vector3d K :=
  fun j => (List.finRange 6).foldl (fun acc i => acc + S i j * x i) 0

/-- The call `jcalc(model, i, Q, QDot)`. -/
def jcalc (math : Math K ST RI) (model : Model K ST RI) (i : Nat) (Q QDot : Nat → K) :
    Model K ST RI :=
  let joint := math.jcalc i Q QDot
  { model with
    X_lambda := Function.update model.X_lambda i joint.X_lambda
    v_J := Function.update model.v_J i joint.v_J
    c_J := Function.update model.c_J i joint.c_J
    S := Function.update model.S i joint.S
    multdof3_S := Function.update model.multdof3_S i joint.multdof3_S }

/-- The while loop that looks for the floating base: it follows the first
child of each virtual body from body `i` on, and sets the flag when it arrives
at index 6. -/
def isFloatingBaseLoop (model : Model K ST RI) : Nat → Nat → Bool → Except Failure Bool
  | fuel, i, is_floating_base =>
    if model.mIsVirtual i then
      match fuel with
      | 0 => .error .outOfFuel
      | fuel + 1 =>
        match (model.mu i)[0]? with
        | none => .error .badDeref
        | some child =>
          isFloatingBaseLoop model fuel child (if child = 6 then true else is_floating_base)
    else .ok is_floating_base

/-- The body of the first loop of the first pass, over the bodies of the
floating base. -/
def basePassStep (math : Math K ST RI) (Q QDot : Nat → K) (model : Model K ST RI) (i : Nat) :
    Model K ST RI :=
  let lambda := model.lambda i
  let m1 := jcalc math model i Q QDot
  { m1 with X_base := Function.update m1.X_base i (math.compose (m1.X_lambda i) (m1.X_base lambda)) }

/-- The part of the body of the second loop of the first pass that the two
variants share: the velocity, the accelerations, the inertia and the force of
body `i`, after `jcalc` and the update of `X_base[i]`. -/
def forwardKinetics [Ring K] [DecidableEq K] (math : Math K ST RI) (QDDot : Nat → K)
    (f_ext : Option (Nat → SpatialVector K)) (m2 : Model K ST RI) (i : Nat) : Model K ST RI :=
  let q_index := m2.q_index i
  let lambda := m2.lambda i
  let m3 := { m2 with v := Function.update m2.v i (math.apply (m2.X_lambda i) (m2.v lambda) + m2.v_J i) }
  let m4 := { m3 with c := Function.update m3.c i (m3.c_J i + math.crossm (m3.v i) (m3.v_J i)) }
  let m5 :=
    if m4.mDoFCount i = 3 then
      { m4 with
        a := Function.update m4.a i
          (math.apply (m4.X_lambda i) (m4.a lambda) + m4.c i +
            multdof3Mul (m4.multdof3_S i)
              (fun j => QDDot (q_index + j.val))) }
    else
      { m4 with
        a := Function.update m4.a i
          (math.apply (m4.X_lambda i) (m4.a lambda) + m4.c i +
            fun k => m4.S i k * QDDot q_index) }
  let m6 := { m5 with Ic := Function.update m5.Ic i (m5.I i) }
  let m7 :=
    if !m6.mIsVirtual i then
      { m6 with
        f := Function.update m6.f i
          (math.inertiaMul (m6.I i) (m6.a i) +
            math.crossf (m6.v i) (math.inertiaMul (m6.I i) (m6.v i))) }
    else { m6 with f := Function.update m6.f i (fun _ => 0) }
  match f_ext with
  | some forces =>
    if forces i ≠ SpatialVectorZero then
      { m7 with f := Function.update m7.f i (m7.f i - math.adjointMul (m7.X_base i) (forces i)) }
    else m7
  | none => m7

/-- The body of the second loop of the first pass of the fully-floating
variant. -/
def firstPassStep [Ring K] [DecidableEq K] (math : Math K ST RI) (Q QDot QDDot : Nat → K)
    (f_ext : Option (Nat → SpatialVector K)) (model : Model K ST RI) (i : Nat) :
    Model K ST RI :=
  let lambda := model.lambda i
  let m1 := jcalc math model i Q QDot
  let m2 :=
    { m1 with X_base := Function.update m1.X_base i (math.compose (m1.X_lambda i) (m1.X_base lambda)) }
  forwardKinetics math QDDot f_ext m2 i

/-- The body of the second loop of the first pass of the variant with an
explicit `base_dof`. -/
def firstPassStepBaseDof [Ring K] [DecidableEq K] (math : Math K ST RI) (base_dof : Nat)
    (Q QDot QDDot : Nat → K) (f_ext : Option (Nat → SpatialVector K))
    (model : Model K ST RI) (i : Nat) : Model K ST RI :=
  let lambda := model.lambda i
  let m1 := jcalc math model i Q QDot
  let m2 :=
    if lambda ≠ base_dof then
      { m1 with
        X_base := Function.update m1.X_base i (math.compose (m1.X_lambda i) (m1.X_base lambda)) }
    else { m1 with X_base := Function.update m1.X_base i (m1.X_lambda i) }
  forwardKinetics math QDDot f_ext m2 i

/-- The start of the second pass: the composite inertia and the force of the
base body `base`. -/
def secondPassBase [Ring K] [DecidableEq K] (math : Math K ST RI)
    (f_ext : Option (Nat → SpatialVector K)) (model : Model K ST RI) (base : Nat) :
    Model K ST RI :=
  let m1 := { model with Ic := Function.update model.Ic base (model.I base) }
  let m2 :=
    { m1 with
      f := Function.update m1.f base
        (math.inertiaMul (m1.I base) (m1.a base) +
          math.crossf (m1.v base) (math.inertiaMul (m1.I base) (m1.v base))) }
  match f_ext with
  | some forces =>
    if forces base ≠ SpatialVectorZero then
      { m2 with f := Function.update m2.f base (m2.f base - forces base) }
    else m2
  | none => m2

/-- The body of the loop of the second pass. -/
def secondPassStep [Ring K] (math : Math K ST RI) (model : Model K ST RI) (i : Nat) :
    Model K ST RI :=
  let lambda := model.lambda i
  let m1 :=
    { model with
      Ic := Function.update model.Ic lambda
        (math.inertiaAdd (model.Ic lambda) (math.applyInertia (model.X_lambda i) (model.Ic i))) }
  { m1 with
    f := Function.update m1.f lambda (m1.f lambda + math.applyTranspose (m1.X_lambda i) (m1.f i)) }

/-- The body of the loop of the third pass, on the model and `Tau`. -/
def thirdPassStep [Ring K] (math : Math K ST RI) (state : Model K ST RI × (Nat → K)) (i : Nat) :
    Model K ST RI × (Nat → K) :=
  let model := state.1
  let Tau := state.2
  let lambda := model.lambda i
  let m1 := { model with a := Function.update model.a i (math.apply (model.X_lambda i) (model.a lambda)) }
  if m1.mDoFCount i = 3 then
    let block := multdof3TransposeMul (m1.multdof3_S i)
      (math.inertiaMul (m1.Ic i) (m1.a i) + m1.f i)
    (m1, Function.update (Function.update (Function.update Tau (m1.q_index i) (block 0))
      (m1.q_index i + 1) (block 1)) (m1.q_index i + 2) (block 2))
  else
    (m1, Function.update Tau (m1.q_index i)
      (dot (m1.S i) (math.inertiaMul (m1.Ic i) (m1.a i) + m1.f i)))

/-- The first pass of the fully-floating variant. -/
def firstPass [Ring K] [DecidableEq K] (math : Math K ST RI) (model : Model K ST RI)
    (Q QDot QDDot : Nat → K) (f_ext : Option (Nat → SpatialVector K)) : Model K ST RI :=
  let m1 := (List.range' 1 6).foldl (basePassStep math Q QDot) model
  (List.range' 7 (m1.mBodies_size - 7)).foldl (firstPassStep math Q QDot QDDot f_ext) m1

/-- The first pass of the variant with an explicit `base_dof`. -/
def firstPassBaseDof [Ring K] [DecidableEq K] (math : Math K ST RI) (model : Model K ST RI)
    (base_dof : Nat) (Q QDot QDDot : Nat → K) (f_ext : Option (Nat → SpatialVector K)) :
    Model K ST RI :=
  let m0 := (List.range' 1 base_dof).foldl (basePassStep math Q QDot) model
  let m1 :=
    { m0 with
      a := Function.update m0.a base_dof
        (commaInit33 (fun _ => 0) (fun j => -m0.gravity j)) }
  (List.range' (base_dof + 1) (m1.mBodies_size - (base_dof + 1))).foldl
    (firstPassStepBaseDof math base_dof Q QDot QDDot f_ext) m1

/-- The second pass, which the two variants share up to the index `base` of the
base body. -/
def secondPass [Ring K] [DecidableEq K] (math : Math K ST RI)
    (f_ext : Option (Nat → SpatialVector K)) (model : Model K ST RI) (base : Nat) :
    Model K ST RI :=
  let m3 := secondPassBase math f_ext model base
  (List.range' (base + 1) (m3.mBodies_size - (base + 1))).reverse.foldl (secondPassStep math) m3

/-- The first statement of the third pass: the acceleration of the base body.
The source negates the inverse matrix before the product; the negation of the
product is the same vector. -/
def solveBase [Ring K] (math : Math K ST RI) (model : Model K ST RI) (base : Nat) :
    Model K ST RI :=
  { model with a := Function.update model.a base (-(math.inverseMul (model.Ic base) (model.f base))) }

/-- The loop of the third pass. -/
def thirdPass [Ring K] (math : Math K ST RI) (model : Model K ST RI) (base : Nat)
    (Tau : Nat → K) : Model K ST RI × (Nat → K) :=
  (List.range' (base + 1) (model.mBodies_size - (base + 1))).foldl (thirdPassStep math)
    (model, Tau)

/-- The fully-floating variant of `FloatingBaseInverseDynamics`: the model, the
base acceleration and the joint torques after the call. The lines that log or
print are left out. -/
def FloatingBaseInverseDynamics [Ring K] [DecidableEq K] (math : Math K ST RI) (fuel : Nat)
    (model : Model K ST RI) (Q QDot QDDot : Nat → K) (base_acc : SpatialVector K)
    (Tau : Nat → K) (f_ext : Option (Nat → SpatialVector K)) :
    Except Failure (Model K ST RI × SpatialVector K × (Nat → K)) :=
  match isFloatingBaseLoop model fuel 1 false with
  | .error e => .error e
  | .ok false => .ok (model, base_acc, Tau)
  | .ok true =>
    let m2 := firstPass math model Q QDot QDDot f_ext
    let m4 := secondPass math f_ext m2 6
    let base_acc1 := commaInit33 (segment3 (m4.a 6) 3 + m4.gravity) (segment3 (m4.a 6) 0)
    let m5 := solveBase math m4 6
    let r := thirdPass math m5 6 Tau
    .ok (r.1, base_acc1, r.2)

/-- The variant of `FloatingBaseInverseDynamics` with an explicit `base_dof`:
the model, the base acceleration and the joint torques after the call. The
lines that log or print are left out. -/
def FloatingBaseInverseDynamicsBaseDof [Ring K] [DecidableEq K] (math : Math K ST RI)
    (model : Model K ST RI) (base_dof : Nat) (Q QDot QDDot : Nat → K)
    (_base_acc : SpatialVector K) (Tau : Nat → K) (f_ext : Option (Nat → SpatialVector K)) :
    Model K ST RI × SpatialVector K × (Nat → K) :=
  let m2 := firstPassBaseDof math model base_dof Q QDot QDDot f_ext
  let m4 := secondPass math f_ext m2 base_dof
  let m5 := solveBase math m4 base_dof
  let base_acc1 := commaInit33 (segment3 (m5.a base_dof) 0) (segment3 (m5.a base_dof) 3)
  let r := thirdPass math m5 base_dof Tau
  (r.1, base_acc1, r.2)

end rbd

/-! ## The cart-table model (`LinearControlledCartTableModel.cpp`)

The scalars are an arbitrary field `K` with a decidable order. The functions
`sqrt` and `exp` of the C library are a parameter of the embedding. -/

namespace simulation

/-- The functions of the C library that the model calls. -/
structure Libm (K : Type) where
  sqrt : K → K
  exp : K → K

/-- Modelled from the spec: the record `CartTableProperties` is declared in a
header that is not among the sources; the source file reads its member
`gravity`. -/
structure CartTableProperties (K : Type) where
  gravity : K

/-- Modelled from the spec: the record `ReducedBodyState` is declared in a
header that is not among the sources; the source file reads and writes the
time, the position, velocity and acceleration of the centre of mass, and the
centre of pressure. -/
structure ReducedBodyState (K : Type) where
  time : K
  com_pos : Fin 3 → K
  com_vel : Fin 3 → K
  com_acc : Fin 3 → K
  cop : Fin 3 → K

/-- Modelled from the spec: the record `CartTableControlParams` is declared in
a header that is not among the sources; the source file reads the duration and
the shift of the centre of pressure. -/
structure CartTableControlParams (K : Type) where
  duration : K
  cop_shift : Fin 3 → K

/-- The members of a `LinearControlledCartTableModel` object that the three
operations below read or write. -/
structure LinearControlledCartTableModel (K : Type) where
  properties_ : CartTableProperties K
  init_model_ : Bool
  init_response_ : Bool
  initial_state_ : ReducedBodyState K
  params_ : CartTableControlParams K
  height_ : K
  omega_ : K
  beta_1_ : Fin 2 → K
  beta_2_ : Fin 2 → K
  cop_T_ : Fin 2 → K

namespace LinearControlledCartTableModel

variable {K : Type}

/-- `v.head<2>()` as an rvalue. -/
def head2 (v : Fin 3 → K) : Fin 2 → K := fun i => v ⟨i.val, by omega⟩

/-- `v.head<2>() = h`. -/
def setHead2 (v : Fin 3 → K) (h : Fin 2 → K) : Fin 3 → K :=
  fun i => if hi : i.val < 2 then h ⟨i.val, hi⟩ else v i

/-- The constructor: the two flags are false and the height and the frequency
are zero; the other members hold what their default construction leaves, the
values of `uninit`. -/
def new [Zero K] (uninit : LinearControlledCartTableModel K) : LinearControlledCartTableModel K :=
  { uninit with init_model_ := false, init_response_ := false, height_ := 0, omega_ := 0 }

/-- `setModelProperties`. -/
def setModelProperties (m : LinearControlledCartTableModel K) (model : CartTableProperties K) :
    LinearControlledCartTableModel K :=
  { m with properties_ := model, init_model_ := true }

/-- `initResponse(state, params)`: the object after the call. The argument
`state` is a reference to a constant. -/
def initResponse [Field K] (libm : Libm K) (m : LinearControlledCartTableModel K)
    (state : ReducedBodyState K) (params : CartTableControlParams K) :
    LinearControlledCartTableModel K :=
  if !m.init_model_ then m
  else
    let m1 := { m with initial_state_ := state }
    let m2 := { m1 with params_ := params }
    let m3 := { m2 with height_ := m2.initial_state_.com_pos 2 - m2.initial_state_.cop 2 }
    let m4 := { m3 with omega_ := libm.sqrt (m3.properties_.gravity / m3.height_) }
    let alpha := 2 * m4.omega_ * m4.params_.duration
    let hor_proj : Fin 2 → K := head2 (m4.initial_state_.com_pos - m4.initial_state_.cop)
    let hor_disp : Fin 2 → K := fun i => head2 m4.initial_state_.com_vel i * m4.params_.duration
    let m5 :=
      { m4 with
        beta_1_ := fun i => hor_proj i / 2 + (hor_disp i - head2 m4.params_.cop_shift i) / alpha }
    let m6 :=
      { m5 with
        beta_2_ := fun i => hor_proj i / 2 - (hor_disp i - head2 m5.params_.cop_shift i) / alpha }
    let m7 := { m6 with cop_T_ := fun i => head2 m6.params_.cop_shift i / m6.params_.duration }
    { m7 with init_response_ := true }

/-- `computeResponse(state, time)`: the caller's state after the call. The
object is not written. -/
def computeResponse [Field K] [LT K] [DecidableRel (fun a b : K => a < b)] (libm : Libm K)
    (m : LinearControlledCartTableModel K) (state : ReducedBodyState K) (time : K) :
    ReducedBodyState K :=
  if !m.init_response_ then state
  else if time < m.initial_state_.time then state
  else
    let dt := time - m.initial_state_.time
    let s1 := { state with time := time }
    let beta_exp_1 : Fin 2 → K := fun i => m.beta_1_ i * libm.exp (m.omega_ * dt)
    let beta_exp_2 : Fin 2 → K := fun i => m.beta_2_ i * libm.exp (-m.omega_ * dt)
    let s2 :=
      { s1 with
        com_pos := setHead2 s1.com_pos
          (fun i => beta_exp_1 i + beta_exp_2 i + m.cop_T_ i * dt + head2 m.initial_state_.cop i) }
    let s3 :=
      { s2 with
        com_vel := setHead2 s2.com_vel
          (fun i => m.omega_ * beta_exp_1 i - m.omega_ * beta_exp_2 i + m.cop_T_ i) }
    let s4 :=
      { s3 with
        com_acc := setHead2 s3.com_acc
          (fun i => m.omega_ * m.omega_ * beta_exp_1 i + m.omega_ * m.omega_ * beta_exp_2 i) }
    let s5 := { s4 with com_pos := Function.update s4.com_pos 2 (m.initial_state_.com_pos 2) }
    let s6 := { s5 with com_vel := Function.update s5.com_vel 2 0 }
    let s7 := { s6 with com_acc := Function.update s6.com_acc 2 0 }
    { s7 with
      cop := fun i => m.initial_state_.cop i + (dt / m.params_.duration) * m.params_.cop_shift i }

end LinearControlledCartTableModel

end simulation

/-! ## Vocabulary of the statements -/

namespace model

namespace FloatingBaseSystem

open rbd

variable {α : Type}

/-- The number of base slots that are active. -/
def numActiveSlots (s : FloatingBaseSystem α) : Nat :=
  ([s.floating_ax_, s.floating_ay_, s.floating_az_,
    s.floating_lx_, s.floating_ly_, s.floating_lz_].filter (fun slot => slot.active)).length

/-- Every active slot carries an id below the number of floating-base joints. -/
def ActiveIdsInRange (s : FloatingBaseSystem α) : Prop :=
  ∀ c : Coords6d, (s.getFloatingBaseJoint c).active = true →
    (s.getFloatingBaseJoint c).id < s.getFloatingBaseDoF

/-- No two active slots carry the same id. -/
def ActiveIdsDistinct (s : FloatingBaseSystem α) : Prop :=
  ∀ c d : Coords6d, (s.getFloatingBaseJoint c).active = true →
    (s.getFloatingBaseJoint d).active = true →
    (s.getFloatingBaseJoint c).id = (s.getFloatingBaseJoint d).id → c = d

instance (s : FloatingBaseSystem α) : Decidable (ActiveIdsInRange s) := by
  unfold ActiveIdsInRange
  infer_instance

instance (s : FloatingBaseSystem α) : Decidable (ActiveIdsDistinct s) := by
  unfold ActiveIdsDistinct
  infer_instance

/-- The number of entries that precede the joints in the generalized vector. -/
def baseBlockSize (s : FloatingBaseSystem α) : Nat :=
  match s.getTypeOfDynamicSystem with
  | .FloatingBase => 6
  | .ConstrainedFloatingBase => 6
  | .VirtualFloatingBase => s.getFloatingBaseDoF
  | .FixedBase => 0

/-- The state buffer `full_state_` has the size that the comma initialiser of
`toGeneralizedJointState` fills: `6 + numJoints` for a floating base,
`getFloatingBaseDoF() + numJoints` for a virtual one. These are the sizes that
`resetFromURDFModel` gives it. (For a fixed base the buffer is assigned, not
filled, so any size will do.) -/
def BufferSized (s : FloatingBaseSystem α) : Prop :=
  ((s.getTypeOfDynamicSystem = .FloatingBase ∨
      s.getTypeOfDynamicSystem = .ConstrainedFloatingBase) →
    s.full_state_.length = 6 + s.getJointDoF) ∧
  (s.getTypeOfDynamicSystem = .VirtualFloatingBase →
    s.full_state_.length = s.getFloatingBaseDoF + s.getJointDoF)

instance (s : FloatingBaseSystem α) : Decidable (BufferSized s) := by
  unfold BufferSized
  infer_instance

/-- The system type that the six slots and the number of floating-base joints
determine: all six active gives ConstrainedFloatingBase if any slot is
constrained and FloatingBase otherwise; otherwise at least one floating-base
joint gives VirtualFloatingBase, and none gives FixedBase. -/
def typeOfSlots (active constrained : Coords6d → Bool) (num_floating_joints : Nat) :
    TypeOfSystem :=
  if ∀ c, active c = true then
    if ∃ c, constrained c = true then .ConstrainedFloatingBase else .FloatingBase
  else if 0 < num_floating_joints then .VirtualFloatingBase
  else .FixedBase

/-- The system type that the claim reads off the six slots alone: all six
active gives ConstrainedFloatingBase if any slot is constrained and
FloatingBase otherwise; one to five active gives VirtualFloatingBase; none
active gives FixedBase. -/
def typeOfSlotsAlone (active constrained : Coords6d → Bool) : TypeOfSystem :=
  if ∀ c, active c = true then
    if ∃ c, constrained c = true then .ConstrainedFloatingBase else .FloatingBase
  else if ∃ c, active c = true then .VirtualFloatingBase
  else .FixedBase

/-- The stored type, the number of floating-base joints and the six slots. -/
def typeData (s : FloatingBaseSystem α) :
    TypeOfSystem × Nat × FloatingBaseJoint × FloatingBaseJoint × FloatingBaseJoint ×
      FloatingBaseJoint × FloatingBaseJoint × FloatingBaseJoint :=
  (s.type_of_system_, s.num_floating_joints_, s.floating_ax_, s.floating_ay_, s.floating_az_,
    s.floating_lx_, s.floating_ly_, s.floating_lz_)

/-- The tables and counters of the end-effectors and of the feet. -/
def feetData (s : FloatingBaseSystem α) :
    urdf_model.LinkID × urdf_model.LinkID × List String × List String × Nat × Nat :=
  (s.end_effectors_, s.feet_, s.end_effector_names_, s.foot_names_, s.num_end_effectors_,
    s.num_feet_)

/-- The active flags of the six slots. -/
def activeFlags (s : FloatingBaseSystem α) : Coords6d → Bool :=
  fun c => (s.getFloatingBaseJoint c).active

/-- The constrained flags of the six slots. -/
def constrainedFlags (s : FloatingBaseSystem α) : Coords6d → Bool :=
  fun c => (s.getFloatingBaseJoint c).constrained

/-- The object in `resetFromURDFModel` once the joints are set and the system
type is derived, given the object `s3` after the floating-base block and the
three tables read from the description. -/
def stateAfterJoints (s3 : FloatingBaseSystem α) (floating_joint_names free_joint_names :
    urdf_model.JointID) (joint_limits : urdf_model.JointLimits α) : FloatingBaseSystem α :=
  let base_id := if s3.isFullyFloatingBase then 6 else s3.getFloatingBaseDoF
  let s4 := { s3 with floating_body_name_ := s3.rbd_model_.GetBodyName base_id }
  let s5 := { s4 with joint_limits_ := joint_limits }
  let num_free_joints := StdMap.size free_joint_names
  let s6 := { s5 with num_joints_ := usub num_free_joints s5.num_floating_joints_ }
  let s7 := free_joint_names.foldl (setActuatedJoint floating_joint_names) s6
  let s8 := { s7 with joint_names_ := s7.joint_names_ ++ StdMap.keys s7.joints_ }
  deriveTypeOfSystem s8

/-- The object in `resetFromURDFModel` right before the supplementary
description is read, given the object `s9` after the type derivation and the
end-effector table. -/
def stateBeforeDescription [Zero α] (s9 : FloatingBaseSystem α)
    (end_effectors : urdf_model.LinkID) : FloatingBaseSystem α :=
  let s10 := { s9 with end_effectors_ := end_effectors }
  let s11 :=
    { s10 with end_effector_names_ := s10.end_effector_names_ ++ StdMap.keys s10.end_effectors_ }
  { s11 with default_joint_pos_ := List.replicate s11.num_joints_ 0 }

/-- The six guarded writes of `toGeneralizedJointState`, as a list of slot and
value in the order of the source. -/
def slotWrites (s : FloatingBaseSystem α) (b : Vector6d α) : List (FloatingBaseJoint × α) :=
  [(s.floating_ax_, b .AX), (s.floating_ay_, b .AY), (s.floating_az_, b .AZ),
   (s.floating_lx_, b .LX), (s.floating_ly_, b .LY), (s.floating_lz_, b .LZ)]

/-- A sequence of guarded writes. -/
def writeSlots (ws : List (FloatingBaseJoint × α)) (v : List α) : Except Failure (List α) :=
  ws.foldlM (fun v w => writeSlot w.1 w.2 v) v

/-- The base body of `getBranch`, which is also the base offset that
`setBranchState` and `getBranchState` subtract: 6 for a full floating base, the
number of floating-base joints otherwise. -/
def baseBody (s : FloatingBaseSystem α) : Nat :=
  if s.isFullyFloatingBase then 6 else s.getFloatingBaseDoF

/-- The joints on the parent chain of a body below the base: `PathCoords m base b qs`
says that walking up from body `b` arrives at the body `base`, and that `qs`
lists the generalized-coordinate indices of the joints on the way, from the
joint whose parent is the base down to the joint of `b`. -/
inductive PathCoords (m : RBDModel) (base_id : Nat) : Nat → List Nat → Prop
  | child {b q : Nat} : b ≠ base_id → m.lambda[b]? = some base_id → m.q_index[b]? = some q →
      PathCoords m base_id b [q]
  | step {b parent q : Nat} {qs : List Nat} : b ≠ base_id → m.lambda[b]? = some parent →
      m.q_index[b]? = some q → PathCoords m base_id parent qs →
      PathCoords m base_id b (qs ++ [q])

/-- The parent chain of the body reaches the root, body 0 that is its own
parent, without passing through the base body. -/
inductive ReachesRoot (m : RBDModel) (base_id : Nat) : Nat → Prop
  | root {q : Nat} : 0 ≠ base_id → m.lambda[0]? = some 0 → m.q_index[0]? = some q →
      ReachesRoot m base_id 0
  | step {b parent q : Nat} : b ≠ base_id → m.lambda[b]? = some parent →
      m.q_index[b]? = some q → ReachesRoot m base_id parent → ReachesRoot m base_id b

/-- The body at which the walk of `getBranch` starts for a body name: the body
itself when it is movable, its movable parent when it is fixed. -/
def WalkStart (s : FloatingBaseSystem α) (body_name : String) (b : Nat) : Prop :=
  (s.rbd_model_.IsFixedBodyId (s.rbd_model_.GetBodyId body_name) = false ∧
      b = s.rbd_model_.GetBodyId body_name) ∨
    (s.rbd_model_.IsFixedBodyId (s.rbd_model_.GetBodyId body_name) = true ∧
      s.rbd_model_.mMovableParent[s.rbd_model_.GetBodyId body_name -
        s.rbd_model_.fixed_body_discriminator]? = some b)

/-- The index in the joint-only state vector of the generalized coordinate
`q`: the generalized index minus the base offset. -/
def jointOnlyIndex (s : FloatingBaseSystem α) (q : Nat) : Nat := q - baseBody s

/-- The keys of the table increase strictly, as in every `std::map`. -/
def SortedKeys {β : Type} (m : StdMap β) : Prop := List.Pairwise (· < ·) (StdMap.keys m)
/-- Every link is the child link of at most one joint of the description. -/
def OneParentJoint (model : urdf.ModelInterface α) : Prop :=
  ∀ a b ja jb, StdMap.find model.joints_ a = some ja → StdMap.find model.joints_ b = some jb →
    ja.child_link_name = jb.child_link_name → a = b

/-- No two names of the table carry the same id. -/
def DistinctIds (m : StdMap Nat) : Prop :=
  ∀ a b id, StdMap.find m a = some id → StdMap.find m b = some id → a = b

/-- The joints that `getJointNames` lists for the class `free`: floating,
prismatic, revolute and continuous joints. -/
def isFreeJoint (joint : urdf.Joint α) : Bool :=
  decide (joint.type = .FLOATING ∨ joint.type = .PRISMATIC ∨ joint.type = .REVOLUTE ∨
    joint.type = .CONTINUOUS)

/-- The joints that `getJointNames` lists for the class `floating`: floating
joints, and prismatic, revolute and continuous joints whose effort limit is
zero. -/
def isFloatingBaseJoint [Zero α] [DecidableEq α] (joint : urdf.Joint α) : Bool :=
  decide (joint.type = .FLOATING) ||
    (decide (joint.type = .PRISMATIC ∨ joint.type = .REVOLUTE ∨ joint.type = .CONTINUOUS) &&
      match joint.limits with
      | some limits => decide (limits.effort = 0)
      | none => false)

/-- The joints in the order in which the loop of `getJointNames` visits them:
the same walk over the link stack and the branch-index stack, with the joints
collected instead of classified. -/
def visitedJointsLoop (link_map : StdMap (urdf.Link α)) :
    Nat → List (Option (urdf.Link α)) → List Nat → Except Failure (List (urdf.Joint α))
  | _, [], _ => .ok []
  | 0, _ :: _, _ => .error .outOfFuel
  | _ + 1, _ :: _, [] => .error .badDeref
  | _ + 1, none :: _, _ :: _ => .error .badDeref
  | fuel + 1, some current_link :: link_rest, branch_idx :: branch_rest =>
    match current_link.child_joints[branch_idx]? with
    | some current_joint =>
      match visitedJointsLoop link_map fuel
          (StdMap.find link_map current_joint.child_link_name :: some current_link :: link_rest)
          (0 :: (branch_idx + 1) :: branch_rest) with
      | .ok joints => .ok (current_joint :: joints)
      | .error e => .error e
    | none => visitedJointsLoop link_map fuel link_rest branch_rest

/-- The joints of the description in the depth-first order of `getJointNames`. -/
def visitedJoints (fuel : Nat) (model : urdf.ModelInterface α) :
    Except Failure (List (urdf.Joint α)) :=
  match model.root_link_ with
  | none => .error .badDeref
  | some root_name =>
    match StdMap.find model.links_ root_name with
    | none => .error .badDeref
    | some root =>
      visitedJointsLoop model.links_ fuel [some root]
        (if root.child_joints.length > 0 then [0] else [])

/-- The floating-base joints are the first of the free joints in the
depth-first enumeration. -/
def FloatingJointsFirst [Zero α] [DecidableEq α] (joints : List (urdf.Joint α)) : Prop :=
  ((joints.filter isFloatingBaseJoint).map (fun joint => joint.name)) <+:
    ((joints.filter isFreeJoint).map (fun joint => joint.name))

/-- The table that numbers the names of a list from 0 in list order. -/
def Numbers (m : StdMap Nat) (names : List String) : Prop :=
  SortedKeys m ∧ StdMap.size m = names.length ∧
    ∀ name v, StdMap.find m name = some v ↔ names[v]? = some name
/-- The tables and counters of the actuated joints. -/
def jointData (s : FloatingBaseSystem α) :
    urdf_model.JointID × Nat × List String × urdf_model.JointLimits α :=
  (s.joints_, s.num_joints_, s.joint_names_, s.joint_limits_)

/-- The walk of `getEndEffectors` from a link toward the root meets, in its
`n`-th step and before it arrives at the link named `root_link_name`, a link
whose parent joint is prismatic or revolute. -/
inductive DrivenAbove (model : urdf.ModelInterface α) (root_link_name : String) :
    Nat → Option (urdf.Link α) → Prop
  | here {link : urdf.Link α} {parent_joint_name : String} {parent_joint : urdf.Joint α} :
      link.name ≠ root_link_name → link.parent_joint = some parent_joint_name →
      StdMap.find model.joints_ parent_joint_name = some parent_joint →
      (parent_joint.type = .PRISMATIC ∨ parent_joint.type = .REVOLUTE) →
      DrivenAbove model root_link_name 1 (some link)
  | up {n : Nat} {link : urdf.Link α} {parent_joint_name : String}
      {parent_joint : urdf.Joint α} :
      link.name ≠ root_link_name → link.parent_joint = some parent_joint_name →
      StdMap.find model.joints_ parent_joint_name = some parent_joint →
      ¬(parent_joint.type = .PRISMATIC ∨ parent_joint.type = .REVOLUTE) →
      DrivenAbove model root_link_name n (link.parent_link.bind (StdMap.find model.links_)) →
      DrivenAbove model root_link_name (n + 1) (some link)

/-- The walk of `getEndEffectors` from a link toward the root arrives at the
link named `root_link_name` after `n` steps, none of which meets a prismatic or
revolute joint. -/
inductive StopsBelow (model : urdf.ModelInterface α) (root_link_name : String) :
    Nat → Option (urdf.Link α) → Prop
  | arrived {link : urdf.Link α} : link.name = root_link_name →
      StopsBelow model root_link_name 0 (some link)
  | up {n : Nat} {link : urdf.Link α} {parent_joint_name : String}
      {parent_joint : urdf.Joint α} :
      link.name ≠ root_link_name → link.parent_joint = some parent_joint_name →
      StdMap.find model.joints_ parent_joint_name = some parent_joint →
      ¬(parent_joint.type = .PRISMATIC ∨ parent_joint.type = .REVOLUTE) →
      StopsBelow model root_link_name n (link.parent_link.bind (StdMap.find model.links_)) →
      StopsBelow model root_link_name (n + 1) (some link)

/-- The joint is one of the ancestor joints of the link, up to the root of the
description. -/
inductive AncestorJoint (model : urdf.ModelInterface α) :
    Option (urdf.Link α) → urdf.Joint α → Prop
  | parent {link : urdf.Link α} {parent_joint_name : String} {parent_joint : urdf.Joint α} :
      link.parent_joint = some parent_joint_name →
      StdMap.find model.joints_ parent_joint_name = some parent_joint →
      AncestorJoint model (some link) parent_joint
  | above {link : urdf.Link α} {joint : urdf.Joint α} :
      AncestorJoint model (link.parent_link.bind (StdMap.find model.links_)) joint →
      AncestorJoint model (some link) joint
/-- The link named `name` is an end-effector by way of the joint: the joint is
fixed, the link is its child link and has no child joints, and the walk from
the parent link of the joint toward the root meets a prismatic or revolute
joint before it arrives at the link named `root_link_name`. -/
def EndEffectorOf (model : urdf.ModelInterface α) (root_link_name : String)
    (joint : urdf.Joint α) (name : String) : Prop :=
  joint.type = .FIXED ∧ joint.child_link_name = name ∧
    (∃ child, StdMap.find model.links_ name = some child ∧ child.child_joints = []) ∧
    ∃ n, DrivenAbove model root_link_name n (StdMap.find model.links_ joint.parent_link_name)

/-- The walk of `getEndEffectors` for the joint is defined and takes at most
`fuel` steps: the child link and the parent link of the joint exist, and the
child link has child joints, or the walk from the parent link meets a prismatic
or revolute joint or arrives at the link named `root_link_name`. -/
def WalkDefined (model : urdf.ModelInterface α) (root_link_name : String) (fuel : Nat)
    (joint : urdf.Joint α) : Prop :=
  ∃ child parent, StdMap.find model.links_ joint.child_link_name = some child ∧
    StdMap.find model.links_ joint.parent_link_name = some parent ∧
    (child.child_joints ≠ [] ∨
      ∃ n, n ≤ fuel ∧ (DrivenAbove model root_link_name n (some parent) ∨
        StopsBelow model root_link_name n (some parent)))

/-- The joints that are actuated: revolute, continuous and prismatic joints
with a non-zero effort limit. -/
def isActuatedJoint [Zero α] [DecidableEq α] (joint : urdf.Joint α) : Bool :=
  decide (joint.type = .PRISMATIC ∨ joint.type = .REVOLUTE ∨ joint.type = .CONTINUOUS) &&
    match joint.limits with
    | some limits => decide (limits.effort ≠ 0)
    | none => false

end FloatingBaseSystem

end model

/-! ## Vocabulary of the statements about the solver -/

namespace rbd

open RigidBodyDynamics

variable {K ST RI : Type}

/-- The members of the model that the solver only reads. -/
def constants (model : Model K ST RI) :
    Nat × (Nat → Bool) × (Nat → List Nat) × (Nat → Nat) × (Nat → Nat) × (Nat → Nat) ×
      Vector3d K × (Nat → RI) :=
  (model.mBodies_size, model.mIsVirtual, model.mu, model.lambda, model.q_index,
    model.mDoFCount, model.gravity, model.I)

/-- The model with another array `X_base`. -/
def withXBase (model : Model K ST RI) (X_base : Nat → ST) : Model K ST RI :=
  { model with X_base := X_base }

/-- The bodies 1 to 6 form the chain of a floating base: the bodies 1 to 5 are
virtual, the first child of each is the next body, and body 6 is not virtual. -/
def FloatingBaseChain (model : Model K ST RI) : Prop :=
  (∀ i, 1 ≤ i → i ≤ 5 → model.mIsVirtual i = true ∧ (model.mu i)[0]? = some (i + 1)) ∧
    model.mIsVirtual 6 = false

/-- The bodies above `base` in the order of the loop of the second pass: from
the last body down. -/
def inwardOrder (model : Model K ST RI) (base : Nat) : List Nat :=
  (List.range' (base + 1) (model.mBodies_size - (base + 1))).reverse

/-- The children of body `i` among the bodies above `base`, in the order in
which the second pass visits them. -/
def childrenInward (model : Model K ST RI) (base i : Nat) : List Nat :=
  (inwardOrder model base).filter (fun c => decide (model.lambda c = i))

/-- The force of body `i` before the inward accumulation of the variant with an
explicit `base_dof`: what the first pass computes for a body above the base,
and what the start of the second pass computes for the base body. -/
def ownForce [Ring K] [DecidableEq K] (math : Math K ST RI) (model : Model K ST RI)
    (base_dof : Nat) (Q QDot QDDot : Nat → K) (f_ext : Option (Nat → SpatialVector K))
    (i : Nat) : SpatialVector K :=
  (secondPassBase math f_ext (firstPassBaseDof math model base_dof Q QDot QDDot f_ext)
    base_dof).f i

/-- The chain of first children through virtual bodies: `FirstChildChain model i bodies`
says that the walk that starts at body `i` and goes from a virtual body to its
first child arrives, one after the other, at the bodies of `bodies`, the last
of which is not virtual; `bodies` is empty when body `i` is not virtual. -/
inductive FirstChildChain (model : Model K ST RI) : Nat → List Nat → Prop
  | stop {i : Nat} : model.mIsVirtual i = false → FirstChildChain model i []
  | step {i child : Nat} {bodies : List Nat} : model.mIsVirtual i = true →
      (model.mu i)[0]? = some child → FirstChildChain model child bodies →
      FirstChildChain model i (child :: bodies)

end rbd

/-! ## Vocabulary of the statements about the cart-table model -/

namespace simulation

namespace LinearControlledCartTableModel

variable {K : Type}

/-- A call of one of the three operations, with its arguments. -/
inductive Call (K : Type) where
  | setModelProperties (model : CartTableProperties K)
  | initResponse (state : ReducedBodyState K) (params : CartTableControlParams K)
  | computeResponse (state : ReducedBodyState K) (time : K)

/-- The object after the call. -/
def afterCall [Field K] (libm : Libm K) (m : LinearControlledCartTableModel K) :
    Call K → LinearControlledCartTableModel K
  | .setModelProperties model => setModelProperties m model
  | .initResponse state params => initResponse libm m state params
  | .computeResponse _ _ => m

/-- The object after a sequence of calls. -/
def afterCalls [Field K] (libm : Libm K) (m : LinearControlledCartTableModel K)
    (calls : List (Call K)) : LinearControlledCartTableModel K :=
  calls.foldl (afterCall libm) m

/-- The caller's state argument after the call: `computeResponse` may write it,
`initResponse` takes it as a constant. -/
def stateAfterCall [Field K] [LT K] [DecidableRel (fun a b : K => a < b)] (libm : Libm K)
    (m : LinearControlledCartTableModel K) : Call K → Option (ReducedBodyState K)
  | .setModelProperties _ => none
  | .initResponse state _ => some state
  | .computeResponse state time => some (computeResponse libm m state time)

/-- The state argument that the caller passes to the call. -/
def stateArgument : Call K → Option (ReducedBodyState K)
  | .setModelProperties _ => none
  | .initResponse state _ => some state
  | .computeResponse state _ => some state

end LinearControlledCartTableModel

end simulation

/-! ## Example robots -/

namespace Example

open urdf

/-- A joint of the example descriptions: effort limit `effort`, the other
limits zero. -/
def joint (name : String) (type : JointKind) (axis : Vector3 Int)
    (parent child : String) (effort : Int) : Joint Int :=
  { name := name, type := type, axis := axis, child_link_name := child,
    parent_link_name := parent,
    limits := some { lower := 0, upper := 0, effort := effort, velocity := 0 } }

/-- A fixed joint (no limits). -/
def fixedJoint (name parent child : String) : Joint Int :=
  { name := name, type := .FIXED, axis := ⟨0, 0, 0⟩, child_link_name := child,
    parent_link_name := parent, limits := none }

/-- The zero-effort prismatic joint along x that carries the base. -/
def slide_x : Joint Int := joint "slide_x" .PRISMATIC ⟨1, 0, 0⟩ "world" "base" 0

/-- The actuated hip. -/
def hip : Joint Int := joint "hip" .REVOLUTE ⟨0, 1, 0⟩ "base" "leg" 10

/-- The fixed joint that holds the foot. -/
def ankle : Joint Int := fixedJoint "ankle" "leg" "foot"

/-- A hopper on a rail: `world -slide_x-> base -hip-> leg -ankle-> foot`. -/
def railHopper : ModelInterface Int :=
  { links_ :=
      [("base", ⟨"base", some "slide_x", some "world", [hip], ["leg"]⟩),
       ("foot", ⟨"foot", some "ankle", some "leg", [], []⟩),
       ("leg", ⟨"leg", some "hip", some "base", [ankle], ["foot"]⟩),
       ("world", ⟨"world", none, none, [slide_x], ["base"]⟩)]
    joints_ := [("ankle", ankle), ("hip", hip), ("slide_x", slide_x)]
    root_link_ := some "world" }

/-- The RBDL model of `railHopper`: the root, one body per movable joint, and
the foot as a fixed body on the leg. -/
def railHopperRbd : RBDModel :=
  { lambda := [0, 0, 1]
    q_index := [0, 0, 1]
    fixed_body_discriminator := UINT_MAX / 2
    mMovableParent := [2]
    mBodyNameMap := [("ROOT", 0), ("base", 1), ("foot", UINT_MAX / 2), ("leg", 2)] }

/-- The second zero-effort prismatic joint along x of `twinRail`. -/
def slide_a : Joint Int := joint "slide_a" .PRISMATIC ⟨1, 0, 0⟩ "world" "carriage" 0

/-- The zero-effort prismatic joint along x that carries the base of `twinRail`. -/
def slide_b : Joint Int := joint "slide_b" .PRISMATIC ⟨1, 0, 0⟩ "carriage" "base" 0

/-- A hopper on two rails along the same axis:
`world -slide_a-> carriage -slide_b-> base -hip-> leg -ankle-> foot`. -/
def twinRail : ModelInterface Int :=
  { links_ :=
      [("base", ⟨"base", some "slide_b", some "carriage", [hip], ["leg"]⟩),
       ("carriage", ⟨"carriage", some "slide_a", some "world", [slide_b], ["base"]⟩),
       ("foot", ⟨"foot", some "ankle", some "leg", [], []⟩),
       ("leg", ⟨"leg", some "hip", some "base", [ankle], ["foot"]⟩),
       ("world", ⟨"world", none, none, [slide_a], ["carriage"]⟩)]
    joints_ := [("ankle", ankle), ("hip", hip), ("slide_a", slide_a), ("slide_b", slide_b)]
    root_link_ := some "world" }

/-- The RBDL model of `twinRail`. -/
def twinRailRbd : RBDModel :=
  { lambda := [0, 0, 1, 2]
    q_index := [0, 0, 1, 2]
    fixed_body_discriminator := UINT_MAX / 2
    mMovableParent := [3]
    mBodyNameMap :=
      [("ROOT", 0), ("base", 2), ("carriage", 1), ("foot", UINT_MAX / 2), ("leg", 3)] }

/-- A zero-effort prismatic joint whose axis is the zero vector. -/
def slide_0 : Joint Int := joint "slide_0" .PRISMATIC ⟨0, 0, 0⟩ "world" "base" 0

/-- The hopper `railHopper` with the degenerate joint `slide_0` in the place of
`slide_x`. -/
def stuckHopper : ModelInterface Int :=
  { links_ :=
      [("base", ⟨"base", some "slide_0", some "world", [hip], ["leg"]⟩),
       ("foot", ⟨"foot", some "ankle", some "leg", [], []⟩),
       ("leg", ⟨"leg", some "hip", some "base", [ankle], ["foot"]⟩),
       ("world", ⟨"world", none, none, [slide_0], ["base"]⟩)]
    joints_ := [("ankle", ankle), ("hip", hip), ("slide_0", slide_0)]
    root_link_ := some "world" }

/-- The actuated shoulder of `benchArm`. -/
def shoulder : Joint Int := joint "shoulder" .REVOLUTE ⟨0, 0, 1⟩ "bench" "arm" 10

/-- The actuated elbow of `benchArm`. -/
def elbow : Joint Int := joint "elbow" .REVOLUTE ⟨0, 1, 0⟩ "arm" "forearm" 10

/-- The fixed joint that holds the hand of `benchArm`. -/
def wrist : Joint Int := fixedJoint "wrist" "forearm" "hand"

/-- An arm bolted to a bench, with no floating-base joint:
`bench -shoulder-> arm -elbow-> forearm -wrist-> hand`. -/
def benchArm : ModelInterface Int :=
  { links_ :=
      [("arm", ⟨"arm", some "shoulder", some "bench", [elbow], ["forearm"]⟩),
       ("bench", ⟨"bench", none, none, [shoulder], ["arm"]⟩),
       ("forearm", ⟨"forearm", some "elbow", some "arm", [wrist], ["hand"]⟩),
       ("hand", ⟨"hand", some "wrist", some "forearm", [], []⟩)]
    joints_ := [("elbow", elbow), ("shoulder", shoulder), ("wrist", wrist)]
    root_link_ := some "bench" }

/-- The RBDL model of `benchArm`. -/
def benchArmRbd : RBDModel :=
  { lambda := [0, 0, 1]
    q_index := [0, 0, 1]
    fixed_body_discriminator := UINT_MAX / 2
    mMovableParent := [2]
    mBodyNameMap := [("ROOT", 0), ("arm", 1), ("forearm", 2), ("hand", UINT_MAX / 2)] }

/-- The six-DoF joint that carries the trunk of `flyingHopper`. -/
def free_flyer : Joint Int :=
  { name := "free_flyer", type := .FLOATING, axis := ⟨0, 0, 0⟩, child_link_name := "base",
    parent_link_name := "world", limits := none }

/-- A free-flying hopper: `world -free_flyer-> base -hip-> leg -ankle-> foot`. -/
def flyingHopper : ModelInterface Int :=
  { links_ :=
      [("base", ⟨"base", some "free_flyer", some "world", [hip], ["leg"]⟩),
       ("foot", ⟨"foot", some "ankle", some "leg", [], []⟩),
       ("leg", ⟨"leg", some "hip", some "base", [ankle], ["foot"]⟩),
       ("world", ⟨"world", none, none, [free_flyer], ["base"]⟩)]
    joints_ := [("ankle", ankle), ("free_flyer", free_flyer), ("hip", hip)]
    root_link_ := some "world" }

/-- The RBDL model of `flyingHopper`: the root, six bodies for the floating
base (the sixth is `base`), the leg, and the foot as a fixed body. -/
def flyingHopperRbd : RBDModel :=
  { lambda := [0, 0, 1, 2, 3, 4, 5, 6]
    q_index := [0, 0, 1, 2, 3, 4, 5, 6]
    fixed_body_discriminator := UINT_MAX / 2
    mMovableParent := [7]
    mBodyNameMap := [("ROOT", 0), ("base", 6), ("foot", UINT_MAX / 2), ("leg", 7)] }

/-- The left hip of `biped`. -/
def l_hip : Joint Int := joint "l_hip" .REVOLUTE ⟨0, 1, 0⟩ "trunk" "l_leg" 10

/-- The right hip of `biped`. -/
def r_hip : Joint Int := joint "r_hip" .REVOLUTE ⟨0, 1, 0⟩ "trunk" "r_leg" 10

/-- The fixed joint that holds the left foot of `biped`. -/
def l_ankle : Joint Int := fixedJoint "l_ankle" "l_leg" "lf"

/-- The fixed joint that holds the right foot of `biped`. -/
def r_ankle : Joint Int := fixedJoint "r_ankle" "r_leg" "rf"

/-- The six-DoF joint that carries the trunk of `biped`. -/
def flyer : Joint Int :=
  { name := "flyer", type := .FLOATING, axis := ⟨0, 0, 0⟩, child_link_name := "trunk",
    parent_link_name := "world", limits := none }

/-- A free-flying biped: `world -flyer-> trunk`, then `trunk -l_hip-> l_leg -l_ankle-> lf`
and `trunk -r_hip-> r_leg -r_ankle-> rf`. -/
def biped : ModelInterface Int :=
  { links_ :=
      [("l_leg", ⟨"l_leg", some "l_hip", some "trunk", [l_ankle], ["lf"]⟩),
       ("lf", ⟨"lf", some "l_ankle", some "l_leg", [], []⟩),
       ("r_leg", ⟨"r_leg", some "r_hip", some "trunk", [r_ankle], ["rf"]⟩),
       ("rf", ⟨"rf", some "r_ankle", some "r_leg", [], []⟩),
       ("trunk", ⟨"trunk", some "flyer", some "world", [l_hip, r_hip], ["l_leg", "r_leg"]⟩),
       ("world", ⟨"world", none, none, [flyer], ["trunk"]⟩)]
    joints_ :=
      [("flyer", flyer), ("l_ankle", l_ankle), ("l_hip", l_hip), ("r_ankle", r_ankle),
       ("r_hip", r_hip)]
    root_link_ := some "world" }

/-- The RBDL model of `biped`: the root, six bodies for the floating base (the
sixth is `trunk`), the two legs, and the two feet as fixed bodies. -/
def bipedRbd : RBDModel :=
  { lambda := [0, 0, 1, 2, 3, 4, 5, 6, 6]
    q_index := [0, 0, 1, 2, 3, 4, 5, 6, 7]
    fixed_body_discriminator := UINT_MAX / 2
    mMovableParent := [7, 8]
    mBodyNameMap :=
      [("ROOT", 0), ("l_leg", 7), ("lf", UINT_MAX / 2), ("r_leg", 8), ("rf", UINT_MAX / 2 + 1),
       ("trunk", 6)] }

/-- The hip of `lateSlide`, the first joint below the root. -/
def first_hip : Joint Int := joint "hip" .REVOLUTE ⟨0, 1, 0⟩ "world" "leg" 10

/-- The zero-effort prismatic joint of `lateSlide`, below the hip. -/
def late_slide : Joint Int := joint "slide_x" .PRISMATIC ⟨1, 0, 0⟩ "leg" "shoe" 0

/-- The fixed joint that holds the sole of `lateSlide`. -/
def sole_joint : Joint Int := fixedJoint "sole_joint" "shoe" "sole"

/-- A description whose zero-effort joint comes after an actuated joint in the
depth-first enumeration: `world -hip-> leg -slide_x-> shoe -sole_joint-> sole`. -/
def lateSlide : ModelInterface Int :=
  { links_ :=
      [("leg", ⟨"leg", some "hip", some "world", [late_slide], ["shoe"]⟩),
       ("shoe", ⟨"shoe", some "slide_x", some "leg", [sole_joint], ["sole"]⟩),
       ("sole", ⟨"sole", some "sole_joint", some "shoe", [], []⟩),
       ("world", ⟨"world", none, none, [first_hip], ["leg"]⟩)]
    joints_ := [("hip", first_hip), ("slide_x", late_slide), ("sole_joint", sole_joint)]
    root_link_ := some "world" }

/-- The RBDL model of `lateSlide`. -/
def lateSlideRbd : RBDModel :=
  { lambda := [0, 0, 1]
    q_index := [0, 0, 1]
    fixed_body_discriminator := UINT_MAX / 2
    mMovableParent := [2]
    mBodyNameMap := [("ROOT", 0), ("leg", 1), ("shoe", 2), ("sole", UINT_MAX / 2)] }

/-- The waist of `forkedArm`. -/
def waist : Joint Int := joint "waist" .REVOLUTE ⟨0, 0, 1⟩ "bench" "pelvis" 10

/-- The first joint of limb a of `forkedArm`. -/
def thigh_a : Joint Int := joint "thigh_a" .REVOLUTE ⟨0, 1, 0⟩ "pelvis" "a1" 10

/-- The second joint of limb a of `forkedArm`. -/
def shin_a : Joint Int := joint "shin_a" .REVOLUTE ⟨0, 1, 0⟩ "a1" "a2" 10

/-- The first joint of limb b of `forkedArm`. -/
def thigh_b : Joint Int := joint "thigh_b" .REVOLUTE ⟨0, 1, 0⟩ "pelvis" "b1" 10

/-- The second joint of limb b of `forkedArm`. -/
def shin_b : Joint Int := joint "shin_b" .REVOLUTE ⟨0, 1, 0⟩ "b1" "b2" 10

/-- A fixed-base tree that forks below its first joint: `bench -waist-> pelvis`,
then `pelvis -thigh_a-> a1 -shin_a-> a2` and `pelvis -thigh_b-> b1 -shin_b-> b2`. -/
def forkedArm : ModelInterface Int :=
  { links_ :=
      [("a1", ⟨"a1", some "thigh_a", some "pelvis", [shin_a], ["a2"]⟩),
       ("a2", ⟨"a2", some "shin_a", some "a1", [], []⟩),
       ("b1", ⟨"b1", some "thigh_b", some "pelvis", [shin_b], ["b2"]⟩),
       ("b2", ⟨"b2", some "shin_b", some "b1", [], []⟩),
       ("bench", ⟨"bench", none, none, [waist], ["pelvis"]⟩),
       ("pelvis", ⟨"pelvis", some "waist", some "bench", [thigh_a, thigh_b], ["a1", "b1"]⟩)]
    joints_ :=
      [("shin_a", shin_a), ("shin_b", shin_b), ("thigh_a", thigh_a), ("thigh_b", thigh_b),
       ("waist", waist)]
    root_link_ := some "bench" }

/-- The RBDL model of `forkedArm`: the bodies are numbered depth first, so limb
a (bodies 2 and 3, coordinates 1 and 2) comes before limb b (bodies 4 and 5,
coordinates 3 and 4). -/
def forkedArmRbd : RBDModel :=
  { lambda := [0, 0, 1, 2, 1, 4]
    q_index := [0, 0, 1, 2, 3, 4]
    fixed_body_discriminator := UINT_MAX / 2
    mMovableParent := []
    mBodyNameMap :=
      [("ROOT", 0), ("a1", 2), ("a2", 3), ("b1", 4), ("b2", 5), ("pelvis", 1)] }

/-- The RBDL model of a default-constructed object: only the root body. -/
def emptyRbd : RBDModel :=
  { lambda := [0]
    q_index := [0]
    fixed_body_discriminator := UINT_MAX / 2
    mMovableParent := []
    mBodyNameMap := [("ROOT", 0)] }

/-- The content of memory that was never written, in the examples. -/
def garbage : Nat → Int := fun i => 1000 + i

/-- The model that `resetFromURDFModel` builds from `railHopper` on a fresh
object. -/
def railHopperSystem : model.FloatingBaseSystem Int :=
  { rbd_model_ := railHopperRbd
    joint_limits_ := [("hip", { lower := 0, upper := 0, effort := 10, velocity := 0 })]
    num_system_joints_ := 2
    num_floating_joints_ := 1
    num_joints_ := 1
    floating_ax_ := .ofStatus false
    floating_ay_ := .ofStatus false
    floating_az_ := .ofStatus false
    floating_lx_ := .mk3 true 0 "slide_x"
    floating_ly_ := .ofStatus false
    floating_lz_ := .ofStatus false
    joints_ := [("hip", 0)]
    floating_joint_names_ := ["slide_x"]
    joint_names_ := ["hip"]
    floating_body_name_ := "base"
    type_of_system_ := .VirtualFloatingBase
    end_effectors_ := [("foot", 0)]
    feet_ := [("foot", 0)]
    end_effector_names_ := ["foot"]
    foot_names_ := ["foot"]
    num_end_effectors_ := 1
    num_feet_ := 1
    default_joint_pos_ := [0]
    full_state_ := [1000, 1001]
    joint_state_ := [1000] }

/-- The model that `resetFromURDFModel` builds from `twinRail` on a fresh
object: two floating-base joints, one active slot. -/
def twinRailSystem : model.FloatingBaseSystem Int :=
  { rbd_model_ := twinRailRbd
    joint_limits_ := [("hip", { lower := 0, upper := 0, effort := 10, velocity := 0 })]
    num_system_joints_ := 3
    num_floating_joints_ := 2
    num_joints_ := 1
    floating_ax_ := .ofStatus false
    floating_ay_ := .ofStatus false
    floating_az_ := .ofStatus false
    floating_lx_ := .mk3 true 0 "slide_a"
    floating_ly_ := .ofStatus false
    floating_lz_ := .ofStatus false
    joints_ := [("hip", 0)]
    floating_joint_names_ := ["slide_a"]
    joint_names_ := ["hip"]
    floating_body_name_ := "base"
    type_of_system_ := .VirtualFloatingBase
    end_effectors_ := [("foot", 0)]
    feet_ := [("foot", 0)]
    end_effector_names_ := ["foot"]
    foot_names_ := ["foot"]
    num_end_effectors_ := 1
    num_feet_ := 1
    default_joint_pos_ := [0]
    full_state_ := [1000, 1001, 1002]
    joint_state_ := [1000] }

/-- The model that `resetFromURDFModel` builds from `flyingHopper` on a fresh
object. -/
def flyingHopperSystem : model.FloatingBaseSystem Int :=
  { rbd_model_ := flyingHopperRbd
    joint_limits_ := [("hip", { lower := 0, upper := 0, effort := 10, velocity := 0 })]
    num_system_joints_ := 7
    num_floating_joints_ := 1
    num_joints_ := 1
    floating_ax_ := .mk3 true 0 "free_flyer"
    floating_ay_ := .mk3 true 1 "free_flyer"
    floating_az_ := .mk3 true 2 "free_flyer"
    floating_lx_ := .mk3 true 3 "free_flyer"
    floating_ly_ := .mk3 true 4 "free_flyer"
    floating_lz_ := .mk3 true 5 "free_flyer"
    joints_ := [("hip", 0)]
    floating_joint_names_ := ["free_flyer"]
    joint_names_ := ["hip"]
    floating_body_name_ := "base"
    type_of_system_ := .FloatingBase
    end_effectors_ := [("foot", 0)]
    feet_ := [("foot", 0)]
    end_effector_names_ := ["foot"]
    foot_names_ := ["foot"]
    num_end_effectors_ := 1
    num_feet_ := 1
    default_joint_pos_ := [0]
    full_state_ := [1000, 1001, 1002, 1003, 1004, 1005, 1006]
    joint_state_ := [1000] }

/-- A model made by the constructor with `full = false` on which
`setFloatingBaseJoint(joint)` then activates the six slots. -/
def floatingBySetter : model.FloatingBaseSystem Int :=
  (model.FloatingBaseSystem.new emptyRbd false 2).setFloatingBaseJoint (.mk3 true 0 "trunk")

/-- A model made by the constructor with `full = false` on which
`setFloatingBaseJoint(joint, LX)` activates one slot; it is the object that
`resetFromURDFModel` is then called on. -/
def railBySetter : model.FloatingBaseSystem Int :=
  (model.FloatingBaseSystem.new emptyRbd false 0).setFloatingBaseJointCoord
    (.mk3 true 0 "slide_x") .LX

/-- A fixed-base model with two joints, made by the constructor. -/
def twoJointArm : model.FloatingBaseSystem Int :=
  model.FloatingBaseSystem.new emptyRbd false 2

/-- A fresh object, as the constructor with `full = false` leaves it. -/
def fresh : model.FloatingBaseSystem Int := model.FloatingBaseSystem.new emptyRbd false 0

/-- A supplementary file that lists the feet `rf` and `lf` and no posture. -/
def twoFeetFile : SystemDescription Int := { feet := some ["rf", "lf"], default_pose := [] }

/-- A supplementary file that lists the feet `tail`, `rf` and `lf`. -/
def threeFeetFile : SystemDescription Int :=
  { feet := some ["tail", "rf", "lf"], default_pose := [] }

/-- A supplementary file with no foot list and the default posture
`elbow: 7`. -/
def elbowPostureFile : SystemDescription Int :=
  { feet := none, default_pose := [("elbow", 7)] }

/-- The base vector `(1, 2, 3, 4, 5, 6)`. -/
def base123456 : rbd.Vector6d Int := fun c => c.toNat + 1

/-- The base vector with 4 in row LX and 0 elsewhere. -/
def base4LX : rbd.Vector6d Int := fun c => if c = .LX then 4 else 0

/-- The base vector with 7 in every row. -/
def base7 : rbd.Vector6d Int := fun _ => 7

/-- The result of a construction, for the examples that are given by
construction. -/
def built (r : Except Failure (model.FloatingBaseSystem Int)) : model.FloatingBaseSystem Int :=
  match r with
  | .ok S => S
  | .error _ => fresh

/-- The model that `resetFromURDFModel` builds from `biped` on a fresh object. -/
def bipedSystem : model.FloatingBaseSystem Int :=
  built (model.FloatingBaseSystem.resetFromURDFModel 16 garbage fresh bipedRbd biped none)

/-- The model that `resetFromURDFModel` builds from `forkedArm` on a fresh
object. -/
def forkedArmSystem : model.FloatingBaseSystem Int :=
  built (model.FloatingBaseSystem.resetFromURDFModel 16 garbage fresh forkedArmRbd forkedArm none)

/-- The zero-effort prismatic joint along z of `planarHopper`. -/
def slide_z : Joint Int := joint "slide_z" .PRISMATIC ⟨0, 0, 1⟩ "sled" "base" 0

/-- The zero-effort prismatic joint along x of `planarHopper`. -/
def sled_x : Joint Int := joint "slide_x" .PRISMATIC ⟨1, 0, 0⟩ "world" "sled" 0

/-- A hopper whose base slides along x and along z:
`world -slide_x-> sled -slide_z-> base -hip-> leg -ankle-> foot`. -/
def planarHopper : ModelInterface Int :=
  { links_ :=
      [("base", ⟨"base", some "slide_z", some "sled", [hip], ["leg"]⟩),
       ("foot", ⟨"foot", some "ankle", some "leg", [], []⟩),
       ("leg", ⟨"leg", some "hip", some "base", [ankle], ["foot"]⟩),
       ("sled", ⟨"sled", some "slide_x", some "world", [slide_z], ["base"]⟩),
       ("world", ⟨"world", none, none, [sled_x], ["sled"]⟩)]
    joints_ := [("ankle", ankle), ("hip", hip), ("slide_x", sled_x), ("slide_z", slide_z)]
    root_link_ := some "world" }

/-- The fixed joint that holds the hand of `stubArm`. -/
def grip : Joint Int := fixedJoint "grip" "arm" "hand"

/-- An arm of one link bolted to a bench: `bench -shoulder-> arm -grip-> hand`. -/
def stubArm : ModelInterface Int :=
  { links_ :=
      [("arm", ⟨"arm", some "shoulder", some "bench", [grip], ["hand"]⟩),
       ("bench", ⟨"bench", none, none, [shoulder], ["arm"]⟩),
       ("hand", ⟨"hand", some "grip", some "arm", [], []⟩)]
    joints_ := [("grip", grip), ("shoulder", shoulder)]
    root_link_ := some "bench" }

/-- The cross product `crossm` of RBDL on integer vectors. -/
def crossm (v w : Fin 6 → Int) : Fin 6 → Int :=
  ![-v 2 * w 1 + v 1 * w 2, v 2 * w 0 - v 0 * w 2, -v 1 * w 0 + v 0 * w 1,
    -v 5 * w 1 + v 4 * w 2 - v 2 * w 4 + v 1 * w 5,
    v 5 * w 0 - v 3 * w 2 + v 2 * w 3 - v 0 * w 5,
    -v 4 * w 0 + v 3 * w 1 - v 1 * w 3 + v 0 * w 4]

/-- The cross product `crossf` of RBDL on integer vectors. -/
def crossf (v f : Fin 6 → Int) : Fin 6 → Int :=
  ![-v 2 * f 1 + v 1 * f 2 - v 5 * f 4 + v 4 * f 5,
    v 2 * f 0 - v 0 * f 2 + v 5 * f 3 - v 3 * f 5,
    -v 1 * f 0 + v 0 * f 1 - v 4 * f 3 + v 3 * f 4,
    -v 5 * f 1 + v 4 * f 2, v 5 * f 0 - v 3 * f 2, -v 4 * f 0 + v 3 * f 1]

/-- The operations of the solver on bodies whose frames all coincide and whose
inertia is a multiple `m` of the unit inertia: a transform is the identity,
an inertia is the integer `m`, and every joint turns about the second axis. -/
def unitMath : RigidBodyDynamics.Math Int Unit Int :=
  { compose := fun _ _ => ()
    apply := fun _ v => v
    applyInertia := fun _ inertia => inertia
    applyTranspose := fun _ f => f
    adjointMul := fun _ f => f
    inertiaMul := fun inertia v => fun k => inertia * v k
    inertiaAdd := fun i j => i + j
    inverseMul := fun inertia f => fun k => f k / inertia
    crossm := crossm
    crossf := crossf
    jcalc := fun _ _ _ =>
      { X_lambda := ()
        v_J := fun _ => 0
        c_J := fun _ => 0
        S := ![0, 1, 0, 0, 0, 0]
        multdof3_S := fun _ _ => 0 } }

/-- A free body with a pendulum: the bodies 1 to 5 are the virtual bodies of
the floating base, body 6 is the base with unit inertia, body 7 is a link of
inertia `link_inertia` hinged to the base. Gravity is `(0, 0, -10)`, the model
is at rest, and it stores `stored_a` as the acceleration of body 6. -/
def pendulum (link_inertia : Int) (stored_a : Fin 6 → Int) :
    RigidBodyDynamics.Model Int Unit Int :=
  { mBodies_size := 8
    mIsVirtual := fun i => decide (1 ≤ i ∧ i ≤ 5)
    mu := fun i => if i < 7 then [i + 1] else []
    lambda := fun i => i - 1
    q_index := fun i => i - 1
    mDoFCount := fun _ => 1
    gravity := ![0, 0, -10]
    X_lambda := fun _ => ()
    X_base := fun _ => ()
    v := fun _ _ => 0
    a := fun i => if i = 6 then stored_a else fun _ => 0
    c := fun _ _ => 0
    c_J := fun _ _ => 0
    v_J := fun _ _ => 0
    S := fun _ _ => 0
    multdof3_S := fun _ _ _ => 0
    I := fun i => if i = 6 then 1 else if i = 7 then link_inertia else 0
    Ic := fun _ => 0
    f := fun _ _ => 0 }

/-- The joint vector that is zero everywhere. -/
def zeroVector : Nat → Int := fun _ => 0

/-- A stand-in for the functions of the C library on the rationals, exact at
`sqrt 1` and `exp 0`. -/
def crudeLibm : simulation.Libm Rat := { sqrt := fun x => x, exp := fun _ => 1 }

/-- A state of the reduced body: the centre of mass at `(0, 0, 1)`, at rest,
the centre of pressure at the origin, at time 0. -/
def standing : simulation.ReducedBodyState Rat :=
  { time := 0
    com_pos := ![0, 0, 1]
    com_vel := ![0, 0, 0]
    com_acc := ![0, 0, 0]
    cop := ![0, 0, 0] }

/-- Control parameters: one second, the centre of pressure shifts by
`(1, 0, 0)`. -/
def oneStep : simulation.CartTableControlParams Rat :=
  { duration := 1, cop_shift := ![1, 0, 0] }

/-- A cart-table object right after its construction. -/
def freshCartTable : simulation.LinearControlledCartTableModel Rat :=
  simulation.LinearControlledCartTableModel.new
    { properties_ := { gravity := 0 }
      init_model_ := true
      init_response_ := true
      initial_state_ := standing
      params_ := oneStep
      height_ := 7
      omega_ := 7
      beta_1_ := ![7, 7]
      beta_2_ := ![7, 7]
      cop_T_ := ![7, 7] }

/-- The pendulum model with a base of two virtual bodies: only the bodies 1
and 2 are virtual, so the chain of first children from body 1 stops at body 3. -/
def shortBasePendulum : RigidBodyDynamics.Model Int Unit Int :=
  { pendulum 3 ![1, 2, 3, 4, 5, 6] with mIsVirtual := fun i => decide (1 ≤ i ∧ i ≤ 2) }

/-- A cart-table object over the reals on which `setModelProperties` has set
the gravity 10. -/
def earthCartTable : simulation.LinearControlledCartTableModel Real :=
  simulation.LinearControlledCartTableModel.setModelProperties
    (simulation.LinearControlledCartTableModel.new
      { properties_ := { gravity := 0 }
        init_model_ := false
        init_response_ := false
        initial_state_ :=
          { time := 0, com_pos := ![0, 0, 0], com_vel := ![0, 0, 0], com_acc := ![0, 0, 0],
            cop := ![0, 0, 0] }
        params_ := { duration := 0, cop_shift := ![0, 0, 0] }
        height_ := 0
        omega_ := 0
        beta_1_ := ![0, 0]
        beta_2_ := ![0, 0]
        cop_T_ := ![0, 0] })
    { gravity := 10 }

/-- A state over the reals at time 0: the centre of mass at `(0, 0, 1)` moves
with the velocity `(2, 0, 0)`, the centre of pressure is at the origin. -/
def walking : simulation.ReducedBodyState Real :=
  { time := 0
    com_pos := ![0, 0, 1]
    com_vel := ![2, 0, 0]
    com_acc := ![0, 0, 0]
    cop := ![0, 0, 0] }

/-- Control parameters with a positive duration: two seconds, the centre of
pressure shifts by `(1, 0, 0)`. -/
def forwardStep : simulation.CartTableControlParams Real :=
  { duration := 2, cop_shift := ![1, 0, 0] }

/-- Control parameters with a negative duration: minus one second, the centre
of pressure shifts by `(1, 0, 0)`. -/
def backwardStep : simulation.CartTableControlParams Real :=
  { duration := -1, cop_shift := ![1, 0, 0] }

/-- Another content of memory that was never written: it differs from
`garbage` in every row. -/
def otherGarbage : Nat → Int := fun i => 2000 + i

/-- A floating-base model with two joints that is made by the constructor and
`setTypeOfDynamicSystem`, without a topology: its state buffer has no entries. -/
def handBuiltFloating : model.FloatingBaseSystem Int :=
  (model.FloatingBaseSystem.new emptyRbd true 2).setTypeOfDynamicSystem .FloatingBase

end Example

/-! ## Properties

### Eigen operations -/

namespace Eigen

variable {α : Type}

theorem length_uninitialized (uninit : Nat → α) (n : Nat) :
    (uninitialized uninit n).length = n := by
  simp [uninitialized]

theorem length_resize (uninit : Nat → α) (v : List α) (n : Nat) :
    (resize uninit v n).length = n := by
  unfold resize
  split
  · assumption
  · exact length_uninitialized uninit n

theorem commaInit_ok {dst : List α} {blocks : List (List α)}
    (h : blocks.flatten.length = dst.length) : commaInit dst blocks = .ok blocks.flatten := by
  simp [commaInit, h]

theorem commaInit_ne_jointDimension (dst : List α) (blocks : List (List α)) :
    commaInit dst blocks ≠ .error .jointDimension := by
  unfold commaInit
  split <;> simp

theorem setCoeff_ok {v : List α} {i : Nat} (x : α) (h : i < v.length) :
    setCoeff v i x = .ok (v.set i x) := by
  simp [setCoeff, h]

theorem coeff_ok {v : List α} {i : Nat} {x : α} (h : v[i]? = some x) : coeff v i = .ok x := by
  simp [coeff, h]

theorem segment_ok {v : List α} {start n : Nat} (h : start + n ≤ v.length) :
    segment v start n = .ok ((v.drop start).take n) := by
  simp [segment, h]

theorem segment_append_right (a b : List α) : segment (a ++ b) a.length b.length = .ok b := by
  rw [segment_ok (by simp)]
  simp

theorem length_of_segment_eq_ok {v w : List α} {start n : Nat}
    (h : segment v start n = .ok w) : w.length = n ∧ w = (v.drop start).take n := by
  unfold segment at h
  split at h
  · cases h
    refine ⟨?_, rfl⟩
    rw [List.length_take, List.length_drop]
    omega
  · cases h

end Eigen

/-- A bind of two steps that cannot stop with the failure `e` cannot either. -/
theorem bind_ne_error {β γ : Type} {e : Failure} {x : Except Failure β}
    {f : β → Except Failure γ} (hx : x ≠ .error e) (hf : ∀ a, f a ≠ .error e) :
    (x >>= f) ≠ .error e := by
  cases x with
  | error e' =>
    intro h
    apply hx
    simpa [bind, Except.bind] using h
  | ok a => simpa [bind, Except.bind] using hf a

/-! ### Tables -/

namespace StdMap

variable {β : Type}

theorem mem_keys_assign {m : StdMap β} {k k' : String} {v : β}
    (h : k' ∈ keys (assign m k v)) : k' = k ∨ k' ∈ keys m := by
  induction m with
  | nil =>
    simp only [assign, keys, List.map_cons, List.map_nil, List.mem_singleton] at h
    exact Or.inl h
  | cons e rest ih =>
    obtain ⟨k0, v0⟩ := e
    unfold assign at h
    split_ifs at h with h1 h2
    · simp only [keys, List.map_cons, List.mem_cons] at h ⊢
      exact h
    · subst h2
      simp only [keys, List.map_cons, List.mem_cons] at h ⊢
      rcases h with h | h
      · exact Or.inl h
      · exact Or.inr (Or.inr h)
    · simp only [keys, List.map_cons, List.mem_cons] at h ⊢
      rcases h with h | h
      · exact Or.inr (Or.inl h)
      · rcases ih h with h' | h'
        · exact Or.inl h'
        · exact Or.inr (Or.inr h')

end StdMap

namespace urdf_model

variable {α : Type}

end urdf_model

namespace model

namespace FloatingBaseSystem

open rbd

variable {α : Type}

/-! ### The layout of the generalized state -/

theorem linearPart_eq (b : Vector6d α) : linearPart b = [b .LX, b .LY, b .LZ] := rfl

theorem angularPart_eq (b : Vector6d α) : angularPart b = [b .AX, b .AY, b .AZ] := rfl

theorem writeSlot_ne_jointDimension (slot : FloatingBaseJoint) (x : α) (v : List α) :
    writeSlot slot x v ≠ .error .jointDimension := by
  unfold writeSlot Eigen.setCoeff
  split
  · split <;> simp
  · simp

/-- The floating branch of `toGeneralizedJointState` on a buffer of the right
size. -/
theorem toGeneralizedJointState_floating_ok (s : FloatingBaseSystem α) (uninit : Nat → α)
    (b : Vector6d α) (j : List α)
    (htype : s.getTypeOfDynamicSystem = .FloatingBase ∨
      s.getTypeOfDynamicSystem = .ConstrainedFloatingBase)
    (hj : j.length = s.getJointDoF)
    (hbuf : s.full_state_.length = 6 + s.getJointDoF) :
    toGeneralizedJointState s uninit b j =
      .ok ([b .LX, b .LY, b .LZ, b .AX, b .AY, b .AZ] ++ j,
        { s with full_state_ := [b .LX, b .LY, b .LZ, b .AX, b .AY, b .AZ] ++ j }) := by
  unfold toGeneralizedJointState
  rw [if_neg (by simpa using hj), if_pos htype]
  rw [Eigen.commaInit_ok (by simp [linearPart_eq, angularPart_eq, hbuf, hj]; omega)]
  simp [linearPart_eq, angularPart_eq, bind, Except.bind, pure, Except.pure]

/-- C2 (amended). For a FloatingBase or ConstrainedFloatingBase system whose state buffer
has the size construction gives it, `toGeneralizedJointState(b, j)` with a joint
vector of length numJoints returns the vector
`[b[LX], b[LY], b[LZ], b[AX], b[AY], b[AZ], j[0], …, j[numJoints-1]]`, of length
`6 + numJoints`: linear part, then angular part, then the joints in order. -/
theorem toGeneralizedJointState_floating_layout (s : FloatingBaseSystem α) (uninit : Nat → α)
    (b : Vector6d α) (j : List α)
    (htype : s.getTypeOfDynamicSystem = .FloatingBase ∨
      s.getTypeOfDynamicSystem = .ConstrainedFloatingBase)
    (hj : j.length = s.getJointDoF)
    (hbuf : s.full_state_.length = 6 + s.getJointDoF) :
    toGeneralizedJointState s uninit b j =
        .ok ([b .LX, b .LY, b .LZ, b .AX, b .AY, b .AZ] ++ j,
          { s with full_state_ := [b .LX, b .LY, b .LZ, b .AX, b .AY, b .AZ] ++ j }) ∧
      ([b .LX, b .LY, b .LZ, b .AX, b .AY, b .AZ] ++ j).length = 6 + s.getJointDoF := by
  refine ⟨toGeneralizedJointState_floating_ok s uninit b j htype hj hbuf, ?_⟩
  simp [hj]
  omega

/-- C4. `toGeneralizedJointState` stops on its dimension check exactly when the
length of the joint vector differs from numJoints, and in that case it returns
no generalized vector at all. -/
theorem toGeneralizedJointState_jointDimension_iff (s : FloatingBaseSystem α)
    (uninit : Nat → α) (b : Vector6d α) (j : List α) :
    (toGeneralizedJointState s uninit b j = .error .jointDimension ↔
        j.length ≠ s.getJointDoF) ∧
      (j.length ≠ s.getJointDoF → ∀ r, toGeneralizedJointState s uninit b j ≠ .ok r) := by
  have hmis : j.length ≠ s.getJointDoF →
      toGeneralizedJointState s uninit b j = .error .jointDimension := by
    intro h
    unfold toGeneralizedJointState
    rw [if_pos h]
  refine ⟨⟨?_, hmis⟩, ?_⟩
  · intro h hlen
    by_cases hlen' : j.length = s.getJointDoF
    · revert h
      unfold toGeneralizedJointState
      rw [if_neg (by simpa using hlen')]
      split
      · exact bind_ne_error (Eigen.commaInit_ne_jointDimension _ _) (fun _ => by simp [pure, Except.pure])
      · split
        · refine bind_ne_error (writeSlot_ne_jointDimension _ _ _) fun _ => ?_
          refine bind_ne_error (writeSlot_ne_jointDimension _ _ _) fun _ => ?_
          refine bind_ne_error (writeSlot_ne_jointDimension _ _ _) fun _ => ?_
          refine bind_ne_error (writeSlot_ne_jointDimension _ _ _) fun _ => ?_
          refine bind_ne_error (writeSlot_ne_jointDimension _ _ _) fun _ => ?_
          refine bind_ne_error (writeSlot_ne_jointDimension _ _ _) fun _ => ?_
          exact bind_ne_error (Eigen.commaInit_ne_jointDimension _ _)
            (fun _ => by simp [pure, Except.pure])
        · simp
    · exact hlen' hlen
  · intro h r hr
    rw [hmis h] at hr
    cases hr

/-! ### The virtual floating base -/

theorem toGeneralizedJointState_virtual (s : FloatingBaseSystem α) (uninit : Nat → α)
    (b : Vector6d α) (j : List α) (hj : j.length = s.getJointDoF)
    (htype : s.getTypeOfDynamicSystem = .VirtualFloatingBase) :
    toGeneralizedJointState s uninit b j =
      (writeSlots (slotWrites s b) (Eigen.uninitialized uninit s.getFloatingBaseDoF) >>=
        fun virtual_base =>
          Eigen.commaInit s.full_state_ [virtual_base, j] >>=
            fun full => pure (full, { s with full_state_ := full })) := by
  unfold toGeneralizedJointState
  rw [if_neg (by simpa using hj), if_neg (by simp [htype]), if_pos htype]
  simp [writeSlots, slotWrites, List.foldlM, bind_assoc]

theorem slotWrites_mem (s : FloatingBaseSystem α) (b : Vector6d α)
    (w : FloatingBaseJoint × α) :
    w ∈ slotWrites s b ↔ ∃ c : Coords6d, w = (s.getFloatingBaseJoint c, b c) := by
  constructor
  · intro h
    simp only [slotWrites, List.mem_cons, List.mem_singleton, List.not_mem_nil, or_false] at h
    rcases h with h | h | h | h | h | h
    · exact ⟨.AX, h⟩
    · exact ⟨.AY, h⟩
    · exact ⟨.AZ, h⟩
    · exact ⟨.LX, h⟩
    · exact ⟨.LY, h⟩
    · exact ⟨.LZ, h⟩
  · rintro ⟨c, rfl⟩
    cases c <;> simp [slotWrites, getFloatingBaseJoint]

/-- A sequence of guarded writes whose active ids are in range succeeds; it
keeps the length, leaves alone every index that no active slot names, and an
index named by active slots that all carry the same value holds that value. -/
theorem writeSlots_spec (ws : List (FloatingBaseJoint × α)) :
    ∀ v : List α, (∀ w ∈ ws, w.1.active = true → w.1.id < v.length) →
      ∃ v', writeSlots ws v = .ok v' ∧ v'.length = v.length ∧
        (∀ i, (∀ w ∈ ws, w.1.active = true → w.1.id ≠ i) → v'[i]? = v[i]?) ∧
        (∀ w ∈ ws, w.1.active = true →
          (∀ w' ∈ ws, w'.1.active = true → w'.1.id = w.1.id → w'.2 = w.2) →
          v'[w.1.id]? = some w.2) := by
  induction ws with
  | nil =>
    intro v _
    exact ⟨v, rfl, rfl, fun _ _ => rfl, fun w hw => by cases hw⟩
  | cons w0 rest ih =>
    intro v hr
    have hr0 : w0.1.active = true → w0.1.id < v.length := hr w0 (List.mem_cons_self _ _)
    -- the first write
    obtain ⟨v1, hv1, hlen1, hframe1, hval1⟩ :
        ∃ v1, writeSlot w0.1 w0.2 v = .ok v1 ∧ v1.length = v.length ∧
          (∀ i, (w0.1.active = true → w0.1.id ≠ i) → v1[i]? = v[i]?) ∧
          (w0.1.active = true → v1[w0.1.id]? = some w0.2) := by
      by_cases ha : w0.1.active = true
      · refine ⟨v.set w0.1.id w0.2, ?_, by simp, ?_, ?_⟩
        · simp [writeSlot, ha, Eigen.setCoeff_ok _ (hr0 ha)]
        · intro i hi
          simp [List.getElem?_set, hi ha]
        · intro _
          simp [List.getElem?_set, hr0 ha]
      · refine ⟨v, by simp [writeSlot, ha], rfl, fun _ _ => rfl, fun h => absurd h ha⟩
    obtain ⟨v', hv', hlen', hframe', hval'⟩ := ih v1 (fun w hw ha => by
      rw [hlen1]
      exact hr w (List.mem_cons_of_mem _ hw) ha)
    refine ⟨v', ?_, by rw [hlen', hlen1], ?_, ?_⟩
    · simp only [writeSlots, List.foldlM_cons] at hv' ⊢
      rw [hv1]
      exact hv'
    · intro i hi
      rw [hframe' i (fun w hw => hi w (List.mem_cons_of_mem _ hw)),
        hframe1 i (hi w0 (List.mem_cons_self _ _))]
    · intro w hw ha hsame
      by_cases hlater : ∃ w' ∈ rest, w'.1.active = true ∧ w'.1.id = w.1.id
      · obtain ⟨w', hw', ha', hid'⟩ := hlater
        have hsame' : ∀ w'' ∈ rest, w''.1.active = true → w''.1.id = w'.1.id → w''.2 = w'.2 := by
          intro w'' hw'' ha'' hid''
          rw [hsame w'' (List.mem_cons_of_mem _ hw'') ha'' (hid''.trans hid'),
            hsame w' (List.mem_cons_of_mem _ hw') ha' hid']
        have := hval' w' hw' ha' hsame'
        rw [hid', hsame w' (List.mem_cons_of_mem _ hw') ha' hid'] at this
        exact this
      · have hnone : ∀ w' ∈ rest, w'.1.active = true → w'.1.id ≠ w.1.id := by
          intro w' hw' ha' hid'
          exact hlater ⟨w', hw', ha', hid'⟩
        rw [hframe' _ hnone]
        rcases List.mem_cons.mp hw with rfl | hw
        · exact hval1 ha
        · exact absurd rfl (hnone w hw ha)

/-- Two sequences of guarded writes through the same slots, with values that
agree at the active slots, on two vectors of one length that agree at every
index that no active slot names, give the same result. -/
theorem writeSlots_congr (ts : List (FloatingBaseJoint × α × α)) :
    ∀ v₁ v₂ : List α, v₁.length = v₂.length →
      (∀ t ∈ ts, t.1.active = true → t.2.1 = t.2.2) →
      (∀ i, (∀ t ∈ ts, t.1.active = true → t.1.id ≠ i) → v₁[i]? = v₂[i]?) →
      writeSlots (ts.map (fun t => (t.1, t.2.1))) v₁ =
        writeSlots (ts.map (fun t => (t.1, t.2.2))) v₂ := by
  induction ts with
  | nil =>
    intro v₁ v₂ _ _ hv
    have : v₁ = v₂ :=
      List.ext_getElem? (fun i => hv i (fun t ht => absurd ht (List.not_mem_nil t)))
    rw [this]
    rfl
  | cons t rest ih =>
    intro v₁ v₂ hlen hval hv
    simp only [writeSlots, List.map_cons, List.foldlM_cons]
    by_cases ha : t.1.active = true
    · have hx := hval t (List.mem_cons_self _ _) ha
      by_cases hid : t.1.id < v₁.length
      · have h1 : writeSlot t.1 t.2.1 v₁ = .ok (v₁.set t.1.id t.2.1) := by
          simp [writeSlot, ha, Eigen.setCoeff, hid]
        have h2 : writeSlot t.1 t.2.2 v₂ = .ok (v₂.set t.1.id t.2.1) := by
          simp [writeSlot, ha, Eigen.setCoeff, hlen ▸ hid, hx]
        rw [h1, h2]
        exact ih _ _ (by simp [hlen]) (fun t' ht' => hval t' (List.mem_cons_of_mem _ ht'))
          (fun i hi => by
            by_cases hit : t.1.id = i
            · subst hit
              simp [List.getElem?_set, hid, hlen ▸ hid]
            · rw [List.getElem?_set_ne hit, List.getElem?_set_ne hit]
              apply hv i
              intro t' ht' ha'
              rcases List.mem_cons.mp ht' with rfl | ht'
              · exact hit
              · exact hi t' ht' ha')
      · have h1 : writeSlot t.1 t.2.1 v₁ = .error .eigenAssert := by
          simp [writeSlot, ha, Eigen.setCoeff, hid]
        have h2 : writeSlot t.1 t.2.2 v₂ = .error .eigenAssert := by
          simp [writeSlot, ha, Eigen.setCoeff, hlen ▸ hid]
        rw [h1, h2]
        rfl
    · have h1 : writeSlot t.1 t.2.1 v₁ = .ok v₁ := by simp [writeSlot, ha]
      have h2 : writeSlot t.1 t.2.2 v₂ = .ok v₂ := by simp [writeSlot, ha]
      rw [h1, h2]
      exact ih _ _ hlen (fun t' ht' => hval t' (List.mem_cons_of_mem _ ht'))
        (fun i hi => hv i (fun t' ht' ha' => by
          rcases List.mem_cons.mp ht' with rfl | ht'
          · exact absurd ha' ha
          · exact hi t' ht' ha'))

/-- C6 (amended). For a VirtualFloatingBase system `toGeneralizedJointState` does
not read the inactive base coordinates: for two base vectors that agree on
every active slot and any joint vector, the two calls give the same result
(the same generalized vector, or the same failure) when the fresh memory of the
virtual base holds, in the two calls, the same values in the rows below
`getFloatingBaseDoF()` that no active slot writes. When every such row is the
id of an active slot, the results are equal whatever the memory held. -/
theorem toGeneralizedJointState_ignores_inactive (s : FloatingBaseSystem α)
    (u₁ u₂ : Nat → α) (b₁ b₂ : Vector6d α) (j : List α)
    (htype : s.getTypeOfDynamicSystem = .VirtualFloatingBase)
    (hagree : ∀ c : Coords6d, (s.getFloatingBaseJoint c).active = true → b₁ c = b₂ c)
    (hmem : ∀ i, i < s.getFloatingBaseDoF →
      (∀ c : Coords6d, (s.getFloatingBaseJoint c).active = true →
        (s.getFloatingBaseJoint c).id ≠ i) → u₁ i = u₂ i) :
    toGeneralizedJointState s u₁ b₁ j = toGeneralizedJointState s u₂ b₂ j := by
  by_cases hj : j.length = s.getJointDoF
  · rw [toGeneralizedJointState_virtual s u₁ b₁ j hj htype,
      toGeneralizedJointState_virtual s u₂ b₂ j hj htype]
    have hts : ∀ t ∈ [(s.floating_ax_, b₁ .AX, b₂ .AX), (s.floating_ay_, b₁ .AY, b₂ .AY),
        (s.floating_az_, b₁ .AZ, b₂ .AZ), (s.floating_lx_, b₁ .LX, b₂ .LX),
        (s.floating_ly_, b₁ .LY, b₂ .LY), (s.floating_lz_, b₁ .LZ, b₂ .LZ)],
        ∃ c : Coords6d, t = (s.getFloatingBaseJoint c, b₁ c, b₂ c) := by
      intro t ht
      simp only [List.mem_cons, List.mem_singleton, List.not_mem_nil, or_false] at ht
      rcases ht with h | h | h | h | h | h
      · exact ⟨.AX, h⟩
      · exact ⟨.AY, h⟩
      · exact ⟨.AZ, h⟩
      · exact ⟨.LX, h⟩
      · exact ⟨.LY, h⟩
      · exact ⟨.LZ, h⟩
    have key := writeSlots_congr
      [(s.floating_ax_, b₁ .AX, b₂ .AX), (s.floating_ay_, b₁ .AY, b₂ .AY),
        (s.floating_az_, b₁ .AZ, b₂ .AZ), (s.floating_lx_, b₁ .LX, b₂ .LX),
        (s.floating_ly_, b₁ .LY, b₂ .LY), (s.floating_lz_, b₁ .LZ, b₂ .LZ)]
      (Eigen.uninitialized u₁ s.getFloatingBaseDoF)
      (Eigen.uninitialized u₂ s.getFloatingBaseDoF)
      (by rw [Eigen.length_uninitialized, Eigen.length_uninitialized])
      (by
        intro t ht ha
        obtain ⟨c, rfl⟩ := hts t ht
        exact hagree c ha)
      (by
        intro i hi
        by_cases hlt : i < s.getFloatingBaseDoF
        · have := hmem i hlt (fun c hc => hi (s.getFloatingBaseJoint c, b₁ c, b₂ c)
            (by cases c <;> simp [getFloatingBaseJoint]) hc)
          simp [Eigen.uninitialized, hlt, this]
        · have hge : s.getFloatingBaseDoF ≤ i := Nat.le_of_not_lt hlt
          simp [Eigen.uninitialized, List.getElem?_eq_none, hge])
    have e1 : slotWrites s b₁ =
        [(s.floating_ax_, b₁ .AX, b₂ .AX), (s.floating_ay_, b₁ .AY, b₂ .AY),
          (s.floating_az_, b₁ .AZ, b₂ .AZ), (s.floating_lx_, b₁ .LX, b₂ .LX),
          (s.floating_ly_, b₁ .LY, b₂ .LY), (s.floating_lz_, b₁ .LZ, b₂ .LZ)].map
          (fun t => (t.1, t.2.1)) := rfl
    have e2 : slotWrites s b₂ =
        [(s.floating_ax_, b₁ .AX, b₂ .AX), (s.floating_ay_, b₁ .AY, b₂ .AY),
          (s.floating_az_, b₁ .AZ, b₂ .AZ), (s.floating_lx_, b₁ .LX, b₂ .LX),
          (s.floating_ly_, b₁ .LY, b₂ .LY), (s.floating_lz_, b₁ .LZ, b₂ .LZ)].map
          (fun t => (t.1, t.2.2)) := rfl
    rw [e1, e2, key]
  · unfold toGeneralizedJointState
    rw [if_pos (by simpa using hj), if_pos (by simpa using hj)]

/-- The virtual branch of `toGeneralizedJointState` on a buffer of the right
size, with active ids that are distinct and in range. -/
theorem toGeneralizedJointState_virtual_ok (s : FloatingBaseSystem α) (uninit : Nat → α)
    (b : Vector6d α) (j : List α)
    (htype : s.getTypeOfDynamicSystem = .VirtualFloatingBase)
    (hj : j.length = s.getJointDoF)
    (hbuf : s.full_state_.length = s.getFloatingBaseDoF + s.getJointDoF)
    (hrange : ActiveIdsInRange s) (hdist : ActiveIdsDistinct s) :
    ∃ g, toGeneralizedJointState s uninit b j = .ok (g, { s with full_state_ := g }) ∧
      g.length = s.getFloatingBaseDoF + s.getJointDoF ∧
      (∀ c : Coords6d, (s.getFloatingBaseJoint c).active = true →
        g[(s.getFloatingBaseJoint c).id]? = some (b c)) ∧
      g.drop s.getFloatingBaseDoF = j := by
  obtain ⟨vb, hvb, hlen, -, hval⟩ :=
    writeSlots_spec (slotWrites s b) (Eigen.uninitialized uninit s.getFloatingBaseDoF) (by
      intro w hw ha
      obtain ⟨c, rfl⟩ := (slotWrites_mem s b w).mp hw
      rw [Eigen.length_uninitialized]
      exact hrange c ha)
  rw [Eigen.length_uninitialized] at hlen
  have hglen : (vb ++ j).length = s.getFloatingBaseDoF + s.getJointDoF := by
    rw [List.length_append, hlen, hj]
  refine ⟨vb ++ j, ?_, hglen, ?_, ?_⟩
  · rw [toGeneralizedJointState_virtual s uninit b j hj htype, hvb]
    have : Eigen.commaInit s.full_state_ [vb, j] = .ok (vb ++ j) := by
      rw [Eigen.commaInit_ok (by simp [hbuf, hlen, hj])]
      simp
    simp [bind, Except.bind, this, pure, Except.pure]
  · intro c ha
    have hlt : (s.getFloatingBaseJoint c).id < vb.length := by
      rw [hlen]
      exact hrange c ha
    rw [List.getElem?_append_left hlt]
    have := hval (s.getFloatingBaseJoint c, b c) ((slotWrites_mem s b _).mpr ⟨c, rfl⟩) ha (by
      intro w' hw' ha' hid'
      obtain ⟨d, rfl⟩ := (slotWrites_mem s b w').mp hw'
      have : d = c := hdist d c ha' ha hid'
      rw [this])
    exact this
  · rw [← hlen]
    simp

/-- C3 (amended). For a VirtualFloatingBase system as construction leaves it
(state buffer of `getFloatingBaseDoF() + numJoints` entries) whose active slots
carry pairwise distinct ids below `getFloatingBaseDoF()`, and a joint vector of
length numJoints, `toGeneralizedJointState(b, j)` returns a vector of length
`getFloatingBaseDoF() + numJoints` (the number of active slots plus numJoints
when every floating-base joint has its own slot) that holds `b[s]` at index
`id(s)` for every active slot `s` and `j` in its trailing numJoints entries. -/
theorem toGeneralizedJointState_virtual_layout (s : FloatingBaseSystem α) (uninit : Nat → α)
    (b : Vector6d α) (j : List α)
    (htype : s.getTypeOfDynamicSystem = .VirtualFloatingBase)
    (hj : j.length = s.getJointDoF)
    (hbuf : s.full_state_.length = s.getFloatingBaseDoF + s.getJointDoF)
    (hrange : ActiveIdsInRange s) (hdist : ActiveIdsDistinct s) :
    ∃ g, toGeneralizedJointState s uninit b j = .ok (g, { s with full_state_ := g }) ∧
      g.length = s.getFloatingBaseDoF + s.getJointDoF ∧
      (numActiveSlots s = s.getFloatingBaseDoF → g.length = numActiveSlots s + s.getJointDoF) ∧
      (∀ c : Coords6d, (s.getFloatingBaseJoint c).active = true →
        g[(s.getFloatingBaseJoint c).id]? = some (b c)) ∧
      g.drop s.getFloatingBaseDoF = j := by
  obtain ⟨g, h1, h2, h3, h4⟩ :=
    toGeneralizedJointState_virtual_ok s uninit b j htype hj hbuf hrange hdist
  exact ⟨g, h1, h2, fun h => by rw [h2, h], h3, h4⟩

/-! ### Reading the generalized state back -/

theorem cast_toNat (c : Coords6d) : Coords6d.cast c.toNat = c := by
  cases c <;> rfl

/-- The loop of `fromGeneralizedJointState` over a list of coordinate numbers:
when the active ids are within the generalized vector it succeeds, a visited
active coordinate holds the entry at its id, and every other coordinate keeps
its value. -/
theorem readSlots_spec [Zero α] (s : FloatingBaseSystem α) (g : List α) (idxs : List Nat) :
    ∀ base : Vector6d α,
      (∀ c : Coords6d, (s.getFloatingBaseJoint c).active = true →
        (s.getFloatingBaseJoint c).id < g.length) →
      ∃ base', idxs.foldlM (readSlot s g) base = .ok base' ∧
        ∀ c : Coords6d,
          (c.toNat ∈ idxs.map (fun i => (Coords6d.cast i).toNat) →
            (s.getFloatingBaseJoint c).active = true →
            g[(s.getFloatingBaseJoint c).id]? = some (base' c)) ∧
          ((c.toNat ∉ idxs.map (fun i => (Coords6d.cast i).toNat) ∨
            (s.getFloatingBaseJoint c).active = false) → base' c = base c) := by
  induction idxs with
  | nil =>
    intro base _
    exact ⟨base, rfl, fun c => ⟨fun h => by simp at h, fun _ => rfl⟩⟩
  | cons i rest ih =>
    intro base hr
    obtain ⟨base1, h1, hhit, hmiss⟩ :
        ∃ base1, readSlot s g base i = .ok base1 ∧
          ((s.getFloatingBaseJoint (Coords6d.cast i)).active = true →
            g[(s.getFloatingBaseJoint (Coords6d.cast i)).id]? = some (base1 (Coords6d.cast i))) ∧
          (∀ c, (c ≠ Coords6d.cast i ∨ (s.getFloatingBaseJoint c).active = false) →
            base1 c = base c) := by
      by_cases ha : (s.getFloatingBaseJoint (Coords6d.cast i)).active = true
      · have hlt := hr _ ha
        refine ⟨base.set (Coords6d.cast i) (g[(s.getFloatingBaseJoint (Coords6d.cast i)).id]), ?_, ?_, ?_⟩
        · simp [readSlot, ha, Eigen.coeff, List.getElem?_eq_getElem hlt, bind, Except.bind, pure,
            Except.pure]
        · intro _
          simp [Vector6d.set, List.getElem?_eq_getElem hlt]
        · intro c hc
          rcases hc with hc | hc
          · simp [Vector6d.set, hc]
          · have : c ≠ Coords6d.cast i := by
              rintro rfl
              simp [ha] at hc
            simp [Vector6d.set, this]
      · refine ⟨base, by simp [readSlot, ha], fun h => absurd h ha, fun _ _ => rfl⟩
    obtain ⟨base', h', hspec⟩ := ih base1 hr
    refine ⟨base', ?_, ?_⟩
    · simp only [List.foldlM_cons]
      rw [h1]
      exact h'
    · intro c
      by_cases hin : c.toNat ∈ rest.map (fun i => (Coords6d.cast i).toNat)
      · refine ⟨fun _ ha => (hspec c).1 hin ha, ?_⟩
        intro h
        rcases h with h | h
        · exact absurd (List.mem_cons_of_mem _ hin) (by simpa using h)
        · rw [(hspec c).2 (Or.inr h), hmiss c (Or.inr h)]
      · constructor
        · intro hc ha
          have hci : c = Coords6d.cast i := by
            simp only [List.map_cons, List.mem_cons] at hc
            rcases hc with hc | hc
            · rw [← cast_toNat c, hc, cast_toNat]
            · exact absurd hc hin
          rw [(hspec c).2 (Or.inl hin), hci]
          exact hhit (hci ▸ ha)
        · intro h
          rw [(hspec c).2 (Or.inl hin)]
          apply hmiss
          rcases h with h | h
          · left
            rintro rfl
            apply h
            simp
          · exact Or.inr h

theorem toNat_mem_range_six (c : Coords6d) :
    c.toNat ∈ (List.range 6).map (fun i => (Coords6d.cast i).toNat) := by
  cases c <;> decide

/-- The virtual branch of `fromGeneralizedJointState`: with the active ids below
`getFloatingBaseDoF()` and a generalized vector that is long enough, the call
returns; an active coordinate holds the entry at its id, an inactive one keeps
the value the output argument had, and the joints are the entries after the
base block. -/
theorem fromGeneralizedJointState_virtual [Zero α] (s : FloatingBaseSystem α)
    (uninit : Nat → α) (base : Vector6d α) (joints g : List α)
    (htype : s.getTypeOfDynamicSystem = .VirtualFloatingBase)
    (hrange : ActiveIdsInRange s)
    (hlen : s.getFloatingBaseDoF + s.getJointDoF ≤ g.length) :
    ∃ base', fromGeneralizedJointState s uninit base joints g =
        .ok (base', (g.drop s.getFloatingBaseDoF).take s.getJointDoF) ∧
      (∀ c : Coords6d, (s.getFloatingBaseJoint c).active = true →
        g[(s.getFloatingBaseJoint c).id]? = some (base' c)) ∧
      (∀ c : Coords6d, (s.getFloatingBaseJoint c).active = false → base' c = base c) := by
  obtain ⟨base', h', hspec⟩ := readSlots_spec s g (List.range 6) base (fun c ha => by
    have := hrange c ha
    omega)
  refine ⟨base', ?_, fun c ha => (hspec c).1 (toNat_mem_range_six c) ha,
    fun c ha => (hspec c).2 (Or.inr ha)⟩
  unfold fromGeneralizedJointState
  rw [if_neg (by simp [htype]), if_pos htype, h', Eigen.segment_ok hlen]
  simp [bind, Except.bind, pure, Except.pure, Eigen.assign]

/-- The floating branch of `fromGeneralizedJointState` on a generalized vector
that starts with six base entries. -/
theorem fromGeneralizedJointState_floating [Zero α] (s : FloatingBaseSystem α)
    (uninit : Nat → α) (base : Vector6d α) (joints rest : List α) (x0 x1 x2 x3 x4 x5 : α)
    (htype : s.getTypeOfDynamicSystem = .FloatingBase ∨
      s.getTypeOfDynamicSystem = .ConstrainedFloatingBase)
    (hlen : s.getJointDoF ≤ rest.length) :
    ∃ base', fromGeneralizedJointState s uninit base joints
        (x0 :: x1 :: x2 :: x3 :: x4 :: x5 :: rest) = .ok (base', rest.take s.getJointDoF) ∧
      base' .AX = x3 ∧ base' .AY = x4 ∧ base' .AZ = x5 ∧
      base' .LX = x0 ∧ base' .LY = x1 ∧ base' .LZ = x2 := by
  refine ⟨base.ofBlocks [x3, x4, x5] [x0, x1, x2], ?_, rfl, rfl, rfl, rfl, rfl, rfl⟩
  unfold fromGeneralizedJointState
  rw [if_pos htype]
  have h1 : Eigen.segment (x0 :: x1 :: x2 :: x3 :: x4 :: x5 :: rest) Coords6d.LX.toNat 3 =
      .ok [x3, x4, x5] := by
    simp [Eigen.segment, Coords6d.toNat]
  have h2 : Eigen.segment (x0 :: x1 :: x2 :: x3 :: x4 :: x5 :: rest) Coords6d.AX.toNat 3 =
      .ok [x0, x1, x2] := by
    simp [Eigen.segment, Coords6d.toNat]
  have h3 : Eigen.segment (x0 :: x1 :: x2 :: x3 :: x4 :: x5 :: rest) 6 s.getJointDoF =
      .ok (rest.take s.getJointDoF) := by
    rw [Eigen.segment_ok (by simp; omega)]
    simp
  rw [h1, h2, h3]
  simp [bind, Except.bind, pure, Except.pure, Eigen.assign]

/-! ### Round trip -/

/-- C1 (amended). For a joint vector of length numJoints and a system whose state
buffer is sized for its type (and, for a virtual base, whose active slots carry
pairwise distinct ids below `getFloatingBaseDoF()`), whatever the output
arguments held, `fromGeneralizedJointState` applied to
`toGeneralizedJointState(base, joints)` returns `joints` exactly, together with
`base` exactly for FloatingBase and ConstrainedFloatingBase, a vector equal to
`base` at every active coordinate for VirtualFloatingBase, and the zero vector
for FixedBase. -/
theorem generalized_roundTrip [Zero α] (s : FloatingBaseSystem α) (u₁ u₂ : Nat → α)
    (base prior_base : Vector6d α) (joints prior_joints : List α)
    (hj : joints.length = s.getJointDoF) (hbuf : BufferSized s)
    (hslots : s.getTypeOfDynamicSystem = .VirtualFloatingBase →
      ActiveIdsInRange s ∧ ActiveIdsDistinct s) :
    ∃ g s' base', toGeneralizedJointState s u₁ base joints = .ok (g, s') ∧
      fromGeneralizedJointState s' u₂ prior_base prior_joints g = .ok (base', joints) ∧
      ((s.getTypeOfDynamicSystem = .FloatingBase ∨
          s.getTypeOfDynamicSystem = .ConstrainedFloatingBase) → base' = base) ∧
      (s.getTypeOfDynamicSystem = .VirtualFloatingBase →
        ∀ c : Coords6d, (s.getFloatingBaseJoint c).active = true → base' c = base c) ∧
      (s.getTypeOfDynamicSystem = .FixedBase → base' = Vector6d.Zero) := by
  by_cases hfl : s.getTypeOfDynamicSystem = .FloatingBase ∨
      s.getTypeOfDynamicSystem = .ConstrainedFloatingBase
  · -- floating base
    have hto := toGeneralizedJointState_floating_ok s u₁ base joints hfl hj (hbuf.1 hfl)
    obtain ⟨base', hfrom, h1, h2, h3, h4, h5, h6⟩ :=
      fromGeneralizedJointState_floating
        { s with full_state_ := [base .LX, base .LY, base .LZ, base .AX, base .AY, base .AZ] ++ joints }
        u₂ prior_base prior_joints joints (base .LX) (base .LY) (base .LZ) (base .AX) (base .AY)
        (base .AZ) hfl (le_of_eq hj.symm)
    refine ⟨_, _, base', hto, ?_, ?_, ?_, ?_⟩
    · have htake : joints.take s.getJointDoF = joints := by
        rw [← hj]
        exact List.take_length _
      have hs : getJointDoF { s with full_state_ :=
          [base .LX, base .LY, base .LZ, base .AX, base .AY, base .AZ] ++ joints } =
          s.getJointDoF := rfl
      rw [hs, htake] at hfrom
      exact hfrom
    · intro _
      funext c
      cases c <;> assumption
    · intro hv
      rcases hfl with h | h <;> rw [h] at hv <;> cases hv
    · intro hv
      rcases hfl with h | h <;> rw [h] at hv <;> cases hv
  · by_cases hv : s.getTypeOfDynamicSystem = .VirtualFloatingBase
    · -- virtual floating base
      obtain ⟨hrange, hdist⟩ := hslots hv
      obtain ⟨g, hto, hglen, hval, hdrop⟩ :=
        toGeneralizedJointState_virtual_ok s u₁ base joints hv hj (hbuf.2 hv) hrange hdist
      obtain ⟨base', hfrom, hact, -⟩ :=
        fromGeneralizedJointState_virtual { s with full_state_ := g } u₂ prior_base prior_joints g
          hv hrange (le_of_eq hglen.symm)
      refine ⟨g, _, base', hto, ?_, fun h => absurd h hfl, ?_, ?_⟩
      · have hs : getJointDoF { s with full_state_ := g } = s.getJointDoF := rfl
        have hs' : getFloatingBaseDoF { s with full_state_ := g } = s.getFloatingBaseDoF := rfl
        rw [hs, hs', hdrop, ← hj, List.take_length] at hfrom
        exact hfrom
      · intro _ c ha
        have h1 := hact c ha
        have h2 := hval c ha
        have h3 : getFloatingBaseJoint { s with full_state_ := g } c = s.getFloatingBaseJoint c :=
          rfl
        rw [h3, h2] at h1
        exact (Option.some.inj h1).symm
      · intro hf
        rw [hf] at hv
        cases hv
    · -- fixed base
      refine ⟨joints, { s with full_state_ := joints }, Vector6d.Zero, ?_, ?_,
        fun h => absurd h hfl, fun h => absurd h hv, fun _ => rfl⟩
      · unfold toGeneralizedJointState
        rw [if_neg (by simpa using hj), if_neg hfl, if_neg hv]
        rfl
      · unfold fromGeneralizedJointState
        have h1 : ¬ (getTypeOfDynamicSystem { s with full_state_ := joints } = .FloatingBase ∨
            getTypeOfDynamicSystem { s with full_state_ := joints } =
              .ConstrainedFloatingBase) := hfl
        have h2 : ¬ getTypeOfDynamicSystem { s with full_state_ := joints } =
            .VirtualFloatingBase := hv
        rw [if_neg h1, if_neg h2]
        rfl

/-- C1 (counterexample). On the fixed-base model `twoJointArm` the round trip of
the base `(1, 2, 3, 4, 5, 6)` and the joints `[8, 9]` gives back the joints but
the zero base vector, not the base that went in. -/
theorem roundTrip_fixedBase_counterexample :
    toGeneralizedJointState Example.twoJointArm Example.garbage Example.base123456 [8, 9] =
        .ok ([8, 9], { Example.twoJointArm with full_state_ := [8, 9] }) ∧
      fromGeneralizedJointState { Example.twoJointArm with full_state_ := [8, 9] }
        Example.garbage Example.base123456 [8, 9] [8, 9] = .ok (Vector6d.Zero, [8, 9]) ∧
      (Vector6d.Zero : Vector6d Int) ≠ Example.base123456 := by
  refine ⟨rfl, rfl, ?_⟩
  intro h
  have := congrFun h .AX
  simp [Vector6d.Zero, Example.base123456, Coords6d.toNat] at this

/-- C3 (counterexample). The model built from `twinRail` is a VirtualFloatingBase
system with one active slot and one joint, and `toGeneralizedJointState`
returns three entries for it, not two. -/
theorem virtual_length_counterexample :
    resetFromURDFModel 16 Example.garbage (FloatingBaseSystem.new Example.emptyRbd false 0)
        Example.twinRailRbd Example.twinRail none = .ok Example.twinRailSystem ∧
      Example.twinRailSystem.getTypeOfDynamicSystem = .VirtualFloatingBase ∧
      numActiveSlots Example.twinRailSystem = 1 ∧
      Example.twinRailSystem.getJointDoF = 1 ∧
      toGeneralizedJointState Example.twinRailSystem Example.garbage Example.base123456 [9] =
        .ok ([4, 1001, 9], { Example.twinRailSystem with full_state_ := [4, 1001, 9] }) ∧
      ([4, 1001, 9] : List Int).length ≠
        numActiveSlots Example.twinRailSystem + Example.twinRailSystem.getJointDoF := by
  refine ⟨by rfl, rfl, rfl, rfl, rfl, by decide⟩

/-- C5 (the code at the failing input). On the model built from `railHopper`,
whose only active slot is LX, `fromGeneralizedJointState` called with an output
base vector that holds 7 in every row returns 7, not 0, at the inactive
coordinates. -/
theorem fromGeneralizedJointState_keeps_inactive :
    ∃ base', fromGeneralizedJointState Example.railHopperSystem Example.garbage Example.base7 []
        [5, 9] = .ok (base', [9]) ∧
      (Example.railHopperSystem.getFloatingBaseJoint .AX).active = false ∧
      base' .AX = 7 ∧ base' .AY = 7 ∧ base' .AZ = 7 ∧ base' .LX = 5 ∧ base' .LY = 7 ∧
      base' .LZ = 7 :=
  ⟨_, rfl, rfl, rfl, rfl, rfl, rfl, rfl, rfl⟩

/-! ### The joint part of `fromGeneralizedJointState` -/

/-- C7 (amended). For every system type and every generalized vector of the
length of the system (base block plus numJoints; for a virtual base with the
active ids below `getFloatingBaseDoF()`), `fromGeneralizedJointState` returns a
joint vector of exactly numJoints entries, the entries that follow the base
block. For a floating, constrained or virtual base the same holds for any
generalized vector on which the call returns. For a fixed base the joint vector
is the generalized vector itself, whatever its length. -/
theorem fromGeneralizedJointState_joints [Zero α] (s : FloatingBaseSystem α)
    (uninit : Nat → α) (base : Vector6d α) (joints g : List α) :
    (g.length = baseBlockSize s + s.getJointDoF →
      (s.getTypeOfDynamicSystem = .VirtualFloatingBase → ActiveIdsInRange s) →
      ∃ base', fromGeneralizedJointState s uninit base joints g =
          .ok (base', g.drop (baseBlockSize s)) ∧
        (g.drop (baseBlockSize s)).length = s.getJointDoF) ∧
    (s.getTypeOfDynamicSystem ≠ .FixedBase → ∀ base' joints',
      fromGeneralizedJointState s uninit base joints g = .ok (base', joints') →
      joints'.length = s.getJointDoF ∧
        joints' = (g.drop (baseBlockSize s)).take s.getJointDoF) ∧
    (s.getTypeOfDynamicSystem = .FixedBase →
      fromGeneralizedJointState s uninit base joints g = .ok (Vector6d.Zero, g)) := by
  refine ⟨?_, ?_, ?_⟩
  · intro hlen hr
    have hdroplen : (g.drop (baseBlockSize s)).length = s.getJointDoF := by
      rw [List.length_drop, hlen]
      omega
    by_cases hfl : s.getTypeOfDynamicSystem = .FloatingBase ∨
        s.getTypeOfDynamicSystem = .ConstrainedFloatingBase
    · have hb : baseBlockSize s = 6 := by
        unfold baseBlockSize
        rcases hfl with h | h <;> rw [h]
      rw [hb] at hlen hdroplen ⊢
      refine ⟨base.ofBlocks ((g.drop Coords6d.LX.toNat).take 3)
        ((g.drop Coords6d.AX.toNat).take 3), ?_, hdroplen⟩
      unfold fromGeneralizedJointState
      rw [if_pos hfl, Eigen.segment_ok (by simp [Coords6d.toNat]; omega),
        Eigen.segment_ok (by simp [Coords6d.toNat]; omega), Eigen.segment_ok (by omega)]
      simp only [bind, Except.bind, pure, Except.pure, Eigen.assign]
      rw [List.take_of_length_le (le_of_eq hdroplen)]
    · by_cases hv : s.getTypeOfDynamicSystem = .VirtualFloatingBase
      · have hb : baseBlockSize s = s.getFloatingBaseDoF := by
          unfold baseBlockSize
          rw [hv]
        rw [hb] at hlen hdroplen ⊢
        obtain ⟨base', hfrom, -, -⟩ :=
          fromGeneralizedJointState_virtual s uninit base joints g hv (hr hv) (le_of_eq hlen.symm)
        rw [List.take_of_length_le (le_of_eq hdroplen)] at hfrom
        exact ⟨base', hfrom, hdroplen⟩
      · have hb : baseBlockSize s = 0 := by
          unfold baseBlockSize
          cases hs : s.getTypeOfDynamicSystem <;> simp_all
        rw [hb] at hdroplen ⊢
        refine ⟨Vector6d.Zero, ?_, hdroplen⟩
        unfold fromGeneralizedJointState
        rw [if_neg hfl, if_neg hv]
        rfl
  · intro hnf base' joints' h
    by_cases hfl : s.getTypeOfDynamicSystem = .FloatingBase ∨
        s.getTypeOfDynamicSystem = .ConstrainedFloatingBase
    · have hb : baseBlockSize s = 6 := by
        unfold baseBlockSize
        rcases hfl with h | h <;> rw [h]
      rw [hb]
      unfold fromGeneralizedJointState at h
      rw [if_pos hfl] at h
      cases h1 : Eigen.segment g Coords6d.LX.toNat 3 with
      | error e => simp [h1, bind, Except.bind] at h
      | ok top =>
        cases h2 : Eigen.segment g Coords6d.AX.toNat 3 with
        | error e => simp [h1, h2, bind, Except.bind] at h
        | ok bottom =>
          cases h3 : Eigen.segment g 6 s.getJointDoF with
          | error e => simp [h1, h2, h3, bind, Except.bind] at h
          | ok tail =>
            simp only [h1, h2, h3, bind, Except.bind, pure, Except.pure, Eigen.assign,
              Except.ok.injEq, Prod.mk.injEq] at h
            rw [← h.2]
            exact Eigen.length_of_segment_eq_ok h3
    · have hv : s.getTypeOfDynamicSystem = .VirtualFloatingBase := by
        cases hs : s.getTypeOfDynamicSystem <;> simp_all
      have hb : baseBlockSize s = s.getFloatingBaseDoF := by
        unfold baseBlockSize
        rw [hv]
      rw [hb]
      unfold fromGeneralizedJointState at h
      rw [if_neg hfl, if_pos hv] at h
      cases h1 : (List.range 6).foldlM (readSlot s g) base with
      | error e => simp [h1, bind, Except.bind] at h
      | ok b1 =>
        cases h3 : Eigen.segment g s.getFloatingBaseDoF s.getJointDoF with
        | error e => simp [h1, h3, bind, Except.bind] at h
        | ok tail =>
          simp only [h1, h3, bind, Except.bind, pure, Except.pure, Eigen.assign,
            Except.ok.injEq, Prod.mk.injEq] at h
          rw [← h.2]
          exact Eigen.length_of_segment_eq_ok h3
  · intro hf
    unfold fromGeneralizedJointState
    rw [if_neg (by simp [hf]), if_neg (by simp [hf])]
    rfl

/-- C7 (counterexample). On the fixed-base model `twoJointArm`, with two joints,
a generalized vector of three entries comes back as a joint vector of three
entries. -/
theorem fromGeneralizedJointState_fixed_counterexample :
    Example.twoJointArm.getTypeOfDynamicSystem = .FixedBase ∧
      Example.twoJointArm.getJointDoF = 2 ∧
      fromGeneralizedJointState Example.twoJointArm Example.garbage Example.base7 []
        [1, 2, 3] = .ok (Vector6d.Zero, [1, 2, 3]) ∧
      ([1, 2, 3] : List Int).length ≠ Example.twoJointArm.getJointDoF :=
  ⟨rfl, rfl, rfl, by decide⟩

/-! ### Construction from a description -/

/-- What a successful `resetFromURDFModel` went through. -/
theorem resetFromURDFModel_inv [Zero α] [DecidableEq α] {fuel : Nat} {uninit : Nat → α}
    {s S : FloatingBaseSystem α} {rbd : RBDModel} {model : urdf.ModelInterface α}
    {system_file : Option (SystemDescription α)}
    (h : resetFromURDFModel fuel uninit s rbd model system_file = .ok S) :
    ∃ floating_joint_names s3 free_joint_names joint_limits end_effectors s13,
      urdf_model.getJointNames fuel [] model .floating = .ok floating_joint_names ∧
      setFloatingSlots fuel model floating_joint_names
        { s with rbd_model_ := rbd, num_floating_joints_ := StdMap.size floating_joint_names } =
          .ok s3 ∧
      urdf_model.getJointNames fuel [] model .free = .ok free_joint_names ∧
      urdf_model.getJointLimits fuel s3.joint_limits_ model = .ok joint_limits ∧
      urdf_model.getEndEffectors fuel
        (stateAfterJoints s3 floating_joint_names free_joint_names joint_limits).end_effectors_
        model = .ok end_effectors ∧
      resetOptionalDescription
        (stateBeforeDescription
          (stateAfterJoints s3 floating_joint_names free_joint_names joint_limits)
          end_effectors) system_file = .ok s13 ∧
      S = finishReset uninit s13 := by
  unfold resetFromURDFModel at h
  cases h1 : urdf_model.getJointNames fuel [] model .floating with
  | error e => simp [h1, bind, Except.bind] at h
  | ok floating_joint_names =>
    simp only [h1, bind, Except.bind] at h
    cases h2 : setFloatingSlots fuel model floating_joint_names
        { s with rbd_model_ := rbd, num_floating_joints_ := StdMap.size floating_joint_names } with
    | error e => simp [h2] at h
    | ok s3 =>
      simp only [h2] at h
      cases h3 : urdf_model.getJointNames fuel [] model .free with
      | error e => simp [h3] at h
      | ok free_joint_names =>
        simp only [h3] at h
        cases h4 : urdf_model.getJointLimits fuel s3.joint_limits_ model with
        | error e => simp [h4] at h
        | ok joint_limits =>
          simp only [h4] at h
          cases h5 : urdf_model.getEndEffectors fuel
              (stateAfterJoints s3 floating_joint_names free_joint_names
                joint_limits).end_effectors_ model with
          | error e =>
            simp only [stateAfterJoints] at h5
            simp [h5] at h
          | ok end_effectors =>
            cases h6 : resetOptionalDescription
                (stateBeforeDescription
                  (stateAfterJoints s3 floating_joint_names free_joint_names joint_limits)
                  end_effectors) system_file with
            | error e =>
              simp only [stateAfterJoints, stateBeforeDescription] at h5 h6
              simp [h5, h6] at h
            | ok s13 =>
              refine ⟨floating_joint_names, s3, free_joint_names, joint_limits, end_effectors,
                s13, rfl, h2, rfl, h4, h5, h6, ?_⟩
              simp only [stateAfterJoints, stateBeforeDescription] at h5 h6
              simp only [h5, h6, pure, Except.pure, Except.ok.injEq] at h
              exact h.symm

/-- A property that every step of a failing loop keeps is kept by the loop. -/
theorem foldlM_preserves {σ β : Type} (P : σ → Prop) (step : σ → β → Except Failure σ)
    (hstep : ∀ s x s', P s → step s x = .ok s' → P s') :
    ∀ (l : List β) (s s' : σ), P s → l.foldlM step s = .ok s' → P s' := by
  intro l
  induction l with
  | nil =>
    intro s s' hP h
    cases h
    exact hP
  | cons x rest ih =>
    intro s s' hP h
    simp only [List.foldlM_cons] at h
    cases h1 : step s x with
    | error e => simp [h1, bind, Except.bind] at h
    | ok s1 =>
      simp only [h1, bind, Except.bind] at h
      exact ih s1 s' (hstep s x s1 hP h1) h

/-- A property that every step of a loop keeps is kept by the loop. -/
theorem foldl_preserves {σ β : Type} (P : σ → Prop) (step : σ → β → σ)
    (hstep : ∀ s x, P s → P (step s x)) : ∀ (l : List β) (s : σ), P s → P (l.foldl step s) := by
  intro l
  induction l with
  | nil => exact fun s hP => hP
  | cons x rest ih => exact fun s hP => ih _ (hstep s x hP)

theorem setFloatingSlot_feetData (names : urdf_model.JointID) (s s' : FloatingBaseSystem α)
    (jnt : String × Nat) (h : setFloatingSlot names s jnt = .ok s') :
    feetData s' = feetData s ∧ s'.num_floating_joints_ = s.num_floating_joints_ ∧
      s'.joint_limits_ = s.joint_limits_ := by
  unfold setFloatingSlot at h
  dsimp only at h
  cases hf : StdMap.find names jnt.1 with
  | none =>
    rw [hf] at h
    cases h
  | some joint_id =>
    rw [hf] at h
    dsimp only at h
    split at h
    · cases h
      exact ⟨rfl, rfl, rfl⟩
    · cases h
      unfold setFloatingBaseJointCoord
      split_ifs <;> exact ⟨rfl, rfl, rfl⟩

theorem setFloatingSlots_feetData [Zero α] [DecidableEq α] (fuel : Nat)
    (model : urdf.ModelInterface α) (names : urdf_model.JointID) (s s' : FloatingBaseSystem α)
    (h : setFloatingSlots fuel model names s = .ok s') :
    feetData s' = feetData s ∧ s'.num_floating_joints_ = s.num_floating_joints_ ∧
      s'.joint_limits_ = s.joint_limits_ := by
  unfold setFloatingSlots at h
  split at h
  · split at h
    · cases h
    · exact foldlM_preserves
        (fun t => feetData t = feetData s ∧ t.num_floating_joints_ = s.num_floating_joints_ ∧
          t.joint_limits_ = s.joint_limits_)
        (setFloatingSlot names)
        (fun t x t' hP ht => by
          obtain ⟨h1, h2, h3⟩ := setFloatingSlot_feetData names t t' x ht
          exact ⟨h1.trans hP.1, h2.trans hP.2.1, h3.trans hP.2.2⟩)
        _ s s' ⟨rfl, rfl, rfl⟩ h
  · cases h
    exact ⟨rfl, rfl, rfl⟩

theorem setActuatedJoints_frame (names : urdf_model.JointID) (free : List (String × Nat))
    (s : FloatingBaseSystem α) :
    feetData (free.foldl (setActuatedJoint names) s) = feetData s ∧
      typeData (free.foldl (setActuatedJoint names) s) = typeData s ∧
      (free.foldl (setActuatedJoint names) s).num_joints_ = s.num_joints_ :=
  foldl_preserves
    (fun t => feetData t = feetData s ∧ typeData t = typeData s ∧ t.num_joints_ = s.num_joints_)
    (setActuatedJoint names)
    (fun t x hP => by
      unfold setActuatedJoint
      dsimp only
      split_ifs <;> exact hP)
    free s ⟨rfl, rfl, rfl⟩

theorem isFullyFloatingBase_iff (s : FloatingBaseSystem α) :
    s.isFullyFloatingBase = true ↔ ∀ c, activeFlags s c = true := by
  constructor
  · intro h c
    unfold isFullyFloatingBase at h
    cases c <;> simp_all [activeFlags, getFloatingBaseJoint]
  · intro h
    have h1 := h .AX
    have h2 := h .AY
    have h3 := h .AZ
    have h4 := h .LX
    have h5 := h .LY
    have h6 := h .LZ
    simp_all [activeFlags, getFloatingBaseJoint, isFullyFloatingBase]

theorem hasFloatingBaseConstraints_iff (s : FloatingBaseSystem α) :
    s.hasFloatingBaseConstraints = true ↔ ∃ c, constrainedFlags s c = true := by
  constructor
  · intro h
    by_contra hne
    have h1 : constrainedFlags s .AX ≠ true := fun e => hne ⟨_, e⟩
    have h2 : constrainedFlags s .AY ≠ true := fun e => hne ⟨_, e⟩
    have h3 : constrainedFlags s .AZ ≠ true := fun e => hne ⟨_, e⟩
    have h4 : constrainedFlags s .LX ≠ true := fun e => hne ⟨_, e⟩
    have h5 : constrainedFlags s .LY ≠ true := fun e => hne ⟨_, e⟩
    have h6 : constrainedFlags s .LZ ≠ true := fun e => hne ⟨_, e⟩
    simp_all [constrainedFlags, getFloatingBaseJoint, hasFloatingBaseConstraints]
  · rintro ⟨c, hc⟩
    cases c <;> simp_all [constrainedFlags, getFloatingBaseJoint, hasFloatingBaseConstraints]

/-- The derivation block changes only the stored type and the system DoF. -/
theorem deriveTypeOfSystem_frame (s : FloatingBaseSystem α) :
    activeFlags (deriveTypeOfSystem s) = activeFlags s ∧
      constrainedFlags (deriveTypeOfSystem s) = constrainedFlags s ∧
      (deriveTypeOfSystem s).num_floating_joints_ = s.num_floating_joints_ ∧
      feetData (deriveTypeOfSystem s) = feetData s ∧
      (deriveTypeOfSystem s).num_joints_ = s.num_joints_ := by
  unfold deriveTypeOfSystem
  dsimp only
  split_ifs <;> exact ⟨rfl, rfl, rfl, rfl, rfl⟩

/-- The derivation block stores the type that the six slots and the number of
floating-base joints determine. -/
theorem deriveTypeOfSystem_type (s : FloatingBaseSystem α) :
    (deriveTypeOfSystem s).type_of_system_ =
      typeOfSlots (activeFlags s) (constrainedFlags s) s.num_floating_joints_ := by
  have hfull := isFullyFloatingBase_iff s
  have hcon := hasFloatingBaseConstraints_iff s
  have e1 : ∀ n, isFullyFloatingBase { s with num_system_joints_ := n } =
      s.isFullyFloatingBase := fun _ => rfl
  have e2 : ∀ n, hasFloatingBaseConstraints { s with num_system_joints_ := n } =
      s.hasFloatingBaseConstraints := fun _ => rfl
  unfold deriveTypeOfSystem typeOfSlots
  dsimp only
  rw [e1, e2]
  by_cases h1 : s.isFullyFloatingBase = true
  · rw [if_pos h1, if_pos (hfull.mp h1)]
    by_cases h2 : s.hasFloatingBaseConstraints = true
    · rw [if_pos h2, if_pos (hcon.mp h2)]
    · rw [if_neg h2, if_neg (fun h => h2 (hcon.mpr h))]
  · rw [if_neg h1, if_neg (fun h => h1 (hfull.mpr h))]
    split_ifs <;> rfl

theorem typeData_eq {s s' : FloatingBaseSystem α} (h : typeData s' = typeData s) :
    s'.type_of_system_ = s.type_of_system_ ∧ s'.num_floating_joints_ = s.num_floating_joints_ ∧
      activeFlags s' = activeFlags s ∧ constrainedFlags s' = constrainedFlags s := by
  simp only [typeData, Prod.mk.injEq] at h
  obtain ⟨h0, h1, h2, h3, h4, h5, h6, h7⟩ := h
  refine ⟨h0, h1, ?_, ?_⟩ <;>
  · funext c
    cases c <;> simp [activeFlags, constrainedFlags, getFloatingBaseJoint, *]

theorem addFoot_typeData (s : FloatingBaseSystem α) (name : String) :
    typeData (addFoot s name) = typeData s := by
  unfold addFoot
  split_ifs <;> rfl

theorem readFeet_typeData (s : FloatingBaseSystem α) (file : SystemDescription α) :
    typeData (readFeet s file) = typeData s := by
  unfold readFeet
  split
  · exact foldl_preserves (fun t => typeData t = typeData s) addFoot
      (fun t x hP => (addFoot_typeData t x).trans hP) _ _ rfl
  · rfl

theorem readPosture_frame (file : SystemDescription α) (s s' : FloatingBaseSystem α) (j : Nat)
    (h : readPosture file s j = .ok s') : typeData s' = typeData s ∧ feetData s' = feetData s := by
  unfold readPosture at h
  split at h
  · cases h
  · split at h
    · split at h
      · cases h
      · cases h
        exact ⟨rfl, rfl⟩
    · cases h
      exact ⟨rfl, rfl⟩

theorem resetSystemDescription_typeData (s s' : FloatingBaseSystem α)
    (file : SystemDescription α) (h : resetSystemDescription s file = .ok s') :
    typeData s' = typeData s := by
  unfold resetSystemDescription at h
  dsimp only at h
  have := foldlM_preserves (fun t => typeData t = typeData s) (readPosture file)
    (fun t x t' hP ht => (readPosture_frame file t t' x ht).1.trans hP) _ _ s'
    (readFeet_typeData s file) h
  exact this

theorem resetOptionalDescription_typeData (s s' : FloatingBaseSystem α)
    (system_file : Option (SystemDescription α))
    (h : resetOptionalDescription s system_file = .ok s') : typeData s' = typeData s := by
  unfold resetOptionalDescription at h
  split at h
  · exact resetSystemDescription_typeData s s' _ h
  · cases h
    rfl

theorem finishReset_typeData (uninit : Nat → α) (s : FloatingBaseSystem α) :
    typeData (finishReset uninit s) = typeData s := by
  unfold finishReset
  dsimp only
  split_ifs <;> rfl

/-- The state buffer has the size of the layout after `resetFromURDFModel`. -/
theorem finishReset_bufferSized (uninit : Nat → α) (s : FloatingBaseSystem α) :
    BufferSized (finishReset uninit s) := by
  unfold finishReset
  dsimp only
  cases ht : s.type_of_system_ <;> by_cases hf : s.num_feet_ = 0 <;>
    simp [BufferSized, getTypeOfDynamicSystem, getJointDoF, getFloatingBaseDoF, ht, hf,
      Eigen.length_resize]

/-- The type data of the object after the joints are set. -/
theorem stateAfterJoints_type (s3 : FloatingBaseSystem α)
    (names free : urdf_model.JointID) (limits : urdf_model.JointLimits α) :
    (stateAfterJoints s3 names free limits).type_of_system_ =
        typeOfSlots (activeFlags s3) (constrainedFlags s3) s3.num_floating_joints_ ∧
      activeFlags (stateAfterJoints s3 names free limits) = activeFlags s3 ∧
      constrainedFlags (stateAfterJoints s3 names free limits) = constrainedFlags s3 ∧
      (stateAfterJoints s3 names free limits).num_floating_joints_ = s3.num_floating_joints_ ∧
      feetData (stateAfterJoints s3 names free limits) = feetData s3 := by
  unfold stateAfterJoints
  dsimp only
  obtain ⟨hfeet, htd, -⟩ := setActuatedJoints_frame names free
    { s3 with
      floating_body_name_ :=
        s3.rbd_model_.GetBodyName (if s3.isFullyFloatingBase then 6 else s3.getFloatingBaseDoF)
      joint_limits_ := limits
      num_joints_ := usub (StdMap.size free) s3.num_floating_joints_ }
  obtain ⟨-, hnf, hact, hcon⟩ := typeData_eq htd
  refine ⟨?_, ?_, ?_, ?_, ?_⟩
  · rw [deriveTypeOfSystem_type]
    exact congr (congr (congrArg typeOfSlots hact) hcon) hnf
  · rw [(deriveTypeOfSystem_frame _).1]
    exact hact
  · rw [(deriveTypeOfSystem_frame _).2.1]
    exact hcon
  · rw [(deriveTypeOfSystem_frame _).2.2.1]
    exact hnf
  · rw [(deriveTypeOfSystem_frame _).2.2.2.1]
    exact hfeet

/-- The type data of the constructed object, in terms of the object `s3` after
the floating-base block. -/
theorem resetFromURDFModel_typeData [Zero α] [DecidableEq α] {fuel : Nat} {uninit : Nat → α}
    {s S : FloatingBaseSystem α} {rbd : RBDModel} {model : urdf.ModelInterface α}
    {system_file : Option (SystemDescription α)}
    (h : resetFromURDFModel fuel uninit s rbd model system_file = .ok S) :
    ∃ names, urdf_model.getJointNames fuel [] model .floating = .ok names ∧
      S.num_floating_joints_ = StdMap.size names ∧
      S.type_of_system_ =
        typeOfSlots (activeFlags S) (constrainedFlags S) S.num_floating_joints_ := by
  obtain ⟨names, s3, free, limits, ees, s13, h1, h2, -, -, -, h6, hS⟩ :=
    resetFromURDFModel_inv h
  obtain ⟨ht, hact, hcon, hnf, -⟩ := stateAfterJoints_type s3 names free limits
  have htd : typeData S = typeData (stateAfterJoints s3 names free limits) := by
    rw [hS, finishReset_typeData, resetOptionalDescription_typeData _ _ _ h6]
    rfl
  obtain ⟨e0, e1, e2, e3⟩ := typeData_eq htd
  have hsize : s3.num_floating_joints_ = StdMap.size names :=
    (setFloatingSlots_feetData fuel model names _ s3 h2).2.1
  refine ⟨names, h1, ?_, ?_⟩
  · rw [e1, hnf, hsize]
  · rw [e0, ht, e1, e2, e3, hnf, hact, hcon]

/-- The state buffer of every constructed model is sized for its type. -/
theorem resetFromURDFModel_bufferSized [Zero α] [DecidableEq α] {fuel : Nat} {uninit : Nat → α}
    {s S : FloatingBaseSystem α} {rbd : RBDModel} {model : urdf.ModelInterface α}
    {system_file : Option (SystemDescription α)}
    (h : resetFromURDFModel fuel uninit s rbd model system_file = .ok S) : BufferSized S := by
  obtain ⟨_, _, _, _, _, s13, -, -, -, -, -, -, hS⟩ := resetFromURDFModel_inv h
  rw [hS]
  exact finishReset_bufferSized uninit s13

/-- C8 (amended). The system type derived at construction is a total function of
the six slots' (active, constrained) flags and of the number of floating-base
joints found in the topology: all six active gives ConstrainedFloatingBase if
any slot is constrained and FloatingBase otherwise; otherwise at least one
floating-base joint gives VirtualFloatingBase and none gives FixedBase. -/
theorem resetFromURDFModel_type [Zero α] [DecidableEq α] (fuel : Nat) (uninit : Nat → α)
    (s S : FloatingBaseSystem α) (rbd : RBDModel) (model : urdf.ModelInterface α)
    (system_file : Option (SystemDescription α))
    (h : resetFromURDFModel fuel uninit s rbd model system_file = .ok S) :
    S.getTypeOfDynamicSystem =
        typeOfSlots (activeFlags S) (constrainedFlags S) S.getFloatingBaseDoF ∧
      ∃ names, urdf_model.getJointNames fuel [] model .floating = .ok names ∧
        S.getFloatingBaseDoF = StdMap.size names := by
  obtain ⟨names, h1, h2, h3⟩ := resetFromURDFModel_typeData h
  exact ⟨h3, names, h1, h2⟩

/-- C8 (counterexample). Two constructions whose result is not the type that
the slot flags alone would give. On `railBySetter`, whose slot LX was activated
before, construction from the fixed-base `benchArm` leaves LX active and stores
FixedBase. On a fresh object, construction from `stuckHopper`, whose only
floating-base joint has a zero axis, activates no slot and stores
VirtualFloatingBase. -/
theorem type_from_slots_alone_counterexample :
    (∃ S, resetFromURDFModel 16 Example.garbage Example.railBySetter Example.benchArmRbd
        Example.benchArm none = .ok S ∧
      activeFlags S .LX = true ∧ S.getTypeOfDynamicSystem = .FixedBase ∧
      typeOfSlotsAlone (activeFlags S) (constrainedFlags S) = .VirtualFloatingBase) ∧
    (∃ S, resetFromURDFModel 16 Example.garbage (FloatingBaseSystem.new Example.emptyRbd false 0)
        Example.railHopperRbd Example.stuckHopper none = .ok S ∧
      numActiveSlots S = 0 ∧ S.getTypeOfDynamicSystem = .VirtualFloatingBase ∧
      typeOfSlotsAlone (activeFlags S) (constrainedFlags S) = .FixedBase) := by
  refine ⟨⟨_, rfl, rfl, rfl, ?_⟩, ⟨_, rfl, rfl, rfl, ?_⟩⟩
  · decide
  · decide

theorem typeOfSlots_eq_alone (active constrained : Coords6d → Bool) (n : Nat)
    (h : (∀ c, active c = true) ∨ (0 < n ↔ ∃ c, active c = true)) :
    typeOfSlots active constrained n = typeOfSlotsAlone active constrained := by
  unfold typeOfSlots typeOfSlotsAlone
  by_cases hall : ∀ c, active c = true
  · rw [if_pos hall, if_pos hall]
  · rw [if_neg hall, if_neg hall]
    rcases h with h | h
    · exact absurd h hall
    · by_cases hn : 0 < n
      · rw [if_pos hn, if_pos (h.mp hn)]
      · rw [if_neg hn, if_neg (fun he => hn (h.mpr he))]

/-- C9 (amended). `getTypeOfDynamicSystem` returns the stored type. After
construction from a topology it is the type determined by the six slots
whenever all six slots are active, or the topology has a floating-base joint
exactly when some slot is active; so a model constructed with all six slots
active reports FloatingBase, or ConstrainedFloatingBase if a slot is
constrained then. After the constructor with `full = false` it is FixedBase,
the type of six inactive slots. `setFloatingBaseJoint` in both forms and
`setFloatingBaseConstraint` do not recompute it: a model `t` reports the same
type before and after them. -/
theorem getTypeOfDynamicSystem_stored [Zero α] [DecidableEq α] (fuel : Nat) (uninit : Nat → α)
    (s S t : FloatingBaseSystem α) (rbd rbd0 : RBDModel) (model : urdf.ModelInterface α)
    (system_file : Option (SystemDescription α)) (n : Nat) (joint : FloatingBaseJoint)
    (coord : Coords6d)
    (h : resetFromURDFModel fuel uninit s rbd model system_file = .ok S)
    (hslots : (∀ c, activeFlags S c = true) ∨
      (0 < S.getFloatingBaseDoF ↔ ∃ c, activeFlags S c = true)) :
    S.getTypeOfDynamicSystem = typeOfSlotsAlone (activeFlags S) (constrainedFlags S) ∧
      ((∀ c, activeFlags S c = true) →
        S.getTypeOfDynamicSystem =
          if ∃ c, constrainedFlags S c = true then .ConstrainedFloatingBase else .FloatingBase) ∧
      (FloatingBaseSystem.new rbd0 false n : FloatingBaseSystem α).getTypeOfDynamicSystem =
        typeOfSlotsAlone (activeFlags (FloatingBaseSystem.new rbd0 false n : FloatingBaseSystem α))
          (constrainedFlags (FloatingBaseSystem.new rbd0 false n : FloatingBaseSystem α)) ∧
      (FloatingBaseSystem.new rbd0 false n : FloatingBaseSystem α).getTypeOfDynamicSystem =
        .FixedBase ∧
      (t.setFloatingBaseJoint joint).getTypeOfDynamicSystem = t.getTypeOfDynamicSystem ∧
      (t.setFloatingBaseJointCoord joint coord).getTypeOfDynamicSystem =
        t.getTypeOfDynamicSystem ∧
      (t.setFloatingBaseConstraint coord).getTypeOfDynamicSystem = t.getTypeOfDynamicSystem := by
  obtain ⟨names, -, -, h3⟩ := resetFromURDFModel_typeData h
  have hS : S.getTypeOfDynamicSystem = typeOfSlotsAlone (activeFlags S) (constrainedFlags S) := by
    unfold getTypeOfDynamicSystem
    rw [h3]
    exact typeOfSlots_eq_alone _ _ _ hslots
  refine ⟨hS, ?_, ?_, rfl, rfl, ?_, ?_⟩
  · intro hall
    rw [hS]
    unfold typeOfSlotsAlone
    rw [if_pos hall]
  · have hnone : ¬ ∀ c, activeFlags (FloatingBaseSystem.new rbd0 false n : FloatingBaseSystem α) c =
        true := fun hc => by
      have := hc .AX
      simp [activeFlags, getFloatingBaseJoint, FloatingBaseSystem.new,
        FloatingBaseJoint.ofStatus] at this
    have hnone' : ¬ ∃ c, activeFlags (FloatingBaseSystem.new rbd0 false n : FloatingBaseSystem α) c =
        true := by
      rintro ⟨c, hc⟩
      cases c <;> simp [activeFlags, getFloatingBaseJoint, FloatingBaseSystem.new,
        FloatingBaseJoint.ofStatus] at hc
    unfold typeOfSlotsAlone
    rw [if_neg hnone, if_neg hnone']
    rfl
  · unfold setFloatingBaseJointCoord
    split_ifs <;> rfl
  · unfold setFloatingBaseConstraint
    split_ifs <;> rfl

/-- C9 (counterexample). On `floatingBySetter`, made by the constructor with
`full = false` followed by `setFloatingBaseJoint(joint)`, the six slots are
active and unconstrained, which determines FloatingBase, but
`getTypeOfDynamicSystem` reports FixedBase. -/
theorem getTypeOfDynamicSystem_setter_counterexample :
    numActiveSlots Example.floatingBySetter = 6 ∧
      typeOfSlotsAlone (activeFlags Example.floatingBySetter)
        (constrainedFlags Example.floatingBySetter) = .FloatingBase ∧
      Example.floatingBySetter.getTypeOfDynamicSystem = .FixedBase := by
  refine ⟨rfl, ?_, rfl⟩
  decide

/-- Construction from `railHopper` on a fresh object gives `railHopperSystem`. -/
theorem railHopperSystem_built :
    resetFromURDFModel 16 Example.garbage (FloatingBaseSystem.new Example.emptyRbd false 0)
      Example.railHopperRbd Example.railHopper none = .ok Example.railHopperSystem := by
  rfl

/-- Construction from `flyingHopper` on a fresh object gives
`flyingHopperSystem`. -/
theorem flyingHopperSystem_built :
    resetFromURDFModel 16 Example.garbage (FloatingBaseSystem.new Example.emptyRbd false 0)
      Example.flyingHopperRbd Example.flyingHopper none = .ok Example.flyingHopperSystem := by
  rfl

/-- C2 (amended) at `flyingHopperSystem`: the base `(1, 2, 3, 4, 5, 6)` and the joint `[9]`
give `[4, 5, 6, 1, 2, 3, 9]`. -/
theorem toGeneralizedJointState_floating_layout_witness :
    Example.flyingHopperSystem.getTypeOfDynamicSystem = .FloatingBase ∧
      toGeneralizedJointState Example.flyingHopperSystem Example.garbage Example.base123456
          [9] =
        .ok ([4, 5, 6, 1, 2, 3, 9],
          { Example.flyingHopperSystem with full_state_ := [4, 5, 6, 1, 2, 3, 9] }) ∧
      ([4, 5, 6, 1, 2, 3, 9] : List Int).length = 6 + Example.flyingHopperSystem.getJointDoF :=
  ⟨rfl, toGeneralizedJointState_floating_layout Example.flyingHopperSystem Example.garbage
    Example.base123456 [9] (Or.inl rfl) rfl rfl⟩

/-- C4 at `twoJointArm`, which has two joints: a joint vector of one entry stops
on the dimension check. -/
theorem toGeneralizedJointState_jointDimension_iff_witness :
    ([1] : List Int).length ≠ Example.twoJointArm.getJointDoF ∧
      toGeneralizedJointState Example.twoJointArm Example.garbage Example.base7 [1] =
        .error .jointDimension :=
  ⟨by decide,
    (toGeneralizedJointState_jointDimension_iff Example.twoJointArm Example.garbage
      Example.base7 [1]).1.mpr (by decide)⟩

/-- C6 (amended) at `railHopperSystem`, whose only row is written by the slot
LX, with two base vectors that agree in row LX and two memories that differ in
every row; and at `twinRailSystem`, whose row 1 no slot writes, with two
memories that agree in row 1 only. -/
theorem toGeneralizedJointState_ignores_inactive_witness :
    Example.railHopperSystem.getTypeOfDynamicSystem = .VirtualFloatingBase ∧
      toGeneralizedJointState Example.railHopperSystem Example.garbage Example.base123456 [9] =
        toGeneralizedJointState Example.railHopperSystem Example.otherGarbage Example.base4LX
          [9] ∧
      toGeneralizedJointState Example.twinRailSystem Example.garbage Example.base123456 [9] =
        toGeneralizedJointState Example.twinRailSystem
          (fun i => if i = 1 then 1001 else 5) Example.base4LX [9] :=
  ⟨rfl,
    toGeneralizedJointState_ignores_inactive Example.railHopperSystem Example.garbage
      Example.otherGarbage Example.base123456 Example.base4LX [9] rfl
      (by
        intro c hc
        cases c <;> first | rfl | cases hc)
      (by
        intro i hi hfree
        have h0 : i = 0 := by
          have : i < 1 := hi
          omega
        subst h0
        exact absurd rfl (hfree .LX rfl)),
    toGeneralizedJointState_ignores_inactive Example.twinRailSystem Example.garbage
      (fun i => if i = 1 then 1001 else 5) Example.base123456 Example.base4LX [9] rfl
      (by
        intro c hc
        cases c <;> first | rfl | cases hc)
      (by
        intro i hi hfree
        have h2 : i < 2 := hi
        have h1 : i ≠ 0 := fun h0 => by
          subst h0
          exact absurd rfl (hfree .LX rfl)
        have : i = 1 := by omega
        subst this
        rfl)⟩

/-- C6 (counterexample). On `twinRailSystem`, whose only active slot is LX with
id 0 while the virtual base has two rows, the base vectors `(1, 2, 3, 4, 5, 6)`
and `(0, 0, 0, 4, 0, 0)` agree on the active slot, but the two calls return
different generalized vectors when the fresh memory of the virtual base
differs in row 1, which no slot writes. -/
theorem inactive_rows_memory_counterexample :
    Example.twinRailSystem.getTypeOfDynamicSystem = .VirtualFloatingBase ∧
      (∀ c : Coords6d, (Example.twinRailSystem.getFloatingBaseJoint c).active = true →
        Example.base123456 c = Example.base4LX c) ∧
      toGeneralizedJointState Example.twinRailSystem Example.garbage Example.base123456 [9] =
        .ok ([4, 1001, 9], { Example.twinRailSystem with full_state_ := [4, 1001, 9] }) ∧
      toGeneralizedJointState Example.twinRailSystem Example.otherGarbage Example.base4LX [9] =
        .ok ([4, 2001, 9], { Example.twinRailSystem with full_state_ := [4, 2001, 9] }) ∧
      ([4, 1001, 9] : List Int) ≠ [4, 2001, 9] :=
  ⟨rfl, (fun c hc => by cases c <;> first | rfl | cases hc), rfl, rfl, by decide⟩

/-- C2 (counterexample). The model `handBuiltFloating` is a FloatingBase system
with two joints that no topology sized: for the joint vector `[8, 9]`, of
length numJoints, `toGeneralizedJointState` stops on the size check of the
comma initialiser and returns no vector. -/
theorem floating_unsized_buffer_counterexample :
    Example.handBuiltFloating.getTypeOfDynamicSystem = .FloatingBase ∧
      ([8, 9] : List Int).length = Example.handBuiltFloating.getJointDoF ∧
      Example.handBuiltFloating.full_state_ = [] ∧
      toGeneralizedJointState Example.handBuiltFloating Example.garbage Example.base123456
        [8, 9] = .error .eigenAssert :=
  ⟨rfl, rfl, rfl, rfl⟩

/-- C3 (amended) at `railHopperSystem`. -/
theorem toGeneralizedJointState_virtual_layout_witness :
    Example.railHopperSystem.getTypeOfDynamicSystem = .VirtualFloatingBase ∧
      ActiveIdsInRange Example.railHopperSystem ∧ ActiveIdsDistinct Example.railHopperSystem ∧
      ∃ g, toGeneralizedJointState Example.railHopperSystem Example.garbage Example.base123456
            [9] = .ok (g, { Example.railHopperSystem with full_state_ := g }) ∧
        g.length = Example.railHopperSystem.getFloatingBaseDoF +
          Example.railHopperSystem.getJointDoF ∧
        (numActiveSlots Example.railHopperSystem = Example.railHopperSystem.getFloatingBaseDoF →
          g.length = numActiveSlots Example.railHopperSystem +
            Example.railHopperSystem.getJointDoF) ∧
        (∀ c : Coords6d, (Example.railHopperSystem.getFloatingBaseJoint c).active = true →
          g[(Example.railHopperSystem.getFloatingBaseJoint c).id]? =
            some (Example.base123456 c)) ∧
        g.drop Example.railHopperSystem.getFloatingBaseDoF = [9] :=
  ⟨rfl, by decide, by decide,
    toGeneralizedJointState_virtual_layout Example.railHopperSystem Example.garbage
      Example.base123456 [9] rfl rfl rfl (by decide) (by decide)⟩

/-- C1 (amended) at `flyingHopperSystem`: the round trip gives back the base and
the joints. -/
theorem generalized_roundTrip_witness :
    BufferSized Example.flyingHopperSystem ∧
      ∃ g s' base', toGeneralizedJointState Example.flyingHopperSystem Example.garbage
            Example.base123456 [9] = .ok (g, s') ∧
        fromGeneralizedJointState s' Example.garbage Example.base7 [] g = .ok (base', [9]) ∧
        base' = Example.base123456 := by
  refine ⟨by decide, ?_⟩
  obtain ⟨g, s', base', h1, h2, h3, -, -⟩ :=
    generalized_roundTrip Example.flyingHopperSystem Example.garbage Example.garbage
      Example.base123456 Example.base7 [9] [] rfl (by decide) (fun h => by cases h)
  exact ⟨g, s', base', h1, h2, h3 (Or.inl rfl)⟩

/-- C7 (amended) at `railHopperSystem` and the generalized vector `[5, 9]`: the
joint vector is `[9]`. -/
theorem fromGeneralizedJointState_joints_witness :
    ∃ base', fromGeneralizedJointState Example.railHopperSystem Example.garbage Example.base7 []
        [5, 9] = .ok (base', [9]) ∧
      ([9] : List Int).length = Example.railHopperSystem.getJointDoF :=
  (fromGeneralizedJointState_joints Example.railHopperSystem Example.garbage Example.base7 []
    [5, 9]).1 rfl (fun _ => by decide)

/-- C8 (amended) at the construction of `railHopperSystem`. -/
theorem resetFromURDFModel_type_witness :
    Example.railHopperSystem.getTypeOfDynamicSystem =
        typeOfSlots (activeFlags Example.railHopperSystem)
          (constrainedFlags Example.railHopperSystem)
          Example.railHopperSystem.getFloatingBaseDoF ∧
      ∃ names, urdf_model.getJointNames 16 [] Example.railHopper .floating = .ok names ∧
        Example.railHopperSystem.getFloatingBaseDoF = StdMap.size names :=
  resetFromURDFModel_type 16 Example.garbage (FloatingBaseSystem.new Example.emptyRbd false 0)
    Example.railHopperSystem Example.railHopperRbd Example.railHopper none
    (by rfl)

/-- C9 (amended) at the construction of `flyingHopperSystem`, whose six slots are
active: it reports FloatingBase, and still does after a slot is constrained. -/
theorem getTypeOfDynamicSystem_stored_witness :
    Example.flyingHopperSystem.getTypeOfDynamicSystem = .FloatingBase ∧
      (Example.flyingHopperSystem.setFloatingBaseConstraint .AZ).getTypeOfDynamicSystem =
        .FloatingBase := by
  obtain ⟨h1, -, -, -, -, -, h7⟩ :=
    getTypeOfDynamicSystem_stored 16 Example.garbage
      (FloatingBaseSystem.new Example.emptyRbd false 0) Example.flyingHopperSystem
      Example.flyingHopperSystem Example.flyingHopperRbd Example.emptyRbd Example.flyingHopper
      none 0 (.mk3 true 0 "trunk") .AZ (by rfl) (Or.inl (by decide))
  refine ⟨?_, ?_⟩
  · rw [h1]
    decide
  · rw [h7, h1]
    decide

theorem addFoot_feet (s : FloatingBaseSystem α) (name : String) :
    (addFoot s name).feet_ = s.feet_ ∧ (addFoot s name).foot_names_ = s.foot_names_ ∧
      (addFoot s name).num_feet_ = s.num_feet_ := by
  unfold addFoot
  split_ifs <;> exact ⟨rfl, rfl, rfl⟩

theorem readPosture_feet (file : SystemDescription α) (s s' : FloatingBaseSystem α) (j : Nat)
    (h : readPosture file s j = .ok s') :
    s'.feet_ = s.feet_ ∧ s'.foot_names_ = s.foot_names_ ∧ s'.num_feet_ = s.num_feet_ := by
  have := (readPosture_frame file s s' j h).2
  simp only [feetData, Prod.mk.injEq] at this
  exact ⟨this.2.1, this.2.2.2.1, this.2.2.2.2.2⟩

/-- What `resetSystemDescription` makes of an explicit foot list: the foot names
are the sorted list and the number of feet is its length, but the foot table
is the one the object had before. -/
theorem resetSystemDescription_feet (s s' : FloatingBaseSystem α) (file : SystemDescription α)
    (feet : List String) (hfeet : file.feet = some feet)
    (h : resetSystemDescription s file = .ok s') :
    s'.feet_ = s.feet_ ∧ s'.foot_names_ = sortNames feet ∧ s'.num_feet_ = feet.length := by
  unfold resetSystemDescription at h
  dsimp only at h
  have hread : (readFeet s file).feet_ = s.feet_ ∧
      (readFeet s file).foot_names_ = sortNames feet ∧
      (readFeet s file).num_feet_ = (sortNames feet).length := by
    unfold readFeet
    rw [hfeet]
    dsimp only
    refine foldl_preserves
      (fun t : FloatingBaseSystem α => t.feet_ = s.feet_ ∧ t.foot_names_ = sortNames feet ∧
        t.num_feet_ = (sortNames feet).length) addFoot ?_ _ _ ⟨rfl, rfl, rfl⟩
    intro t x hP
    obtain ⟨h1, h2, h3⟩ := addFoot_feet t x
    exact ⟨h1.trans hP.1, h2.trans hP.2.1, h3.trans hP.2.2⟩
  have hlen : (sortNames feet).length = feet.length := by
    unfold sortNames
    exact List.length_insertionSort _ _
  refine foldlM_preserves
    (fun t : FloatingBaseSystem α => t.feet_ = s.feet_ ∧ t.foot_names_ = sortNames feet ∧
      t.num_feet_ = feet.length)
    (readPosture file) ?_ _ _ s' ⟨hread.1, hread.2.1, hread.2.2.trans hlen⟩ h
  intro t x t' hP ht
  obtain ⟨h1, h2, h3⟩ := readPosture_feet file t t' x ht
  exact ⟨h1.trans hP.1, h2.trans hP.2.1, h3.trans hP.2.2⟩

/-- C12 (the code at the failing input). The model built from `biped`, whose
end-effectors are `lf` (id 0) and `rf` (id 1), with the explicit foot list
`[rf, lf]` has the sorted foot names `[lf, rf]` and two feet, and both names are
in the end-effector table, but the foot table returned for the foot type is
empty. -/
theorem explicit_feet_table_empty :
    ∃ S, resetFromURDFModel 16 Example.garbage Example.fresh Example.bipedRbd Example.biped
        (some Example.twoFeetFile) = .ok S ∧
      S.getEndEffectorNames .FOOT = ["lf", "rf"] ∧
      S.getNumberOfEndEffectors .FOOT = 2 ∧
      S.getEndEffectors .ALL = [("lf", 0), ("rf", 1)] ∧
      S.getEndEffectors .FOOT = [] :=
  ⟨_, rfl, rfl, rfl, rfl, rfl⟩

/-- C19 (the code at the failing input). The model built from `benchArm` with
the default posture `elbow: 7` has `getJointId("elbow") = 1` and the default
posture `[7, 0]`: the value 7 sits at index 0, the place of `elbow` in the name
order, and index 1 holds 0. -/
theorem default_posture_by_name_order :
    ∃ S, resetFromURDFModel 16 Example.garbage Example.fresh Example.benchArmRbd
        Example.benchArm (some Example.elbowPostureFile) = .ok S ∧
      S.getJointId "elbow" = .ok 1 ∧
      S.getJointNames = ["elbow", "shoulder"] ∧
      S.getDefaultPosture = [7, 0] ∧
      S.getDefaultPosture[1]? = some 0 :=
  ⟨_, rfl, rfl, rfl, rfl, rfl⟩

/-! ### Lookups by name -/

/-- C17 (amended). A name-keyed lookup with a name that is in its table returns
the mapped value: `getJointId`, `getEndEffectorId`, `getJointLimit` and the
lower, upper, velocity and effort limit queries. With a name that is not in
the table the lookup dereferences the end iterator of the table unchecked: the
program reports no failure. -/
theorem lookup_by_name (s : FloatingBaseSystem α) (name : String) :
    (∀ id, StdMap.find s.joints_ name = some id → s.getJointId name = .ok id) ∧
    (∀ id, StdMap.find s.end_effectors_ name = some id → s.getEndEffectorId name = .ok id) ∧
    (∀ limits, StdMap.find s.joint_limits_ name = some limits →
      s.getJointLimit name = .ok limits ∧ s.getLowerLimit name = .ok limits.lower ∧
      s.getUpperLimit name = .ok limits.upper ∧ s.getVelocityLimit name = .ok limits.velocity ∧
      s.getEffortLimit name = .ok limits.effort) ∧
    (StdMap.find s.joints_ name = none → s.getJointId name = .error .badDeref) ∧
    (StdMap.find s.end_effectors_ name = none → s.getEndEffectorId name = .error .badDeref) ∧
    (StdMap.find s.joint_limits_ name = none →
      s.getJointLimit name = .error .badDeref ∧ s.getLowerLimit name = .error .badDeref ∧
      s.getUpperLimit name = .error .badDeref ∧ s.getVelocityLimit name = .error .badDeref ∧
      s.getEffortLimit name = .error .badDeref) ∧
    Failure.reported .badDeref = false := by
  refine ⟨?_, ?_, ?_, ?_, ?_, ?_, rfl⟩
  · intro id h
    simp [getJointId, h]
  · intro id h
    simp [getEndEffectorId, h]
  · intro limits h
    simp [getJointLimit, getLowerLimit, getUpperLimit, getVelocityLimit, getEffortLimit, h,
      Except.map]
  · intro h
    simp [getJointId, h]
  · intro h
    simp [getEndEffectorId, h]
  · intro h
    simp [getJointLimit, getLowerLimit, getUpperLimit, getVelocityLimit, getEffortLimit, h,
      Except.map]

/-- C17 (counterexample). On the model built from `railHopper`, whose only
actuated joint is `hip` and whose only end-effector is `foot`, the lookups of
the unknown names `knee` and `hand` end in the dereference of an end iterator,
which is not a failure that the program reports. -/
theorem lookup_unknown_name_counterexample :
    StdMap.find Example.railHopperSystem.joints_ "knee" = none ∧
      Example.railHopperSystem.getJointId "knee" = .error .badDeref ∧
      Example.railHopperSystem.getLowerLimit "knee" = .error .badDeref ∧
      Example.railHopperSystem.getEndEffectorId "hand" = .error .badDeref ∧
      Failure.reported .badDeref = false :=
  ⟨rfl, rfl, rfl, rfl, rfl⟩

/-- C17 (amended) at `railHopperSystem`: the joint `hip` has id 0 and effort
limit 10, the end-effector `foot` has id 0. -/
theorem lookup_by_name_witness :
    Example.railHopperSystem.getJointId "hip" = .ok 0 ∧
      Example.railHopperSystem.getEndEffectorId "foot" = .ok 0 ∧
      Example.railHopperSystem.getEffortLimit "hip" = .ok 10 :=
  ⟨(lookup_by_name Example.railHopperSystem "hip").1 0 rfl,
    (lookup_by_name Example.railHopperSystem "foot").2.1 0 rfl,
    ((lookup_by_name Example.railHopperSystem "hip").2.2.1
      { lower := 0, upper := 0, effort := 10, velocity := 0 } rfl).2.2.2.2⟩

/-! ### Segments -/

theorem setSegment_spec {α : Type} {dst src r : List α} {start n : Nat}
    (h : Eigen.setSegment dst start n src = .ok r) :
    start + n ≤ dst.length ∧ src.length = n ∧ r = dst.take start ++ src ++ dst.drop (start + n) ∧
      r.length = dst.length := by
  unfold Eigen.setSegment at h
  split at h
  · rename_i hc
    cases h
    refine ⟨hc.1, hc.2, rfl, ?_⟩
    simp only [List.length_append, List.length_take, List.length_drop]
    omega
  · cases h

theorem setSegment_ok {α : Type} {dst src : List α} {start n : Nat}
    (hfit : start + n ≤ dst.length) (hlen : src.length = n) :
    Eigen.setSegment dst start n src = .ok (dst.take start ++ src ++ dst.drop (start + n)) := by
  simp [Eigen.setSegment, hfit, hlen]

theorem segment_setSegment {α : Type} {dst src : List α} {start n : Nat}
    (hfit : start + n ≤ dst.length) (hlen : src.length = n) :
    Eigen.segment (dst.take start ++ src ++ dst.drop (start + n)) start n = .ok src := by
  have h1 : (dst.take start).length = start := by
    rw [List.length_take]; omega
  rw [Eigen.segment_ok]
  · rw [List.append_assoc, List.drop_append_eq_append_drop, List.drop_of_length_le (by omega)]
    simp [h1, hlen]
  · simp only [List.length_append, List.length_take, List.length_drop]
    omega

theorem getElem?_setSegment_outside {α : Type} {dst src : List α} {start n : Nat}
    (hfit : start + n ≤ dst.length) (hlen : src.length = n) (i : Nat)
    (hi : i < start ∨ start + n ≤ i) :
    (dst.take start ++ src ++ dst.drop (start + n))[i]? = dst[i]? := by
  have h1 : (dst.take start).length = start := by
    rw [List.length_take]; omega
  rcases hi with hi | hi
  · rw [List.append_assoc, List.getElem?_append_left (by omega), List.getElem?_take_of_lt hi]
  · rw [List.getElem?_append_right (by simp only [List.length_append]; omega)]
    simp only [List.length_append, h1, hlen, List.getElem?_drop]
    congr 1
    omega

theorem getElem?_setSegment_inside {α : Type} {dst src : List α} {start n : Nat}
    (hfit : start + n ≤ dst.length) (hlen : src.length = n) (i : Nat) (hi : i < n) :
    (dst.take start ++ src ++ dst.drop (start + n))[start + i]? = src[i]? := by
  have h1 : (dst.take start).length = start := by
    rw [List.length_take]; omega
  rw [List.getElem?_append_left (by simp only [List.length_append]; omega),
    List.getElem?_append_right (by omega)]
  simp [h1]

/-! ### Branches -/

theorem PathCoords.ne_base {m : RBDModel} {base_id b : Nat} {qs : List Nat}
    (h : PathCoords m base_id b qs) : b ≠ base_id := by
  cases h <;> assumption

theorem PathCoords.length_pos {m : RBDModel} {base_id b : Nat} {qs : List Nat}
    (h : PathCoords m base_id b qs) : 1 ≤ qs.length := by
  cases h <;> simp

/-- The first coordinate of a path is the coordinate of a joint whose parent
is the base. -/
theorem PathCoords.head {m : RBDModel} {base_id b : Nat} {qs : List Nat}
    (h : PathCoords m base_id b qs) :
    ∃ top start, qs.head? = some start ∧ top ≠ base_id ∧ m.lambda[top]? = some base_id ∧
      m.q_index[top]? = some start := by
  induction h with
  | child hb hl hq => exact ⟨_, _, rfl, hb, hl, hq⟩
  | step hb hl hq hp ih =>
    obtain ⟨top, start, h1, h2, h3, h4⟩ := ih
    refine ⟨top, start, ?_, h2, h3, h4⟩
    rw [List.head?_append_of_ne_nil _ (by intro hnil; simp [hnil] at h1)]
    exact h1

/-- The walk of `getBranch` along a path to the base, given enough fuel. -/
theorem getBranchLoop_path {m : RBDModel} {base_id b : Nat} {qs : List Nat}
    (h : PathCoords m base_id b qs) :
    ∀ (fuel pos_idx num_dof : Nat), qs.length ≤ fuel →
      ∃ start, qs.head? = some start ∧
        getBranchLoop m base_id fuel b pos_idx num_dof = .ok (start, num_dof + qs.length) := by
  induction h with
  | @child b q hb hl hq =>
    intro fuel pos_idx num_dof hfuel
    obtain ⟨fuel, rfl⟩ : ∃ f, fuel = f + 1 := ⟨fuel - 1, by simp at hfuel; omega⟩
    exact ⟨q, rfl, by simp [getBranchLoop, hl, hq]⟩
  | @step b parent q qs hb hl hq hp ih =>
    intro fuel pos_idx num_dof hfuel
    simp only [List.length_append, List.length_singleton] at hfuel
    obtain ⟨fuel, rfl⟩ : ∃ f, fuel = f + 1 := ⟨fuel - 1, by omega⟩
    obtain ⟨start, h1, h2⟩ := ih fuel q (num_dof + 1) (by omega)
    refine ⟨start, ?_, ?_⟩
    · rw [List.head?_append_of_ne_nil _ (by intro hnil; simp [hnil] at h1)]
      exact h1
    · simp only [getBranchLoop, hl, hq, hp.ne_base, ne_eq, not_false_eq_true, if_true, h2,
        List.length_append, List.length_singleton]
      congr 2
      omega

/-- The walk of `getBranch` from a body whose parent chain misses the base
uses up every step budget. -/
theorem getBranchLoop_reachesRoot {m : RBDModel} {base_id : Nat} :
    ∀ (fuel b pos_idx num_dof : Nat), ReachesRoot m base_id b →
      getBranchLoop m base_id fuel b pos_idx num_dof = .error .outOfFuel := by
  intro fuel
  induction fuel with
  | zero => intro b pos_idx num_dof _; rfl
  | succ fuel ih =>
    intro b pos_idx num_dof h
    cases h with
    | @root q h0 hl hq =>
      simp only [getBranchLoop, hl, hq, h0, ne_eq, not_false_eq_true, if_true]
      exact ih 0 q (num_dof + 1) (.root h0 hl hq)
    | @step _ parent q hb hl hq hp =>
      have hne : parent ≠ base_id := by cases hp <;> assumption
      simp only [getBranchLoop, hl, hq, hne, ne_eq, not_false_eq_true, if_true]
      exact ih parent q (num_dof + 1) hp

theorem getBranch_of_walkStart (s : FloatingBaseSystem α) (fuel pos_idx : Nat)
    (body_name : String) (b : Nat) (hbody : WalkStart s body_name b) :
    s.getBranch fuel pos_idx body_name =
      if b ≠ baseBody s then getBranchLoop s.rbd_model_ (baseBody s) fuel b pos_idx 0
      else .ok (pos_idx, 0) := by
  unfold getBranch baseBody
  rcases hbody with ⟨h1, h2⟩ | ⟨h1, h2⟩
  · subst h2
    simp only [h1, Bool.false_eq_true, if_false]
  · simp only [h1, if_true, h2]

theorem getBranch_path (s : FloatingBaseSystem α) (fuel pos_idx : Nat) (body_name : String)
    (b : Nat) (qs : List Nat) (hbody : WalkStart s body_name b)
    (hpath : PathCoords s.rbd_model_ (baseBody s) b qs) (hfuel : qs.length ≤ fuel) :
    ∃ start, qs.head? = some start ∧ s.getBranch fuel pos_idx body_name = .ok (start, qs.length) := by
  obtain ⟨start, h1, h2⟩ := getBranchLoop_path hpath fuel pos_idx 0 hfuel
  refine ⟨start, h1, ?_⟩
  rw [getBranch_of_walkStart s fuel pos_idx body_name b hbody, if_pos hpath.ne_base, h2,
    Nat.zero_add]

theorem removeBaseIndex_eq (s : FloatingBaseSystem α) (q : Nat) :
    s.removeBaseIndex q = usub q (baseBody s) := by
  unfold removeBaseIndex baseBody
  split <;> rfl

theorem usub_of_le {a b : Nat} (hb : b ≤ a) (ha : a < UINT_MOD) : usub a b = a - b := by
  unfold usub
  have hb' : b % UINT_MOD = b := Nat.mod_eq_of_lt (by omega)
  rw [hb']
  have : a + (UINT_MOD - b) = (a - b) + UINT_MOD := by omega
  rw [this, Nat.add_mod_right]
  exact Nat.mod_eq_of_lt (by omega)

theorem setBranchState_of_getBranch (s : FloatingBaseSystem α) (fuel g : Nat)
    (js branch : List α) (body_name : String) (start k : Nat)
    (hb : s.getBranch fuel g body_name = .ok (start, k)) :
    s.setBranchState fuel g js branch body_name =
      if branch.length ≠ k then .error .fatalExit
      else Eigen.setSegment js (s.removeBaseIndex start) k branch := by
  simp only [setBranchState, hb]

theorem getBranchState_of_getBranch (s : FloatingBaseSystem α) (fuel g : Nat)
    (js : List α) (body_name : String) (start k : Nat)
    (hb : s.getBranch fuel g body_name = .ok (start, k)) :
    s.getBranchState fuel g js body_name = Eigen.segment js (s.removeBaseIndex start) k := by
  simp only [getBranchState, hb]

theorem setSegment_ne_fatalExit (dst src : List α) (start n : Nat) :
    Eigen.setSegment dst start n src ≠ .error .fatalExit := by
  unfold Eigen.setSegment
  split <;> simp

theorem chain_succ_eq_range : ∀ (qs : List Nat) (start : Nat), qs.head? = some start →
    List.Chain' (fun q q' => q' = q + 1) qs → qs = List.range' start qs.length := by
  intro qs
  induction qs with
  | nil => intro start h; simp at h
  | cons q rest ih =>
    intro start h hc
    simp only [List.head?_cons, Option.some.injEq] at h
    subst h
    cases rest with
    | nil => rfl
    | cons q' rest' =>
      rw [List.chain'_cons] at hc
      have := ih (q + 1) (by simp [hc.1]) hc.2
      rw [List.length_cons, List.range'_succ, ← this]

/-- The slice that `setBranchState` and `getBranchState` address, when the
coordinates on the path are consecutive. -/
theorem slice_of_consecutive_path (s : FloatingBaseSystem α) (qs : List Nat) (start : Nat)
    (hhead : qs.head? = some start)
    (hconsec : List.Chain' (fun q q' => q' = q + 1) qs)
    (hbase : baseBody s ≤ start) (hlt : start < UINT_MOD) :
    List.range' (s.removeBaseIndex start) qs.length = qs.map (jointOnlyIndex s) := by
  rw [removeBaseIndex_eq, usub_of_le hbase hlt]
  conv_rhs => rw [chain_succ_eq_range qs start hhead hconsec]
  apply List.ext_getElem?
  intro i
  by_cases hi : i < qs.length
  · rw [List.getElem?_map, List.getElem?_range' _ _ hi, List.getElem?_range' _ _ hi]
    simp only [jointOnlyIndex, Option.map_some', Option.some.injEq]
    omega
  · rw [List.getElem?_eq_none (by simpa using hi), List.getElem?_eq_none (by simpa using hi)]

/-- C13. For a body that lies `k >= 1` joints below the base body (6 for a full
floating base, the floating-base DoF count otherwise), with `qs` the
coordinates of the joints on its parent chain and enough steps for the walk,
`getBranch` returns `dofCount = k` and the coordinate `startIndex` of the joint
of the chain whose parent is the base body; the walk starts at the movable
parent when the named body is fixed. -/
theorem getBranch_chain (s : FloatingBaseSystem α) (fuel pos_idx : Nat) (body_name : String)
    (b : Nat) (qs : List Nat) (hbody : WalkStart s body_name b)
    (hpath : PathCoords s.rbd_model_ (baseBody s) b qs) (hfuel : qs.length ≤ fuel) :
    1 ≤ qs.length ∧
      ∃ top start : Nat, s.rbd_model_.lambda[top]? = some (baseBody s) ∧
        s.rbd_model_.q_index[top]? = some start ∧ qs.head? = some start ∧
        s.getBranch fuel pos_idx body_name = .ok (start, qs.length) := by
  refine ⟨hpath.length_pos, ?_⟩
  obtain ⟨top, start, h1, _, h3, h4⟩ := hpath.head
  obtain ⟨start', h5, h6⟩ := getBranch_path s fuel pos_idx body_name b qs hbody hpath hfuel
  rw [h1] at h5
  cases h5
  exact ⟨top, start, h3, h4, h1, h6⟩

/-- C14. For a body below the base, a joint-state vector that holds the slice
of the branch and a branch vector whose length is the branch's dofCount,
`setBranchState` returns a vector of the same length, on which `getBranchState`
for the same body returns exactly the branch vector. -/
theorem branchState_roundTrip (s : FloatingBaseSystem α) (fuel g g' : Nat)
    (js branch : List α) (body_name : String) (b : Nat) (qs : List Nat)
    (hbody : WalkStart s body_name b)
    (hpath : PathCoords s.rbd_model_ (baseBody s) b qs) (hfuel : qs.length ≤ fuel)
    (hlen : branch.length = qs.length)
    (hfit : ∀ start, qs.head? = some start → s.removeBaseIndex start + qs.length ≤ js.length) :
    ∃ js', s.setBranchState fuel g js branch body_name = .ok js' ∧ js'.length = js.length ∧
      s.getBranchState fuel g' js' body_name = .ok branch := by
  obtain ⟨start, h1, h2⟩ := getBranch_path s fuel g body_name b qs hbody hpath hfuel
  obtain ⟨start', h1', h2'⟩ := getBranch_path s fuel g' body_name b qs hbody hpath hfuel
  rw [h1] at h1'
  cases h1'
  have hf := hfit start h1
  refine ⟨js.take (s.removeBaseIndex start) ++ branch ++
    js.drop (s.removeBaseIndex start + qs.length), ?_, ?_, ?_⟩
  · rw [setBranchState_of_getBranch s fuel g js branch body_name start qs.length h2,
      if_neg (by simpa using hlen), setSegment_ok hf hlen]
  · exact (setSegment_spec (setSegment_ok hf hlen)).2.2.2
  · rw [getBranchState_of_getBranch s fuel g' _ body_name start qs.length h2']
    exact segment_setSegment hf hlen

/-- C15. When `getBranch` reports `(startIndex, dofCount)` for the named body,
`setBranchState` stops with the fatal exit if and only if the length of the
branch vector differs from `dofCount`; the size check comes before the write,
so on that failure no joint-state vector is produced. -/
theorem setBranchState_fatal_iff (s : FloatingBaseSystem α) (fuel g : Nat)
    (js branch : List α) (body_name : String) (start k : Nat)
    (hb : s.getBranch fuel g body_name = .ok (start, k)) :
    (s.setBranchState fuel g js branch body_name = .error .fatalExit ↔ branch.length ≠ k) ∧
      (branch.length ≠ k → ∀ js', s.setBranchState fuel g js branch body_name ≠ .ok js') := by
  rw [setBranchState_of_getBranch s fuel g js branch body_name start k hb]
  constructor
  · constructor
    · intro h
      by_contra hk
      rw [if_neg (fun hne => hne hk)] at h
      exact setSegment_ne_fatalExit _ _ _ _ h
    · intro hk
      rw [if_pos hk]
  · intro hk js'
    rw [if_pos hk]
    simp

/-- What a successful `setBranchState` leaves: the slice it wrote and the
entries it kept. -/
theorem setBranchState_effect (s : FloatingBaseSystem α) (fuel g : Nat)
    (js branch js' : List α) (body_name : String)
    (h : s.setBranchState fuel g js branch body_name = .ok js') :
    ∃ start k, s.getBranch fuel g body_name = .ok (start, k) ∧ branch.length = k ∧
      js'.length = js.length ∧
      (∀ i, i < s.removeBaseIndex start ∨ s.removeBaseIndex start + k ≤ i → js'[i]? = js[i]?) ∧
      (∀ i, i < k → js'[s.removeBaseIndex start + i]? = branch[i]?) := by
  cases hb : s.getBranch fuel g body_name with
  | error e => simp [setBranchState, hb] at h
  | ok r =>
    obtain ⟨start, k⟩ := r
    rw [setBranchState_of_getBranch s fuel g js branch body_name start k hb] at h
    by_cases hk : branch.length ≠ k
    · rw [if_pos hk] at h
      cases h
    · rw [if_neg hk] at h
      obtain ⟨hfit, hlen, hr, hl⟩ := setSegment_spec h
      refine ⟨start, k, rfl, hlen, hl, ?_, ?_⟩
      · intro i hi
        rw [hr]
        exact getElem?_setSegment_outside hfit hlen i hi
      · intro i hi
        rw [hr]
        exact getElem?_setSegment_inside hfit hlen i hi

/-- C30. A successful `setBranchState` keeps the length of the joint-state
vector and every entry outside the slice of `dofCount` entries that starts at
`startIndex` minus the base offset; inside the slice it holds the branch
vector. -/
theorem setBranchState_frame (s : FloatingBaseSystem α) (fuel g : Nat)
    (js branch js' : List α) (body_name : String)
    (h : s.setBranchState fuel g js branch body_name = .ok js') :
    ∃ start k, s.getBranch fuel g body_name = .ok (start, k) ∧ branch.length = k ∧
      js'.length = js.length ∧
      (∀ i, i < s.removeBaseIndex start ∨ s.removeBaseIndex start + k ≤ i → js'[i]? = js[i]?) ∧
      (∀ i, i < k → js'[s.removeBaseIndex start + i]? = branch[i]?) :=
  setBranchState_effect s fuel g js branch js' body_name h

/-- C29. With `b` the body at which the walk of `getBranch` starts: when the
parent chain of `b` contains the base body the walk ends within as many steps
as the chain has joints; when `b` is the base body itself `getBranch` returns
`dofCount = 0` and leaves `startIndex` as it was; when the parent chain of `b`
reaches the root, body 0 that is its own parent, without passing through the
base body, the walk never reaches the base, whatever the step budget. -/
theorem getBranch_termination (s : FloatingBaseSystem α) (body_name : String) (b : Nat)
    (hbody : WalkStart s body_name b) :
    (∀ qs, PathCoords s.rbd_model_ (baseBody s) b qs → ∀ fuel pos_idx, qs.length ≤ fuel →
        ∃ start, s.getBranch fuel pos_idx body_name = .ok (start, qs.length)) ∧
      (b = baseBody s → ∀ fuel pos_idx, s.getBranch fuel pos_idx body_name = .ok (pos_idx, 0)) ∧
      (ReachesRoot s.rbd_model_ (baseBody s) b →
        ∀ fuel pos_idx, s.getBranch fuel pos_idx body_name = .error .outOfFuel) := by
  refine ⟨?_, ?_, ?_⟩
  · intro qs hpath fuel pos_idx hfuel
    obtain ⟨start, _, h⟩ := getBranch_path s fuel pos_idx body_name b qs hbody hpath hfuel
    exact ⟨start, h⟩
  · intro hb fuel pos_idx
    rw [getBranch_of_walkStart s fuel pos_idx body_name b hbody, if_neg (by simpa using hb)]
  · intro hroot fuel pos_idx
    have hne : b ≠ baseBody s := by cases hroot <;> assumption
    rw [getBranch_of_walkStart s fuel pos_idx body_name b hbody, if_pos hne]
    exact getBranchLoop_reachesRoot fuel b pos_idx 0 hroot

/-- C16 (amended). For a body below the base whose path joints carry
consecutive generalized coordinates that are not below the base offset, the
slice of the joint-only state vector that `setBranchState` and
`getBranchState` address consists of exactly the joint-only indices of the
joints on the path, in path order: `setBranchState` writes the i-th branch
entry at the index of the i-th path joint. -/
theorem branch_slice_consecutive (s : FloatingBaseSystem α) (fuel g : Nat)
    (js branch : List α) (body_name : String) (b : Nat) (qs : List Nat)
    (hbody : WalkStart s body_name b)
    (hpath : PathCoords s.rbd_model_ (baseBody s) b qs) (hfuel : qs.length ≤ fuel)
    (hconsec : List.Chain' (fun q q' => q' = q + 1) qs)
    (hbase : ∀ q ∈ qs, baseBody s ≤ q ∧ q < UINT_MOD) :
    ∃ start, s.getBranch fuel g body_name = .ok (start, qs.length) ∧
      List.range' (s.removeBaseIndex start) qs.length = qs.map (jointOnlyIndex s) ∧
      (∀ js', s.setBranchState fuel g js branch body_name = .ok js' →
        ∀ i, i < qs.length → (qs[i]?).bind (fun q => js'[jointOnlyIndex s q]?) = branch[i]?) := by
  obtain ⟨start, h1, h2⟩ := getBranch_path s fuel g body_name b qs hbody hpath hfuel
  have hmem : start ∈ qs := List.mem_of_mem_head? h1
  have hslice := slice_of_consecutive_path s qs start h1 hconsec (hbase start hmem).1
    (hbase start hmem).2
  refine ⟨start, h2, hslice, ?_⟩
  intro js' hset i hi
  obtain ⟨start', k, hb, _, _, _, hin⟩ := setBranchState_effect s fuel g js branch js' body_name hset
  rw [h2] at hb
  cases hb
  have hq : (qs.map (jointOnlyIndex s))[i]? = some (s.removeBaseIndex start + i) := by
    rw [← hslice, List.getElem?_range' _ _ hi]
    simp
  rw [List.getElem?_map] at hq
  cases hqi : qs[i]? with
  | none => simp [hqi] at hq
  | some q =>
    simp only [hqi, Option.map_some', Option.some.injEq] at hq
    simp only [Option.some_bind, hq]
    exact hin i hi

/-! ### The branch statements at the example robots -/

theorem forkedArmSystem_built :
    resetFromURDFModel 16 Example.garbage Example.fresh Example.forkedArmRbd Example.forkedArm
      none = .ok Example.forkedArmSystem := rfl

theorem bipedSystem_built :
    resetFromURDFModel 16 Example.garbage Example.fresh Example.bipedRbd Example.biped
      none = .ok Example.bipedSystem := rfl

theorem forkedArm_walkStart_a2 : WalkStart Example.forkedArmSystem "a2" 3 :=
  Or.inl ⟨rfl, rfl⟩

theorem forkedArm_walkStart_b2 : WalkStart Example.forkedArmSystem "b2" 5 :=
  Or.inl ⟨rfl, rfl⟩

theorem biped_walkStart_rf : WalkStart Example.bipedSystem "rf" 8 :=
  Or.inr ⟨rfl, rfl⟩

theorem biped_walkStart_root : WalkStart Example.bipedSystem "ROOT" 0 :=
  Or.inl ⟨rfl, rfl⟩

theorem biped_walkStart_trunk : WalkStart Example.bipedSystem "trunk" 6 :=
  Or.inl ⟨rfl, rfl⟩

theorem forkedArm_path_a2 :
    PathCoords Example.forkedArmSystem.rbd_model_ (baseBody Example.forkedArmSystem) 3
      [0, 1, 2] :=
  @PathCoords.step _ _ _ 2 _ [0, 1] (by decide) rfl rfl
    (@PathCoords.step _ _ _ 1 _ [0] (by decide) rfl rfl (.child (by decide) rfl rfl))

theorem forkedArm_path_b2 :
    PathCoords Example.forkedArmSystem.rbd_model_ (baseBody Example.forkedArmSystem) 5
      [0, 3, 4] :=
  @PathCoords.step _ _ _ 4 _ [0, 3] (by decide) rfl rfl
    (@PathCoords.step _ _ _ 1 _ [0] (by decide) rfl rfl (.child (by decide) rfl rfl))

theorem biped_path_rf :
    PathCoords Example.bipedSystem.rbd_model_ (baseBody Example.bipedSystem) 8 [7] :=
  .child (by decide) rfl rfl

/-- C13 at `forkedArmSystem`, body `a2`, three joints below the fixed base, and
at `bipedSystem`, the fixed body `rf`, whose movable parent is one joint below
the floating base. -/
theorem getBranch_chain_witness :
    (∃ top start : Nat, Example.forkedArmSystem.rbd_model_.lambda[top]? =
          some (baseBody Example.forkedArmSystem) ∧
        Example.forkedArmSystem.rbd_model_.q_index[top]? = some start ∧
        [0, 1, 2].head? = some start ∧
        Example.forkedArmSystem.getBranch 16 99 "a2" = .ok (start, 3)) ∧
      (∃ top start : Nat, Example.bipedSystem.rbd_model_.lambda[top]? =
          some (baseBody Example.bipedSystem) ∧
        Example.bipedSystem.rbd_model_.q_index[top]? = some start ∧
        [7].head? = some start ∧
        Example.bipedSystem.getBranch 16 99 "rf" = .ok (start, 1)) :=
  ⟨(getBranch_chain Example.forkedArmSystem 16 99 "a2" 3 [0, 1, 2] forkedArm_walkStart_a2
      forkedArm_path_a2 (by decide)).2,
    (getBranch_chain Example.bipedSystem 16 99 "rf" 8 [7] biped_walkStart_rf
      biped_path_rf (by decide)).2⟩

/-- C14 at `bipedSystem`: the branch `[1]` of the body `rf` goes into the joint
vector `[10, 11]` and comes back. -/
theorem branchState_roundTrip_witness :
    ∃ js', Example.bipedSystem.setBranchState 16 98 [10, 11] [1] "rf" = .ok js' ∧
      js'.length = [10, 11].length ∧
      Example.bipedSystem.getBranchState 16 99 js' "rf" = .ok [1] :=
  branchState_roundTrip Example.bipedSystem 16 98 99 [10, 11] [1] "rf" 8 [7]
    biped_walkStart_rf biped_path_rf (by decide) rfl
    (by
      intro start h
      cases h
      decide)

/-- C15 at `bipedSystem`: the branch of `rf` has one coordinate, so a branch
vector of two entries stops `setBranchState` with the fatal exit. -/
theorem setBranchState_fatal_iff_witness :
    Example.bipedSystem.setBranchState 16 99 [10, 11] [1, 2] "rf" = .error .fatalExit :=
  (setBranchState_fatal_iff Example.bipedSystem 16 99 [10, 11] [1, 2] "rf" 7 1 rfl).1.2
    (by decide)

/-- C30 at `bipedSystem`: writing the branch `[1]` of `rf` into `[10, 11]`
changes the entry 1 only. -/
theorem setBranchState_frame_witness :
    ∃ start k, Example.bipedSystem.getBranch 16 99 "rf" = .ok (start, k) ∧
      [(1 : Int)].length = k ∧ [(10 : Int), 1].length = [(10 : Int), 11].length ∧
      (∀ i, i < Example.bipedSystem.removeBaseIndex start ∨
          Example.bipedSystem.removeBaseIndex start + k ≤ i →
        [(10 : Int), 1][i]? = [(10 : Int), 11][i]?) ∧
      (∀ i, i < k →
        [(10 : Int), 1][Example.bipedSystem.removeBaseIndex start + i]? = [(1 : Int)][i]?) :=
  setBranchState_frame Example.bipedSystem 16 99 [10, 11] [1] [10, 1] "rf" rfl

/-- C29 at `bipedSystem`: the walk from the root body, whose parent chain
misses the base body 6, uses up the step budget. -/
theorem getBranch_termination_witness :
    Example.bipedSystem.getBranch 16 99 "ROOT" = .error .outOfFuel ∧
      Example.bipedSystem.getBranch 16 99 "trunk" = .ok (99, 0) :=
  ⟨(getBranch_termination Example.bipedSystem "ROOT" 0 biped_walkStart_root).2.2
      (.root (q := 0) (by decide) rfl rfl) 16 99,
    (getBranch_termination Example.bipedSystem "trunk" 6 biped_walkStart_trunk).2.1 rfl 16 99⟩

/-- C16 (counterexample). In `forkedArm` the joint `waist` on the path to `b2`
has the child limb a numbered before limb b. The path to `b2` has the
joint-only coordinates 0, 3, 4, but the slice that `getBranch` reports is
`[0, 3)`: `setBranchState` writes the branch `[1, 2, 3]` over the coordinates
1 and 2 of limb a and leaves 3 and 4 alone, and `getBranchState` returns the
coordinates 0, 1, 2. -/
theorem branch_slice_fork_counterexample :
    WalkStart Example.forkedArmSystem "b2" 5 ∧
      PathCoords Example.forkedArmSystem.rbd_model_ (baseBody Example.forkedArmSystem) 5
        [0, 3, 4] ∧
      [0, 3, 4].map (jointOnlyIndex Example.forkedArmSystem) = [0, 3, 4] ∧
      Example.forkedArmSystem.getBranch 16 99 "b2" = .ok (0, 3) ∧
      List.range' (Example.forkedArmSystem.removeBaseIndex 0) 3 = [0, 1, 2] ∧
      Example.forkedArmSystem.setBranchState 16 99 [10, 11, 12, 13, 14] [1, 2, 3] "b2" =
        .ok [1, 2, 3, 13, 14] ∧
      Example.forkedArmSystem.getBranchState 16 99 [10, 11, 12, 13, 14] "b2" =
        .ok [10, 11, 12] :=
  ⟨forkedArm_walkStart_b2, forkedArm_path_b2, rfl, rfl, rfl, rfl, rfl⟩

/-- C16 (amended) at `forkedArmSystem`, body `a2`, whose path has the
consecutive coordinates 0, 1, 2. -/
theorem branch_slice_consecutive_witness :
    ∃ start, Example.forkedArmSystem.getBranch 16 99 "a2" = .ok (start, [0, 1, 2].length) ∧
      List.range' (Example.forkedArmSystem.removeBaseIndex start) [0, 1, 2].length =
        [0, 1, 2].map (jointOnlyIndex Example.forkedArmSystem) ∧
      (∀ js', Example.forkedArmSystem.setBranchState 16 99 [10, 11, 12, 13, 14] [1, 2, 3] "a2" =
          .ok js' →
        ∀ i, i < [0, 1, 2].length →
          ([0, 1, 2][i]?).bind (fun q => js'[jointOnlyIndex Example.forkedArmSystem q]?) =
            [(1 : Int), 2, 3][i]?) :=
  branch_slice_consecutive Example.forkedArmSystem 16 99 [10, 11, 12, 13, 14] [1, 2, 3] "a2" 3
    [0, 1, 2] forkedArm_walkStart_a2 forkedArm_path_a2 (by decide) (by simp)
    (by
      have hb : baseBody Example.forkedArmSystem = 0 := rfl
      intro q hq
      rw [hb]
      simp only [List.mem_cons, List.mem_singleton, List.not_mem_nil, or_false] at hq
      rcases hq with rfl | rfl | rfl <;> decide)

/-! ### The coordinate of a floating-base joint id -/

theorem getFloatingBaseJoint_cases (s : FloatingBaseSystem α) :
    s.getFloatingBaseJoint .AX = s.floating_ax_ ∧ s.getFloatingBaseJoint .AY = s.floating_ay_ ∧
      s.getFloatingBaseJoint .AZ = s.floating_az_ ∧ s.getFloatingBaseJoint .LX = s.floating_lx_ ∧
      s.getFloatingBaseJoint .LY = s.floating_ly_ ∧ s.getFloatingBaseJoint .LZ = s.floating_lz_ :=
  ⟨rfl, rfl, rfl, rfl, rfl, rfl⟩

/-- C28 (amended). For an active slot `c` that is the only active slot with its
id, `getFloatingBaseJointCoordinate(id)` returns the number of `c`. When no
active slot has the id it returns 0, which is the number of the coordinate AX. -/
theorem getFloatingBaseJointCoordinate_spec (s : FloatingBaseSystem α) (id : Nat) :
    (∀ c : Coords6d, (s.getFloatingBaseJoint c).active = true →
        (s.getFloatingBaseJoint c).id = id →
        (∀ d : Coords6d, (s.getFloatingBaseJoint d).active = true →
          (s.getFloatingBaseJoint d).id = id → d = c) →
        s.getFloatingBaseJointCoordinate id = c.toNat) ∧
      ((∀ c : Coords6d, ¬((s.getFloatingBaseJoint c).active = true ∧
          (s.getFloatingBaseJoint c).id = id)) →
        s.getFloatingBaseJointCoordinate id = Coords6d.AX.toNat) := by
  obtain ⟨e1, e2, e3, e4, e5, e6⟩ := getFloatingBaseJoint_cases s
  constructor
  · intro c hact hid huniq
    have hAX := huniq .AX
    have hAY := huniq .AY
    have hAZ := huniq .AZ
    have hLX := huniq .LX
    have hLY := huniq .LY
    have hLZ := huniq .LZ
    rw [e1] at hAX
    rw [e2] at hAY
    rw [e3] at hAZ
    rw [e4] at hLX
    rw [e5] at hLY
    rw [e6] at hLZ
    unfold getFloatingBaseJointCoordinate
    split_ifs with h1 h2 h3 h4 h5 h6
    · rw [hAX h1.1 h1.2]
    · rw [hAY h2.1 h2.2]
    · rw [hAZ h3.1 h3.2]
    · rw [hLX h4.1 h4.2]
    · rw [hLY h5.1 h5.2]
    · rw [hLZ h6.1 h6.2]
    · exfalso
      cases c
      · exact h1 ⟨e1 ▸ hact, e1 ▸ hid⟩
      · exact h2 ⟨e2 ▸ hact, e2 ▸ hid⟩
      · exact h3 ⟨e3 ▸ hact, e3 ▸ hid⟩
      · exact h4 ⟨e4 ▸ hact, e4 ▸ hid⟩
      · exact h5 ⟨e5 ▸ hact, e5 ▸ hid⟩
      · exact h6 ⟨e6 ▸ hact, e6 ▸ hid⟩
  · intro hnone
    have hAX := hnone .AX
    have hAY := hnone .AY
    have hAZ := hnone .AZ
    have hLX := hnone .LX
    have hLY := hnone .LY
    have hLZ := hnone .LZ
    rw [e1] at hAX
    rw [e2] at hAY
    rw [e3] at hAZ
    rw [e4] at hLX
    rw [e5] at hLY
    rw [e6] at hLZ
    unfold getFloatingBaseJointCoordinate
    rw [if_neg hAX, if_neg hAY, if_neg hAZ, if_neg hLX, if_neg hLY, if_neg hLZ]
    rfl

/-- C28 (amended) at `flyingHopperSystem`: the id 3 belongs to the slot LX
alone. -/
theorem getFloatingBaseJointCoordinate_spec_witness :
    Example.flyingHopperSystem.getFloatingBaseJointCoordinate 3 = Coords6d.LX.toNat :=
  (getFloatingBaseJointCoordinate_spec Example.flyingHopperSystem 3).1 .LX rfl rfl (by decide)

/-- C28 (counterexample). On `flyingHopperSystem` the id 0 belongs to the
active slot AX and no active slot has the id 9, but
`getFloatingBaseJointCoordinate` returns the same value, the coordinate AX,
for both. -/
theorem getFloatingBaseJointCoordinate_counterexample :
    (Example.flyingHopperSystem.getFloatingBaseJoint .AX).active = true ∧
      (Example.flyingHopperSystem.getFloatingBaseJoint .AX).id = 0 ∧
      (∀ c : Coords6d, ¬((Example.flyingHopperSystem.getFloatingBaseJoint c).active = true ∧
        (Example.flyingHopperSystem.getFloatingBaseJoint c).id = 9)) ∧
      Example.flyingHopperSystem.getFloatingBaseJointCoordinate 9 =
        Example.flyingHopperSystem.getFloatingBaseJointCoordinate 0 ∧
      Example.flyingHopperSystem.getFloatingBaseJointCoordinate 9 = Coords6d.AX.toNat :=
  ⟨rfl, rfl, by decide, rfl, rfl⟩

/-! ### The motion of the floating-base joints -/

/-- C24 (the code at the failing input). `planarHopper` has the two
floating-base-eligible joints `slide_x` and `slide_z`, zero-effort prismatic
joints along x and along z. `getFloatingBaseJointMotion` classifies `slide_x`
as a translation along x and leaves the loop: `slide_z` gets no entry. -/
theorem floating_motion_stops_at_first :
    urdf_model.getJointNames 16 [] Example.planarHopper .floating =
        .ok [("slide_x", 0), ("slide_z", 1)] ∧
      urdf_model.getFloatingBaseJointMotion 16 [] Example.planarHopper =
        .ok [("slide_x", urdf_model.JointMotion.TX.toNat)] :=
  ⟨rfl, rfl⟩

/-! ### Tables in key order -/

theorem stringLess_iff (a b : String) : stringLess a b = true ↔ a < b := by
  unfold stringLess
  rw [decide_eq_true_iff, String.lt_iff_toList_lt]

theorem find_assign {β : Type} (m : StdMap β) (k k' : String) (v : β) :
    StdMap.find (StdMap.assign m k v) k' = if k = k' then some v else StdMap.find m k' := by
  induction m with
  | nil => simp [StdMap.assign, StdMap.find]
  | cons e rest ih =>
    obtain ⟨k0, v0⟩ := e
    unfold StdMap.assign
    by_cases h1 : stringLess k k0 = true
    · rw [if_pos h1]
      rfl
    · rw [if_neg h1]
      by_cases h2 : k0 = k
      · rw [if_pos h2]
        subst h2
        by_cases h3 : k0 = k'
        · simp [StdMap.find, h3]
        · simp [StdMap.find, h3]
      · rw [if_neg h2]
        by_cases h3 : k0 = k'
        · subst h3
          have h4 : ¬k = k0 := fun e => h2 e.symm
          simp [StdMap.find, h4]
        · simp only [StdMap.find, if_neg h3, ih]

theorem find_eq_none_iff {β : Type} (m : StdMap β) (k : String) :
    StdMap.find m k = none ↔ k ∉ StdMap.keys m := by
  induction m with
  | nil => simp [StdMap.find, StdMap.keys]
  | cons e rest ih =>
    obtain ⟨k0, v0⟩ := e
    unfold StdMap.find
    by_cases h : k0 = k
    · simp [h, StdMap.keys]
    · simp only [if_neg h, ih, StdMap.keys, List.map_cons, List.mem_cons, not_or]
      constructor
      · intro h'
        exact ⟨fun e => h e.symm, h'⟩
      · intro h'
        exact h'.2

theorem find_mem {β : Type} {m : StdMap β} {k : String} {v : β}
    (h : StdMap.find m k = some v) : (k, v) ∈ m := by
  induction m with
  | nil => simp [StdMap.find] at h
  | cons e rest ih =>
    obtain ⟨k0, v0⟩ := e
    unfold StdMap.find at h
    by_cases hk : k0 = k
    · simp only [if_pos hk, Option.some.injEq] at h
      subst hk
      subst h
      exact List.mem_cons_self _ _
    · rw [if_neg hk] at h
      exact List.mem_cons_of_mem _ (ih h)

theorem SortedKeys.tail {β : Type} {e : String × β} {rest : StdMap β}
    (h : SortedKeys (e :: rest)) : SortedKeys rest := by
  unfold SortedKeys StdMap.keys at h ⊢
  rw [List.map_cons, List.pairwise_cons] at h
  exact h.2

theorem SortedKeys.head_lt {β : Type} {e : String × β} {rest : StdMap β}
    (h : SortedKeys (e :: rest)) : ∀ k ∈ StdMap.keys rest, e.1 < k := by
  unfold SortedKeys StdMap.keys at h
  rw [List.map_cons, List.pairwise_cons] at h
  exact h.1

theorem SortedKeys.nodup {β : Type} {m : StdMap β} (h : SortedKeys m) :
    (StdMap.keys m).Nodup := by
  unfold SortedKeys at h
  exact h.imp (fun hlt => ne_of_lt hlt)

theorem mem_find {β : Type} {m : StdMap β} (hs : SortedKeys m) {k : String} {v : β}
    (h : (k, v) ∈ m) : StdMap.find m k = some v := by
  induction m with
  | nil => simp at h
  | cons e rest ih =>
    obtain ⟨k0, v0⟩ := e
    unfold StdMap.find
    rcases List.mem_cons.mp h with h | h
    · cases h
      simp
    · have hk : k ∈ StdMap.keys rest := List.mem_map.mpr ⟨(k, v), h, rfl⟩
      have hlt := hs.head_lt k hk
      rw [if_neg (ne_of_lt hlt)]
      exact ih hs.tail h

theorem sortedKeys_assign {β : Type} {m : StdMap β} (hs : SortedKeys m) (k : String) (v : β) :
    SortedKeys (StdMap.assign m k v) := by
  induction m with
  | nil => simp [StdMap.assign, SortedKeys, StdMap.keys]
  | cons e rest ih =>
    obtain ⟨k0, v0⟩ := e
    unfold StdMap.assign
    split_ifs with h1 h2
    · rw [stringLess_iff] at h1
      unfold SortedKeys StdMap.keys
      rw [List.map_cons, List.pairwise_cons]
      refine ⟨?_, hs⟩
      intro k' hk'
      rw [List.map_cons, List.mem_cons] at hk'
      rcases hk' with rfl | hk'
      · exact h1
      · exact lt_trans h1 (hs.head_lt k' hk')
    · subst h2
      exact hs
    · have hlt : k0 < k := by
        rw [stringLess_iff] at h1
        exact lt_of_le_of_ne (not_lt.mp h1) h2
      unfold SortedKeys StdMap.keys
      rw [List.map_cons, List.pairwise_cons]
      refine ⟨?_, ih hs.tail⟩
      intro k' hk'
      have hk'' : k' ∈ StdMap.keys (StdMap.assign rest k v) := hk'
      rcases StdMap.mem_keys_assign hk'' with rfl | hk3
      · exact hlt
      · exact hs.head_lt k' hk3

theorem size_assign_of_none {β : Type} {m : StdMap β} (hs : SortedKeys m) (k : String) (v : β)
    (hk : StdMap.find m k = none) : StdMap.size (StdMap.assign m k v) = StdMap.size m + 1 := by
  induction m with
  | nil => simp [StdMap.assign, StdMap.size]
  | cons e rest ih =>
    obtain ⟨k0, v0⟩ := e
    have hne : ¬k0 = k := by
      intro h
      simp [StdMap.find, h] at hk
    have hk' : StdMap.find rest k = none := by
      simpa [StdMap.find, hne] using hk
    unfold StdMap.assign
    by_cases h1 : stringLess k k0 = true
    · rw [if_pos h1]
      simp [StdMap.size]
    · rw [if_neg h1, if_neg hne]
      have := ih hs.tail hk'
      simp only [StdMap.size, List.length_cons] at this ⊢
      omega

theorem size_assign_of_some {β : Type} {m : StdMap β} (hs : SortedKeys m) (k : String) (v v' : β)
    (hk : StdMap.find m k = some v') : StdMap.size (StdMap.assign m k v) = StdMap.size m := by
  induction m with
  | nil => simp [StdMap.find] at hk
  | cons e rest ih =>
    obtain ⟨k0, v0⟩ := e
    unfold StdMap.assign
    by_cases h1 : stringLess k k0 = true
    · exfalso
      rw [stringLess_iff] at h1
      have hmem : k ∈ StdMap.keys ((k0, v0) :: rest) := by
        by_contra hn
        rw [← find_eq_none_iff] at hn
        rw [hn] at hk
        cases hk
      simp only [StdMap.keys, List.map_cons, List.mem_cons] at hmem
      rcases hmem with rfl | hmem
      · exact lt_irrefl _ h1
      · exact lt_irrefl _ (lt_trans h1 (hs.head_lt k hmem))
    · rw [if_neg h1]
      by_cases h2 : k0 = k
      · rw [if_pos h2]
        simp [StdMap.size]
      · rw [if_neg h2]
        have hk' : StdMap.find rest k = some v' := by
          simpa [StdMap.find, h2] using hk
        have := ih hs.tail hk'
        simp only [StdMap.size, List.length_cons] at this ⊢
        omega

/-! ### The tables of the depth-first enumeration -/

theorem sortedKeys_nil {β : Type} : SortedKeys ([] : StdMap β) := by
  simp [SortedKeys, StdMap.keys]

theorem classifyJoint_free [Zero α] [DecidableEq α] (joint : urdf.Joint α)
    (joints : urdf_model.JointID) (idx : Nat) :
    urdf_model.classifyJoint .free joint joints idx =
      .ok (if isFreeJoint joint = true then (StdMap.assign joints joint.name idx, idx + 1)
        else (joints, idx)) := by
  unfold urdf_model.classifyJoint isFreeJoint
  simp only [if_true, decide_eq_true_eq]
  split_ifs <;> rfl

theorem classifyJoint_fixed [Zero α] [DecidableEq α] (joint : urdf.Joint α)
    (joints : urdf_model.JointID) (idx : Nat) :
    urdf_model.classifyJoint .fixed joint joints idx =
      .ok (if joint.type = .FIXED then (StdMap.assign joints joint.name idx, idx + 1)
        else (joints, idx)) := by
  unfold urdf_model.classifyJoint
  simp only [reduceCtorEq, if_false, if_true]
  split_ifs <;> rfl

theorem classifyJoint_all [Zero α] [DecidableEq α] (joint : urdf.Joint α)
    (joints : urdf_model.JointID) (idx : Nat) :
    urdf_model.classifyJoint .all joint joints idx =
      .ok (if joint.type = .FIXED then (StdMap.assign joints joint.name UINT_MAX, idx)
        else (StdMap.assign joints joint.name idx, idx + 1)) := by
  unfold urdf_model.classifyJoint
  simp only [reduceCtorEq, if_false]
  split_ifs <;> rfl

theorem classifyJoint_floating [Zero α] [DecidableEq α] {joint : urdf.Joint α}
    {joints : urdf_model.JointID} {idx : Nat} {r : urdf_model.JointID × Nat}
    (h : urdf_model.classifyJoint .floating joint joints idx = .ok r) :
    r = if isFloatingBaseJoint joint = true then (StdMap.assign joints joint.name idx, idx + 1)
      else (joints, idx) := by
  unfold urdf_model.classifyJoint at h
  simp only [reduceCtorEq, if_false, if_true] at h
  unfold isFloatingBaseJoint
  by_cases h1 : joint.type = .FLOATING
  · have h2 : ¬(joint.type = .PRISMATIC ∨ joint.type = .REVOLUTE ∨ joint.type = .CONTINUOUS) := by
      rw [h1]
      simp
    simp only [h1, if_true] at h
    simp only [reduceCtorEq, or_self, if_false] at h
    cases h
    simp [h1]
  · simp only [if_neg h1] at h
    by_cases h2 : joint.type = .PRISMATIC ∨ joint.type = .REVOLUTE ∨ joint.type = .CONTINUOUS
    · simp only [if_pos h2] at h
      cases hl : joint.limits with
      | none => simp [hl] at h
      | some limits =>
        simp only [hl] at h
        by_cases h3 : limits.effort = 0
        · rw [if_pos h3] at h
          cases h
          simp [h1, h2, h3]
        · rw [if_neg h3] at h
          cases h
          simp [h1, h2, h3]
    · simp only [if_neg h2] at h
      cases h
      simp [h1, h2]

theorem classifyJoint_sorted [Zero α] [DecidableEq α] {type : urdf_model.JointType}
    {joint : urdf.Joint α} {joints joints' : urdf_model.JointID} {idx idx' : Nat}
    (hs : SortedKeys joints)
    (h : urdf_model.classifyJoint type joint joints idx = .ok (joints', idx')) :
    SortedKeys joints' := by
  cases type with
  | free =>
    rw [classifyJoint_free] at h
    split_ifs at h <;> cases h
    · exact sortedKeys_assign hs _ _
    · exact hs
  | fixed =>
    rw [classifyJoint_fixed] at h
    split_ifs at h <;> cases h
    · exact sortedKeys_assign hs _ _
    · exact hs
  | floating =>
    have := classifyJoint_floating h
    split_ifs at this <;> cases this
    · exact sortedKeys_assign hs _ _
    · exact hs
  | all =>
    rw [classifyJoint_all] at h
    split_ifs at h <;> cases h
    · exact sortedKeys_assign hs _ _
    · exact sortedKeys_assign hs _ _

theorem getJointNamesLoop_sorted [Zero α] [DecidableEq α] (link_map : StdMap (urdf.Link α))
    (type : urdf_model.JointType) :
    ∀ (fuel : Nat) (ls : List (Option (urdf.Link α))) (bs : List Nat) (idx : Nat)
      (joints J : urdf_model.JointID), SortedKeys joints →
      urdf_model.getJointNamesLoop link_map type fuel ls bs idx joints = .ok J → SortedKeys J := by
  intro fuel
  induction fuel with
  | zero =>
    intro ls bs idx joints J hs h
    cases ls with
    | nil =>
      simp only [urdf_model.getJointNamesLoop] at h
      cases h
      exact hs
    | cons l rest => simp [urdf_model.getJointNamesLoop] at h
  | succ fuel ih =>
    intro ls bs idx joints J hs h
    cases ls with
    | nil =>
      simp only [urdf_model.getJointNamesLoop] at h
      cases h
      exact hs
    | cons l rest =>
      cases bs with
      | nil => simp [urdf_model.getJointNamesLoop] at h
      | cons b brest =>
        cases l with
        | none => simp [urdf_model.getJointNamesLoop] at h
        | some link =>
          simp only [urdf_model.getJointNamesLoop] at h
          split at h
          · rename_i cj hcj
            split at h
            · cases h
            · rename_i joints' idx' hc
              exact ih _ _ _ _ J (classifyJoint_sorted hs hc) h
          · exact ih _ _ _ _ J hs h

theorem getJointNames_sorted [Zero α] [DecidableEq α] {fuel : Nat}
    {model : urdf.ModelInterface α} {type : urdf_model.JointType} {J : urdf_model.JointID}
    (h : urdf_model.getJointNames fuel [] model type = .ok J) : SortedKeys J := by
  unfold urdf_model.getJointNames at h
  split at h
  · cases h
  · split at h
    · cases h
    · exact getJointNamesLoop_sorted _ _ _ _ _ _ _ J sortedKeys_nil h

/-! ### The end-effector table -/

/-- The end-effector table while `getEndEffectors` fills it: key order, as many
entries as the running index, every id below the index, no id twice. -/
theorem getEndEffectorsLoop_ids [Zero α] [DecidableEq α] (fuel : Nat)
    (model : urdf.ModelInterface α) (root : String) (hone : OneParentJoint model) :
    ∀ (l : List (String × Nat)) (m ees : urdf_model.LinkID) (idx : Nat),
      (l.map Prod.fst).Nodup → SortedKeys m → StdMap.size m = idx →
      (∀ name id, StdMap.find m name = some id → id < idx) → DistinctIds m →
      (∀ name ∈ StdMap.keys m, ∃ jn ja, jn ∉ l.map Prod.fst ∧
        StdMap.find model.joints_ jn = some ja ∧ ja.child_link_name = name) →
      urdf_model.getEndEffectorsLoop fuel model root l m idx = .ok ees →
      SortedKeys ees ∧ (∀ name id, StdMap.find ees name = some id → id < StdMap.size ees) ∧
        DistinctIds ees := by
  intro l
  induction l with
  | nil =>
    intro m ees idx _ hs hsize hlt hd _ h
    simp only [urdf_model.getEndEffectorsLoop] at h
    cases h
    exact ⟨hs, fun name id hf => hsize ▸ hlt name id hf, hd⟩
  | cons e rest ih =>
    intro m ees idx hnd hs hsize hlt hd hprov h
    obtain ⟨jn, jv⟩ := e
    rw [List.map_cons, List.nodup_cons] at hnd
    simp only [urdf_model.getEndEffectorsLoop] at h
    cases hj : StdMap.find model.joints_ jn with
    | none => simp [hj] at h
    | some cj =>
      simp only [hj] at h
      cases hc : StdMap.find model.links_ cj.child_link_name with
      | none => simp [hc] at h
      | some child =>
        simp only [hc] at h
        have hprov' : ∀ name ∈ StdMap.keys m, ∃ jn' ja, jn' ∉ rest.map Prod.fst ∧
            StdMap.find model.joints_ jn' = some ja ∧ ja.child_link_name = name := by
          intro name hname
          obtain ⟨jn', ja, h1, h2, h3⟩ := hprov name hname
          refine ⟨jn', ja, ?_, h2, h3⟩
          intro hmem
          exact h1 (by simp [hmem])
        split at h
        · cases h
        · -- the child link is recorded
          have hfresh : StdMap.find m cj.child_link_name = none := by
            rw [find_eq_none_iff]
            intro hmem
            obtain ⟨jn', ja, h1, h2, h3⟩ := hprov _ hmem
            have := hone jn' jn ja cj h2 hj h3
            exact h1 (by simp [this])
          refine ih _ ees (idx + 1) hnd.2 (sortedKeys_assign hs _ _) ?_ ?_ ?_ ?_ h
          · rw [size_assign_of_none hs _ _ hfresh, hsize]
          · intro name id hf
            rw [find_assign] at hf
            split_ifs at hf with hk
            · cases hf
              omega
            · have := hlt name id hf
              omega
          · intro a b id ha hb
            rw [find_assign] at ha hb
            split_ifs at ha hb with hk1 hk2 hk2
            · exact hk1.symm.trans hk2
            · cases ha
              exact absurd (hlt b _ hb) (lt_irrefl _)
            · cases hb
              exact absurd (hlt a _ ha) (lt_irrefl _)
            · exact hd a b id ha hb
          · intro name hname
            rcases StdMap.mem_keys_assign hname with rfl | hname
            · exact ⟨jn, cj, hnd.1, hj, rfl⟩
            · exact hprov' name hname
        · exact ih _ ees idx hnd.2 hs hsize hlt hd hprov' h

theorem getEndEffectors_ids [Zero α] [DecidableEq α] {fuel : Nat}
    {model : urdf.ModelInterface α} (hone : OneParentJoint model) {ees : urdf_model.LinkID}
    (h : urdf_model.getEndEffectors fuel [] model = .ok ees) :
    SortedKeys ees ∧ (∀ name id, StdMap.find ees name = some id → id < StdMap.size ees) ∧
      DistinctIds ees := by
  unfold urdf_model.getEndEffectors at h
  cases h1 : urdf_model.getJointNames fuel [] model .fixed with
  | error e => simp [h1, bind, Except.bind] at h
  | ok fixed_joints =>
    simp only [h1, bind, Except.bind] at h
    split at h
    · cases h
    · split at h
      · cases h
      · refine getEndEffectorsLoop_ids fuel model _ hone fixed_joints [] ees 0
          (getJointNames_sorted h1).nodup sortedKeys_nil rfl ?_ ?_ ?_ h
        · intro name id hf
          simp [StdMap.find] at hf
        · intro a b id ha
          simp [StdMap.find] at ha
        · intro name hname
          simp [StdMap.keys] at hname

/-- An entry of the end-effector table stays when a foot is looked at. -/
theorem addFoot_keeps (t : FloatingBaseSystem α) (x name : String) (id : Nat)
    (h : StdMap.find t.end_effectors_ name = some id) :
    StdMap.find (addFoot t x).end_effectors_ name = some id := by
  unfold addFoot
  split_ifs with hc
  · dsimp only
    rw [find_assign]
    have hx : StdMap.find t.end_effectors_ x = none := by
      unfold StdMap.count at hc
      split at hc
      · cases hc
      · assumption
    have hne : ¬x = name := by
      intro e
      rw [e, h] at hx
      cases hx
    rw [if_neg hne]
    exact h
  · exact h

/-- After a foot is looked at it is in the end-effector table. -/
theorem addFoot_has (t : FloatingBaseSystem α) (x : String) :
    ∃ id, StdMap.find (addFoot t x).end_effectors_ x = some id := by
  unfold addFoot
  split_ifs with hc
  · exact ⟨_, by dsimp only; rw [find_assign, if_pos rfl]⟩
  · unfold StdMap.count at hc
    split at hc
    · rename_i v hv
      exact ⟨v, hv⟩
    · exact absurd rfl hc

theorem foldl_addFoot_keeps (l : List String) :
    ∀ (t : FloatingBaseSystem α) (name : String) (id : Nat),
      StdMap.find t.end_effectors_ name = some id →
      StdMap.find (l.foldl addFoot t).end_effectors_ name = some id := by
  induction l with
  | nil => exact fun t name id h => h
  | cons x rest ih => exact fun t name id h => ih _ name id (addFoot_keeps t x name id h)

theorem foldl_addFoot_has (l : List String) :
    ∀ (t : FloatingBaseSystem α) (x : String), x ∈ l →
      ∃ id, StdMap.find (l.foldl addFoot t).end_effectors_ x = some id := by
  induction l with
  | nil => intro t x hx; cases hx
  | cons y rest ih =>
    intro t x hx
    rcases List.mem_cons.mp hx with rfl | hx
    · obtain ⟨id, hid⟩ := addFoot_has t x
      exact ⟨id, foldl_addFoot_keeps rest _ x id hid⟩
    · exact ih _ x hx

/-- The end-effector table while the feet are added: key order, every id at
most the size of the table, no id twice, and every name is an end-effector of
the table `ees` or one of the feet `feet`. -/
theorem foldl_addFoot_ids (ees : urdf_model.LinkID) (feet : List String) (l : List String) :
    ∀ (t : FloatingBaseSystem α), (∀ x ∈ l, x ∈ feet) →
      SortedKeys t.end_effectors_ →
      (∀ name id, StdMap.find t.end_effectors_ name = some id →
        id ≤ StdMap.size t.end_effectors_) →
      DistinctIds t.end_effectors_ →
      (∀ name id, StdMap.find t.end_effectors_ name = some id →
        StdMap.find ees name = some id ∨ (StdMap.find ees name = none ∧ name ∈ feet)) →
      (∀ name id, StdMap.find ees name = some id →
        StdMap.find t.end_effectors_ name = some id) →
      SortedKeys (l.foldl addFoot t).end_effectors_ ∧
        DistinctIds (l.foldl addFoot t).end_effectors_ ∧
        (∀ name id, StdMap.find (l.foldl addFoot t).end_effectors_ name = some id →
          StdMap.find ees name = some id ∨ (StdMap.find ees name = none ∧ name ∈ feet)) := by
  induction l with
  | nil => exact fun t _ hs _ hd hp _ => ⟨hs, hd, hp⟩
  | cons x rest ih =>
    intro t hmem hs hle hd hp hkeep
    have hmem' : ∀ y ∈ rest, y ∈ feet := fun y hy => hmem y (List.mem_cons_of_mem _ hy)
    rw [List.foldl_cons]
    by_cases hc : StdMap.count t.end_effectors_ x = 0
    · have hx : StdMap.find t.end_effectors_ x = none := by
        unfold StdMap.count at hc
        split at hc
        · cases hc
        · assumption
      have hee : (addFoot t x).end_effectors_ =
          StdMap.assign t.end_effectors_ x (StdMap.size t.end_effectors_ + 1) := by
        unfold addFoot
        rw [if_pos hc]
      have hxe : StdMap.find ees x = none := by
        cases hf : StdMap.find ees x with
        | none => rfl
        | some id0 =>
          rw [hkeep x id0 hf] at hx
          cases hx
      refine ih _ hmem' ?_ ?_ ?_ ?_
        (fun name id hf => addFoot_keeps t x name id (hkeep name id hf))
      · rw [hee]
        exact sortedKeys_assign hs _ _
      · rw [hee]
        intro name id hf
        rw [size_assign_of_none hs _ _ hx]
        rw [find_assign] at hf
        split_ifs at hf with hk
        · cases hf
          exact le_refl _
        · exact Nat.le_succ_of_le (hle name id hf)
      · rw [hee]
        intro a b id ha hb
        rw [find_assign] at ha hb
        split_ifs at ha hb with hk1 hk2 hk2
        · exact hk1.symm.trans hk2
        · cases ha
          have := hle b _ hb
          omega
        · cases hb
          have := hle a _ ha
          omega
        · exact hd a b id ha hb
      · rw [hee]
        intro name id hf
        rw [find_assign] at hf
        split_ifs at hf with hk
        · subst hk
          exact Or.inr ⟨hxe, hmem x (List.mem_cons_self _ _)⟩
        · exact hp name id hf
    · have hee : addFoot t x = t := by
        unfold addFoot
        rw [if_neg hc]
      rw [hee]
      exact ih t hmem' hs hle hd hp hkeep

theorem oneParentJoint_of_nodup (model : urdf.ModelInterface α)
    (h : (model.joints_.map (fun e => e.2.child_link_name)).Nodup) : OneParentJoint model := by
  intro a b ja jb ha hb hc
  have := List.inj_on_of_nodup_map h (find_mem ha) (find_mem hb) hc
  exact congrArg Prod.fst this

theorem mem_sortNames (feet : List String) (x : String) : x ∈ sortNames feet ↔ x ∈ feet := by
  unfold sortNames
  exact (List.perm_insertionSort _ feet).mem_iff

theorem finishReset_endEffectors (uninit : Nat → α) (s : FloatingBaseSystem α) :
    (finishReset uninit s).end_effectors_ = s.end_effectors_ ∧
      (finishReset uninit s).num_end_effectors_ = StdMap.size s.end_effectors_ := by
  unfold finishReset
  dsimp only
  split_ifs <;> exact ⟨rfl, rfl⟩

theorem resetSystemDescription_endEffectors (s s' : FloatingBaseSystem α)
    (file : SystemDescription α) (feet : List String) (hfeet : file.feet = some feet)
    (h : resetSystemDescription s file = .ok s') :
    s'.end_effectors_ =
      ((sortNames feet).foldl addFoot
        { s with foot_names_ := sortNames feet, num_feet_ := (sortNames feet).length }
        ).end_effectors_ := by
  unfold resetSystemDescription at h
  dsimp only at h
  have hread : readFeet s file = (sortNames feet).foldl addFoot
      { s with foot_names_ := sortNames feet, num_feet_ := (sortNames feet).length } := by
    unfold readFeet
    rw [hfeet]
  rw [hread] at h
  refine foldlM_preserves
    (fun t : FloatingBaseSystem α => t.end_effectors_ =
      ((sortNames feet).foldl addFoot
        { s with foot_names_ := sortNames feet, num_feet_ := (sortNames feet).length }
        ).end_effectors_)
    (readPosture file) ?_ _ _ s' rfl h
  intro t x t' hP ht
  have := (readPosture_frame file t t' x ht).2
  simp only [feetData, Prod.mk.injEq] at this
  exact this.1.trans hP

/-- The end-effector table of a model constructed with an explicit foot list,
in terms of the table that `getEndEffectors` reads from the description. -/
theorem resetFromURDFModel_endEffectors [Zero α] [DecidableEq α] {fuel : Nat}
    {uninit : Nat → α} {s S : FloatingBaseSystem α} {rbd : RBDModel}
    {model : urdf.ModelInterface α} {file : SystemDescription α} {feet : List String}
    (hfeet : file.feet = some feet)
    (h : resetFromURDFModel fuel uninit s rbd model (some file) = .ok S) :
    ∃ (ees : urdf_model.LinkID) (s12 : FloatingBaseSystem α),
      urdf_model.getEndEffectors fuel s.end_effectors_ model = .ok ees ∧
      s12.end_effectors_ = ees ∧
      S.end_effectors_ = ((sortNames feet).foldl addFoot
        { s12 with foot_names_ := sortNames feet, num_feet_ := (sortNames feet).length }
        ).end_effectors_ ∧
      S.num_end_effectors_ = StdMap.size S.end_effectors_ := by
  obtain ⟨names, s3, free, limits, ees, s13, -, h2, -, -, h5, h6, hS⟩ :=
    resetFromURDFModel_inv h
  obtain ⟨-, -, -, -, hfd⟩ := stateAfterJoints_type s3 names free limits
  have hfd3 : feetData s3 = feetData s := (setFloatingSlots_feetData fuel model names _ s3 h2).1
  have hfd9 := hfd.trans hfd3
  simp only [feetData, Prod.mk.injEq] at hfd9
  refine ⟨ees, stateBeforeDescription (stateAfterJoints s3 names free limits) ees, ?_, rfl, ?_, ?_⟩
  · rw [← hfd9.1]
    exact h5
  · rw [hS, (finishReset_endEffectors uninit s13).1]
    exact resetSystemDescription_endEffectors _ s13 file feet hfeet h6
  · rw [hS, (finishReset_endEffectors uninit s13).2, (finishReset_endEffectors uninit s13).1]

/-- C11. When a model is constructed on a fresh object from a description in
which every link has one parent joint, with a supplementary foot list, the
end-effector table holds every end-effector that `getEndEffectors` reads from
the description, with its id, and every foot of the list; no two names carry
the same id, so the id of a new foot differs from every other id; every name
of the table is an original end-effector or a listed foot; and the reported
number of end-effectors is the number of names of the table. -/
theorem resetFromURDFModel_new_foot [Zero α] [DecidableEq α] (fuel : Nat) (uninit : Nat → α)
    (rbd0 rbd : RBDModel) (full : Bool) (n : Nat) (model : urdf.ModelInterface α)
    (file : SystemDescription α) (feet : List String) (S : FloatingBaseSystem α)
    (hone : OneParentJoint model) (hfeet : file.feet = some feet)
    (hS : resetFromURDFModel fuel uninit (FloatingBaseSystem.new rbd0 full n) rbd model
      (some file) = .ok S) :
    ∃ ees, urdf_model.getEndEffectors fuel [] model = .ok ees ∧
      (∀ name id, StdMap.find ees name = some id →
        StdMap.find (S.getEndEffectors .ALL) name = some id) ∧
      (∀ foot ∈ feet, ∃ id, StdMap.find (S.getEndEffectors .ALL) foot = some id) ∧
      DistinctIds (S.getEndEffectors .ALL) ∧
      (∀ name id, StdMap.find (S.getEndEffectors .ALL) name = some id →
        StdMap.find ees name = some id ∨ (StdMap.find ees name = none ∧ name ∈ feet)) ∧
      (StdMap.keys (S.getEndEffectors .ALL)).Nodup ∧
      S.getNumberOfEndEffectors .ALL = StdMap.size (S.getEndEffectors .ALL) := by
  obtain ⟨ees, s12, h1, h2, h3, h4⟩ := resetFromURDFModel_endEffectors hfeet hS
  have h1' : urdf_model.getEndEffectors fuel [] model = .ok ees := h1
  obtain ⟨hs, hlt, hd⟩ := getEndEffectors_ids hone h1'
  have hall : S.getEndEffectors .ALL = S.end_effectors_ := rfl
  have hnum : S.getNumberOfEndEffectors .ALL = S.num_end_effectors_ := rfl
  rw [hall, hnum, h3]
  subst h2
  obtain ⟨hs', hd', hp'⟩ := foldl_addFoot_ids s12.end_effectors_ feet (sortNames feet)
    { s12 with foot_names_ := sortNames feet, num_feet_ := (sortNames feet).length }
    (fun x hx => (mem_sortNames feet x).mp hx) hs
    (fun name id hf => le_of_lt (hlt name id hf)) hd
    (fun name id hf => Or.inl hf) (fun name id hf => hf)
  refine ⟨s12.end_effectors_, h1', ?_, ?_, hd', hp', hs'.nodup, ?_⟩
  · intro name id hf
    exact foldl_addFoot_keeps _ _ name id hf
  · intro foot hfoot
    exact foldl_addFoot_has _ _ foot ((mem_sortNames feet foot).mpr hfoot)
  · rw [← h3]
    exact h4

theorem biped_oneParentJoint : OneParentJoint Example.biped :=
  oneParentJoint_of_nodup Example.biped (by decide)

/-- C11 at `biped`, whose end-effectors are `lf` and `rf`, with the foot list
`[tail, rf, lf]`: the table becomes `lf: 0, rf: 1, tail: 3`. -/
theorem resetFromURDFModel_new_foot_witness :
    ∃ S, resetFromURDFModel 16 Example.garbage (FloatingBaseSystem.new Example.emptyRbd false 0)
        Example.bipedRbd Example.biped (some Example.threeFeetFile) = .ok S ∧
      S.getEndEffectors .ALL = [("lf", 0), ("rf", 1), ("tail", 3)] ∧
      S.getNumberOfEndEffectors .ALL = 3 ∧
      ∃ ees, urdf_model.getEndEffectors 16 [] Example.biped = .ok ees ∧
        (∀ name id, StdMap.find ees name = some id →
          StdMap.find (S.getEndEffectors .ALL) name = some id) ∧
        (∀ foot ∈ ["tail", "rf", "lf"], ∃ id, StdMap.find (S.getEndEffectors .ALL) foot =
          some id) ∧
        DistinctIds (S.getEndEffectors .ALL) ∧
        (∀ name id, StdMap.find (S.getEndEffectors .ALL) name = some id →
          StdMap.find ees name = some id ∨
            (StdMap.find ees name = none ∧ name ∈ ["tail", "rf", "lf"])) ∧
        (StdMap.keys (S.getEndEffectors .ALL)).Nodup ∧
        S.getNumberOfEndEffectors .ALL = StdMap.size (S.getEndEffectors .ALL) :=
  ⟨_, rfl, rfl, rfl,
    resetFromURDFModel_new_foot 16 Example.garbage Example.emptyRbd Example.bipedRbd false 0
      Example.biped Example.threeFeetFile ["tail", "rf", "lf"] _ biped_oneParentJoint rfl rfl⟩

/-! ### The depth-first enumeration as a list of joints -/

/-- The classification of `getJointNames` along a list of joints. -/
theorem getJointNamesLoop_visited [Zero α] [DecidableEq α] (link_map : StdMap (urdf.Link α))
    (type : urdf_model.JointType) :
    ∀ (fuel : Nat) (ls : List (Option (urdf.Link α))) (bs : List Nat) (idx : Nat)
      (joints J : urdf_model.JointID),
      urdf_model.getJointNamesLoop link_map type fuel ls bs idx joints = .ok J →
      ∃ js idx', visitedJointsLoop link_map fuel ls bs = .ok js ∧
        js.foldlM (fun st joint => urdf_model.classifyJoint type joint st.1 st.2) (joints, idx) =
          .ok (J, idx') := by
  intro fuel
  induction fuel with
  | zero =>
    intro ls bs idx joints J h
    cases ls with
    | nil =>
      simp only [urdf_model.getJointNamesLoop] at h
      cases h
      exact ⟨[], idx, rfl, rfl⟩
    | cons l rest => simp [urdf_model.getJointNamesLoop] at h
  | succ fuel ih =>
    intro ls bs idx joints J h
    cases ls with
    | nil =>
      simp only [urdf_model.getJointNamesLoop] at h
      cases h
      exact ⟨[], idx, rfl, rfl⟩
    | cons l rest =>
      cases bs with
      | nil => simp [urdf_model.getJointNamesLoop] at h
      | cons b brest =>
        cases l with
        | none => simp [urdf_model.getJointNamesLoop] at h
        | some link =>
          simp only [urdf_model.getJointNamesLoop] at h
          simp only [visitedJointsLoop]
          cases hcj : link.child_joints[b]? with
          | none =>
            simp only [hcj] at h
            exact ih _ _ _ _ J h
          | some cj =>
            simp only [hcj] at h
            cases hc : urdf_model.classifyJoint type cj joints idx with
            | error e => simp [hc] at h
            | ok r =>
              obtain ⟨joints', idx1⟩ := r
              simp only [hc] at h
              obtain ⟨js, idx', h1, h2⟩ := ih _ _ _ _ J h
              refine ⟨cj :: js, idx', ?_, ?_⟩
              · simp only [h1]
              · simp only [List.foldlM_cons, hc, bind, Except.bind]
                exact h2

theorem getJointNames_visited [Zero α] [DecidableEq α] {fuel : Nat}
    {model : urdf.ModelInterface α} {type : urdf_model.JointType} {J : urdf_model.JointID}
    (h : urdf_model.getJointNames fuel [] model type = .ok J) :
    ∃ js idx', visitedJoints fuel model = .ok js ∧
      js.foldlM (fun st joint => urdf_model.classifyJoint type joint st.1 st.2)
        (([] : urdf_model.JointID), 0) = .ok (J, idx') := by
  unfold urdf_model.getJointNames at h
  unfold visitedJoints
  cases hr : model.root_link_ with
  | none => simp [hr] at h
  | some root_name =>
    simp only [hr] at h ⊢
    cases hl : StdMap.find model.links_ root_name with
    | none => simp [hl] at h
    | some root =>
      simp only [hl] at h ⊢
      exact getJointNamesLoop_visited _ _ _ _ _ _ _ J h

theorem numbers_nil : Numbers ([] : StdMap Nat) [] := by
  refine ⟨sortedKeys_nil, rfl, ?_⟩
  intro name v
  simp [StdMap.find]

theorem Numbers.find_none {m : StdMap Nat} {names : List String} (h : Numbers m names)
    (name : String) : StdMap.find m name = none ↔ name ∉ names := by
  constructor
  · intro hf hmem
    obtain ⟨v, hv⟩ := List.getElem?_of_mem hmem
    rw [← h.2.2] at hv
    rw [hv] at hf
    cases hf
  · intro hmem
    cases hf : StdMap.find m name with
    | none => rfl
    | some v =>
      exact absurd (List.getElem?_mem ((h.2.2 name v).mp hf)) hmem

theorem numbers_assign {m : StdMap Nat} {names : List String} (h : Numbers m names)
    (name : String) (hfresh : name ∉ names) :
    Numbers (StdMap.assign m name names.length) (names ++ [name]) := by
  obtain ⟨hs, hsize, hiff⟩ := h
  have hnone : StdMap.find m name = none := (Numbers.find_none ⟨hs, hsize, hiff⟩ name).mpr hfresh
  refine ⟨sortedKeys_assign hs _ _, ?_, ?_⟩
  · rw [size_assign_of_none hs _ _ hnone, hsize]
    simp
  · intro k v
    rw [find_assign]
    by_cases hk : name = k
    · subst hk
      rw [if_pos rfl]
      constructor
      · intro hv
        cases hv
        simp
      · intro hv
        rcases Nat.lt_trichotomy v names.length with hlt | heq | hgt
        · rw [List.getElem?_append_left hlt] at hv
          exact absurd (List.getElem?_mem hv) hfresh
        · rw [heq]
        · rw [List.getElem?_eq_none (by simp; omega)] at hv
          cases hv
    · rw [if_neg hk, hiff]
      constructor
      · intro hv
        have hlt : v < names.length := by
          by_contra hge
          rw [List.getElem?_eq_none (by omega)] at hv
          cases hv
        rw [List.getElem?_append_left hlt]
        exact hv
      · intro hv
        rcases Nat.lt_trichotomy v names.length with hlt | heq | hgt
        · rw [List.getElem?_append_left hlt] at hv
          exact hv
        · rw [heq] at hv
          simp at hv
          exact absurd hv hk
        · rw [List.getElem?_eq_none (by simp; omega)] at hv
          cases hv

/-- A classification that gives the running index to the joints that satisfy
`p` numbers their names in the order of the list. -/
theorem classify_numbers [Zero α] [DecidableEq α] (type : urdf_model.JointType)
    (p : urdf.Joint α → Bool)
    (hclass : ∀ joint joints idx r, urdf_model.classifyJoint type joint joints idx = .ok r →
      r = if p joint = true then (StdMap.assign joints joint.name idx, idx + 1)
        else (joints, idx)) :
    ∀ (js : List (urdf.Joint α)) (J0 : urdf_model.JointID) (idx0 : Nat) (L : List String)
      (J : urdf_model.JointID) (idx' : Nat), Numbers J0 L → idx0 = L.length →
      (js.map (fun joint => joint.name)).Nodup → (∀ joint ∈ js, joint.name ∉ L) →
      js.foldlM (fun st joint => urdf_model.classifyJoint type joint st.1 st.2) (J0, idx0) =
        .ok (J, idx') →
      Numbers J (L ++ (js.filter p).map (fun joint => joint.name)) := by
  intro js
  induction js with
  | nil =>
    intro J0 idx0 L J idx' hn _ _ _ h
    simp only [List.foldlM_nil, pure, Except.pure] at h
    cases h
    simpa using hn
  | cons j rest ih =>
    intro J0 idx0 L J idx' hn hidx hnd hfresh h
    rw [List.map_cons, List.nodup_cons] at hnd
    simp only [List.foldlM_cons, bind, Except.bind] at h
    cases hc : urdf_model.classifyJoint type j J0 idx0 with
    | error e => simp [hc] at h
    | ok r =>
      simp only [hc] at h
      have hr := hclass j J0 idx0 r hc
      by_cases hp : p j = true
      · rw [if_pos hp] at hr
        subst hr
        have hj : j.name ∉ L := hfresh j (List.mem_cons_self _ _)
        have hn' := numbers_assign hn j.name hj
        have := ih _ _ (L ++ [j.name]) J idx' (hidx ▸ hn') (by simp [hidx]) hnd.2
          (by
            intro j' hj' hmem
            rcases List.mem_append.mp hmem with hm | hm
            · exact hfresh j' (List.mem_cons_of_mem _ hj') hm
            · rw [List.mem_singleton] at hm
              exact hnd.1 (List.mem_map.mpr ⟨j', hj', hm⟩)) h
        simpa [List.filter_cons, hp] using this
      · rw [if_neg hp] at hr
        subst hr
        have := ih _ _ L J idx' hn hidx hnd.2
          (fun j' hj' => hfresh j' (List.mem_cons_of_mem _ hj')) h
        simpa [List.filter_cons, hp] using this

theorem getJointNames_free_numbers [Zero α] [DecidableEq α] {fuel : Nat}
    {model : urdf.ModelInterface α} {J : urdf_model.JointID} {visited : List (urdf.Joint α)}
    (hv : visitedJoints fuel model = .ok visited)
    (hnd : (visited.map (fun joint => joint.name)).Nodup)
    (h : urdf_model.getJointNames fuel [] model .free = .ok J) :
    Numbers J ((visited.filter isFreeJoint).map (fun joint => joint.name)) := by
  obtain ⟨js, idx', h1, h2⟩ := getJointNames_visited h
  rw [hv] at h1
  cases h1
  have := classify_numbers .free isFreeJoint
    (fun joint joints idx r hr => by
      rw [classifyJoint_free] at hr
      cases hr
      rfl)
    visited [] 0 [] J idx' numbers_nil rfl hnd (fun _ _ hm => by cases hm) h2
  simpa using this

theorem getJointNames_floating_numbers [Zero α] [DecidableEq α] {fuel : Nat}
    {model : urdf.ModelInterface α} {J : urdf_model.JointID} {visited : List (urdf.Joint α)}
    (hv : visitedJoints fuel model = .ok visited)
    (hnd : (visited.map (fun joint => joint.name)).Nodup)
    (h : urdf_model.getJointNames fuel [] model .floating = .ok J) :
    Numbers J ((visited.filter isFloatingBaseJoint).map (fun joint => joint.name)) := by
  obtain ⟨js, idx', h1, h2⟩ := getJointNames_visited h
  rw [hv] at h1
  cases h1
  have := classify_numbers .floating isFloatingBaseJoint
    (fun joint joints idx r hr => classifyJoint_floating hr)
    visited [] 0 [] J idx' numbers_nil rfl hnd (fun _ _ hm => by cases hm) h2
  simpa using this

/-! ### The actuated-joint table -/

theorem setFloatingSlot_jointData (names : urdf_model.JointID) (s s' : FloatingBaseSystem α)
    (jnt : String × Nat) (h : setFloatingSlot names s jnt = .ok s') :
    jointData s' = jointData s := by
  unfold setFloatingSlot at h
  dsimp only at h
  cases hf : StdMap.find names jnt.1 with
  | none =>
    rw [hf] at h
    cases h
  | some joint_id =>
    rw [hf] at h
    dsimp only at h
    split at h
    · cases h
      rfl
    · cases h
      unfold setFloatingBaseJointCoord
      split_ifs <;> rfl

theorem setFloatingSlots_jointData [Zero α] [DecidableEq α] (fuel : Nat)
    (model : urdf.ModelInterface α) (names : urdf_model.JointID) (s s' : FloatingBaseSystem α)
    (h : setFloatingSlots fuel model names s = .ok s') : jointData s' = jointData s := by
  unfold setFloatingSlots at h
  split at h
  · split at h
    · cases h
    · refine foldlM_preserves (fun t : FloatingBaseSystem α => jointData t = jointData s)
        (setFloatingSlot names) ?_ _ s s' rfl h
      intro t x t' hP ht
      exact (setFloatingSlot_jointData names t t' x ht).trans hP
  · cases h
    rfl

theorem addFoot_jointData (s : FloatingBaseSystem α) (name : String) :
    jointData (addFoot s name) = jointData s := by
  unfold addFoot
  split_ifs <;> rfl

theorem readFeet_jointData (s : FloatingBaseSystem α) (file : SystemDescription α) :
    jointData (readFeet s file) = jointData s := by
  unfold readFeet
  split
  · refine foldl_preserves (fun t : FloatingBaseSystem α => jointData t = jointData s) addFoot
      ?_ _ _ rfl
    intro t x hP
    exact (addFoot_jointData t x).trans hP
  · rfl

theorem readPosture_jointData (file : SystemDescription α) (s s' : FloatingBaseSystem α)
    (j : Nat) (h : readPosture file s j = .ok s') : jointData s' = jointData s := by
  unfold readPosture at h
  split at h
  · cases h
  · split at h
    · split at h
      · cases h
      · cases h
        rfl
    · cases h
      rfl

theorem resetOptionalDescription_jointData (s s' : FloatingBaseSystem α)
    (system_file : Option (SystemDescription α))
    (h : resetOptionalDescription s system_file = .ok s') : jointData s' = jointData s := by
  unfold resetOptionalDescription at h
  split at h
  · rename_i file
    unfold resetSystemDescription at h
    dsimp only at h
    refine foldlM_preserves (fun t : FloatingBaseSystem α => jointData t = jointData s)
      (readPosture file) ?_ _ _ s' (readFeet_jointData s file) h
    intro t x t' hP ht
    exact (readPosture_jointData file t t' x ht).trans hP
  · cases h
    rfl

theorem finishReset_jointData (uninit : Nat → α) (s : FloatingBaseSystem α) :
    jointData (finishReset uninit s) = jointData s := by
  unfold finishReset
  dsimp only
  split_ifs <;> rfl

theorem deriveTypeOfSystem_jointData (s : FloatingBaseSystem α) :
    jointData (deriveTypeOfSystem s) = jointData s := by
  unfold deriveTypeOfSystem
  dsimp only
  split_ifs <;> rfl

/-- The joint table that the loop over the free joints builds. -/
theorem setActuatedJoints_joints (names : urdf_model.JointID) :
    ∀ (free : List (String × Nat)) (s : FloatingBaseSystem α),
      (free.foldl (setActuatedJoint names) s).num_floating_joints_ = s.num_floating_joints_ ∧
      (free.foldl (setActuatedJoint names) s).joints_ =
        free.foldl (fun m e =>
          if 0 < s.num_floating_joints_ → StdMap.find names e.1 = none then
            StdMap.assign m e.1 (usub e.2 s.num_floating_joints_)
          else m) s.joints_ := by
  intro free
  induction free with
  | nil => exact fun s => ⟨rfl, rfl⟩
  | cons e rest ih =>
    intro s
    rw [List.foldl_cons, List.foldl_cons]
    have hstep : (setActuatedJoint names s e).num_floating_joints_ = s.num_floating_joints_ ∧
        (setActuatedJoint names s e).joints_ =
          if 0 < s.num_floating_joints_ → StdMap.find names e.1 = none then
            StdMap.assign s.joints_ e.1 (usub e.2 s.num_floating_joints_)
          else s.joints_ := by
      unfold setActuatedJoint setJoint
      dsimp only
      by_cases hF : s.num_floating_joints_ > 0
      · rw [if_pos hF]
        by_cases hn : StdMap.find names e.1 = none
        · rw [if_pos hn, if_pos (fun _ => hn)]
          exact ⟨rfl, rfl⟩
        · rw [if_neg hn, if_neg (fun hh => hn (hh hF))]
          exact ⟨rfl, rfl⟩
      · rw [if_neg hF, if_pos (by omega), if_pos (fun hh => absurd hh hF)]
        exact ⟨rfl, rfl⟩
    obtain ⟨h1, h2⟩ := ih (setActuatedJoint names s e)
    rw [h1, h2, hstep.1, hstep.2]
    exact ⟨rfl, rfl⟩

/-- The entries of a table that a loop over a list with distinct keys fills
under a condition on the key. -/
theorem find_foldl_assign (c : String → Prop) [DecidablePred c] (g : Nat → Nat) :
    ∀ (l : List (String × Nat)) (m0 : StdMap Nat), (l.map Prod.fst).Nodup →
      ∀ name id,
        StdMap.find (l.foldl (fun m e => if c e.1 then StdMap.assign m e.1 (g e.2) else m) m0)
            name = some id ↔
          (∃ idx, (name, idx) ∈ l ∧ c name ∧ id = g idx) ∨
            ((name ∉ l.map Prod.fst ∨ ¬c name) ∧ StdMap.find m0 name = some id) := by
  intro l
  induction l with
  | nil =>
    intro m0 _ name id
    simp
  | cons e rest ih =>
    intro m0 hnd name id
    obtain ⟨k, v⟩ := e
    rw [List.map_cons, List.nodup_cons] at hnd
    rw [List.foldl_cons, ih _ hnd.2]
    dsimp only
    by_cases hk : k = name
    · subst hk
      have hnot : ∀ idx, (k, idx) ∉ rest := fun idx hm =>
        hnd.1 (List.mem_map.mpr ⟨(k, idx), hm, rfl⟩)
      by_cases hc : c k
      · rw [if_pos hc, find_assign, if_pos rfl]
        constructor
        · rintro (⟨idx, hm, -, -⟩ | ⟨-, hid⟩)
          · exact absurd hm (hnot idx)
          · cases hid
            exact Or.inl ⟨v, List.mem_cons_self _ _, hc, rfl⟩
        · rintro (⟨idx, hm, -, hid⟩ | ⟨hn | hn, -⟩)
          · rcases List.mem_cons.mp hm with hm | hm
            · cases hm
              exact Or.inr ⟨Or.inl hnd.1, by rw [hid]⟩
            · exact absurd hm (hnot idx)
          · exact (hn (by simp)).elim
          · exact absurd hc hn
      · rw [if_neg hc]
        constructor
        · rintro (⟨idx, -, hc', -⟩ | ⟨-, hid⟩)
          · exact absurd hc' hc
          · exact Or.inr ⟨Or.inr hc, hid⟩
        · rintro (⟨idx, -, hc', -⟩ | ⟨-, hid⟩)
          · exact absurd hc' hc
          · exact Or.inr ⟨Or.inr hc, hid⟩
    · have hfind : StdMap.find (if c k then StdMap.assign m0 k (g v) else m0) name =
          StdMap.find m0 name := by
        split_ifs
        · rw [find_assign, if_neg hk]
        · rfl
      rw [hfind]
      have hmem : ∀ idx, (name, idx) ∈ (k, v) :: rest ↔ (name, idx) ∈ rest := by
        intro idx
        rw [List.mem_cons]
        constructor
        · rintro (h | h)
          · cases h
            exact absurd rfl hk
          · exact h
        · exact Or.inr
      have hkeys : name ∉ List.map Prod.fst ((k, v) :: rest) ↔ name ∉ List.map Prod.fst rest := by
        rw [List.map_cons, List.mem_cons, not_or]
        constructor
        · exact fun h => h.2
        · exact fun h => ⟨fun e => hk e.symm, h⟩
      simp only [hmem, hkeys]

/-- The joint table and the number of joints of a constructed model, in terms
of the two tables of the depth-first enumeration. -/
theorem resetFromURDFModel_joints [Zero α] [DecidableEq α] {fuel : Nat} {uninit : Nat → α}
    {s S : FloatingBaseSystem α} {rbd : RBDModel} {model : urdf.ModelInterface α}
    {system_file : Option (SystemDescription α)}
    (h : resetFromURDFModel fuel uninit s rbd model system_file = .ok S) :
    ∃ names free : urdf_model.JointID,
      urdf_model.getJointNames fuel [] model .floating = .ok names ∧
      urdf_model.getJointNames fuel [] model .free = .ok free ∧
      S.num_joints_ = usub (StdMap.size free) (StdMap.size names) ∧
      S.joints_ = free.foldl (fun m e =>
        if 0 < StdMap.size names → StdMap.find names e.1 = none then
          StdMap.assign m e.1 (usub e.2 (StdMap.size names))
        else m) s.joints_ := by
  obtain ⟨names, s3, free, limits, ees, s13, h1, h2, h3, -, -, h6, hS⟩ :=
    resetFromURDFModel_inv h
  have hj3 := setFloatingSlots_jointData fuel model names _ s3 h2
  have hf3 := (setFloatingSlots_feetData fuel model names _ s3 h2).2.1
  have hS13 : jointData S = jointData s13 := hS ▸ finishReset_jointData uninit s13
  have h13 := resetOptionalDescription_jointData _ s13 system_file h6
  have hbefore : jointData (stateBeforeDescription (stateAfterJoints s3 names free limits) ees) =
      jointData (stateAfterJoints s3 names free limits) := rfl
  have hall := hS13.trans (h13.trans hbefore)
  obtain ⟨g1, g2⟩ := setActuatedJoints_joints names free
    { s3 with
      floating_body_name_ :=
        s3.rbd_model_.GetBodyName (if s3.isFullyFloatingBase then 6 else s3.getFloatingBaseDoF)
      joint_limits_ := limits
      num_joints_ := usub (StdMap.size free) s3.num_floating_joints_ }
  obtain ⟨-, -, g3⟩ := setActuatedJoints_frame names free
    { s3 with
      floating_body_name_ :=
        s3.rbd_model_.GetBodyName (if s3.isFullyFloatingBase then 6 else s3.getFloatingBaseDoF)
      joint_limits_ := limits
      num_joints_ := usub (StdMap.size free) s3.num_floating_joints_ }
  have hafter : (stateAfterJoints s3 names free limits).joints_ =
        (free.foldl (setActuatedJoint names)
          { s3 with
            floating_body_name_ := s3.rbd_model_.GetBodyName
              (if s3.isFullyFloatingBase then 6 else s3.getFloatingBaseDoF)
            joint_limits_ := limits
            num_joints_ := usub (StdMap.size free) s3.num_floating_joints_ }).joints_ ∧
      (stateAfterJoints s3 names free limits).num_joints_ =
        (free.foldl (setActuatedJoint names)
          { s3 with
            floating_body_name_ := s3.rbd_model_.GetBodyName
              (if s3.isFullyFloatingBase then 6 else s3.getFloatingBaseDoF)
            joint_limits_ := limits
            num_joints_ := usub (StdMap.size free) s3.num_floating_joints_ }).num_joints_ := by
    have := deriveTypeOfSystem_jointData
      { (free.foldl (setActuatedJoint names)
          { s3 with
            floating_body_name_ := s3.rbd_model_.GetBodyName
              (if s3.isFullyFloatingBase then 6 else s3.getFloatingBaseDoF)
            joint_limits_ := limits
            num_joints_ := usub (StdMap.size free) s3.num_floating_joints_ }) with
        joint_names_ := (free.foldl (setActuatedJoint names)
          { s3 with
            floating_body_name_ := s3.rbd_model_.GetBodyName
              (if s3.isFullyFloatingBase then 6 else s3.getFloatingBaseDoF)
            joint_limits_ := limits
            num_joints_ := usub (StdMap.size free) s3.num_floating_joints_ }).joint_names_ ++
          StdMap.keys (free.foldl (setActuatedJoint names)
            { s3 with
              floating_body_name_ := s3.rbd_model_.GetBodyName
                (if s3.isFullyFloatingBase then 6 else s3.getFloatingBaseDoF)
              joint_limits_ := limits
              num_joints_ := usub (StdMap.size free) s3.num_floating_joints_ }).joints_ }
    simp only [jointData, Prod.mk.injEq] at this
    exact ⟨this.1, this.2.1⟩
  simp only [jointData, Prod.mk.injEq] at hall hj3
  have hF : s3.num_floating_joints_ = StdMap.size names := hf3
  refine ⟨names, free, h1, h3, ?_, ?_⟩
  · rw [hall.2.1, hafter.2, g3]
    dsimp only
    rw [hF]
  · rw [hall.1, hafter.1, g2]
    dsimp only
    rw [hF, hj3.1]

theorem not_mem_take_iff {names : List String} (hnd : names.Nodup) {idx F : Nat} {name : String}
    (h : names[idx]? = some name) : name ∉ names.take F ↔ F ≤ idx := by
  have hidx : idx < names.length := by
    by_contra hge
    rw [List.getElem?_eq_none (by omega)] at h
    cases h
  constructor
  · intro hn
    by_contra hlt
    apply hn
    have : (names.take F)[idx]? = some name := by
      rw [List.getElem?_take_of_lt (by omega)]
      exact h
    exact List.getElem?_mem this
  · intro hle hmem
    obtain ⟨i, hi⟩ := List.getElem?_of_mem hmem
    have hiF : i < F := by
      by_contra hge
      rw [List.getElem?_eq_none (by rw [List.length_take]; omega)] at hi
      cases hi
    rw [List.getElem?_take_of_lt hiF] at hi
    have := List.getElem?_inj hidx hnd (h.trans hi.symm)
    omega

/-- C18 (amended). After construction on a fresh object from a topology whose
joint names are distinct and whose floating-base joints are the first free
joints of the depth-first enumeration, the ids stored in the actuated-joint
table are exactly 0, 1, ..., N-1 with N = getJointDoF(): every id is below N,
no id is used by two joints, and every number below N is the id of a joint. -/
theorem actuated_ids_contiguous [Zero α] [DecidableEq α] (fuel : Nat) (uninit : Nat → α)
    (rbd0 rbd : RBDModel) (full : Bool) (n : Nat) (model : urdf.ModelInterface α)
    (system_file : Option (SystemDescription α)) (S : FloatingBaseSystem α)
    (visited : List (urdf.Joint α))
    (hvisit : visitedJoints fuel model = .ok visited)
    (hnames : (visited.map (fun joint => joint.name)).Nodup)
    (hfirst : FloatingJointsFirst visited)
    (hsmall : visited.length < UINT_MOD)
    (hS : resetFromURDFModel fuel uninit (FloatingBaseSystem.new rbd0 full n) rbd model
      system_file = .ok S) :
    (∀ name id, StdMap.find S.getJoints name = some id → id < S.getJointDoF) ∧
      DistinctIds S.getJoints ∧
      (∀ id, id < S.getJointDoF → ∃ name, StdMap.find S.getJoints name = some id) := by
  obtain ⟨names, free, h1, h2, hnum, hjoints⟩ := resetFromURDFModel_joints hS
  have hfree := getJointNames_free_numbers hvisit hnames h2
  have hfl := getJointNames_floating_numbers hvisit hnames h1
  have hfrnd : ((visited.filter isFreeJoint).map (fun joint => joint.name)).Nodup :=
    hnames.sublist ((List.filter_sublist visited).map _)
  have hM : StdMap.size free = ((visited.filter isFreeJoint).map (fun joint => joint.name)).length :=
    hfree.2.1
  have hF : StdMap.size names =
      ((visited.filter isFloatingBaseJoint).map (fun joint => joint.name)).length := hfl.2.1
  have hFM : StdMap.size names ≤ StdMap.size free := by
    rw [hM, hF]
    exact hfirst.length_le
  have hMlt : StdMap.size free < UINT_MOD := by
    rw [hM, List.length_map]
    exact lt_of_le_of_lt (List.length_filter_le _ _) hsmall
  have htake : (visited.filter isFloatingBaseJoint).map (fun joint => joint.name) =
      ((visited.filter isFreeJoint).map (fun joint => joint.name)).take (StdMap.size names) := by
    rw [hF]
    exact List.prefix_iff_eq_take.mp hfirst
  -- the entries of the joint table
  have hchar : ∀ name id, StdMap.find S.joints_ name = some id ↔
      ∃ idx, ((visited.filter isFreeJoint).map (fun joint => joint.name))[idx]? = some name ∧
        StdMap.size names ≤ idx ∧ id = idx - StdMap.size names := by
    intro name id
    rw [hjoints, find_foldl_assign
      (fun k => 0 < StdMap.size names → StdMap.find names k = none)
      (fun v => usub v (StdMap.size names)) free _ hfree.1.nodup]
    have hnew : StdMap.find (FloatingBaseSystem.new rbd0 full n : FloatingBaseSystem α).joints_
        name = none := rfl
    constructor
    · rintro (⟨idx, hm, hc, hid⟩ | ⟨-, hid⟩)
      · have hidx := (hfree.2.2 name idx).mp (mem_find hfree.1 hm)
        have hnot : name ∉
            ((visited.filter isFreeJoint).map (fun joint => joint.name)).take
              (StdMap.size names) := by
          rw [← htake, ← hfl.find_none]
          by_cases h0 : 0 < StdMap.size names
          · exact hc h0
          · rw [hfl.find_none, htake]
            have : StdMap.size names = 0 := by omega
            rw [this]
            simp
        have hle := (not_mem_take_iff hfrnd hidx).mp hnot
        have hlt : idx < StdMap.size free := by
          rw [hM]
          by_contra hge
          rw [List.getElem?_eq_none (by omega)] at hidx
          cases hidx
        refine ⟨idx, hidx, hle, ?_⟩
        rw [hid, usub_of_le hle (by omega)]
      · rw [hnew] at hid
        cases hid
    · rintro ⟨idx, hidx, hle, hid⟩
      have hlt : idx < StdMap.size free := by
        rw [hM]
        by_contra hge
        rw [List.getElem?_eq_none (by omega)] at hidx
        cases hidx
      refine Or.inl ⟨idx, find_mem ((hfree.2.2 name idx).mpr hidx), ?_, ?_⟩
      · intro _
        rw [hfl.find_none, htake]
        exact (not_mem_take_iff hfrnd hidx).mpr hle
      · rw [hid, usub_of_le hle (by omega)]
  have hN : S.getJointDoF = StdMap.size free - StdMap.size names := by
    show S.num_joints_ = _
    rw [hnum, usub_of_le hFM hMlt]
  have hget : S.getJoints = S.joints_ := rfl
  rw [hget, hN]
  refine ⟨?_, ?_, ?_⟩
  · intro name id hf
    obtain ⟨idx, hidx, hle, hid⟩ := (hchar name id).mp hf
    have hlt : idx < StdMap.size free := by
      rw [hM]
      by_contra hge
      rw [List.getElem?_eq_none (by omega)] at hidx
      cases hidx
    omega
  · intro a b id ha hb
    obtain ⟨i, hi, hle, hid⟩ := (hchar a id).mp ha
    obtain ⟨j, hj, hle', hid'⟩ := (hchar b id).mp hb
    have : i = j := by omega
    subst this
    rw [hi] at hj
    cases hj
    rfl
  · intro id hid
    have hlt : id + StdMap.size names <
        ((visited.filter isFreeJoint).map (fun joint => joint.name)).length := by
      rw [← hM]
      omega
    refine ⟨((visited.filter isFreeJoint).map (fun joint => joint.name))[
      id + StdMap.size names], ?_⟩
    rw [hchar]
    exact ⟨id + StdMap.size names, List.getElem?_eq_getElem hlt, by omega, by omega⟩

/-- C18 (amended) at `biped`, whose enumeration starts with the floating joint
`flyer`: the hips get the ids 0 and 1. -/
theorem actuated_ids_contiguous_witness :
    (∀ name id, StdMap.find Example.bipedSystem.getJoints name = some id →
        id < Example.bipedSystem.getJointDoF) ∧
      DistinctIds Example.bipedSystem.getJoints ∧
      (∀ id, id < Example.bipedSystem.getJointDoF →
        ∃ name, StdMap.find Example.bipedSystem.getJoints name = some id) :=
  actuated_ids_contiguous 16 Example.garbage Example.emptyRbd Example.bipedRbd false 0
    Example.biped none Example.bipedSystem
    [Example.flyer, Example.l_hip, Example.l_ankle, Example.r_hip, Example.r_ankle]
    rfl (by decide) ⟨["l_hip", "r_hip"], rfl⟩ (by decide) rfl

/-- C18 (counterexample). In `lateSlide` the hip comes first in the
depth-first enumeration and the zero-effort prismatic joint after it. The
constructed model has one actuated joint, and its id is `0 - 1` on
`unsigned int`, not 0. -/
theorem actuated_ids_late_floating_counterexample :
    ∃ S, resetFromURDFModel 16 Example.garbage Example.fresh Example.lateSlideRbd
        Example.lateSlide none = .ok S ∧
      urdf_model.getJointNames 16 [] Example.lateSlide .free =
        .ok [("hip", 0), ("slide_x", 1)] ∧
      urdf_model.getJointNames 16 [] Example.lateSlide .floating = .ok [("slide_x", 0)] ∧
      S.getJointDoF = 1 ∧ S.getJoints = [("hip", 4294967295)] ∧
      StdMap.find S.getJoints "hip" = some 4294967295 :=
  ⟨_, rfl, rfl, rfl, rfl, rfl, rfl⟩

/-! ### The end-effectors of a description -/

theorem endEffectorWalk_driven [Zero α] [DecidableEq α] {model : urdf.ModelInterface α}
    {root : String} {n : Nat} {p : Option (urdf.Link α)} (h : DrivenAbove model root n p) :
    ∀ fuel, n ≤ fuel → urdf_model.endEffectorWalk model root 0 fuel p = .ok true := by
  induction h with
  | here hne hpj hj ht =>
    intro fuel hfuel
    obtain ⟨fuel, rfl⟩ : ∃ f, fuel = f + 1 := ⟨fuel - 1, by omega⟩
    simp [urdf_model.endEffectorWalk, hne, hpj, hj, ht]
  | up hne hpj hj ht _ ih =>
    intro fuel hfuel
    obtain ⟨fuel, rfl⟩ : ∃ f, fuel = f + 1 := ⟨fuel - 1, by omega⟩
    have := ih fuel (by omega)
    simp only [urdf_model.endEffectorWalk, hne, ne_eq, not_false_eq_true, and_self, if_true,
      hpj, hj, ht, if_false]
    exact this

theorem endEffectorWalk_stops [Zero α] [DecidableEq α] {model : urdf.ModelInterface α}
    {root : String} {n : Nat} {p : Option (urdf.Link α)} (h : StopsBelow model root n p) :
    ∀ fuel, n ≤ fuel → urdf_model.endEffectorWalk model root 0 fuel p = .ok false := by
  induction h with
  | arrived heq =>
    intro fuel _
    cases fuel <;> simp [urdf_model.endEffectorWalk, heq]
  | up hne hpj hj ht _ ih =>
    intro fuel hfuel
    obtain ⟨fuel, rfl⟩ : ∃ f, fuel = f + 1 := ⟨fuel - 1, by omega⟩
    have := ih fuel (by omega)
    simp only [urdf_model.endEffectorWalk, hne, ne_eq, not_false_eq_true, and_self, if_true,
      hpj, hj, ht, if_false]
    exact this

theorem endEffectorWalk_children [Zero α] [DecidableEq α] (model : urdf.ModelInterface α)
    (root : String) (num_childs fuel : Nat) (link : urdf.Link α) (h : num_childs ≠ 0) :
    urdf_model.endEffectorWalk model root num_childs fuel (some link) = .ok false := by
  cases fuel <;> simp [urdf_model.endEffectorWalk, h]

/-- A walk that ends through the `break` started below a childless link and
met a prismatic or revolute joint. -/
theorem endEffectorWalk_true [Zero α] [DecidableEq α] (model : urdf.ModelInterface α)
    (root : String) (num_childs : Nat) :
    ∀ (fuel : Nat) (p : Option (urdf.Link α)),
      urdf_model.endEffectorWalk model root num_childs fuel p = .ok true →
      num_childs = 0 ∧ ∃ n, DrivenAbove model root n p := by
  intro fuel
  induction fuel with
  | zero =>
    intro p h
    cases p with
    | none => simp [urdf_model.endEffectorWalk] at h
    | some link =>
      simp only [urdf_model.endEffectorWalk] at h
      split_ifs at h
      simp at h
  | succ fuel ih =>
    intro p h
    cases p with
    | none => simp [urdf_model.endEffectorWalk] at h
    | some link =>
      simp only [urdf_model.endEffectorWalk] at h
      split_ifs at h with hc
      · cases hpj : link.parent_joint with
        | none => simp [hpj] at h
        | some jn =>
          simp only [hpj] at h
          cases hj : StdMap.find model.joints_ jn with
          | none => simp [hj] at h
          | some joint =>
            simp only [hj] at h
            split_ifs at h with ht
            · exact ⟨hc.2, 1, .here hc.1 hpj hj ht⟩
            · obtain ⟨h0, n, hn⟩ := ih _ h
              exact ⟨h0, n + 1, .up hc.1 hpj hj ht hn⟩
      · simp at h

theorem stopsBelow_not_driven {model : urdf.ModelInterface α} {root : String} {n : Nat}
    {p : Option (urdf.Link α)} (h : StopsBelow model root n p) :
    ∀ m, ¬DrivenAbove model root m p := by
  induction h with
  | arrived heq =>
    intro m hd
    cases hd with
    | here hne _ _ _ => exact hne heq
    | up hne _ _ _ _ => exact hne heq
  | up hne hpj hj ht _ ih =>
    intro m hd
    cases hd with
    | here hne' hpj' hj' ht' =>
      rw [hpj] at hpj'
      cases hpj'
      rw [hj] at hj'
      cases hj'
      exact ht ht'
    | up hne' hpj' hj' ht' hd' => exact ih _ hd'

theorem getEndEffectorsLoop_spec [Zero α] [DecidableEq α] (fuel : Nat)
    (model : urdf.ModelInterface α) (root : String) :
    ∀ (l : List (String × Nat)) (m : urdf_model.LinkID) (idx : Nat),
      (∀ e ∈ l, ∃ j, StdMap.find model.joints_ e.1 = some j ∧ j.type = .FIXED ∧
        WalkDefined model root fuel j) →
      ∃ ees, urdf_model.getEndEffectorsLoop fuel model root l m idx = .ok ees ∧
        ∀ name, (∃ id, StdMap.find ees name = some id) ↔
          (∃ id, StdMap.find m name = some id) ∨
            ∃ e ∈ l, ∃ j, StdMap.find model.joints_ e.1 = some j ∧
              EndEffectorOf model root j name := by
  intro l
  induction l with
  | nil =>
    intro m idx _
    exact ⟨m, rfl, fun name => by simp⟩
  | cons e rest ih =>
    intro m idx hl
    obtain ⟨jn, v⟩ := e
    obtain ⟨j, hj, hfixed, child, parent, hchild, hparent, hwalk⟩ :=
      hl (jn, v) (List.mem_cons_self _ _)
    have hrest : ∀ e ∈ rest, ∃ j, StdMap.find model.joints_ e.1 = some j ∧ j.type = .FIXED ∧
        WalkDefined model root fuel j := fun e he => hl e (List.mem_cons_of_mem _ he)
    simp only [urdf_model.getEndEffectorsLoop, hj, hchild, hparent]
    -- the outcome of the walk
    have hcases : (urdf_model.endEffectorWalk model root child.child_joints.length fuel
          (some parent) = .ok true ∧ EndEffectorOf model root j j.child_link_name) ∨
        (urdf_model.endEffectorWalk model root child.child_joints.length fuel
          (some parent) = .ok false ∧ ∀ name, ¬EndEffectorOf model root j name) := by
      by_cases hc : child.child_joints = []
      · rcases hwalk with hne | ⟨n, hn, hd | hs⟩
        · exact absurd hc hne
        · left
          refine ⟨?_, hfixed, rfl, ⟨child, hchild, hc⟩, n, hparent ▸ hd⟩
          rw [hc]
          exact endEffectorWalk_driven hd fuel hn
        · right
          refine ⟨?_, ?_⟩
          · rw [hc]
            exact endEffectorWalk_stops hs fuel hn
          · rintro name ⟨-, -, -, m', hm'⟩
            rw [hparent] at hm'
            exact stopsBelow_not_driven hs m' hm'
      · right
        refine ⟨endEffectorWalk_children model root _ fuel parent
          (by simpa using hc), ?_⟩
        rintro name ⟨-, hname, ⟨child', hchild', hc'⟩, -⟩
        rw [← hname, hchild] at hchild'
        cases hchild'
        exact hc hc'
    rcases hcases with ⟨hw, hee⟩ | ⟨hw, hee⟩
    · simp only [hw]
      obtain ⟨ees, h1, h2⟩ := ih (StdMap.assign m j.child_link_name idx) (idx + 1) hrest
      refine ⟨ees, h1, ?_⟩
      intro name
      rw [h2]
      constructor
      · rintro (⟨id, hid⟩ | ⟨e, he, j', hj', hee'⟩)
        · rw [find_assign] at hid
          split_ifs at hid with hk
          · exact Or.inr ⟨(jn, v), List.mem_cons_self _ _, j, hj, hk ▸ hee⟩
          · exact Or.inl ⟨id, hid⟩
        · exact Or.inr ⟨e, List.mem_cons_of_mem _ he, j', hj', hee'⟩
      · rintro (⟨id, hid⟩ | ⟨e, he, j', hj', hee'⟩)
        · left
          by_cases hk : j.child_link_name = name
          · exact ⟨idx, by rw [find_assign, if_pos hk]⟩
          · exact ⟨id, by rw [find_assign, if_neg hk]; exact hid⟩
        · rcases List.mem_cons.mp he with he | he
          · subst he
            rw [hj] at hj'
            cases hj'
            left
            exact ⟨idx, by rw [find_assign, if_pos hee'.2.1]⟩
          · exact Or.inr ⟨e, he, j', hj', hee'⟩
    · simp only [hw]
      obtain ⟨ees, h1, h2⟩ := ih m idx hrest
      refine ⟨ees, h1, ?_⟩
      intro name
      rw [h2]
      constructor
      · rintro (h | ⟨e, he, j', hj', hee'⟩)
        · exact Or.inl h
        · exact Or.inr ⟨e, List.mem_cons_of_mem _ he, j', hj', hee'⟩
      · rintro (h | ⟨e, he, j', hj', hee'⟩)
        · exact Or.inl h
        · rcases List.mem_cons.mp he with he | he
          · subst he
            rw [hj] at hj'
            cases hj'
            exact absurd hee' (hee name)
          · exact Or.inr ⟨e, he, j', hj', hee'⟩

/-- The enumeration of the fixed joints returns whenever the walk over the
links does. -/
theorem getJointNamesLoop_fixed_ok [Zero α] [DecidableEq α] (link_map : StdMap (urdf.Link α)) :
    ∀ (fuel : Nat) (ls : List (Option (urdf.Link α))) (bs : List Nat) (idx : Nat)
      (joints : urdf_model.JointID) (js : List (urdf.Joint α)),
      visitedJointsLoop link_map fuel ls bs = .ok js →
      ∃ J, urdf_model.getJointNamesLoop link_map .fixed fuel ls bs idx joints = .ok J := by
  intro fuel
  induction fuel with
  | zero =>
    intro ls bs idx joints js h
    cases ls with
    | nil => exact ⟨joints, rfl⟩
    | cons l rest => simp [visitedJointsLoop] at h
  | succ fuel ih =>
    intro ls bs idx joints js h
    cases ls with
    | nil => exact ⟨joints, rfl⟩
    | cons l rest =>
      cases bs with
      | nil => simp [visitedJointsLoop] at h
      | cons b brest =>
        cases l with
        | none => simp [visitedJointsLoop] at h
        | some link =>
          simp only [visitedJointsLoop] at h
          simp only [urdf_model.getJointNamesLoop]
          cases hcj : link.child_joints[b]? with
          | none =>
            simp only [hcj] at h
            exact ih _ _ _ _ js h
          | some cj =>
            simp only [hcj] at h
            dsimp only
            rw [classifyJoint_fixed]
            dsimp only
            cases hv : visitedJointsLoop link_map fuel
                (StdMap.find link_map cj.child_link_name :: some link :: rest)
                (0 :: (b + 1) :: brest) with
            | error e => simp [hv] at h
            | ok js' => exact ih _ _ _ _ js' hv

theorem getJointNames_fixed_numbers [Zero α] [DecidableEq α] {fuel : Nat}
    {model : urdf.ModelInterface α} {visited : List (urdf.Joint α)}
    (hv : visitedJoints fuel model = .ok visited)
    (hnd : (visited.map (fun joint => joint.name)).Nodup) :
    ∃ J, urdf_model.getJointNames fuel [] model .fixed = .ok J ∧
      Numbers J ((visited.filter (fun joint => decide (joint.type = .FIXED))).map
        (fun joint => joint.name)) := by
  have hex : ∃ J, urdf_model.getJointNames fuel [] model .fixed = .ok J := by
    unfold visitedJoints at hv
    unfold urdf_model.getJointNames
    cases hr : model.root_link_ with
    | none => simp [hr] at hv
    | some root_name =>
      simp only [hr] at hv ⊢
      cases hl : StdMap.find model.links_ root_name with
      | none => simp [hl] at hv
      | some root =>
        simp only [hl] at hv ⊢
        exact getJointNamesLoop_fixed_ok _ _ _ _ _ _ visited hv
  obtain ⟨J, hJ⟩ := hex
  refine ⟨J, hJ, ?_⟩
  obtain ⟨js, idx', h1, h2⟩ := getJointNames_visited hJ
  rw [hv] at h1
  cases h1
  have := classify_numbers .fixed (fun joint => decide (joint.type = .FIXED))
    (fun joint joints idx r hr => by
      rw [classifyJoint_fixed] at hr
      cases hr
      simp)
    visited [] 0 [] J idx' numbers_nil rfl hnd (fun _ _ hm => by cases hm) h2
  simpa using this

/-- C25 (amended). With `root` the first child link of the root link of the
description, for a description whose joint names are distinct and in which
the walk of every fixed joint is defined: `getEndEffectors` returns, and it
returns a link as an end-effector if and only if the link is the child link of
a fixed joint of the depth-first enumeration, it has no child joints, and the
chain of ancestor joints from the parent link of that joint up to the link
`root` contains a revolute or prismatic joint. -/
theorem getEndEffectors_iff [Zero α] [DecidableEq α] (fuel : Nat)
    (model : urdf.ModelInterface α) (visited : List (urdf.Joint α)) (world : urdf.Link α)
    (root : String)
    (hvisit : visitedJoints fuel model = .ok visited)
    (hnames : (visited.map (fun joint => joint.name)).Nodup)
    (hcons : ∀ j ∈ visited, StdMap.find model.joints_ j.name = some j)
    (hworld : model.root_link_.bind (StdMap.find model.links_) = some world)
    (hfirst : world.child_links[0]? = some root)
    (hwalks : ∀ j ∈ visited, j.type = .FIXED → WalkDefined model root fuel j) :
    ∃ ees, urdf_model.getEndEffectors fuel [] model = .ok ees ∧
      ∀ name, (∃ id, StdMap.find ees name = some id) ↔
        ∃ j ∈ visited, EndEffectorOf model root j name := by
  obtain ⟨fixed, hJ, hnum⟩ := getJointNames_fixed_numbers hvisit hnames
  have hkey : ∀ jn, (∃ v, StdMap.find fixed jn = some v) ↔
      ∃ j ∈ visited, j.type = .FIXED ∧ j.name = jn := by
    intro jn
    constructor
    · rintro ⟨v, hv⟩
      have := List.getElem?_mem ((hnum.2.2 jn v).mp hv)
      obtain ⟨j, hj, hname⟩ := List.mem_map.mp this
      rw [List.mem_filter] at hj
      exact ⟨j, hj.1, by simpa using hj.2, hname⟩
    · rintro ⟨j, hj, hfix, hname⟩
      have hmem : jn ∈ (visited.filter (fun joint => decide (joint.type = .FIXED))).map
          (fun joint => joint.name) :=
        List.mem_map.mpr ⟨j, List.mem_filter.mpr ⟨hj, by simpa using hfix⟩, hname⟩
      obtain ⟨v, hv⟩ := List.getElem?_of_mem hmem
      exact ⟨v, (hnum.2.2 jn v).mpr hv⟩
  obtain ⟨ees, h1, h2⟩ := getEndEffectorsLoop_spec fuel model root fixed [] 0
    (by
      intro e he
      obtain ⟨j, hj, hfix, hname⟩ := (hkey e.1).mp ⟨e.2, mem_find hnum.1 he⟩
      exact ⟨j, hname ▸ hcons j hj, hfix, hwalks j hj hfix⟩)
  refine ⟨ees, ?_, ?_⟩
  · unfold urdf_model.getEndEffectors
    simp only [hJ, bind, Except.bind, hworld, hfirst]
    exact h1
  · intro name
    rw [h2]
    constructor
    · rintro (⟨id, hid⟩ | ⟨e, he, j, hj, hee⟩)
      · simp [StdMap.find] at hid
      · obtain ⟨j', hj', -, hname⟩ := (hkey e.1).mp ⟨e.2, mem_find hnum.1 he⟩
        have := hcons j' hj'
        rw [hname, hj] at this
        cases this
        exact ⟨j, hj', hee⟩
    · rintro ⟨j, hj, hee⟩
      obtain ⟨v, hv⟩ := (hkey j.name).mpr ⟨j, hj, hee.1, rfl⟩
      exact Or.inr ⟨(j.name, v), find_mem hv, j, hcons j hj, hee⟩

/-- C25 (amended) at `biped`: the first child link of the root link is
`trunk`, and the walks of the two fixed ankles meet the revolute hips. -/
theorem getEndEffectors_iff_witness :
    ∃ ees, urdf_model.getEndEffectors 16 [] Example.biped = .ok ees ∧
      ∀ name, (∃ id, StdMap.find ees name = some id) ↔
        ∃ j ∈ [Example.flyer, Example.l_hip, Example.l_ankle, Example.r_hip, Example.r_ankle],
          EndEffectorOf Example.biped "trunk" j name :=
  getEndEffectors_iff 16 Example.biped
    [Example.flyer, Example.l_hip, Example.l_ankle, Example.r_hip, Example.r_ankle]
    ⟨"world", none, none, [Example.flyer], ["trunk"]⟩ "trunk" rfl (by decide)
    (by
      intro j hj
      simp only [List.mem_cons, List.mem_singleton, List.not_mem_nil, or_false] at hj
      rcases hj with rfl | rfl | rfl | rfl | rfl <;> rfl)
    rfl rfl
    (by
      intro j hj hfix
      simp only [List.mem_cons, List.mem_singleton, List.not_mem_nil, or_false] at hj
      rcases hj with rfl | rfl | rfl | rfl | rfl
      · exact absurd hfix (by decide)
      · exact absurd hfix (by decide)
      · exact ⟨⟨"lf", some "l_ankle", some "l_leg", [], []⟩,
          ⟨"l_leg", some "l_hip", some "trunk", [Example.l_ankle], ["lf"]⟩, rfl, rfl,
          Or.inr ⟨1, by decide, Or.inl (@DrivenAbove.here _ _ _ _ "l_hip" Example.l_hip
            (by decide) rfl rfl (Or.inr rfl))⟩⟩
      · exact absurd hfix (by decide)
      · exact ⟨⟨"rf", some "r_ankle", some "r_leg", [], []⟩,
          ⟨"r_leg", some "r_hip", some "trunk", [Example.r_ankle], ["rf"]⟩, rfl, rfl,
          Or.inr ⟨1, by decide, Or.inl (@DrivenAbove.here _ _ _ _ "r_hip" Example.r_hip
            (by decide) rfl rfl (Or.inr rfl))⟩⟩)

/-- C25 (counterexample). In `stubArm` the link `hand` is the child link of the
fixed joint `grip`, it has no child joints, and the revolute joint `shoulder`
is among its ancestor joints; but `shoulder` attaches the first child link of
the root link, where the walk of `getEndEffectors` stops, and the table of
end-effectors is empty. -/
theorem end_effector_first_link_counterexample :
    urdf_model.getEndEffectors 16 [] Example.stubArm = .ok [] ∧
      StdMap.find Example.stubArm.joints_ "grip" = some Example.grip ∧
      Example.grip.type = .FIXED ∧ Example.grip.child_link_name = "hand" ∧
      (∃ child, StdMap.find Example.stubArm.links_ "hand" = some child ∧
        child.child_joints = []) ∧
      AncestorJoint Example.stubArm (StdMap.find Example.stubArm.links_ "hand")
        Example.shoulder ∧
      Example.shoulder.type = .REVOLUTE :=
  ⟨rfl, rfl, rfl, rfl, ⟨_, rfl, rfl⟩,
    .above (@AncestorJoint.parent _ _
      ⟨"arm", some "shoulder", some "bench", [Example.grip], ["hand"]⟩ "shoulder" _ rfl rfl),
    rfl⟩

end FloatingBaseSystem

end model

/-! ## Properties of the solver -/

namespace rbd

open RigidBodyDynamics

variable {K ST RI : Type}

/-! ### External forces -/

theorem forwardKinetics_zero_forces [Ring K] [DecidableEq K] (math : Math K ST RI)
    (QDDot : Nat → K) (forces : Nat → SpatialVector K)
    (hzero : ∀ i, forces i = SpatialVectorZero) (model : Model K ST RI) (i : Nat) :
    forwardKinetics math QDDot (some forces) model i = forwardKinetics math QDDot none model i := by
  unfold forwardKinetics
  simp only [hzero i, ne_eq, not_true_eq_false, if_false]

theorem firstPassStep_zero_forces [Ring K] [DecidableEq K] (math : Math K ST RI)
    (Q QDot QDDot : Nat → K) (forces : Nat → SpatialVector K)
    (hzero : ∀ i, forces i = SpatialVectorZero) :
    firstPassStep math Q QDot QDDot (some forces) = firstPassStep math Q QDot QDDot none := by
  funext model i
  unfold firstPassStep
  exact forwardKinetics_zero_forces math QDDot forces hzero _ i

theorem firstPassStepBaseDof_zero_forces [Ring K] [DecidableEq K] (math : Math K ST RI)
    (base_dof : Nat) (Q QDot QDDot : Nat → K) (forces : Nat → SpatialVector K)
    (hzero : ∀ i, forces i = SpatialVectorZero) :
    firstPassStepBaseDof math base_dof Q QDot QDDot (some forces) =
      firstPassStepBaseDof math base_dof Q QDot QDDot none := by
  funext model i
  unfold firstPassStepBaseDof
  exact forwardKinetics_zero_forces math QDDot forces hzero _ i

theorem secondPassBase_zero_forces [Ring K] [DecidableEq K] (math : Math K ST RI)
    (forces : Nat → SpatialVector K) (hzero : ∀ i, forces i = SpatialVectorZero)
    (model : Model K ST RI) (base : Nat) :
    secondPassBase math (some forces) model base = secondPassBase math none model base := by
  unfold secondPassBase
  simp only [hzero base, ne_eq, not_true_eq_false, if_false]

/-- C21. For both variants of `FloatingBaseInverseDynamics` and every input, the
call with a list of external forces in which the force of every body is zero
gives what the call without a list gives: the same base acceleration, the same
joint torques and the same model. -/
theorem zero_forces_as_none [Ring K] [DecidableEq K] (math : Math K ST RI) (fuel : Nat)
    (model : Model K ST RI) (base_dof : Nat) (Q QDot QDDot : Nat → K)
    (base_acc : SpatialVector K) (Tau : Nat → K) (forces : Nat → SpatialVector K)
    (hzero : ∀ i, forces i = SpatialVectorZero) :
    FloatingBaseInverseDynamics math fuel model Q QDot QDDot base_acc Tau (some forces) =
        FloatingBaseInverseDynamics math fuel model Q QDot QDDot base_acc Tau none ∧
      FloatingBaseInverseDynamicsBaseDof math model base_dof Q QDot QDDot base_acc Tau
          (some forces) =
        FloatingBaseInverseDynamicsBaseDof math model base_dof Q QDot QDDot base_acc Tau none := by
  have h1 : firstPass math model Q QDot QDDot (some forces) =
      firstPass math model Q QDot QDDot none := by
    unfold firstPass
    rw [firstPassStep_zero_forces math Q QDot QDDot forces hzero]
  have h2 : firstPassBaseDof math model base_dof Q QDot QDDot (some forces) =
      firstPassBaseDof math model base_dof Q QDot QDDot none := by
    unfold firstPassBaseDof
    rw [firstPassStepBaseDof_zero_forces math base_dof Q QDot QDDot forces hzero]
  have h3 : ∀ (m : Model K ST RI) (base : Nat),
      secondPass math (some forces) m base = secondPass math none m base := by
    intro m base
    unfold secondPass
    rw [secondPassBase_zero_forces math forces hzero]
  constructor
  · unfold FloatingBaseInverseDynamics
    dsimp only
    rw [h1, h3]
  · unfold FloatingBaseInverseDynamicsBaseDof
    dsimp only
    rw [h2, h3]

/-! ### What the passes leave alone -/

theorem jcalc_frame (math : Math K ST RI) (model : Model K ST RI) (i : Nat) (Q QDot : Nat → K) :
    constants (jcalc math model i Q QDot) = constants model ∧
      (jcalc math model i Q QDot).a = model.a ∧ (jcalc math model i Q QDot).v = model.v ∧
      (jcalc math model i Q QDot).Ic = model.Ic ∧ (jcalc math model i Q QDot).f = model.f ∧
      (jcalc math model i Q QDot).X_base = model.X_base :=
  ⟨rfl, rfl, rfl, rfl, rfl, rfl⟩

theorem basePassStep_frame (math : Math K ST RI) (Q QDot : Nat → K) (model : Model K ST RI)
    (i : Nat) :
    constants (basePassStep math Q QDot model i) = constants model ∧
      (basePassStep math Q QDot model i).a = model.a ∧
      (basePassStep math Q QDot model i).v = model.v ∧
      (basePassStep math Q QDot model i).Ic = model.Ic ∧
      (basePassStep math Q QDot model i).f = model.f :=
  ⟨rfl, rfl, rfl, rfl, rfl⟩

theorem foldl_basePassStep_frame (math : Math K ST RI) (Q QDot : Nat → K) :
    ∀ (l : List Nat) (model : Model K ST RI),
      constants (l.foldl (basePassStep math Q QDot) model) = constants model ∧
        (l.foldl (basePassStep math Q QDot) model).a = model.a ∧
        (l.foldl (basePassStep math Q QDot) model).v = model.v ∧
        (l.foldl (basePassStep math Q QDot) model).Ic = model.Ic ∧
        (l.foldl (basePassStep math Q QDot) model).f = model.f := by
  intro l
  induction l with
  | nil => exact fun model => ⟨rfl, rfl, rfl, rfl, rfl⟩
  | cons i rest ih =>
    intro model
    obtain ⟨h1, h2, h3, h4, h5⟩ := ih (basePassStep math Q QDot model i)
    obtain ⟨g1, g2, g3, g4, g5⟩ := basePassStep_frame math Q QDot model i
    exact ⟨h1.trans g1, h2.trans g2, h3.trans g3, h4.trans g4, h5.trans g5⟩

/-- The kinetics of body `i` leave the constants alone, and the velocity, the
acceleration, the inertia and the force of every other body. -/
theorem forwardKinetics_frame [Ring K] [DecidableEq K] (math : Math K ST RI)
    (QDDot : Nat → K) (f_ext : Option (Nat → SpatialVector K)) (model : Model K ST RI)
    (i : Nat) :
    constants (forwardKinetics math QDDot f_ext model i) = constants model ∧
      (forwardKinetics math QDDot f_ext model i).X_lambda = model.X_lambda ∧
      (forwardKinetics math QDDot f_ext model i).X_base = model.X_base ∧
      ∀ j, j ≠ i →
        (forwardKinetics math QDDot f_ext model i).a j = model.a j ∧
        (forwardKinetics math QDDot f_ext model i).v j = model.v j ∧
        (forwardKinetics math QDDot f_ext model i).Ic j = model.Ic j ∧
        (forwardKinetics math QDDot f_ext model i).f j = model.f j := by
  unfold forwardKinetics
  dsimp only
  cases f_ext with
  | none =>
    dsimp only
    split_ifs <;>
      exact ⟨rfl, rfl, rfl, fun j hj => by simp [Function.update_noteq hj]⟩
  | some forces =>
    dsimp only
    split_ifs <;>
      exact ⟨rfl, rfl, rfl, fun j hj => by simp [Function.update_noteq hj]⟩

end rbd

namespace rbd

open RigidBodyDynamics

variable {K ST RI : Type}

theorem firstPassStep_frame [Ring K] [DecidableEq K] (math : Math K ST RI)
    (Q QDot QDDot : Nat → K) (f_ext : Option (Nat → SpatialVector K)) (model : Model K ST RI)
    (i : Nat) :
    constants (firstPassStep math Q QDot QDDot f_ext model i) = constants model ∧
      ∀ j, j ≠ i →
        (firstPassStep math Q QDot QDDot f_ext model i).a j = model.a j ∧
        (firstPassStep math Q QDot QDDot f_ext model i).v j = model.v j := by
  unfold firstPassStep
  dsimp only
  obtain ⟨h1, -, -, h2⟩ := forwardKinetics_frame math QDDot f_ext
    { jcalc math model i Q QDot with
      X_base := Function.update (jcalc math model i Q QDot).X_base i
        (math.compose ((jcalc math model i Q QDot).X_lambda i)
          ((jcalc math model i Q QDot).X_base (model.lambda i))) } i
  exact ⟨h1, fun j hj => ⟨(h2 j hj).1, (h2 j hj).2.1⟩⟩

theorem foldl_firstPassStep_frame [Ring K] [DecidableEq K] (math : Math K ST RI)
    (Q QDot QDDot : Nat → K) (f_ext : Option (Nat → SpatialVector K)) (b : Nat) :
    ∀ (l : List Nat) (model : Model K ST RI), (∀ i ∈ l, i ≠ b) →
      constants (l.foldl (firstPassStep math Q QDot QDDot f_ext) model) = constants model ∧
        (l.foldl (firstPassStep math Q QDot QDDot f_ext) model).a b = model.a b ∧
        (l.foldl (firstPassStep math Q QDot QDDot f_ext) model).v b = model.v b := by
  intro l
  induction l with
  | nil => exact fun model _ => ⟨rfl, rfl, rfl⟩
  | cons i rest ih =>
    intro model hl
    obtain ⟨h1, h2, h3⟩ := ih (firstPassStep math Q QDot QDDot f_ext model i)
      (fun j hj => hl j (List.mem_cons_of_mem _ hj))
    obtain ⟨g1, g2⟩ := firstPassStep_frame math Q QDot QDDot f_ext model i
    have hb : b ≠ i := fun e => hl i (List.mem_cons_self _ _) e.symm
    exact ⟨h1.trans g1, h2.trans (g2 b hb).1, h3.trans (g2 b hb).2⟩

theorem secondPassBase_frame [Ring K] [DecidableEq K] (math : Math K ST RI)
    (f_ext : Option (Nat → SpatialVector K)) (model : Model K ST RI) (base : Nat) :
    constants (secondPassBase math f_ext model base) = constants model ∧
      (secondPassBase math f_ext model base).a = model.a ∧
      (secondPassBase math f_ext model base).v = model.v ∧
      (secondPassBase math f_ext model base).X_lambda = model.X_lambda := by
  unfold secondPassBase
  dsimp only
  cases f_ext with
  | none => exact ⟨rfl, rfl, rfl, rfl⟩
  | some forces =>
    dsimp only
    split_ifs <;> exact ⟨rfl, rfl, rfl, rfl⟩

theorem foldl_secondPassStep_frame [Ring K] (math : Math K ST RI) :
    ∀ (l : List Nat) (model : Model K ST RI),
      constants (l.foldl (secondPassStep math) model) = constants model ∧
        (l.foldl (secondPassStep math) model).a = model.a ∧
        (l.foldl (secondPassStep math) model).v = model.v ∧
        (l.foldl (secondPassStep math) model).X_lambda = model.X_lambda := by
  intro l
  induction l with
  | nil => exact fun model => ⟨rfl, rfl, rfl, rfl⟩
  | cons i rest ih =>
    intro model
    obtain ⟨h1, h2, h3, h4⟩ := ih (secondPassStep math model i)
    exact ⟨h1, h2, h3, h4⟩

theorem constants_gravity {m m' : Model K ST RI} (h : constants m' = constants m) :
    m'.mBodies_size = m.mBodies_size ∧ m'.lambda = m.lambda ∧ m'.gravity = m.gravity ∧
      m'.I = m.I ∧ m'.mDoFCount = m.mDoFCount ∧ m'.q_index = m.q_index ∧
      m'.mIsVirtual = m.mIsVirtual := by
  simp only [constants, Prod.mk.injEq] at h
  exact ⟨h.1, h.2.2.2.1, h.2.2.2.2.2.2.1, h.2.2.2.2.2.2.2, h.2.2.2.2.2.1, h.2.2.2.2.1, h.2.1⟩

theorem firstPass_frame [Ring K] [DecidableEq K] (math : Math K ST RI) (model : Model K ST RI)
    (Q QDot QDDot : Nat → K) (f_ext : Option (Nat → SpatialVector K)) :
    constants (firstPass math model Q QDot QDDot f_ext) = constants model ∧
      (firstPass math model Q QDot QDDot f_ext).a 6 = model.a 6 ∧
      (firstPass math model Q QDot QDDot f_ext).v 6 = model.v 6 := by
  unfold firstPass
  dsimp only
  obtain ⟨b1, b2, b3, -, -⟩ := foldl_basePassStep_frame math Q QDot (List.range' 1 6) model
  obtain ⟨c1, c2, c3⟩ := foldl_firstPassStep_frame math Q QDot QDDot f_ext 6
    (List.range' 7 (((List.range' 1 6).foldl (basePassStep math Q QDot) model).mBodies_size - 7))
    ((List.range' 1 6).foldl (basePassStep math Q QDot) model)
    (by
      intro i hi
      rw [List.mem_range'_1] at hi
      omega)
  exact ⟨c1.trans b1, c2.trans (congrFun b2 6), c3.trans (congrFun b3 6)⟩

theorem secondPass_frame [Ring K] [DecidableEq K] (math : Math K ST RI)
    (f_ext : Option (Nat → SpatialVector K)) (model : Model K ST RI) (base : Nat) :
    constants (secondPass math f_ext model base) = constants model ∧
      (secondPass math f_ext model base).a = model.a ∧
      (secondPass math f_ext model base).v = model.v ∧
      (secondPass math f_ext model base).X_lambda = model.X_lambda := by
  unfold secondPass
  dsimp only
  obtain ⟨d1, d2, d3, d4⟩ := secondPassBase_frame math f_ext model base
  obtain ⟨e1, e2, e3, e4⟩ := foldl_secondPassStep_frame math
    (List.range' (base + 1)
      ((secondPassBase math f_ext model base).mBodies_size - (base + 1))).reverse
    (secondPassBase math f_ext model base)
  exact ⟨e1.trans d1, e2.trans d2, e3.trans d3, e4.trans d4⟩

/-- The base acceleration that the fully-floating variant returns on a model
that it detects as floating-base: the stored acceleration of body 6, linear
part first, with gravity added to the linear part. -/
theorem FloatingBaseInverseDynamics_base_acc [Ring K] [DecidableEq K] (math : Math K ST RI)
    (fuel : Nat) (model : Model K ST RI) (Q QDot QDDot : Nat → K) (base_acc : SpatialVector K)
    (Tau : Nat → K) (f_ext : Option (Nat → SpatialVector K))
    (hfloating : isFloatingBaseLoop model fuel 1 false = .ok true) :
    ∃ (model' : Model K ST RI) (Tau' : Nat → K),
      FloatingBaseInverseDynamics math fuel model Q QDot QDDot base_acc Tau f_ext =
        .ok (model', commaInit33 (segment3 (model.a 6) 3 + model.gravity)
          (segment3 (model.a 6) 0), Tau') := by
  unfold FloatingBaseInverseDynamics
  simp only [hfloating]
  obtain ⟨c1, c2, -⟩ := firstPass_frame math model Q QDot QDDot f_ext
  obtain ⟨e1, e2, -, -⟩ := secondPass_frame math f_ext
    (firstPass math model Q QDot QDDot f_ext) 6
  rw [e2, c2, (constants_gravity (e1.trans c1)).2.2.1]
  exact ⟨_, _, rfl⟩

/-- C20 (the code at the failing inputs). On the pendulum model with a massless
link, gravity `(0, 0, -10)` and the stored acceleration `(1, 2, 3, 4, 5, 6)` of
body 6, the fully-floating variant returns the base acceleration
`(4, 5, -4, 1, 2, 3)`, the stored acceleration reordered with gravity added,
while the acceleration that the third pass solves for body 6 is
`(-1, -2, -3, -4, -5, -6)`. With the stored acceleration zero it returns
`(0, 0, -10, 0, 0, 0)`: the output depends on the stored acceleration. -/
theorem base_acc_is_stale :
    (FloatingBaseInverseDynamics Example.unitMath 16 (Example.pendulum 0 ![1, 2, 3, 4, 5, 6])
        Example.zeroVector Example.zeroVector Example.zeroVector (fun _ => 0) Example.zeroVector
        none).map (fun r => (List.ofFn r.2.1, List.ofFn (r.1.a 6))) =
      .ok ([4, 5, -4, 1, 2, 3], [-1, -2, -3, -4, -5, -6]) ∧
    (FloatingBaseInverseDynamics Example.unitMath 16 (Example.pendulum 0 ![0, 0, 0, 0, 0, 0])
        Example.zeroVector Example.zeroVector Example.zeroVector (fun _ => 0) Example.zeroVector
        none).map (fun r => (List.ofFn r.2.1, List.ofFn (r.1.a 6))) =
      .ok ([0, 0, -10, 0, 0, 0], [0, 0, 0, 0, 0, 0]) :=
  ⟨rfl, rfl⟩

end rbd

namespace rbd

open RigidBodyDynamics

variable {K ST RI : Type}

/-! ### The detection of the floating base -/

theorem isFloatingBaseLoop_chain (model : Model K ST RI) (h : FloatingBaseChain model) :
    ∀ (k fuel : Nat) (flag : Bool), k ≤ 5 → k ≤ fuel →
      isFloatingBaseLoop model fuel (6 - k) (if k = 0 then true else flag) = .ok true := by
  intro k
  induction k with
  | zero =>
    intro fuel flag _ _
    unfold isFloatingBaseLoop
    simp [h.2]
  | succ k ih =>
    intro fuel flag hk hfuel
    obtain ⟨fuel, rfl⟩ : ∃ f, fuel = f + 1 := ⟨fuel - 1, by omega⟩
    obtain ⟨hv, hmu⟩ := h.1 (6 - (k + 1)) (by omega) (by omega)
    unfold isFloatingBaseLoop
    have hnext : 6 - (k + 1) + 1 = 6 - k := by omega
    simp only [hv, if_true, hmu, hnext, Nat.add_one_ne_zero, if_false]
    have := ih fuel (if 6 - k = 6 then true else flag) (by omega) (by omega)
    by_cases hk0 : k = 0
    · subst hk0
      simpa using this
    · have h6 : ¬(6 - k = 6) := by omega
      simp only [hk0, if_false, h6] at this ⊢
      exact this

/-- A model whose bodies 1 to 6 form the chain of a floating base is detected
as floating-base within five steps. -/
theorem isFloatingBaseLoop_of_chain (model : Model K ST RI) (h : FloatingBaseChain model)
    (fuel : Nat) (hfuel : 5 ≤ fuel) : isFloatingBaseLoop model fuel 1 false = .ok true := by
  have := isFloatingBaseLoop_chain model h 5 fuel false (le_refl _) hfuel
  simpa using this

/-! ### The array `X_base` -/

theorem forwardKinetics_withXBase [Ring K] [DecidableEq K] (math : Math K ST RI)
    (QDDot : Nat → K) (model : Model K ST RI) (xb : Nat → ST) (i : Nat) :
    forwardKinetics math QDDot none (withXBase model xb) i =
      withXBase (forwardKinetics math QDDot none model i) xb := by
  unfold forwardKinetics withXBase
  dsimp only
  split_ifs <;> rfl

theorem firstPassStep_withXBase [Ring K] [DecidableEq K] (math : Math K ST RI)
    (base_dof : Nat) (Q QDot QDDot : Nat → K) (model : Model K ST RI) (xb : Nat → ST) (i : Nat) :
    ∃ xb', firstPassStepBaseDof math base_dof Q QDot QDDot none (withXBase model xb) i =
      withXBase (firstPassStep math Q QDot QDDot none model i) xb' := by
  unfold firstPassStepBaseDof firstPassStep
  dsimp only
  by_cases hl : (withXBase model xb).lambda i ≠ base_dof
  · rw [if_pos hl]
    refine ⟨Function.update xb i (math.compose ((jcalc math model i Q QDot).X_lambda i)
      (xb (model.lambda i))), ?_⟩
    have h1 := forwardKinetics_withXBase math QDDot
      { jcalc math model i Q QDot with
        X_base := Function.update (jcalc math model i Q QDot).X_base i
          (math.compose ((jcalc math model i Q QDot).X_lambda i)
            ((jcalc math model i Q QDot).X_base (model.lambda i))) }
      (Function.update xb i (math.compose ((jcalc math model i Q QDot).X_lambda i)
        (xb (model.lambda i)))) i
    rw [← h1]
    rfl
  · rw [if_neg hl]
    refine ⟨Function.update xb i ((jcalc math model i Q QDot).X_lambda i), ?_⟩
    have h1 := forwardKinetics_withXBase math QDDot
      { jcalc math model i Q QDot with
        X_base := Function.update (jcalc math model i Q QDot).X_base i
          (math.compose ((jcalc math model i Q QDot).X_lambda i)
            ((jcalc math model i Q QDot).X_base (model.lambda i))) }
      (Function.update xb i ((jcalc math model i Q QDot).X_lambda i)) i
    rw [← h1]
    rfl

theorem foldl_firstPassStep_withXBase [Ring K] [DecidableEq K] (math : Math K ST RI)
    (base_dof : Nat) (Q QDot QDDot : Nat → K) :
    ∀ (l : List Nat) (model : Model K ST RI) (xb : Nat → ST),
      ∃ xb', l.foldl (firstPassStepBaseDof math base_dof Q QDot QDDot none)
          (withXBase model xb) =
        withXBase (l.foldl (firstPassStep math Q QDot QDDot none) model) xb' := by
  intro l
  induction l with
  | nil => exact fun model xb => ⟨xb, rfl⟩
  | cons i rest ih =>
    intro model xb
    obtain ⟨xb1, h1⟩ := firstPassStep_withXBase math base_dof Q QDot QDDot model xb i
    rw [List.foldl_cons, List.foldl_cons, h1]
    exact ih _ xb1

theorem secondPassStep_withXBase [Ring K] (math : Math K ST RI) (model : Model K ST RI)
    (xb : Nat → ST) (i : Nat) :
    secondPassStep math (withXBase model xb) i = withXBase (secondPassStep math model i) xb :=
  rfl

theorem foldl_secondPassStep_withXBase [Ring K] (math : Math K ST RI) :
    ∀ (l : List Nat) (model : Model K ST RI) (xb : Nat → ST),
      l.foldl (secondPassStep math) (withXBase model xb) =
        withXBase (l.foldl (secondPassStep math) model) xb := by
  intro l
  induction l with
  | nil => exact fun model xb => rfl
  | cons i rest ih =>
    intro model xb
    rw [List.foldl_cons, List.foldl_cons, secondPassStep_withXBase]
    exact ih _ xb

theorem secondPass_withXBase [Ring K] [DecidableEq K] (math : Math K ST RI)
    (model : Model K ST RI) (xb : Nat → ST) (base : Nat) :
    secondPass math none (withXBase model xb) base =
      withXBase (secondPass math none model base) xb := by
  unfold secondPass
  dsimp only
  have h : secondPassBase math none (withXBase model xb) base =
      withXBase (secondPassBase math none model base) xb := rfl
  rw [h, foldl_secondPassStep_withXBase]
  rfl

theorem thirdPassStep_withXBase [Ring K] (math : Math K ST RI) (model : Model K ST RI)
    (xb : Nat → ST) (Tau : Nat → K) (i : Nat) :
    thirdPassStep math (withXBase model xb, Tau) i =
      (withXBase (thirdPassStep math (model, Tau) i).1 xb,
        (thirdPassStep math (model, Tau) i).2) := by
  unfold thirdPassStep withXBase
  dsimp only
  split_ifs <;> rfl

theorem foldl_thirdPassStep_withXBase [Ring K] (math : Math K ST RI) (xb : Nat → ST) :
    ∀ (l : List Nat) (state : Model K ST RI × (Nat → K)),
      l.foldl (thirdPassStep math) (withXBase state.1 xb, state.2) =
        (withXBase (l.foldl (thirdPassStep math) state).1 xb,
          (l.foldl (thirdPassStep math) state).2) := by
  intro l
  induction l with
  | nil => exact fun state => rfl
  | cons i rest ih =>
    intro state
    rw [List.foldl_cons, List.foldl_cons, thirdPassStep_withXBase]
    exact ih _

/-- C27. For a model whose bodies 1 to 6 form the chain of a floating base,
with no external forces and with the stored acceleration of body 6 equal to
`(0, 0, 0, -g)` on entry, the fully-floating variant returns, and the joint
torques it writes are those that the variant with `base_dof = 6` writes, for
every `Q`, `QDot`, `QDDot`. -/
theorem variants_same_torques [Ring K] [DecidableEq K] (math : Math K ST RI) (fuel : Nat)
    (model : Model K ST RI) (Q QDot QDDot : Nat → K) (base_acc : SpatialVector K)
    (Tau : Nat → K) (hchain : FloatingBaseChain model) (hfuel : 5 ≤ fuel)
    (hstored : model.a 6 = commaInit33 (fun _ => 0) (fun j => -model.gravity j)) :
    ∃ r, FloatingBaseInverseDynamics math fuel model Q QDot QDDot base_acc Tau none = .ok r ∧
      r.2.2 = (FloatingBaseInverseDynamicsBaseDof math model 6 Q QDot QDDot base_acc Tau
        none).2.2 := by
  have hfloating := isFloatingBaseLoop_of_chain model hchain fuel hfuel
  unfold FloatingBaseInverseDynamics
  simp only [hfloating]
  refine ⟨_, rfl, ?_⟩
  unfold FloatingBaseInverseDynamicsBaseDof
  dsimp only
  -- the first passes agree up to `X_base`
  have hfirst : ∃ xb, firstPassBaseDof math model 6 Q QDot QDDot none =
      withXBase (firstPass math model Q QDot QDDot none) xb := by
    unfold firstPassBaseDof firstPass
    dsimp only
    obtain ⟨b1, b2, -, -, -⟩ := foldl_basePassStep_frame math Q QDot (List.range' 1 6) model
    have hsame : ({ (List.range' 1 6).foldl (basePassStep math Q QDot) model with
        a := Function.update ((List.range' 1 6).foldl (basePassStep math Q QDot) model).a 6
          (commaInit33 (fun _ => 0)
            (fun j => -((List.range' 1 6).foldl (basePassStep math Q QDot) model).gravity j)) } :
          Model K ST RI) =
        withXBase ((List.range' 1 6).foldl (basePassStep math Q QDot) model)
          ((List.range' 1 6).foldl (basePassStep math Q QDot) model).X_base := by
      have hg := (constants_gravity b1).2.2.1
      have : Function.update ((List.range' 1 6).foldl (basePassStep math Q QDot) model).a 6
          (commaInit33 (fun _ => 0)
            (fun j => -((List.range' 1 6).foldl (basePassStep math Q QDot) model).gravity j)) =
          ((List.range' 1 6).foldl (basePassStep math Q QDot) model).a := by
        rw [hg, ← hstored, ← b2]
        exact Function.update_eq_self 6 _
      rw [this]
      rfl
    rw [hsame]
    exact foldl_firstPassStep_withXBase math 6 Q QDot QDDot _ _ _
  obtain ⟨xb, hxb⟩ := hfirst
  rw [hxb, secondPass_withXBase]
  have hsolve : ∀ m : Model K ST RI, solveBase math (withXBase m xb) 6 =
      withXBase (solveBase math m 6) xb := fun m => rfl
  rw [hsolve]
  unfold thirdPass
  have hsize : ∀ m : Model K ST RI, (withXBase m xb).mBodies_size = m.mBodies_size :=
    fun m => rfl
  rw [hsize]
  have := foldl_thirdPassStep_withXBase math xb
    (List.range' (6 + 1) ((solveBase math (secondPass math none
      (firstPass math model Q QDot QDDot none) 6) 6).mBodies_size - (6 + 1)))
    (solveBase math (secondPass math none (firstPass math model Q QDot QDDot none) 6) 6, Tau)
  rw [this]

end rbd

namespace rbd

open RigidBodyDynamics

variable {K ST RI : Type}

/-! ### The inward accumulation -/

/-- An accumulation into the parent along a list of bodies in decreasing order,
each above its parent: every entry ends as its start value plus the
contributions of its children, in list order, each taken at the end value of
the child. -/
theorem accumulate_spec {β : Type} (lam : Nat → Nat) (T : Nat → β → β) (add : β → β → β) :
    ∀ (l : List Nat) (g : Nat → β), l.Pairwise (· > ·) → (∀ i ∈ l, lam i < i) →
      ∀ j, (l.foldl (fun g i => Function.update g (lam i) (add (g (lam i)) (T i (g i)))) g) j =
        (l.filter (fun c => decide (lam c = j))).foldl
          (fun acc c => add acc
            (T c ((l.foldl (fun g i => Function.update g (lam i) (add (g (lam i)) (T i (g i))))
              g) c)))
          (g j) := by
  intro l
  induction l with
  | nil => intro g _ _ j; rfl
  | cons i rest ih =>
    intro g hp hl j
    rw [List.pairwise_cons] at hp
    have hli : lam i < i := hl i (List.mem_cons_self _ _)
    have hrest : ∀ c ∈ rest, lam c < c := fun c hc => hl c (List.mem_cons_of_mem _ hc)
    rw [List.foldl_cons]
    have hIH := ih (Function.update g (lam i) (add (g (lam i)) (T i (g i)))) hp.2 hrest
    -- body `i` is the parent of no later body, so its entry is final
    have hnone : rest.filter (fun c => decide (lam c = i)) = [] := by
      rw [List.filter_eq_nil_iff]
      intro c hc
      have h1 := hp.1 c hc
      have h2 := hrest c hc
      simp only [decide_eq_true_eq]
      omega
    have hfinal : (rest.foldl
        (fun g i => Function.update g (lam i) (add (g (lam i)) (T i (g i))))
        (Function.update g (lam i) (add (g (lam i)) (T i (g i))))) i = g i := by
      rw [hIH i, hnone, List.foldl_nil, Function.update_noteq (by omega)]
    rw [hIH j]
    by_cases hj : lam i = j
    · subst hj
      rw [List.filter_cons_of_pos (by simp), List.foldl_cons, Function.update_same, hfinal]
    · rw [List.filter_cons_of_neg (by simpa using hj),
        Function.update_noteq (fun e => hj e.symm)]

theorem secondPassStep_frame [Ring K] (math : Math K ST RI) (model : Model K ST RI) (i : Nat) :
    constants (secondPassStep math model i) = constants model ∧
      (secondPassStep math model i).X_lambda = model.X_lambda ∧
      (secondPassStep math model i).Ic = Function.update model.Ic (model.lambda i)
        (math.inertiaAdd (model.Ic (model.lambda i))
          (math.applyInertia (model.X_lambda i) (model.Ic i))) ∧
      (secondPassStep math model i).f = Function.update model.f (model.lambda i)
        (model.f (model.lambda i) + math.applyTranspose (model.X_lambda i) (model.f i)) :=
  ⟨rfl, rfl, rfl, rfl⟩

/-- The loop of the second pass, as two accumulations. -/
theorem foldl_secondPassStep_eq [Ring K] (math : Math K ST RI) :
    ∀ (l : List Nat) (model : Model K ST RI),
      (l.foldl (secondPassStep math) model).Ic =
          l.foldl (fun g i => Function.update g (model.lambda i)
            (math.inertiaAdd (g (model.lambda i)) (math.applyInertia (model.X_lambda i) (g i))))
            model.Ic ∧
        (l.foldl (secondPassStep math) model).f =
          l.foldl (fun g i => Function.update g (model.lambda i)
            (g (model.lambda i) + math.applyTranspose (model.X_lambda i) (g i))) model.f := by
  intro l
  induction l with
  | nil => exact fun model => ⟨rfl, rfl⟩
  | cons i rest ih =>
    intro model
    obtain ⟨h1, h2⟩ := ih (secondPassStep math model i)
    rw [List.foldl_cons, h1, h2]
    exact ⟨rfl, rfl⟩

theorem pairwise_inwardOrder (model : Model K ST RI) (base : Nat) :
    (inwardOrder model base).Pairwise (· > ·) := by
  unfold inwardOrder
  rw [List.pairwise_reverse]
  exact (List.pairwise_lt_range' _ _).imp (fun h => h)

theorem mem_inwardOrder (model : Model K ST RI) (base i : Nat) :
    i ∈ inwardOrder model base ↔ base < i ∧ i < model.mBodies_size := by
  unfold inwardOrder
  rw [List.mem_reverse, List.mem_range'_1]
  omega

end rbd

namespace rbd

open RigidBodyDynamics

variable {K ST RI : Type}

theorem forwardKinetics_Ic [Ring K] [DecidableEq K] (math : Math K ST RI)
    (QDDot : Nat → K) (f_ext : Option (Nat → SpatialVector K)) (model : Model K ST RI)
    (i : Nat) : (forwardKinetics math QDDot f_ext model i).Ic i = model.I i := by
  unfold forwardKinetics
  dsimp only
  cases f_ext with
  | none =>
    dsimp only
    split_ifs <;> simp
  | some forces =>
    dsimp only
    split_ifs <;> simp

theorem firstPassStepBaseDof_frame [Ring K] [DecidableEq K] (math : Math K ST RI)
    (base_dof : Nat) (Q QDot QDDot : Nat → K) (f_ext : Option (Nat → SpatialVector K))
    (model : Model K ST RI) (i : Nat) :
    constants (firstPassStepBaseDof math base_dof Q QDot QDDot f_ext model i) =
        constants model ∧
      (firstPassStepBaseDof math base_dof Q QDot QDDot f_ext model i).Ic i = model.I i ∧
      ∀ j, j ≠ i →
        (firstPassStepBaseDof math base_dof Q QDot QDDot f_ext model i).a j = model.a j ∧
        (firstPassStepBaseDof math base_dof Q QDot QDDot f_ext model i).v j = model.v j ∧
        (firstPassStepBaseDof math base_dof Q QDot QDDot f_ext model i).Ic j = model.Ic j ∧
        (firstPassStepBaseDof math base_dof Q QDot QDDot f_ext model i).f j = model.f j := by
  unfold firstPassStepBaseDof
  dsimp only
  split_ifs
  · obtain ⟨h1, -, -, h2⟩ := forwardKinetics_frame math QDDot f_ext
      { jcalc math model i Q QDot with
        X_base := Function.update (jcalc math model i Q QDot).X_base i
          (math.compose ((jcalc math model i Q QDot).X_lambda i)
            ((jcalc math model i Q QDot).X_base (model.lambda i))) } i
    exact ⟨h1, forwardKinetics_Ic math QDDot f_ext _ i, h2⟩
  · obtain ⟨h1, -, -, h2⟩ := forwardKinetics_frame math QDDot f_ext
      { jcalc math model i Q QDot with
        X_base := Function.update (jcalc math model i Q QDot).X_base i
          ((jcalc math model i Q QDot).X_lambda i) } i
    exact ⟨h1, forwardKinetics_Ic math QDDot f_ext _ i, h2⟩

theorem foldl_firstPassStepBaseDof_frame [Ring K] [DecidableEq K] (math : Math K ST RI)
    (base_dof : Nat) (Q QDot QDDot : Nat → K) (f_ext : Option (Nat → SpatialVector K)) :
    ∀ (l : List Nat) (model : Model K ST RI), l.Nodup →
      constants (l.foldl (firstPassStepBaseDof math base_dof Q QDot QDDot f_ext) model) =
          constants model ∧
        (∀ j ∈ l,
          (l.foldl (firstPassStepBaseDof math base_dof Q QDot QDDot f_ext) model).Ic j =
            model.I j) ∧
        ∀ j, j ∉ l →
          (l.foldl (firstPassStepBaseDof math base_dof Q QDot QDDot f_ext) model).a j =
              model.a j ∧
            (l.foldl (firstPassStepBaseDof math base_dof Q QDot QDDot f_ext) model).v j =
              model.v j ∧
            (l.foldl (firstPassStepBaseDof math base_dof Q QDot QDDot f_ext) model).Ic j =
              model.Ic j := by
  intro l
  induction l with
  | nil =>
    exact fun model _ =>
      ⟨rfl, fun j hj => absurd hj (List.not_mem_nil j), fun j _ => ⟨rfl, rfl, rfl⟩⟩
  | cons i rest ih =>
    intro model hnd
    rw [List.nodup_cons] at hnd
    obtain ⟨h1, h2, h3⟩ := ih (firstPassStepBaseDof math base_dof Q QDot QDDot f_ext model i)
      hnd.2
    obtain ⟨g1, g2, g3⟩ := firstPassStepBaseDof_frame math base_dof Q QDot QDDot f_ext model i
    rw [List.foldl_cons]
    refine ⟨h1.trans g1, ?_, ?_⟩
    · intro j hj
      rcases List.mem_cons.mp hj with rfl | hj
      · rw [(h3 j hnd.1).2.2, g2]
      · rw [h2 j hj, (constants_gravity g1).2.2.2.1]
    · intro j hj
      rw [List.mem_cons, not_or] at hj
      obtain ⟨k1, k2, k3⟩ := h3 j hj.2
      obtain ⟨e1, e2, e3, -⟩ := g3 j hj.1
      exact ⟨k1.trans e1, k2.trans e2, k3.trans e3⟩

theorem firstPassBaseDof_frame [Ring K] [DecidableEq K] (math : Math K ST RI)
    (model : Model K ST RI) (base_dof : Nat) (Q QDot QDDot : Nat → K)
    (f_ext : Option (Nat → SpatialVector K)) :
    constants (firstPassBaseDof math model base_dof Q QDot QDDot f_ext) = constants model ∧
      (∀ j, base_dof < j → j < model.mBodies_size →
        (firstPassBaseDof math model base_dof Q QDot QDDot f_ext).Ic j = model.I j) ∧
      (firstPassBaseDof math model base_dof Q QDot QDDot f_ext).a base_dof =
        commaInit33 (fun _ => 0) (fun j => -model.gravity j) ∧
      (firstPassBaseDof math model base_dof Q QDot QDDot f_ext).v base_dof =
        model.v base_dof := by
  unfold firstPassBaseDof
  dsimp only
  obtain ⟨b1, b2, b3, -, -⟩ := foldl_basePassStep_frame math Q QDot (List.range' 1 base_dof)
    model
  have hsize := (constants_gravity b1).1
  have hgrav := (constants_gravity b1).2.2.1
  obtain ⟨c1, c2, c3⟩ := foldl_firstPassStepBaseDof_frame math base_dof Q QDot QDDot f_ext
    (List.range' (base_dof + 1)
      (((List.range' 1 base_dof).foldl (basePassStep math Q QDot) model).mBodies_size -
        (base_dof + 1)))
    { (List.range' 1 base_dof).foldl (basePassStep math Q QDot) model with
      a := Function.update ((List.range' 1 base_dof).foldl (basePassStep math Q QDot) model).a
        base_dof (commaInit33 (fun _ => 0)
          (fun j => -((List.range' 1 base_dof).foldl (basePassStep math Q QDot) model).gravity
            j)) }
    (List.nodup_range' _ _)
  have hnot : base_dof ∉ List.range' (base_dof + 1)
      (((List.range' 1 base_dof).foldl (basePassStep math Q QDot) model).mBodies_size -
        (base_dof + 1)) := by
    rw [List.mem_range'_1]
    omega
  refine ⟨c1.trans b1, ?_, ?_, ?_⟩
  · intro j hj1 hj2
    rw [c2 j (by rw [List.mem_range'_1, hsize]; omega)]
    exact congrFun (constants_gravity b1).2.2.2.1 j
  · rw [(c3 base_dof hnot).1]
    dsimp only
    rw [Function.update_same, hgrav]
  · rw [(c3 base_dof hnot).2.1]
    exact congrFun b3 base_dof

theorem foldl_thirdPassStep_frame [Ring K] (math : Math K ST RI) :
    ∀ (l : List Nat) (state : Model K ST RI × (Nat → K)),
      constants (l.foldl (thirdPassStep math) state).1 = constants state.1 ∧
        (l.foldl (thirdPassStep math) state).1.Ic = state.1.Ic ∧
        (l.foldl (thirdPassStep math) state).1.f = state.1.f ∧
        (l.foldl (thirdPassStep math) state).1.X_lambda = state.1.X_lambda ∧
        ∀ j, j ∉ l → (l.foldl (thirdPassStep math) state).1.a j = state.1.a j := by
  intro l
  induction l with
  | nil => exact fun state => ⟨rfl, rfl, rfl, rfl, fun j _ => rfl⟩
  | cons i rest ih =>
    intro state
    obtain ⟨h1, h2, h3, h4, h5⟩ := ih (thirdPassStep math state i)
    have hstep : constants (thirdPassStep math state i).1 = constants state.1 ∧
        (thirdPassStep math state i).1.Ic = state.1.Ic ∧
        (thirdPassStep math state i).1.f = state.1.f ∧
        (thirdPassStep math state i).1.X_lambda = state.1.X_lambda ∧
        ∀ j, j ≠ i → (thirdPassStep math state i).1.a j = state.1.a j := by
      unfold thirdPassStep
      dsimp only
      split_ifs <;>
        exact ⟨rfl, rfl, rfl, rfl, fun j hj => Function.update_noteq hj _ _⟩
    obtain ⟨g1, g2, g3, g4, g5⟩ := hstep
    rw [List.foldl_cons]
    refine ⟨h1.trans g1, h2.trans g2, h3.trans g3, h4.trans g4, ?_⟩
    intro j hj
    rw [List.mem_cons, not_or] at hj
    rw [h5 j hj.2, g5 j hj.1]

/-- C26. In the variant with an explicit `base_dof`, on a tree in which every
body above `base_dof` has a parent of smaller index, after the call every body
`i` from `base_dof` on has the composite inertia `I[i]` plus the contributions
`X_lambda[c].apply(Ic[c])` of its children `c`, and the force: its own force
plus the contributions `X_lambda[c].applyTranspose(f[c])` of its children; the
contributions are added in the order of the inward loop. -/
theorem inward_accumulation [Ring K] [DecidableEq K] (math : Math K ST RI)
    (model : Model K ST RI) (base_dof : Nat) (Q QDot QDDot : Nat → K)
    (base_acc : SpatialVector K) (Tau : Nat → K) (f_ext : Option (Nat → SpatialVector K))
    (hparent : ∀ i, base_dof < i → i < model.mBodies_size → model.lambda i < i)
    (i : Nat) (hbase : base_dof ≤ i) (hi : i < model.mBodies_size) :
    (FloatingBaseInverseDynamicsBaseDof math model base_dof Q QDot QDDot base_acc Tau
        f_ext).1.Ic i =
      (childrenInward model base_dof i).foldl
        (fun acc c => math.inertiaAdd acc
          (math.applyInertia
            ((FloatingBaseInverseDynamicsBaseDof math model base_dof Q QDot QDDot base_acc Tau
              f_ext).1.X_lambda c)
            ((FloatingBaseInverseDynamicsBaseDof math model base_dof Q QDot QDDot base_acc Tau
              f_ext).1.Ic c)))
        (model.I i) ∧
    (FloatingBaseInverseDynamicsBaseDof math model base_dof Q QDot QDDot base_acc Tau
        f_ext).1.f i =
      (childrenInward model base_dof i).foldl
        (fun acc c => acc +
          math.applyTranspose
            ((FloatingBaseInverseDynamicsBaseDof math model base_dof Q QDot QDDot base_acc Tau
              f_ext).1.X_lambda c)
            ((FloatingBaseInverseDynamicsBaseDof math model base_dof Q QDot QDDot base_acc Tau
              f_ext).1.f c))
        (ownForce math model base_dof Q QDot QDDot f_ext i) := by
  obtain ⟨c1, c2, -, -⟩ := firstPassBaseDof_frame math model base_dof Q QDot QDDot f_ext
  obtain ⟨d1, -, -, d4⟩ := secondPassBase_frame math f_ext
    (firstPassBaseDof math model base_dof Q QDot QDDot f_ext) base_dof
  have hconst := constants_gravity (d1.trans c1)
  -- the final model has the inertias and forces of the second pass
  have hfinal : (FloatingBaseInverseDynamicsBaseDof math model base_dof Q QDot QDDot base_acc
        Tau f_ext).1.Ic =
        (secondPass math f_ext (firstPassBaseDof math model base_dof Q QDot QDDot f_ext)
          base_dof).Ic ∧
      (FloatingBaseInverseDynamicsBaseDof math model base_dof Q QDot QDDot base_acc Tau
        f_ext).1.f =
        (secondPass math f_ext (firstPassBaseDof math model base_dof Q QDot QDDot f_ext)
          base_dof).f ∧
      (FloatingBaseInverseDynamicsBaseDof math model base_dof Q QDot QDDot base_acc Tau
        f_ext).1.X_lambda =
        (secondPassBase math f_ext (firstPassBaseDof math model base_dof Q QDot QDDot f_ext)
          base_dof).X_lambda := by
    unfold FloatingBaseInverseDynamicsBaseDof thirdPass
    dsimp only
    obtain ⟨-, t2, t3, t4, -⟩ := foldl_thirdPassStep_frame math
      (List.range' (base_dof + 1)
        ((solveBase math (secondPass math f_ext
          (firstPassBaseDof math model base_dof Q QDot QDDot f_ext) base_dof)
          base_dof).mBodies_size - (base_dof + 1)))
      (solveBase math (secondPass math f_ext
        (firstPassBaseDof math model base_dof Q QDot QDDot f_ext) base_dof) base_dof, Tau)
    refine ⟨t2, t3, t4.trans ?_⟩
    have hs : (solveBase math (secondPass math f_ext
        (firstPassBaseDof math model base_dof Q QDot QDDot f_ext) base_dof) base_dof,
        Tau).1.X_lambda =
      (secondPass math f_ext (firstPassBaseDof math model base_dof Q QDot QDDot f_ext)
        base_dof).X_lambda := rfl
    rw [hs, (secondPass_frame math f_ext _ base_dof).2.2.2, d4]
  obtain ⟨f1, f2, f3⟩ := hfinal
  -- the second pass as two accumulations
  have hsecond : secondPass math f_ext (firstPassBaseDof math model base_dof Q QDot QDDot f_ext)
      base_dof = (inwardOrder model base_dof).foldl (secondPassStep math)
        (secondPassBase math f_ext (firstPassBaseDof math model base_dof Q QDot QDDot f_ext)
          base_dof) := by
    unfold secondPass inwardOrder
    dsimp only
    rw [hconst.1]
  obtain ⟨e1, e2⟩ := foldl_secondPassStep_eq math (inwardOrder model base_dof)
    (secondPassBase math f_ext (firstPassBaseDof math model base_dof Q QDot QDDot f_ext)
      base_dof)
  have hlam : ∀ c ∈ inwardOrder model base_dof,
      (secondPassBase math f_ext (firstPassBaseDof math model base_dof Q QDot QDDot f_ext)
        base_dof).lambda c < c := by
    intro c hc
    rw [mem_inwardOrder] at hc
    rw [hconst.2.1]
    exact hparent c hc.1 hc.2
  have hIc0 : (secondPassBase math f_ext
      (firstPassBaseDof math model base_dof Q QDot QDDot f_ext) base_dof).Ic i = model.I i := by
    unfold secondPassBase
    dsimp only
    have hI : (firstPassBaseDof math model base_dof Q QDot QDDot f_ext).I = model.I :=
      (constants_gravity c1).2.2.2.1
    by_cases hib : i = base_dof
    · subst hib
      cases f_ext with
      | none => simp [hI]
      | some forces =>
        dsimp only
        split_ifs <;> simp [hI]
    · have hgt : base_dof < i := by omega
      cases f_ext with
      | none => simp [Function.update_noteq hib, c2 i hgt hi]
      | some forces =>
        dsimp only
        split_ifs <;> simp [Function.update_noteq hib, c2 i hgt hi]
  constructor
  · rw [f1, f3, hsecond, e1]
    have := accumulate_spec
      (secondPassBase math f_ext (firstPassBaseDof math model base_dof Q QDot QDDot f_ext)
        base_dof).lambda
      (fun c x => math.applyInertia
        ((secondPassBase math f_ext (firstPassBaseDof math model base_dof Q QDot QDDot f_ext)
          base_dof).X_lambda c) x)
      math.inertiaAdd (inwardOrder model base_dof)
      (secondPassBase math f_ext (firstPassBaseDof math model base_dof Q QDot QDDot f_ext)
        base_dof).Ic
      (pairwise_inwardOrder model base_dof) hlam i
    rw [this, hIc0]
    unfold childrenInward
    rw [hconst.2.1]
  · rw [f2, f3, hsecond, e2]
    have := accumulate_spec
      (secondPassBase math f_ext (firstPassBaseDof math model base_dof Q QDot QDDot f_ext)
        base_dof).lambda
      (fun c x => math.applyTranspose
        ((secondPassBase math f_ext (firstPassBaseDof math model base_dof Q QDot QDDot f_ext)
          base_dof).X_lambda c) x)
      (fun x y => x + y) (inwardOrder model base_dof)
      (secondPassBase math f_ext (firstPassBaseDof math model base_dof Q QDot QDDot f_ext)
        base_dof).f
      (pairwise_inwardOrder model base_dof) hlam i
    rw [this]
    unfold childrenInward ownForce
    rw [hconst.2.1]

end rbd

namespace rbd

open RigidBodyDynamics

variable {K ST RI : Type}

/-! ### The free fall of the base -/

theorem segment3_commaInit33_top (top bottom : Vector3d K) :
    segment3 (commaInit33 top bottom) 0 = top := by
  funext j
  have hj := j.isLt
  have h0 : (0 : Fin 4).val = 0 := rfl
  unfold segment3 commaInit33
  simp only [h0, Nat.zero_add, hj, dite_true]

theorem segment3_commaInit33_bottom (top bottom : Vector3d K) :
    segment3 (commaInit33 top bottom) 3 = bottom := by
  funext j
  have h3 : (3 : Fin 4).val = 3 := rfl
  have hn : ¬(3 + j.val < 3) := by omega
  unfold segment3 commaInit33
  simp only [h3, hn, dite_false, Nat.add_sub_cancel_left]

theorem commaInit33_segments (v : SpatialVector K) :
    commaInit33 (segment3 v 0) (segment3 v 3) = v := by
  funext k
  have h0 : (0 : Fin 4).val = 0 := rfl
  have h3 : (3 : Fin 4).val = 3 := rfl
  unfold segment3 commaInit33
  by_cases hk : k.val < 3
  · simp only [hk, dite_true, h0, Nat.zero_add]
  · simp only [hk, dite_false, h3]
    congr 1
    apply Fin.ext
    simp only
    omega

theorem neg_commaInit33 [Ring K] (top bottom : Vector3d K) :
    -commaInit33 top bottom = commaInit33 (-top) (-bottom) := by
  funext k
  unfold commaInit33
  by_cases hk : k.val < 3
  · simp only [Pi.neg_apply, hk, dite_true]
  · simp only [Pi.neg_apply, hk, dite_false]

/-- The force that the first pass computes for body `i` when there are no
external forces. -/
theorem forwardKinetics_f [Ring K] [DecidableEq K] (math : Math K ST RI)
    (QDDot : Nat → K) (model : Model K ST RI) (i : Nat) :
    (forwardKinetics math QDDot none model i).f i =
      if model.mIsVirtual i = true then fun _ => 0
      else math.inertiaMul (model.I i) ((forwardKinetics math QDDot none model i).a i) +
        math.crossf ((forwardKinetics math QDDot none model i).v i)
          (math.inertiaMul (model.I i) ((forwardKinetics math QDDot none model i).v i)) := by
  unfold forwardKinetics
  dsimp only
  split_ifs <;> simp_all

theorem firstPassStepBaseDof_f [Ring K] [DecidableEq K] (math : Math K ST RI)
    (base_dof : Nat) (Q QDot QDDot : Nat → K) (model : Model K ST RI) (i : Nat)
    (hmassless : ∀ x, math.inertiaMul (model.I i) x = fun _ => 0)
    (hcrossf : ∀ v, math.crossf v (fun _ => 0) = fun _ => 0) :
    (firstPassStepBaseDof math base_dof Q QDot QDDot none model i).f i = fun _ => 0 := by
  unfold firstPassStepBaseDof
  dsimp only
  split_ifs
  · rw [forwardKinetics_f]
    dsimp only
    split_ifs
    · rfl
    · have hI : (jcalc math model i Q QDot).I = model.I := rfl
      rw [hI, hmassless, hmassless, hcrossf]
      funext k
      simp
  · rw [forwardKinetics_f]
    dsimp only
    split_ifs
    · rfl
    · have hI : (jcalc math model i Q QDot).I = model.I := rfl
      rw [hI, hmassless, hmassless, hcrossf]
      funext k
      simp

/-- C22 (amended). For a massless pendulum link, body 7, hinged to a free base,
body 6, with an invertible base inertia, zero stored velocity of the base and
no external forces, the base acceleration that the variant with
`base_dof = 6` returns has a zero angular part, and its linear part is the
gravity vector: the base falls freely. The properties of the operations of
the library that this uses are hypotheses: a massless inertia maps every
vector to zero and adds nothing to the base inertia, `crossf` and
`applyTranspose` are zero where an argument is zero, and the inverse of the
base inertia undoes the base inertia. -/
theorem free_fall_base_acc [Ring K] [DecidableEq K] (math : Math K ST RI)
    (model : Model K ST RI) (Q QDot QDDot : Nat → K) (base_acc : SpatialVector K)
    (Tau : Nat → K)
    (hsize : model.mBodies_size = 8) (hlambda : model.lambda 7 = 6)
    (hrest : model.v 6 = fun _ => 0)
    (hmassless : ∀ x, math.inertiaMul (model.I 7) x = fun _ => 0)
    (hnothing : ∀ X, math.inertiaAdd (model.I 6) (math.applyInertia X (model.I 7)) = model.I 6)
    (hcrossf : ∀ v, math.crossf v (fun _ => 0) = fun _ => 0)
    (hcrossf0 : ∀ f, math.crossf (fun _ => 0) f = fun _ => 0)
    (htranspose : ∀ X, math.applyTranspose X (fun _ => 0) = fun _ => 0)
    (hinverse : ∀ x, math.inverseMul (model.I 6) (math.inertiaMul (model.I 6) x) = x) :
    segment3 (FloatingBaseInverseDynamicsBaseDof math model 6 Q QDot QDDot base_acc Tau
        none).2.1 0 = (fun _ => 0) ∧
      segment3 (FloatingBaseInverseDynamicsBaseDof math model 6 Q QDot QDDot base_acc Tau
        none).2.1 3 = model.gravity := by
  obtain ⟨c1, c2, c3, c4⟩ := firstPassBaseDof_frame math model 6 Q QDot QDDot none
  have hc := constants_gravity c1
  -- the force of the link after the first pass
  have hf7 : (firstPassBaseDof math model 6 Q QDot QDDot none).f 7 = fun _ => 0 := by
    unfold firstPassBaseDof
    dsimp only
    have hsz := (constants_gravity
      (foldl_basePassStep_frame math Q QDot (List.range' 1 6) model).1).1
    have hI := (constants_gravity
      (foldl_basePassStep_frame math Q QDot (List.range' 1 6) model).1).2.2.2.1
    rw [hsz, hsize]
    have hl : List.range' (6 + 1) (8 - (6 + 1)) = [7] := rfl
    rw [hl, List.foldl_cons, List.foldl_nil]
    exact firstPassStepBaseDof_f math 6 Q QDot QDDot _ 7
      (fun x => by
        have := hmassless x
        rw [← hI] at this
        exact this)
      hcrossf
  -- the second pass
  have hsecond : secondPass math none (firstPassBaseDof math model 6 Q QDot QDDot none) 6 =
      secondPassStep math
        (secondPassBase math none (firstPassBaseDof math model 6 Q QDot QDDot none) 6) 7 := by
    unfold secondPass
    dsimp only
    have hsz : (secondPassBase math none (firstPassBaseDof math model 6 Q QDot QDDot none)
        6).mBodies_size = 8 := by
      rw [(constants_gravity (secondPassBase_frame math none
        (firstPassBaseDof math model 6 Q QDot QDDot none) 6).1).1, hc.1, hsize]
    rw [hsz]
    rfl
  have hIc6 : (secondPass math none (firstPassBaseDof math model 6 Q QDot QDDot none) 6).Ic 6 =
      model.I 6 := by
    rw [hsecond, (secondPassStep_frame math _ 7).2.2.1]
    have hl : (secondPassBase math none (firstPassBaseDof math model 6 Q QDot QDDot none)
        6).lambda 7 = 6 := by
      rw [(constants_gravity (secondPassBase_frame math none
        (firstPassBaseDof math model 6 Q QDot QDDot none) 6).1).2.1, hc.2.1, hlambda]
    rw [hl, Function.update_same]
    have h6 : (secondPassBase math none (firstPassBaseDof math model 6 Q QDot QDDot none)
        6).Ic 6 = model.I 6 := by
      unfold secondPassBase
      dsimp only
      rw [Function.update_same, hc.2.2.2.1]
    have h7 : (secondPassBase math none (firstPassBaseDof math model 6 Q QDot QDDot none)
        6).Ic 7 = model.I 7 := by
      unfold secondPassBase
      dsimp only
      rw [Function.update_noteq (by decide), c2 7 (by decide) (by rw [hsize]; decide)]
    rw [h6, h7, hnothing]
  have hf6 : (secondPass math none (firstPassBaseDof math model 6 Q QDot QDDot none) 6).f 6 =
      math.inertiaMul (model.I 6) (commaInit33 (fun _ => 0) (fun j => -model.gravity j)) := by
    rw [hsecond, (secondPassStep_frame math _ 7).2.2.2]
    have hl : (secondPassBase math none (firstPassBaseDof math model 6 Q QDot QDDot none)
        6).lambda 7 = 6 := by
      rw [(constants_gravity (secondPassBase_frame math none
        (firstPassBaseDof math model 6 Q QDot QDDot none) 6).1).2.1, hc.2.1, hlambda]
    rw [hl, Function.update_same]
    have h6 : (secondPassBase math none (firstPassBaseDof math model 6 Q QDot QDDot none)
        6).f 6 =
        math.inertiaMul (model.I 6) (commaInit33 (fun _ => 0) (fun j => -model.gravity j)) := by
      unfold secondPassBase
      dsimp only
      rw [Function.update_same, hc.2.2.2.1, c3, c4, hrest, hcrossf0]
      funext k
      simp
    have h7 : (secondPassBase math none (firstPassBaseDof math model 6 Q QDot QDDot none)
        6).f 7 = fun _ => 0 := by
      unfold secondPassBase
      dsimp only
      rw [Function.update_noteq (by decide), hf7]
    rw [h6, h7, htranspose]
    funext k
    simp
  -- the solved acceleration of the base
  have hacc : (FloatingBaseInverseDynamicsBaseDof math model 6 Q QDot QDDot base_acc Tau
      none).2.1 = commaInit33 (fun _ => 0) model.gravity := by
    unfold FloatingBaseInverseDynamicsBaseDof solveBase
    dsimp only
    have h0 : -(fun _ : Fin 3 => (0 : K)) = fun _ => 0 := by
      funext j
      simp
    have hg : -(fun j : Fin 3 => -model.gravity j) = model.gravity := by
      funext j
      simp
    rw [Function.update_same, hIc6, hf6, hinverse, commaInit33_segments, neg_commaInit33, h0, hg]
  rw [hacc]
  exact ⟨segment3_commaInit33_top _ _, segment3_commaInit33_bottom _ _⟩

end rbd

namespace rbd

open RigidBodyDynamics

/-! ### The statements at the pendulum model -/

theorem pendulum_chain (link_inertia : Int) (stored_a : Fin 6 → Int) :
    FloatingBaseChain (Example.pendulum link_inertia stored_a) := by
  refine ⟨?_, rfl⟩
  intro i h1 h2
  interval_cases i <;> exact ⟨rfl, rfl⟩

/-- C21 at the pendulum model with a link of inertia 3 and the joint
acceleration 2. -/
theorem zero_forces_as_none_witness :
    FloatingBaseInverseDynamics Example.unitMath 16
          (Example.pendulum 3 ![0, 0, 0, 0, 0, 10]) Example.zeroVector Example.zeroVector
          (fun _ => 2) (fun _ => 0) Example.zeroVector (some (fun _ => SpatialVectorZero)) =
        FloatingBaseInverseDynamics Example.unitMath 16
          (Example.pendulum 3 ![0, 0, 0, 0, 0, 10]) Example.zeroVector Example.zeroVector
          (fun _ => 2) (fun _ => 0) Example.zeroVector none ∧
      FloatingBaseInverseDynamicsBaseDof Example.unitMath
          (Example.pendulum 3 ![0, 0, 0, 0, 0, 10]) 6 Example.zeroVector Example.zeroVector
          (fun _ => 2) (fun _ => 0) Example.zeroVector (some (fun _ => SpatialVectorZero)) =
        FloatingBaseInverseDynamicsBaseDof Example.unitMath
          (Example.pendulum 3 ![0, 0, 0, 0, 0, 10]) 6 Example.zeroVector Example.zeroVector
          (fun _ => 2) (fun _ => 0) Example.zeroVector none :=
  zero_forces_as_none Example.unitMath 16 (Example.pendulum 3 ![0, 0, 0, 0, 0, 10]) 6
    Example.zeroVector Example.zeroVector (fun _ => 2) (fun _ => 0) Example.zeroVector
    (fun _ => SpatialVectorZero) (fun _ => rfl)

/-- C27 at the pendulum model with a link of inertia 3, the joint acceleration
2 and the stored acceleration `(0, 0, 0, 0, 0, 10)` of body 6, the negated
gravity. -/
theorem variants_same_torques_witness :
    ∃ r, FloatingBaseInverseDynamics Example.unitMath 16
          (Example.pendulum 3 ![0, 0, 0, 0, 0, 10]) Example.zeroVector Example.zeroVector
          (fun _ => 2) (fun _ => 0) Example.zeroVector none = .ok r ∧
      r.2.2 = (FloatingBaseInverseDynamicsBaseDof Example.unitMath
          (Example.pendulum 3 ![0, 0, 0, 0, 0, 10]) 6 Example.zeroVector Example.zeroVector
          (fun _ => 2) (fun _ => 0) Example.zeroVector none).2.2 :=
  variants_same_torques Example.unitMath 16 (Example.pendulum 3 ![0, 0, 0, 0, 0, 10])
    Example.zeroVector Example.zeroVector (fun _ => 2) (fun _ => 0) Example.zeroVector
    (pendulum_chain 3 _) (by decide) (by decide)

/-- C26 at the pendulum model, for the base body 6, whose only child above the
base is the link 7. -/
theorem inward_accumulation_witness :
    (FloatingBaseInverseDynamicsBaseDof Example.unitMath
        (Example.pendulum 3 ![0, 0, 0, 0, 0, 10]) 6 Example.zeroVector Example.zeroVector
        (fun _ => 2) (fun _ => 0) Example.zeroVector none).1.Ic 6 =
      (childrenInward (Example.pendulum 3 ![0, 0, 0, 0, 0, 10]) 6 6).foldl
        (fun acc c => Example.unitMath.inertiaAdd acc
          (Example.unitMath.applyInertia
            ((FloatingBaseInverseDynamicsBaseDof Example.unitMath
              (Example.pendulum 3 ![0, 0, 0, 0, 0, 10]) 6 Example.zeroVector
              Example.zeroVector (fun _ => 2) (fun _ => 0) Example.zeroVector
              none).1.X_lambda c)
            ((FloatingBaseInverseDynamicsBaseDof Example.unitMath
              (Example.pendulum 3 ![0, 0, 0, 0, 0, 10]) 6 Example.zeroVector
              Example.zeroVector (fun _ => 2) (fun _ => 0) Example.zeroVector none).1.Ic c)))
        ((Example.pendulum 3 ![0, 0, 0, 0, 0, 10]).I 6) ∧
      childrenInward (Example.pendulum 3 ![0, 0, 0, 0, 0, 10]) 6 6 = [7] ∧
      (FloatingBaseInverseDynamicsBaseDof Example.unitMath
        (Example.pendulum 3 ![0, 0, 0, 0, 0, 10]) 6 Example.zeroVector Example.zeroVector
        (fun _ => 2) (fun _ => 0) Example.zeroVector none).1.Ic 6 = 4 :=
  ⟨(inward_accumulation Example.unitMath (Example.pendulum 3 ![0, 0, 0, 0, 0, 10]) 6
      Example.zeroVector Example.zeroVector (fun _ => 2) (fun _ => 0) Example.zeroVector none
      (by
        intro i h1 h2
        have h8 : i < 8 := h2
        interval_cases i
        decide)
      6 (le_refl _) (by decide)).1,
    rfl, rfl⟩

/-- C22 (amended) at the pendulum model with a massless link: the base
acceleration is `(0, 0, 0, 0, 0, -10)`. -/
theorem free_fall_base_acc_witness :
    segment3 (FloatingBaseInverseDynamicsBaseDof Example.unitMath
        (Example.pendulum 0 ![0, 0, 0, 0, 0, 0]) 6 Example.zeroVector Example.zeroVector
        Example.zeroVector (fun _ => 0) Example.zeroVector none).2.1 0 = (fun _ => 0) ∧
      segment3 (FloatingBaseInverseDynamicsBaseDof Example.unitMath
        (Example.pendulum 0 ![0, 0, 0, 0, 0, 0]) 6 Example.zeroVector Example.zeroVector
        Example.zeroVector (fun _ => 0) Example.zeroVector none).2.1 3 =
        (Example.pendulum 0 ![0, 0, 0, 0, 0, 0]).gravity :=
  free_fall_base_acc Example.unitMath (Example.pendulum 0 ![0, 0, 0, 0, 0, 0])
    Example.zeroVector Example.zeroVector Example.zeroVector (fun _ => 0) Example.zeroVector
    rfl rfl rfl
    (by
      intro x
      funext k
      simp [Example.unitMath, Example.pendulum])
    (by
      intro X
      rfl)
    (by
      intro v
      funext k
      fin_cases k <;> simp [Example.unitMath, Example.crossf]
      all_goals rfl)
    (by
      intro f
      funext k
      fin_cases k <;> simp [Example.unitMath, Example.crossf]
      all_goals rfl)
    (by
      intro X
      rfl)
    (by
      intro x
      funext k
      simp [Example.unitMath, Example.pendulum])

/-- C22 (counterexample). On the pendulum model with a massless link, at rest,
with gravity `(0, 0, -10)`, the variant with `base_dof = 6` returns the base
acceleration `(0, 0, 0, 0, 0, -10)`: its linear part is the gravity vector, not
the negated gravity `(0, 0, 10)`. The fully-floating variant returns
`(0, 0, -10, 0, 0, 0)` on the same model. -/
theorem base_acc_sign_counterexample :
    List.ofFn (FloatingBaseInverseDynamicsBaseDof Example.unitMath
        (Example.pendulum 0 ![0, 0, 0, 0, 0, 0]) 6 Example.zeroVector Example.zeroVector
        Example.zeroVector (fun _ => 0) Example.zeroVector none).2.1 =
        [0, 0, 0, 0, 0, -10] ∧
      List.ofFn (Example.pendulum 0 ![0, 0, 0, 0, 0, 0]).gravity = [0, 0, -10] ∧
      (FloatingBaseInverseDynamics Example.unitMath 16 (Example.pendulum 0 ![0, 0, 0, 0, 0, 0])
        Example.zeroVector Example.zeroVector Example.zeroVector (fun _ => 0)
        Example.zeroVector none).map (fun r => List.ofFn r.2.1) =
        .ok [0, 0, -10, 0, 0, 0] :=
  ⟨rfl, rfl, rfl⟩

end rbd

/-! ## Properties of the cart-table model -/

namespace simulation

namespace LinearControlledCartTableModel

variable {K : Type}

theorem initResponse_uninitialized [Field K] (libm : Libm K)
    (m : LinearControlledCartTableModel K) (state : ReducedBodyState K)
    (params : CartTableControlParams K) (h : m.init_model_ = false) :
    initResponse libm m state params = m := by
  unfold initResponse
  simp [h]

theorem computeResponse_uninitialized [Field K] [LT K] [DecidableRel (fun a b : K => a < b)]
    (libm : Libm K) (m : LinearControlledCartTableModel K) (state : ReducedBodyState K)
    (time : K) (h : m.init_response_ = false) : computeResponse libm m state time = state := by
  unfold computeResponse
  simp [h]

/-- `initResponse` sets the response flag only on an initialized model. -/
theorem initResponse_flag [Field K] (libm : Libm K) (m : LinearControlledCartTableModel K)
    (state : ReducedBodyState K) (params : CartTableControlParams K) :
    (initResponse libm m state params).init_model_ = m.init_model_ ∧
      ((initResponse libm m state params).init_response_ = true →
        m.init_response_ = true ∨ m.init_model_ = true) := by
  unfold initResponse
  cases h : m.init_model_ <;> simp [h]

/-- Without a call of `setModelProperties` the object stays as constructed. -/
theorem afterCalls_uninitialized [Field K] (libm : Libm K) :
    ∀ (calls : List (Call K)) (m : LinearControlledCartTableModel K),
      m.init_model_ = false → (∀ c ∈ calls, ∀ model, c ≠ .setModelProperties model) →
      afterCalls libm m calls = m := by
  intro calls
  induction calls with
  | nil => exact fun m _ _ => rfl
  | cons c rest ih =>
    intro m hm hno
    have hstep : afterCall libm m c = m := by
      cases c with
      | setModelProperties model => exact absurd rfl (hno _ (List.mem_cons_self _ _) model)
      | initResponse state params => exact initResponse_uninitialized libm m state params hm
      | computeResponse state time => rfl
    unfold afterCalls
    rw [List.foldl_cons, hstep]
    exact ih m hm (fun c hc => hno c (List.mem_cons_of_mem _ hc))

theorem afterCalls_append [Field K] (libm : Libm K) (m : LinearControlledCartTableModel K)
    (pre post : List (Call K)) :
    afterCalls libm m (pre ++ post) = afterCalls libm (afterCalls libm m pre) post := by
  unfold afterCalls
  rw [List.foldl_append]

/-- The response flag is set only by an `initResponse` that ran on an
initialized model. -/
theorem init_response_origin [Field K] (libm : Libm K) (m : LinearControlledCartTableModel K)
    (hm : m.init_response_ = false) :
    ∀ calls : List (Call K), (afterCalls libm m calls).init_response_ = true →
      ∃ pre state params post, calls = pre ++ Call.initResponse state params :: post ∧
        (afterCalls libm m pre).init_model_ = true := by
  intro calls
  induction calls using List.reverseRecOn with
  | nil =>
    intro h
    rw [show afterCalls libm m [] = m from rfl, hm] at h
    cases h
  | append_singleton l c ih =>
    intro h
    rw [afterCalls_append] at h
    have hone : afterCalls libm (afterCalls libm m l) [c] = afterCall libm (afterCalls libm m l) c :=
      rfl
    rw [hone] at h
    cases c with
    | setModelProperties model =>
      obtain ⟨pre, state, params, post, h1, h2⟩ := ih h
      exact ⟨pre, state, params, post ++ [Call.setModelProperties model], by simp [h1], h2⟩
    | computeResponse state time =>
      obtain ⟨pre, state', params, post, h1, h2⟩ := ih h
      exact ⟨pre, state', params, post ++ [Call.computeResponse state time], by simp [h1], h2⟩
    | initResponse state params =>
      rcases (initResponse_flag libm (afterCalls libm m l) state params).2 h with h' | h'
      · obtain ⟨pre, state', params', post, h1, h2⟩ := ih h'
        exact ⟨pre, state', params', post ++ [Call.initResponse state params], by simp [h1], h2⟩
      · exact ⟨l, state, params, [], rfl, h'⟩

/-- C23. On a cart-table object as the constructor leaves it, along every
sequence of calls of `initResponse` and `computeResponse` the object stays as
constructed and every call leaves the caller's state argument as it was; the
calls are total, so each returns. In a sequence that may also call
`setModelProperties`, a `computeResponse` that writes the caller's state comes
after an `initResponse` that ran on an initialized model. -/
theorem uninitialized_calls_are_noops [Field K] [LT K] [DecidableRel (fun a b : K => a < b)]
    (libm : Libm K) (uninit : LinearControlledCartTableModel K) (calls : List (Call K)) :
    ((∀ c ∈ calls, ∀ model, c ≠ .setModelProperties model) →
      ∀ pre c post, calls = pre ++ c :: post →
        afterCalls libm (new uninit) pre = new uninit ∧
        stateAfterCall libm (afterCalls libm (new uninit) pre) c = stateArgument c) ∧
    (∀ pre state time post, calls = pre ++ Call.computeResponse state time :: post →
      computeResponse libm (afterCalls libm (new uninit) pre) state time ≠ state →
      ∃ pre1 state1 params1 post1, pre = pre1 ++ Call.initResponse state1 params1 :: post1 ∧
        (afterCalls libm (new uninit) pre1).init_model_ = true) := by
  constructor
  · intro hno pre c post hsplit
    have hpre : afterCalls libm (new uninit) pre = new uninit := by
      apply afterCalls_uninitialized libm pre (new uninit) rfl
      intro c' hc'
      exact hno c' (by rw [hsplit]; exact List.mem_append_left _ hc')
    refine ⟨hpre, ?_⟩
    rw [hpre]
    cases c with
    | setModelProperties model => rfl
    | initResponse state params => rfl
    | computeResponse state time =>
      show some (computeResponse libm (new uninit) state time) = some state
      rw [computeResponse_uninitialized libm (new uninit) state time rfl]
  · intro pre state time post _ hwrites
    apply init_response_origin libm (new uninit) rfl pre
    by_contra hflag
    apply hwrites
    exact computeResponse_uninitialized libm _ state time (by simpa using hflag)

/-- C23 at a fresh object: an `initResponse` and a `computeResponse` at time 1
leave the state `standing` as it is. -/
theorem uninitialized_calls_are_noops_witness :
    afterCalls Example.crudeLibm (new Example.freshCartTable)
        [Call.initResponse Example.standing Example.oneStep] =
        new Example.freshCartTable ∧
      stateAfterCall Example.crudeLibm
        (afterCalls Example.crudeLibm (new Example.freshCartTable)
          [Call.initResponse Example.standing Example.oneStep])
        (Call.computeResponse Example.standing 1) =
        stateArgument (Call.computeResponse Example.standing 1) :=
  (uninitialized_calls_are_noops Example.crudeLibm Example.freshCartTable
    [Call.initResponse Example.standing Example.oneStep,
      Call.computeResponse Example.standing 1]).1
    (by
      intro c hc model
      simp only [List.mem_cons, List.mem_singleton, List.not_mem_nil, or_false] at hc
      rcases hc with rfl | rfl <;> exact fun h => by cases h)
    [Call.initResponse Example.standing Example.oneStep]
    (Call.computeResponse Example.standing 1) [] rfl

end LinearControlledCartTableModel

end simulation

namespace model

namespace FloatingBaseSystem

open rbd

variable {α : Type}

/-! ### The system DoF and the length of the generalized vector -/

theorem typeData_slots {s s' : FloatingBaseSystem α} (h : typeData s' = typeData s)
    (c : Coords6d) : s'.getFloatingBaseJoint c = s.getFloatingBaseJoint c := by
  simp only [typeData, Prod.mk.injEq] at h
  obtain ⟨-, -, h2, h3, h4, h5, h6, h7⟩ := h
  cases c <;> simp [getFloatingBaseJoint, *]

theorem deriveTypeOfSystem_slots (s : FloatingBaseSystem α) (c : Coords6d) :
    (deriveTypeOfSystem s).getFloatingBaseJoint c = s.getFloatingBaseJoint c := by
  unfold deriveTypeOfSystem
  dsimp only
  split_ifs <;> rfl

/-- The derivation block stores the system DoF that goes with the type it
stores. -/
theorem deriveTypeOfSystem_systemDoF (s : FloatingBaseSystem α) :
    (((deriveTypeOfSystem s).type_of_system_ = .FloatingBase ∨
        (deriveTypeOfSystem s).type_of_system_ = .ConstrainedFloatingBase) →
      (deriveTypeOfSystem s).num_system_joints_ = 6 + (deriveTypeOfSystem s).num_joints_) ∧
    ((deriveTypeOfSystem s).type_of_system_ = .VirtualFloatingBase →
      (deriveTypeOfSystem s).num_system_joints_ =
        (deriveTypeOfSystem s).num_floating_joints_ + (deriveTypeOfSystem s).num_joints_) ∧
    ((deriveTypeOfSystem s).type_of_system_ = .FixedBase →
      (deriveTypeOfSystem s).num_system_joints_ = (deriveTypeOfSystem s).num_joints_) := by
  unfold deriveTypeOfSystem
  dsimp only
  split_ifs with h1 h2 h3
  · simp
  · simp
  · simp
  · have h0 : s.num_floating_joints_ = 0 := by omega
    simp [h0]

theorem addFoot_systemDoF (s : FloatingBaseSystem α) (name : String) :
    (addFoot s name).num_system_joints_ = s.num_system_joints_ := by
  unfold addFoot
  split_ifs <;> rfl

theorem readFeet_systemDoF (s : FloatingBaseSystem α) (file : SystemDescription α) :
    (readFeet s file).num_system_joints_ = s.num_system_joints_ := by
  unfold readFeet
  split
  · exact foldl_preserves
      (fun t : FloatingBaseSystem α => t.num_system_joints_ = s.num_system_joints_) addFoot
      (fun t x hP => (addFoot_systemDoF t x).trans hP) _ _ rfl
  · rfl

theorem readPosture_systemDoF (file : SystemDescription α) (s s' : FloatingBaseSystem α)
    (j : Nat) (h : readPosture file s j = .ok s') :
    s'.num_system_joints_ = s.num_system_joints_ := by
  unfold readPosture at h
  split at h
  · cases h
  · split at h
    · split at h
      · cases h
      · cases h
        rfl
    · cases h
      rfl

theorem resetOptionalDescription_systemDoF (s s' : FloatingBaseSystem α)
    (system_file : Option (SystemDescription α))
    (h : resetOptionalDescription s system_file = .ok s') :
    s'.num_system_joints_ = s.num_system_joints_ := by
  unfold resetOptionalDescription at h
  split at h
  · rename_i file
    unfold resetSystemDescription at h
    dsimp only at h
    refine foldlM_preserves
      (fun t : FloatingBaseSystem α => t.num_system_joints_ = s.num_system_joints_)
      (readPosture file) ?_ _ _ s' (readFeet_systemDoF s file) h
    intro t x t' hP ht
    exact (readPosture_systemDoF file t t' x ht).trans hP
  · cases h
    rfl

theorem finishReset_systemDoF (uninit : Nat → α) (s : FloatingBaseSystem α) :
    (finishReset uninit s).num_system_joints_ = s.num_system_joints_ := by
  unfold finishReset
  dsimp only
  split_ifs <;> rfl

theorem stateAfterJoints_systemDoF (s3 : FloatingBaseSystem α)
    (names free : urdf_model.JointID) (limits : urdf_model.JointLimits α) :
    (((stateAfterJoints s3 names free limits).type_of_system_ = .FloatingBase ∨
        (stateAfterJoints s3 names free limits).type_of_system_ = .ConstrainedFloatingBase) →
      (stateAfterJoints s3 names free limits).num_system_joints_ =
        6 + (stateAfterJoints s3 names free limits).num_joints_) ∧
    ((stateAfterJoints s3 names free limits).type_of_system_ = .VirtualFloatingBase →
      (stateAfterJoints s3 names free limits).num_system_joints_ =
        (stateAfterJoints s3 names free limits).num_floating_joints_ +
          (stateAfterJoints s3 names free limits).num_joints_) ∧
    ((stateAfterJoints s3 names free limits).type_of_system_ = .FixedBase →
      (stateAfterJoints s3 names free limits).num_system_joints_ =
        (stateAfterJoints s3 names free limits).num_joints_) := by
  unfold stateAfterJoints
  exact deriveTypeOfSystem_systemDoF _

theorem stateAfterJoints_slots (s3 : FloatingBaseSystem α)
    (names free : urdf_model.JointID) (limits : urdf_model.JointLimits α) (c : Coords6d) :
    (stateAfterJoints s3 names free limits).getFloatingBaseJoint c =
      s3.getFloatingBaseJoint c := by
  unfold stateAfterJoints
  dsimp only
  rw [deriveTypeOfSystem_slots]
  obtain ⟨-, htd, -⟩ := setActuatedJoints_frame names free
    { s3 with
      floating_body_name_ :=
        s3.rbd_model_.GetBodyName (if s3.isFullyFloatingBase then 6 else s3.getFloatingBaseDoF)
      joint_limits_ := limits
      num_joints_ := usub (StdMap.size free) s3.num_floating_joints_ }
  have h1 := typeData_slots htd c
  have h2 : ∀ (t : FloatingBaseSystem α) (l : List String),
      getFloatingBaseJoint { t with joint_names_ := l } c = getFloatingBaseJoint t c :=
    fun _ _ => rfl
  rw [h2, h1]
  rfl

/-- The system DoF of a constructed model, by its type. -/
theorem resetFromURDFModel_systemDoF [Zero α] [DecidableEq α] {fuel : Nat} {uninit : Nat → α}
    {s S : FloatingBaseSystem α} {rbd : RBDModel} {model : urdf.ModelInterface α}
    {system_file : Option (SystemDescription α)}
    (h : resetFromURDFModel fuel uninit s rbd model system_file = .ok S) :
    ((S.getTypeOfDynamicSystem = .FloatingBase ∨
        S.getTypeOfDynamicSystem = .ConstrainedFloatingBase) →
      S.getSystemDoF = 6 + S.getJointDoF) ∧
    (S.getTypeOfDynamicSystem = .VirtualFloatingBase →
      S.getSystemDoF = S.getFloatingBaseDoF + S.getJointDoF) ∧
    (S.getTypeOfDynamicSystem = .FixedBase → S.getSystemDoF = S.getJointDoF) := by
  obtain ⟨names, s3, free, limits, ees, s13, -, -, -, -, -, h6, hS⟩ :=
    resetFromURDFModel_inv h
  have htd : typeData S = typeData (stateAfterJoints s3 names free limits) := by
    rw [hS, finishReset_typeData, resetOptionalDescription_typeData _ _ _ h6]
    rfl
  have hjd : jointData S = jointData (stateAfterJoints s3 names free limits) := by
    rw [hS, finishReset_jointData, resetOptionalDescription_jointData _ _ _ h6]
    rfl
  have hsd : S.num_system_joints_ = (stateAfterJoints s3 names free limits).num_system_joints_ := by
    rw [hS, finishReset_systemDoF, resetOptionalDescription_systemDoF _ _ _ h6]
    rfl
  simp only [typeData, jointData, Prod.mk.injEq] at htd hjd
  obtain ⟨ht, hnf, -⟩ := htd
  obtain ⟨-, hnj, -⟩ := hjd
  have key := stateAfterJoints_systemDoF s3 names free limits
  rw [← ht, ← hnf, ← hnj, ← hsd] at key
  exact key

/-- The slots of a constructed model are those that the floating-base block
of the construction sets. -/
theorem resetFromURDFModel_slots [Zero α] [DecidableEq α] {fuel : Nat} {uninit : Nat → α}
    {s S : FloatingBaseSystem α} {rbd : RBDModel} {model : urdf.ModelInterface α}
    {system_file : Option (SystemDescription α)}
    (h : resetFromURDFModel fuel uninit s rbd model system_file = .ok S) :
    ∃ names s3, urdf_model.getJointNames fuel [] model .floating = .ok names ∧
      setFloatingSlots fuel model names
        { s with rbd_model_ := rbd, num_floating_joints_ := StdMap.size names } = .ok s3 ∧
      S.num_floating_joints_ = StdMap.size names ∧
      ∀ c, S.getFloatingBaseJoint c = s3.getFloatingBaseJoint c := by
  obtain ⟨names, s3, free, limits, ees, s13, h1, h2, -, -, -, h6, hS⟩ :=
    resetFromURDFModel_inv h
  have htd : typeData S = typeData (stateAfterJoints s3 names free limits) := by
    rw [hS, finishReset_typeData, resetOptionalDescription_typeData _ _ _ h6]
    rfl
  refine ⟨names, s3, h1, h2, ?_, fun c => ?_⟩
  · obtain ⟨names', hn, hsz, -⟩ := resetFromURDFModel_typeData h
    rw [h1] at hn
    cases hn
    exact hsz
  · rw [typeData_slots htd c, stateAfterJoints_slots]

/-- When the slots are set from the table of the floating-base joints, either
all six slots are active or every active slot carries an id of the table. -/
theorem setFloatingSlot_ids (names : urdf_model.JointID) (s s' : FloatingBaseSystem α)
    (jnt : String × Nat) (h : setFloatingSlot names s jnt = .ok s')
    (hs : (∀ c, (s.getFloatingBaseJoint c).active = true) ∨
      ∀ c, (s.getFloatingBaseJoint c).active = true →
        ∃ name, StdMap.find names name = some (s.getFloatingBaseJoint c).id) :
    (∀ c, (s'.getFloatingBaseJoint c).active = true) ∨
      ∀ c, (s'.getFloatingBaseJoint c).active = true →
        ∃ name, StdMap.find names name = some (s'.getFloatingBaseJoint c).id := by
  unfold setFloatingSlot at h
  dsimp only at h
  cases hf : StdMap.find names jnt.1 with
  | none =>
    rw [hf] at h
    cases h
  | some joint_id =>
    rw [hf] at h
    dsimp only at h
    split at h
    · cases h
      left
      intro c
      cases c <;> rfl
    · cases h
      have hslot : ∀ c, getFloatingBaseJoint
          (setFloatingBaseJointCoord
            { s with floating_joint_names_ := s.floating_joint_names_ ++ [jnt.1] }
            (FloatingBaseJoint.mk3 true joint_id jnt.1) (Coords6d.cast jnt.2)) c =
          if c = Coords6d.cast jnt.2 then FloatingBaseJoint.mk3 true joint_id jnt.1
          else s.getFloatingBaseJoint c := by
        intro c
        cases Coords6d.cast jnt.2 <;> cases c <;> rfl
      rcases hs with hall | hids
      · left
        intro c
        rw [hslot]
        split_ifs
        · rfl
        · exact hall c
      · right
        intro c hc
        rw [hslot] at hc ⊢
        split_ifs at hc ⊢
        · exact ⟨jnt.1, hf⟩
        · exact hids c hc

theorem setFloatingSlots_ids [Zero α] [DecidableEq α] (fuel : Nat)
    (model : urdf.ModelInterface α) (names : urdf_model.JointID) (s s' : FloatingBaseSystem α)
    (h : setFloatingSlots fuel model names s = .ok s')
    (hs : (∀ c, (s.getFloatingBaseJoint c).active = true) ∨
      ∀ c, (s.getFloatingBaseJoint c).active = true →
        ∃ name, StdMap.find names name = some (s.getFloatingBaseJoint c).id) :
    (∀ c, (s'.getFloatingBaseJoint c).active = true) ∨
      ∀ c, (s'.getFloatingBaseJoint c).active = true →
        ∃ name, StdMap.find names name = some (s'.getFloatingBaseJoint c).id := by
  unfold setFloatingSlots at h
  split at h
  · split at h
    · cases h
    · exact foldlM_preserves
        (fun t : FloatingBaseSystem α => (∀ c, (t.getFloatingBaseJoint c).active = true) ∨
          ∀ c, (t.getFloatingBaseJoint c).active = true →
            ∃ name, StdMap.find names name = some (t.getFloatingBaseJoint c).id)
        (setFloatingSlot names)
        (fun t x t' hP ht => setFloatingSlot_ids names t t' x ht hP)
        _ s s' hs h
  · cases h
    exact hs

/-- On a model constructed on a fresh object from a description with distinct
joint names, the active slots of a virtual floating base carry ids below the
number of floating-base joints. -/
theorem resetFromURDFModel_activeIdsInRange [Zero α] [DecidableEq α] {fuel : Nat}
    {uninit : Nat → α} {rbd0 rbd : RBDModel} {full : Bool} {n : Nat}
    {model : urdf.ModelInterface α} {system_file : Option (SystemDescription α)}
    {S : FloatingBaseSystem α} {visited : List (urdf.Joint α)}
    (hvisit : visitedJoints fuel model = .ok visited)
    (hnames : (visited.map (fun joint => joint.name)).Nodup)
    (hS : resetFromURDFModel fuel uninit (FloatingBaseSystem.new rbd0 full n) rbd model
      system_file = .ok S)
    (htype : S.getTypeOfDynamicSystem = .VirtualFloatingBase) : ActiveIdsInRange S := by
  obtain ⟨names, s3, h1, h2, hsz, hslots⟩ := resetFromURDFModel_slots hS
  have hnum := getJointNames_floating_numbers hvisit hnames h1
  have hinit : (∀ c, ((({ (FloatingBaseSystem.new rbd0 full n : FloatingBaseSystem α) with
        rbd_model_ := rbd, num_floating_joints_ := StdMap.size names } :
          FloatingBaseSystem α).getFloatingBaseJoint c).active = true)) ∨
      ∀ c, (({ (FloatingBaseSystem.new rbd0 full n : FloatingBaseSystem α) with
        rbd_model_ := rbd, num_floating_joints_ := StdMap.size names } :
          FloatingBaseSystem α).getFloatingBaseJoint c).active = true →
        ∃ name, StdMap.find names name = some
          (({ (FloatingBaseSystem.new rbd0 full n : FloatingBaseSystem α) with
            rbd_model_ := rbd, num_floating_joints_ := StdMap.size names } :
              FloatingBaseSystem α).getFloatingBaseJoint c).id := by
    cases full
    · right
      intro c hc
      cases c <;> cases hc
    · left
      intro c
      cases c <;> rfl
  have hq := setFloatingSlots_ids fuel model names _ s3 h2 hinit
  obtain ⟨-, -, -, hty⟩ := resetFromURDFModel_typeData hS
  have hnotall : ¬ ∀ c, (S.getFloatingBaseJoint c).active = true := by
    intro hall
    have : S.type_of_system_ ≠ .VirtualFloatingBase := by
      have hall' : ∀ c, activeFlags S c = true := hall
      rw [hty]
      unfold typeOfSlots
      rw [if_pos hall']
      split_ifs <;> simp
    exact this htype
  intro c hc
  rcases hq with hall | hids
  · exact absurd (fun c => by rw [hslots c]; exact hall c) hnotall
  · rw [hslots c] at hc ⊢
    obtain ⟨name, hn⟩ := hids c hc
    have := (hnum.2.2 name _).mp hn
    have hlt := (List.getElem?_eq_some_iff.mp this).1
    show _ < S.num_floating_joints_
    rw [hsz, hnum.2.1]
    exact hlt

/-- On a buffer of the right size, with the active ids of a virtual floating
base in range, `toGeneralizedJointState` returns a vector whose length is the
buffer size of the type. -/
theorem toGeneralizedJointState_length (s : FloatingBaseSystem α) (uninit : Nat → α)
    (b : Vector6d α) (j : List α) (hj : j.length = s.getJointDoF) (hbuf : BufferSized s)
    (hrange : s.getTypeOfDynamicSystem = .VirtualFloatingBase → ActiveIdsInRange s) :
    ∃ g, toGeneralizedJointState s uninit b j = .ok (g, { s with full_state_ := g }) ∧
      ((s.getTypeOfDynamicSystem = .FloatingBase ∨
          s.getTypeOfDynamicSystem = .ConstrainedFloatingBase) →
        g.length = 6 + s.getJointDoF) ∧
      (s.getTypeOfDynamicSystem = .VirtualFloatingBase →
        g.length = s.getFloatingBaseDoF + s.getJointDoF) ∧
      (s.getTypeOfDynamicSystem = .FixedBase → g.length = s.getJointDoF) := by
  by_cases hfl : s.getTypeOfDynamicSystem = .FloatingBase ∨
      s.getTypeOfDynamicSystem = .ConstrainedFloatingBase
  · refine ⟨_, toGeneralizedJointState_floating_ok s uninit b j hfl hj (hbuf.1 hfl), ?_, ?_, ?_⟩
    · intro _
      simp [hj]
      omega
    · intro hv
      rcases hfl with h | h <;> rw [h] at hv <;> cases hv
    · intro hv
      rcases hfl with h | h <;> rw [h] at hv <;> cases hv
  · by_cases hvt : s.getTypeOfDynamicSystem = .VirtualFloatingBase
    · obtain ⟨vb, hvb, hlen, -, -⟩ :=
        writeSlots_spec (slotWrites s b) (Eigen.uninitialized uninit s.getFloatingBaseDoF) (by
          intro w hw ha
          obtain ⟨c, rfl⟩ := (slotWrites_mem s b w).mp hw
          rw [Eigen.length_uninitialized]
          exact hrange hvt c ha)
      rw [Eigen.length_uninitialized] at hlen
      have hglen : (vb ++ j).length = s.getFloatingBaseDoF + s.getJointDoF := by
        rw [List.length_append, hlen, hj]
      refine ⟨vb ++ j, ?_, fun h => absurd h hfl, fun _ => hglen, ?_⟩
      · rw [toGeneralizedJointState_virtual s uninit b j hj hvt, hvb]
        have : Eigen.commaInit s.full_state_ [vb, j] = .ok (vb ++ j) := by
          rw [Eigen.commaInit_ok (by simp [hbuf.2 hvt, hlen, hj])]
          simp
        simp [bind, Except.bind, this, pure, Except.pure]
      · intro hv
        rw [hvt] at hv
        cases hv
    · refine ⟨j, ?_, fun h => absurd h hfl, fun h => absurd h hvt, fun _ => hj⟩
      unfold toGeneralizedJointState
      rw [if_neg (by simpa using hj), if_neg hfl, if_neg hvt]
      rfl

/-- C31. After construction on a fresh object from a topology with distinct
joint names, for every base vector and every joint vector of length numJoints
`toGeneralizedJointState` returns a generalized vector, and `getSystemDoF()`
equals its length: `6 + numJoints` for a full floating base,
`getFloatingBaseDoF() + numJoints` for a virtual floating base, and numJoints
for a fixed base. -/
theorem getSystemDoF_eq_generalized_length [Zero α] [DecidableEq α] (fuel : Nat)
    (uninit garbage : Nat → α) (rbd0 rbd : RBDModel) (full : Bool) (n : Nat)
    (model : urdf.ModelInterface α) (system_file : Option (SystemDescription α))
    (S : FloatingBaseSystem α) (visited : List (urdf.Joint α))
    (base_state : Vector6d α) (joint_state : List α)
    (hvisit : visitedJoints fuel model = .ok visited)
    (hnames : (visited.map (fun joint => joint.name)).Nodup)
    (hS : resetFromURDFModel fuel uninit (FloatingBaseSystem.new rbd0 full n) rbd model
      system_file = .ok S)
    (hj : joint_state.length = S.getJointDoF) :
    ∃ g, S.toGeneralizedJointState garbage base_state joint_state =
        .ok (g, { S with full_state_ := g }) ∧
      S.getSystemDoF = g.length ∧
      ((S.getTypeOfDynamicSystem = .FloatingBase ∨
          S.getTypeOfDynamicSystem = .ConstrainedFloatingBase) →
        S.getSystemDoF = 6 + S.getJointDoF) ∧
      (S.getTypeOfDynamicSystem = .VirtualFloatingBase →
        S.getSystemDoF = S.getFloatingBaseDoF + S.getJointDoF) ∧
      (S.getTypeOfDynamicSystem = .FixedBase → S.getSystemDoF = S.getJointDoF) := by
  obtain ⟨d1, d2, d3⟩ := resetFromURDFModel_systemDoF hS
  obtain ⟨g, hg, g1, g2, g3⟩ := toGeneralizedJointState_length S garbage base_state joint_state
    hj (resetFromURDFModel_bufferSized hS)
    (resetFromURDFModel_activeIdsInRange hvisit hnames hS)
  refine ⟨g, hg, ?_, d1, d2, d3⟩
  cases ht : S.getTypeOfDynamicSystem with
  | FloatingBase => rw [d1 (Or.inl ht), g1 (Or.inl ht)]
  | ConstrainedFloatingBase => rw [d1 (Or.inr ht), g1 (Or.inr ht)]
  | VirtualFloatingBase => rw [d2 ht, g2 ht]
  | FixedBase => rw [d3 ht, g3 ht]

/-- C31 at `railHopper`, a virtual floating base with one floating-base joint
and one actuated joint: the system DoF is 2, the length of the generalized
vector of the base `(1, 2, 3, 4, 5, 6)` and the joint vector `[9]`. -/
theorem getSystemDoF_eq_generalized_length_witness :
    ∃ g, Example.railHopperSystem.toGeneralizedJointState Example.garbage Example.base123456
        [9] = .ok (g, { Example.railHopperSystem with full_state_ := g }) ∧
      Example.railHopperSystem.getSystemDoF = g.length ∧
      ((Example.railHopperSystem.getTypeOfDynamicSystem = .FloatingBase ∨
          Example.railHopperSystem.getTypeOfDynamicSystem = .ConstrainedFloatingBase) →
        Example.railHopperSystem.getSystemDoF = 6 + Example.railHopperSystem.getJointDoF) ∧
      (Example.railHopperSystem.getTypeOfDynamicSystem = .VirtualFloatingBase →
        Example.railHopperSystem.getSystemDoF =
          Example.railHopperSystem.getFloatingBaseDoF +
            Example.railHopperSystem.getJointDoF) ∧
      (Example.railHopperSystem.getTypeOfDynamicSystem = .FixedBase →
        Example.railHopperSystem.getSystemDoF = Example.railHopperSystem.getJointDoF) :=
  getSystemDoF_eq_generalized_length 16 Example.garbage Example.garbage Example.emptyRbd
    Example.railHopperRbd false 0 Example.railHopper none Example.railHopperSystem
    [Example.slide_x, Example.hip, Example.ankle] Example.base123456 [9]
    rfl (by decide) rfl rfl

/-! ### The joints that have limits -/

/-- What a successful loop of `getJointLimits` went through, and the names of
the table it returns. -/
theorem getJointLimitsLoop_spec [Zero α] [DecidableEq α] (model : urdf.ModelInterface α) :
    ∀ (l : List (String × Nat)) (m0 m : urdf_model.JointLimits α),
      urdf_model.getJointLimitsLoop model l m0 = .ok m → SortedKeys m0 →
      SortedKeys m ∧
      (∀ e ∈ l, ∃ j, StdMap.find model.joints_ e.1 = some j ∧
        (j.type ≠ .FLOATING → j.limits ≠ none)) ∧
      (∀ name, StdMap.find m name ≠ none ↔
        (name ∈ l.map Prod.fst ∧ ∃ j lim, StdMap.find model.joints_ name = some j ∧
          j.type ≠ .FLOATING ∧ j.limits = some lim ∧ lim.effort ≠ 0) ∨
        StdMap.find m0 name ≠ none) := by
  intro l
  induction l with
  | nil =>
    intro m0 m h hs
    cases h
    exact ⟨hs, fun e he => absurd he (List.not_mem_nil e), fun name => by simp⟩
  | cons e rest ih =>
    intro m0 m h hs
    obtain ⟨joint_name, idx⟩ := e
    unfold urdf_model.getJointLimitsLoop at h
    cases hj : StdMap.find model.joints_ joint_name with
    | none =>
      rw [hj] at h
      cases h
    | some j =>
      rw [hj] at h
      dsimp only at h
      by_cases hfl : j.type ≠ .FLOATING
      · rw [if_pos hfl] at h
        cases hl : j.limits with
        | none =>
          rw [hl] at h
          cases h
        | some lim =>
          rw [hl] at h
          dsimp only at h
          by_cases he : lim.effort ≠ 0
          · rw [if_pos he] at h
            obtain ⟨r1, r2, r3⟩ := ih _ m h (sortedKeys_assign hs _ _)
            refine ⟨r1, ?_, ?_⟩
            · intro e' he'
              rcases List.mem_cons.mp he' with rfl | he'
              · exact ⟨j, hj, fun _ => by rw [hl]; simp⟩
              · exact r2 e' he'
            · intro name
              rw [r3 name, find_assign]
              constructor
              · rintro (⟨hm, hx⟩ | hx)
                · exact Or.inl ⟨List.mem_cons_of_mem _ hm, hx⟩
                · by_cases hn : joint_name = name
                  · subst hn
                    exact Or.inl ⟨by simp, j, lim, hj, hfl, hl, he⟩
                  · rw [if_neg hn] at hx
                    exact Or.inr hx
              · rintro (⟨hm, hx⟩ | hx)
                · rcases List.mem_cons.mp hm with hn | hm
                  · right
                    rw [if_pos hn.symm]
                    simp
                  · exact Or.inl ⟨hm, hx⟩
                · right
                  split_ifs
                  · simp
                  · exact hx
          · rw [if_neg he] at h
            obtain ⟨r1, r2, r3⟩ := ih _ m h hs
            refine ⟨r1, ?_, ?_⟩
            · intro e' he'
              rcases List.mem_cons.mp he' with rfl | he'
              · exact ⟨j, hj, fun _ => by rw [hl]; simp⟩
              · exact r2 e' he'
            · intro name
              rw [r3 name]
              constructor
              · rintro (⟨hm, hx⟩ | hx)
                · exact Or.inl ⟨List.mem_cons_of_mem _ hm, hx⟩
                · exact Or.inr hx
              · rintro (⟨hm, j', lim', hj', hfl', hl', he'⟩ | hx)
                · rcases List.mem_cons.mp hm with hn | hm
                  · exfalso
                    have hn' : name = joint_name := hn
                    rw [hn', hj] at hj'
                    cases hj'
                    rw [hl] at hl'
                    cases hl'
                    exact he he'
                  · exact Or.inl ⟨hm, j', lim', hj', hfl', hl', he'⟩
                · exact Or.inr hx
      · rw [if_neg hfl] at h
        obtain ⟨r1, r2, r3⟩ := ih _ m h hs
        refine ⟨r1, ?_, ?_⟩
        · intro e' he'
          rcases List.mem_cons.mp he' with rfl | he'
          · exact ⟨j, hj, fun h' => absurd h' hfl⟩
          · exact r2 e' he'
        · intro name
          rw [r3 name]
          constructor
          · rintro (⟨hm, hx⟩ | hx)
            · exact Or.inl ⟨List.mem_cons_of_mem _ hm, hx⟩
            · exact Or.inr hx
          · rintro (⟨hm, j', lim', hj', hfl', hl', he'⟩ | hx)
            · rcases List.mem_cons.mp hm with hn | hm
              · exfalso
                have hn' : name = joint_name := hn
                rw [hn', hj] at hj'
                cases hj'
                exact hfl hfl'
              · exact Or.inl ⟨hm, j', lim', hj', hfl', hl', he'⟩
            · exact Or.inr hx

theorem setActuatedJoints_limits (names : urdf_model.JointID) (free : List (String × Nat))
    (s : FloatingBaseSystem α) :
    (free.foldl (setActuatedJoint names) s).joint_limits_ = s.joint_limits_ :=
  foldl_preserves (fun t : FloatingBaseSystem α => t.joint_limits_ = s.joint_limits_)
    (setActuatedJoint names)
    (fun t x hP => by
      unfold setActuatedJoint
      dsimp only
      split_ifs <;> exact hP)
    free s rfl

theorem deriveTypeOfSystem_limits (s : FloatingBaseSystem α) :
    (deriveTypeOfSystem s).joint_limits_ = s.joint_limits_ := by
  unfold deriveTypeOfSystem
  dsimp only
  split_ifs <;> rfl

/-- The limit table of a constructed model is what the loop of `getJointLimits`
adds to the table the object had. -/
theorem resetFromURDFModel_limits [Zero α] [DecidableEq α] {fuel : Nat} {uninit : Nat → α}
    {s S : FloatingBaseSystem α} {rbd : RBDModel} {model : urdf.ModelInterface α}
    {system_file : Option (SystemDescription α)}
    (h : resetFromURDFModel fuel uninit s rbd model system_file = .ok S) :
    ∃ free : urdf_model.JointID, urdf_model.getJointNames fuel [] model .free = .ok free ∧
      urdf_model.getJointLimitsLoop model free s.joint_limits_ = .ok S.joint_limits_ := by
  obtain ⟨names, s3, free, limits, ees, s13, h1, h2, h3, h4, -, h6, hS⟩ :=
    resetFromURDFModel_inv h
  have hj3 := setFloatingSlots_jointData fuel model names _ s3 h2
  have hS13 : jointData S = jointData s13 := hS ▸ finishReset_jointData uninit s13
  have h13 := resetOptionalDescription_jointData _ s13 system_file h6
  have hbefore : jointData (stateBeforeDescription (stateAfterJoints s3 names free limits) ees) =
      jointData (stateAfterJoints s3 names free limits) := rfl
  have hall := hS13.trans (h13.trans hbefore)
  have hafter : (stateAfterJoints s3 names free limits).joint_limits_ = limits := by
    unfold stateAfterJoints
    dsimp only
    rw [deriveTypeOfSystem_limits]
    exact setActuatedJoints_limits names free _
  simp only [jointData, Prod.mk.injEq] at hall hj3
  refine ⟨free, h3, ?_⟩
  unfold urdf_model.getJointLimits at h4
  rw [h3] at h4
  simp only [bind, Except.bind] at h4
  rw [hall.2.2.2, hafter, ← hj3.2.2.2]
  exact h4

theorem length_filter_split {β : Type} (p q r : β → Bool) (l : List β)
    (h : ∀ x ∈ l, p x = (q x || r x) ∧ ¬(q x = true ∧ r x = true)) :
    (l.filter p).length = (l.filter q).length + (l.filter r).length := by
  induction l with
  | nil => rfl
  | cons x rest ih =>
    have ih' := ih (fun y hy => h y (List.mem_cons_of_mem _ hy))
    obtain ⟨h1, h2⟩ := h x (List.mem_cons_self _ _)
    simp only [List.filter_cons]
    cases hq : q x <;> cases hr : r x <;> simp [h1, hq, hr] at h2 ⊢ <;> omega

/-- A table in key order has as many entries as a duplicate-free list with
the same names. -/
theorem size_eq_length_of_keys {β : Type} {m : StdMap β} (hs : SortedKeys m)
    {names : List String} (hnd : names.Nodup)
    (h : ∀ name, StdMap.find m name ≠ none ↔ name ∈ names) :
    StdMap.size m = names.length := by
  have hperm : (StdMap.keys m).Perm names := by
    rw [List.perm_ext_iff_of_nodup hs.nodup hnd]
    intro name
    rw [← h name, Ne, find_eq_none_iff, not_not]
  rw [← hperm.length_eq]
  simp [StdMap.size, StdMap.keys]

theorem sortedKeys_foldl_assign (c : String → Prop) [DecidablePred c] (g : Nat → Nat)
    (l : List (String × Nat)) (m0 : StdMap Nat) (hs : SortedKeys m0) :
    SortedKeys (l.foldl (fun m e => if c e.1 then StdMap.assign m e.1 (g e.2) else m) m0) :=
  foldl_preserves (fun m : StdMap Nat => SortedKeys m)
    (fun m e => if c e.1 then StdMap.assign m e.1 (g e.2) else m)
    (fun m e hP => by
      dsimp only
      split_ifs
      · exact sortedKeys_assign hP _ _
      · exact hP)
    l m0 hs

theorem isActuatedJoint_iff [Zero α] [DecidableEq α] (joint : urdf.Joint α)
    (hlim : joint.type ≠ .FLOATING → isFreeJoint joint = true → joint.limits ≠ none) :
    isFreeJoint joint = (isFloatingBaseJoint joint || isActuatedJoint joint) ∧
      ¬(isFloatingBaseJoint joint = true ∧ isActuatedJoint joint = true) := by
  unfold isFreeJoint isFloatingBaseJoint isActuatedJoint at *
  cases ht : joint.type <;> cases hl : joint.limits <;> simp [ht, hl] at hlim ⊢

theorem isActuatedJoint_spec [Zero α] [DecidableEq α] (joint : urdf.Joint α) :
    isActuatedJoint joint = true ↔
      joint.type ≠ .FLOATING ∧ isFreeJoint joint = true ∧
        ∃ lim, joint.limits = some lim ∧ lim.effort ≠ 0 := by
  unfold isFreeJoint isActuatedJoint
  cases ht : joint.type <;> cases hl : joint.limits <;> simp [ht, hl]

theorem mem_filter_names {β : Type} (p : β → Bool) (f : β → String) (l : List β)
    (name : String) :
    name ∈ (l.filter p).map f ↔ ∃ j ∈ l, f j = name ∧ p j = true := by
  simp only [List.mem_map, List.mem_filter]
  constructor
  · rintro ⟨j, ⟨h1, h2⟩, h3⟩
    exact ⟨j, h1, h3, h2⟩
  · rintro ⟨j, h1, h3, h2⟩
    exact ⟨j, ⟨h1, h2⟩, h3⟩

/-- C34. After construction on a fresh object from a topology with distinct
joint names, the joint names that have a limit entry are the names of the
actuated-joint table, and these are the names of the joints that are revolute,
continuous or prismatic with a non-zero effort limit; both tables have
`getJointDoF()` entries, and no floating-base joint has a limit entry. -/
theorem limits_iff_actuated [Zero α] [DecidableEq α] (fuel : Nat) (uninit : Nat → α)
    (rbd0 rbd : RBDModel) (full : Bool) (n : Nat) (model : urdf.ModelInterface α)
    (system_file : Option (SystemDescription α)) (S : FloatingBaseSystem α)
    (visited : List (urdf.Joint α))
    (hvisit : visitedJoints fuel model = .ok visited)
    (hnames : (visited.map (fun joint => joint.name)).Nodup)
    (hcons : ∀ j ∈ visited, StdMap.find model.joints_ j.name = some j)
    (hsmall : visited.length < UINT_MOD)
    (hS : resetFromURDFModel fuel uninit (FloatingBaseSystem.new rbd0 full n) rbd model
      system_file = .ok S) :
    (∀ name, (∃ limits, StdMap.find S.getJointLimits name = some limits) ↔
        ∃ id, StdMap.find S.getJoints name = some id) ∧
      (∀ name, (∃ id, StdMap.find S.getJoints name = some id) ↔
        ∃ j ∈ visited, j.name = name ∧ isActuatedJoint j = true) ∧
      StdMap.size S.getJointLimits = S.getJointDoF ∧
      StdMap.size S.getJoints = S.getJointDoF ∧
      (∀ j ∈ visited, isFloatingBaseJoint j = true →
        StdMap.find S.getJointLimits j.name = none) := by
  obtain ⟨names, free, h1, h2, hnum, hjoints⟩ := resetFromURDFModel_joints hS
  obtain ⟨free', h2', hloop⟩ := resetFromURDFModel_limits hS
  rw [h2] at h2'
  cases h2'
  have hfree := getJointNames_free_numbers hvisit hnames h2
  have hfl := getJointNames_floating_numbers hvisit hnames h1
  obtain ⟨hsorted, hderef, hkeys⟩ :=
    getJointLimitsLoop_spec model free _ _ hloop sortedKeys_nil
  have hinj : ∀ j ∈ visited, ∀ j' ∈ visited, j.name = j'.name → j = j' :=
    fun j hj j' hj' he => List.inj_on_of_nodup_map hnames hj hj' he
  -- the names of the free table
  have hfreekeys : ∀ name, name ∈ free.map Prod.fst ↔
      ∃ j ∈ visited, j.name = name ∧ isFreeJoint j = true := by
    intro name
    rw [← mem_filter_names, ← not_iff_not, ← hfree.find_none, find_eq_none_iff]
    rfl
  -- every free joint that is not a floating joint has limits
  have hlim : ∀ j ∈ visited, j.type ≠ .FLOATING → isFreeJoint j = true → j.limits ≠ none := by
    intro j hj hfl' hfr
    have hmem : j.name ∈ free.map Prod.fst := (hfreekeys j.name).mpr ⟨j, hj, rfl, hfr⟩
    obtain ⟨e, he, hname⟩ := List.mem_map.mp hmem
    obtain ⟨j', hj', hl'⟩ := hderef e he
    rw [hname, hcons j hj] at hj'
    cases hj'
    exact hl' hfl'
  have hact : ∀ j ∈ visited,
      isFreeJoint j = (isFloatingBaseJoint j || isActuatedJoint j) ∧
        ¬(isFloatingBaseJoint j = true ∧ isActuatedJoint j = true) :=
    fun j hj => isActuatedJoint_iff j (hlim j hj)
  -- the names of the limit table
  have HL : ∀ name, StdMap.find S.joint_limits_ name ≠ none ↔
      name ∈ (visited.filter isActuatedJoint).map (fun joint => joint.name) := by
    intro name
    rw [hkeys name, mem_filter_names]
    constructor
    · rintro (⟨hm, j, lim, hj, hfl', hl, he⟩ | hx)
      · obtain ⟨j0, hj0, hn0, hf0⟩ := (hfreekeys name).mp hm
        have : j = j0 := by
          rw [← hn0, hcons j0 hj0] at hj
          cases hj
          rfl
        subst this
        exact ⟨j, hj0, hn0, (isActuatedJoint_spec j).mpr ⟨hfl', hf0, lim, hl, he⟩⟩
      · exact absurd rfl hx
    · rintro ⟨j, hj, hn, ha⟩
      obtain ⟨hfl', hfr, lim, hl, he⟩ := (isActuatedJoint_spec j).mp ha
      refine Or.inl ⟨(hfreekeys name).mpr ⟨j, hj, hn, hfr⟩, j, lim, ?_, hfl', hl, he⟩
      rw [← hn]
      exact hcons j hj
  -- the names of the joint table
  have HJ : ∀ name, StdMap.find S.joints_ name ≠ none ↔
      name ∈ (visited.filter isActuatedJoint).map (fun joint => joint.name) := by
    intro name
    rw [mem_filter_names, Option.ne_none_iff_exists']
    have hfind := find_foldl_assign
      (fun k => 0 < StdMap.size names → StdMap.find names k = none)
      (fun v => usub v (StdMap.size names)) free
      (FloatingBaseSystem.new rbd0 full n : FloatingBaseSystem α).joints_ hfree.1.nodup name
    have hnew : ∀ id, StdMap.find
        (FloatingBaseSystem.new rbd0 full n : FloatingBaseSystem α).joints_ name ≠ some id :=
      fun id h => by cases h
    have hc : (0 < StdMap.size names → StdMap.find names name = none) ↔
        ¬∃ j ∈ visited, j.name = name ∧ isFloatingBaseJoint j = true := by
      rw [← mem_filter_names, ← hfl.find_none]
      constructor
      · intro h
        by_cases h0 : 0 < StdMap.size names
        · exact h h0
        · rw [hfl.find_none]
          have hz : ((visited.filter isFloatingBaseJoint).map
              (fun joint => joint.name)).length = 0 := by
            rw [← hfl.2.1]
            omega
          rw [List.length_eq_zero] at hz
          rw [hz]
          simp
      · exact fun h _ => h
    constructor
    · rintro ⟨id, hid⟩
      rw [hjoints] at hid
      rcases (hfind id).mp hid with ⟨idx, hm, hcn, -⟩ | ⟨-, hx⟩
      · have hmem : name ∈ free.map Prod.fst := List.mem_map.mpr ⟨(name, idx), hm, rfl⟩
        obtain ⟨j, hj, hn, hfr⟩ := (hfreekeys name).mp hmem
        have hnf : ¬(isFloatingBaseJoint j = true) :=
          fun hf => hc.mp hcn ⟨j, hj, hn, hf⟩
        refine ⟨j, hj, hn, ?_⟩
        have := (hact j hj).1
        rw [hfr] at this
        cases hff : isFloatingBaseJoint j
        · rw [hff] at this
          simpa using this.symm
        · exact absurd hff hnf
      · exact absurd hx (hnew id)
    · rintro ⟨j, hj, hn, ha⟩
      have hfr : isFreeJoint j = true := by
        rw [(hact j hj).1, ha]
        simp
      obtain ⟨e, he, hname⟩ := List.mem_map.mp ((hfreekeys name).mpr ⟨j, hj, hn, hfr⟩)
      obtain ⟨k, idx⟩ := e
      have hk : k = name := hname
      subst hk
      refine ⟨usub idx (StdMap.size names), ?_⟩
      rw [hjoints]
      refine (hfind _).mpr (Or.inl ⟨idx, he, ?_, rfl⟩)
      refine hc.mpr ?_
      rintro ⟨j', hj', hn', hf'⟩
      have : j' = j := hinj j' hj' j hj (hn'.trans hn.symm)
      subst this
      exact (hact j' hj').2 ⟨hf', ha⟩
  have hand : ((visited.filter isActuatedJoint).map (fun joint => joint.name)).Nodup :=
    hnames.sublist ((List.filter_sublist visited).map _)
  have hJsorted : SortedKeys S.joints_ := by
    rw [hjoints]
    exact sortedKeys_foldl_assign
      (fun k => 0 < StdMap.size names → StdMap.find names k = none)
      (fun v => usub v (StdMap.size names)) free _ sortedKeys_nil
  -- the number of joints
  have hcount := length_filter_split (@isFreeJoint α) isFloatingBaseJoint isActuatedJoint
    visited hact
  have hM : StdMap.size free = (visited.filter isFreeJoint).length := by
    rw [hfree.2.1, List.length_map]
  have hF : StdMap.size names = (visited.filter isFloatingBaseJoint).length := by
    rw [hfl.2.1, List.length_map]
  have hN : S.num_joints_ =
      ((visited.filter isActuatedJoint).map (fun joint => joint.name)).length := by
    have hMlt : StdMap.size free < UINT_MOD := by
      rw [hM]
      exact lt_of_le_of_lt (List.length_filter_le _ _) hsmall
    rw [hnum, usub_of_le (by omega) hMlt, List.length_map]
    omega
  refine ⟨?_, ?_, ?_, ?_, ?_⟩
  · intro name
    show (∃ limits, StdMap.find S.joint_limits_ name = some limits) ↔
      ∃ id, StdMap.find S.joints_ name = some id
    rw [← Option.ne_none_iff_exists', ← Option.ne_none_iff_exists', HL, HJ]
  · intro name
    show (∃ id, StdMap.find S.joints_ name = some id) ↔ _
    rw [← Option.ne_none_iff_exists', HJ, mem_filter_names]
  · show StdMap.size S.joint_limits_ = S.num_joints_
    rw [hN]
    exact size_eq_length_of_keys hsorted hand HL
  · show StdMap.size S.joints_ = S.num_joints_
    rw [hN]
    exact size_eq_length_of_keys hJsorted hand HJ
  · intro j hj hf
    show StdMap.find S.joint_limits_ j.name = none
    by_contra hne
    obtain ⟨j', hj', hn', ha'⟩ := (mem_filter_names _ _ _ _).mp ((HL j.name).mp hne)
    have : j' = j := hinj j' hj' j hj hn'
    subst this
    exact (hact j' hj').2 ⟨hf, ha'⟩

/-- C34 at `railHopper`: the hip is the only joint with limits and the only
joint of the actuated-joint table; the zero-effort joint `slide_x` of the
floating base has no limits. -/
theorem limits_iff_actuated_witness :
    (∀ name, (∃ limits, StdMap.find Example.railHopperSystem.getJointLimits name =
          some limits) ↔
        ∃ id, StdMap.find Example.railHopperSystem.getJoints name = some id) ∧
      (∀ name, (∃ id, StdMap.find Example.railHopperSystem.getJoints name = some id) ↔
        ∃ j ∈ [Example.slide_x, Example.hip, Example.ankle],
          j.name = name ∧ isActuatedJoint j = true) ∧
      StdMap.size Example.railHopperSystem.getJointLimits =
        Example.railHopperSystem.getJointDoF ∧
      StdMap.size Example.railHopperSystem.getJoints = Example.railHopperSystem.getJointDoF ∧
      (∀ j ∈ [Example.slide_x, Example.hip, Example.ankle], isFloatingBaseJoint j = true →
        StdMap.find Example.railHopperSystem.getJointLimits j.name = none) :=
  limits_iff_actuated 16 Example.garbage Example.emptyRbd Example.railHopperRbd false 0
    Example.railHopper none Example.railHopperSystem
    [Example.slide_x, Example.hip, Example.ankle] rfl (by decide)
    (by
      intro j hj
      simp only [List.mem_cons, List.mem_singleton, List.not_mem_nil, or_false] at hj
      rcases hj with rfl | rfl | rfl <;> rfl)
    (by decide) rfl

end FloatingBaseSystem

end model

namespace rbd

open RigidBodyDynamics

variable {K ST RI : Type}

/-! ### A model that is not detected as floating-base -/

/-- Along a chain of first children the detection loop returns, and its flag
is set exactly when the chain arrives at index 6. -/
theorem isFloatingBaseLoop_firstChildChain (model : Model K ST RI) {i : Nat}
    {bodies : List Nat} (h : FirstChildChain model i bodies) :
    ∀ (fuel : Nat) (flag : Bool), bodies.length ≤ fuel →
      isFloatingBaseLoop model fuel i flag = .ok (flag || decide (6 ∈ bodies)) := by
  induction h with
  | stop hv =>
    intro fuel flag _
    unfold isFloatingBaseLoop
    simp [hv]
  | @step i child bodies hv hmu _ ih =>
    intro fuel flag hfuel
    obtain ⟨fuel, rfl⟩ : ∃ f, fuel = f + 1 := ⟨fuel - 1, by
      simp only [List.length_cons] at hfuel
      omega⟩
    unfold isFloatingBaseLoop
    simp only [hv, if_true, hmu]
    rw [ih fuel _ (by simpa using hfuel)]
    by_cases h6 : child = 6
    · subst h6
      simp
    · have : ¬(6 = child) := fun e => h6 e.symm
      simp [h6, this]

/-- C32. When the chain of first children through virtual bodies that starts at
body 1 stops without arriving at index 6 (it is empty when body 1 is not
virtual), the fully-floating variant of `FloatingBaseInverseDynamics` returns
and leaves the model, `base_acc` and `Tau` as they were. -/
theorem not_detected_is_noop [Ring K] [DecidableEq K] (math : Math K ST RI) (fuel : Nat)
    (model : Model K ST RI) (Q QDot QDDot : Nat → K) (base_acc : SpatialVector K)
    (Tau : Nat → K) (f_ext : Option (Nat → SpatialVector K)) (bodies : List Nat)
    (hchain : FirstChildChain model 1 bodies) (hnot : 6 ∉ bodies)
    (hfuel : bodies.length ≤ fuel) :
    FloatingBaseInverseDynamics math fuel model Q QDot QDDot base_acc Tau f_ext =
      .ok (model, base_acc, Tau) := by
  unfold FloatingBaseInverseDynamics
  rw [isFloatingBaseLoop_firstChildChain model hchain fuel false hfuel]
  simp [hnot]

/-- C32 at `shortBasePendulum`, whose chain from body 1 arrives at the bodies 2
and 3 and stops there without arriving at body 6. -/
theorem not_detected_is_noop_witness :
    FloatingBaseInverseDynamics Example.unitMath 16 Example.shortBasePendulum
        Example.zeroVector Example.zeroVector (fun _ => 1) ![9, 9, 9, 9, 9, 9] (fun _ => 7)
        none =
      .ok (Example.shortBasePendulum, ![9, 9, 9, 9, 9, 9], fun _ => 7) :=
  not_detected_is_noop Example.unitMath 16 Example.shortBasePendulum Example.zeroVector
    Example.zeroVector (fun _ => 1) ![9, 9, 9, 9, 9, 9] (fun _ => 7) none [2, 3]
    (.step rfl rfl (.step rfl rfl (.stop rfl))) (by decide) (by decide)

end rbd

namespace simulation

namespace LinearControlledCartTableModel

variable {K : Type}

/-! ### The response at the initial time and at the end of the duration -/

/-- What `initResponse` stores on an initialized model. -/
theorem initResponse_initialized [Field K] (libm : Libm K)
    (m : LinearControlledCartTableModel K) (s0 : ReducedBodyState K)
    (params : CartTableControlParams K) (hmodel : m.init_model_ = true) :
    (initResponse libm m s0 params).init_response_ = true ∧
      (initResponse libm m s0 params).initial_state_ = s0 ∧
      (initResponse libm m s0 params).params_ = params ∧
      (initResponse libm m s0 params).omega_ =
        libm.sqrt (m.properties_.gravity / (s0.com_pos 2 - s0.cop 2)) ∧
      (initResponse libm m s0 params).beta_1_ =
        (fun i => head2 (s0.com_pos - s0.cop) i / 2 +
          (head2 s0.com_vel i * params.duration - head2 params.cop_shift i) /
            (2 * libm.sqrt (m.properties_.gravity / (s0.com_pos 2 - s0.cop 2)) *
              params.duration)) ∧
      (initResponse libm m s0 params).beta_2_ =
        (fun i => head2 (s0.com_pos - s0.cop) i / 2 -
          (head2 s0.com_vel i * params.duration - head2 params.cop_shift i) /
            (2 * libm.sqrt (m.properties_.gravity / (s0.com_pos 2 - s0.cop 2)) *
              params.duration)) ∧
      (initResponse libm m s0 params).cop_T_ =
        (fun i => head2 params.cop_shift i / params.duration) := by
  unfold initResponse
  simp [hmodel]

theorem head2_setHead2 (v : Fin 3 → K) (h : Fin 2 → K) : head2 (setHead2 v h) = h := by
  funext i
  fin_cases i <;> simp [head2, setHead2]

theorem setHead2_two (v : Fin 3 → K) (h : Fin 2 → K) : setHead2 v h 2 = v 2 := by
  simp [setHead2]

theorem head2_update_two (v : Fin 3 → K) (x : K) : head2 (Function.update v 2 x) = head2 v := by
  funext i
  fin_cases i <;> simp [head2, Function.update]

/-- The state that `computeResponse` writes on a model with a response, at a
time that is not before the initial time. -/
theorem computeResponse_written [Field K] [LT K] [DecidableRel (fun a b : K => a < b)]
    (libm : Libm K) (m : LinearControlledCartTableModel K) (state : ReducedBodyState K)
    (time : K) (hresp : m.init_response_ = true) (hlate : ¬ time < m.initial_state_.time) :
    (computeResponse libm m state time).time = time ∧
      head2 (computeResponse libm m state time).com_pos =
        (fun i => m.beta_1_ i * libm.exp (m.omega_ * (time - m.initial_state_.time)) +
          m.beta_2_ i * libm.exp (-m.omega_ * (time - m.initial_state_.time)) +
          m.cop_T_ i * (time - m.initial_state_.time) + head2 m.initial_state_.cop i) ∧
      head2 (computeResponse libm m state time).com_vel =
        (fun i => m.omega_ * (m.beta_1_ i *
            libm.exp (m.omega_ * (time - m.initial_state_.time))) -
          m.omega_ * (m.beta_2_ i * libm.exp (-m.omega_ * (time - m.initial_state_.time))) +
          m.cop_T_ i) ∧
      (computeResponse libm m state time).com_pos 2 = m.initial_state_.com_pos 2 ∧
      (computeResponse libm m state time).com_vel 2 = 0 ∧
      (computeResponse libm m state time).com_acc 2 = 0 ∧
      (computeResponse libm m state time).cop =
        (fun i => m.initial_state_.cop i +
          ((time - m.initial_state_.time) / m.params_.duration) * m.params_.cop_shift i) := by
  unfold computeResponse
  rw [if_neg (by simp [hresp]), if_neg hlate]
  dsimp only
  refine ⟨rfl, ?_, ?_, ?_, ?_, ?_, rfl⟩
  · rw [head2_update_two, head2_setHead2]
  · rw [head2_update_two, head2_setHead2]
  · simp
  · simp
  · simp

theorem velocity_identity [Field K] (A v s d w : K) (hw : w ≠ 0) (hd : d ≠ 0)
    (h2 : (2 : K) ≠ 0) :
    w * (A / 2 + (v * d - s) / (2 * w * d)) - w * (A / 2 - (v * d - s) / (2 * w * d)) + s / d =
      v := by
  have h1 : w * (A / 2 + (v * d - s) / (2 * w * d)) - w * (A / 2 - (v * d - s) / (2 * w * d)) =
      2 * w * ((v * d - s) / (2 * w * d)) := by ring
  rw [h1, mul_div_assoc', mul_div_mul_left _ _ (mul_ne_zero h2 hw), ← add_div, sub_add_cancel,
    mul_div_cancel_right₀ _ hd]

theorem position_identity [Field K] (A B c : K) (h2 : (2 : K) ≠ 0) :
    A / 2 + B + (A / 2 - B) + c = A + c := by
  have h1 : A / 2 + B + (A / 2 - B) = (2 * A) / 2 := by ring
  rw [h1, mul_div_cancel_left₀ _ h2]

/-- At the initial time the response reproduces the initial conditions. -/
theorem computeResponse_at_start [Field K] [LT K] [DecidableRel (fun a b : K => a < b)]
    (libm : Libm K) (m : LinearControlledCartTableModel K) (s0 state : ReducedBodyState K)
    (params : CartTableControlParams K) (hmodel : m.init_model_ = true)
    (hexp : libm.exp 0 = 1)
    (homega : libm.sqrt (m.properties_.gravity / (s0.com_pos 2 - s0.cop 2)) ≠ 0)
    (hdur : params.duration ≠ 0) (htwo : (2 : K) ≠ 0) (hirrefl : ¬ s0.time < s0.time) :
    head2 (computeResponse libm (initResponse libm m s0 params) state s0.time).com_pos =
        head2 s0.com_pos ∧
      head2 (computeResponse libm (initResponse libm m s0 params) state s0.time).com_vel =
        head2 s0.com_vel ∧
      (computeResponse libm (initResponse libm m s0 params) state s0.time).com_pos 2 =
        s0.com_pos 2 ∧
      (computeResponse libm (initResponse libm m s0 params) state s0.time).com_vel 2 = 0 ∧
      (computeResponse libm (initResponse libm m s0 params) state s0.time).com_acc 2 = 0 ∧
      (computeResponse libm (initResponse libm m s0 params) state s0.time).cop = s0.cop := by
  obtain ⟨i1, i2, i3, i4, i5, i6, i7⟩ := initResponse_initialized libm m s0 params hmodel
  obtain ⟨-, c2, c3, c4, c5, c6, c7⟩ := computeResponse_written libm
    (initResponse libm m s0 params) state s0.time i1 (by rw [i2]; exact hirrefl)
  rw [i2] at c2 c3 c4 c7
  rw [i3] at c7
  rw [i4, i5, i6, i7] at c2 c3
  generalize libm.sqrt (m.properties_.gravity / (s0.com_pos 2 - s0.cop 2)) = omega
    at homega c2 c3
  refine ⟨?_, ?_, c4, c5, c6, ?_⟩
  · rw [c2]
    funext i
    simp only [sub_self, mul_zero, hexp, mul_one, add_zero]
    rw [position_identity _ _ _ htwo]
    simp [head2]
  · rw [c3]
    funext i
    simp only [sub_self, mul_zero, hexp, mul_one]
    exact velocity_identity _ _ _ _ _ homega hdur htwo
  · rw [c7]
    funext i
    simp

/-- At the end of the duration the centre of pressure has moved by the shift. -/
theorem computeResponse_at_end [Field K] [LT K] [DecidableRel (fun a b : K => a < b)]
    (libm : Libm K) (m : LinearControlledCartTableModel K) (s0 state : ReducedBodyState K)
    (params : CartTableControlParams K) (hmodel : m.init_model_ = true)
    (hdur : params.duration ≠ 0) (hlate : ¬ s0.time + params.duration < s0.time) :
    (computeResponse libm (initResponse libm m s0 params) state
        (s0.time + params.duration)).cop = s0.cop + params.cop_shift := by
  obtain ⟨i1, i2, i3, -⟩ := initResponse_initialized libm m s0 params hmodel
  obtain ⟨-, -, -, -, -, -, c7⟩ := computeResponse_written libm
    (initResponse libm m s0 params) state (s0.time + params.duration) i1
    (by rw [i2]; exact hlate)
  rw [c7, i2, i3]
  funext i
  simp [hdur]

/-- C33 (amended). Over the reals, with `sqrt` and `exp` the real square root
and exponential: after `initResponse(s0, params)` on an initialized cart-table
model with positive gravity, positive pendulum height and non-zero duration,
`computeResponse` at the time of `s0` writes the horizontal position and the
horizontal velocity of the centre of mass of `s0`, the height of the centre of
mass of `s0` with zero vertical velocity and acceleration, and the centre of
pressure of `s0`; and when the duration is positive, `computeResponse` at the
time of `s0` plus the duration writes the centre of pressure of `s0` plus
`cop_shift`. -/
theorem response_reproduces_initial_state (libm : Libm Real) (hsqrt : libm.sqrt = Real.sqrt)
    (hexp : libm.exp = Real.exp) (m : LinearControlledCartTableModel Real)
    (s0 state : ReducedBodyState Real) (params : CartTableControlParams Real)
    (hmodel : m.init_model_ = true) (hgravity : 0 < m.properties_.gravity)
    (hheight : 0 < s0.com_pos 2 - s0.cop 2) (hdur : params.duration ≠ 0) :
    head2 (computeResponse libm (initResponse libm m s0 params) state s0.time).com_pos =
        head2 s0.com_pos ∧
      head2 (computeResponse libm (initResponse libm m s0 params) state s0.time).com_vel =
        head2 s0.com_vel ∧
      (computeResponse libm (initResponse libm m s0 params) state s0.time).com_pos 2 =
        s0.com_pos 2 ∧
      (computeResponse libm (initResponse libm m s0 params) state s0.time).com_vel 2 = 0 ∧
      (computeResponse libm (initResponse libm m s0 params) state s0.time).com_acc 2 = 0 ∧
      (computeResponse libm (initResponse libm m s0 params) state s0.time).cop = s0.cop ∧
      (0 < params.duration →
        (computeResponse libm (initResponse libm m s0 params) state
          (s0.time + params.duration)).cop = s0.cop + params.cop_shift) := by
  have homega : libm.sqrt (m.properties_.gravity / (s0.com_pos 2 - s0.cop 2)) ≠ 0 := by
    rw [hsqrt]
    exact ne_of_gt (Real.sqrt_pos.mpr (div_pos hgravity hheight))
  obtain ⟨h1, h2, h3, h4, h5, h6⟩ := computeResponse_at_start libm m s0 state params hmodel
    (by rw [hexp]; exact Real.exp_zero) homega hdur two_ne_zero (lt_irrefl _)
  refine ⟨h1, h2, h3, h4, h5, h6, fun hpos => ?_⟩
  exact computeResponse_at_end libm m s0 state params hmodel hdur
    (not_lt.mpr (le_add_of_nonneg_right (le_of_lt hpos)))

/-- C33 (amended) at `earthCartTable`, the state `walking` and the step
`forwardStep` of two seconds: the response at time 0 gives back the state, and
at time 2 the centre of pressure is at `(1, 0, 0)`. -/
theorem response_reproduces_initial_state_witness :
    head2 (computeResponse ⟨Real.sqrt, Real.exp⟩
        (initResponse ⟨Real.sqrt, Real.exp⟩ Example.earthCartTable Example.walking
          Example.forwardStep) Example.walking Example.walking.time).com_pos =
        head2 Example.walking.com_pos ∧
      head2 (computeResponse ⟨Real.sqrt, Real.exp⟩
        (initResponse ⟨Real.sqrt, Real.exp⟩ Example.earthCartTable Example.walking
          Example.forwardStep) Example.walking Example.walking.time).com_vel =
        head2 Example.walking.com_vel ∧
      (computeResponse ⟨Real.sqrt, Real.exp⟩
        (initResponse ⟨Real.sqrt, Real.exp⟩ Example.earthCartTable Example.walking
          Example.forwardStep) Example.walking
        (Example.walking.time + Example.forwardStep.duration)).cop =
        Example.walking.cop + Example.forwardStep.cop_shift :=
  have h := response_reproduces_initial_state ⟨Real.sqrt, Real.exp⟩ rfl rfl
    Example.earthCartTable Example.walking Example.walking Example.forwardStep rfl
    (by simp [Example.earthCartTable, setModelProperties])
    (by simp [Example.walking])
    (by simp [Example.forwardStep])
  ⟨h.1, h.2.1, h.2.2.2.2.2.2 (by simp [Example.forwardStep])⟩

/-- C33 (counterexample). On `earthCartTable`, with positive gravity and
pendulum height, after `initResponse` with the state `walking` and the step
`backwardStep`, whose duration is not zero but negative, `computeResponse` at
the time of the state plus the duration returns before it writes anything:
the caller's state, here `walking` itself, keeps its centre of pressure
`(0, 0, 0)`, which is not the centre of pressure of `walking` plus the shift
`(1, 0, 0)`. -/
theorem negative_duration_counterexample :
    Example.earthCartTable.init_model_ = true ∧
      0 < Example.earthCartTable.properties_.gravity ∧
      0 < Example.walking.com_pos 2 - Example.walking.cop 2 ∧
      Example.backwardStep.duration ≠ 0 ∧
      computeResponse ⟨Real.sqrt, Real.exp⟩
        (initResponse ⟨Real.sqrt, Real.exp⟩ Example.earthCartTable Example.walking
          Example.backwardStep) Example.walking
        (Example.walking.time + Example.backwardStep.duration) = Example.walking ∧
      (computeResponse ⟨Real.sqrt, Real.exp⟩
        (initResponse ⟨Real.sqrt, Real.exp⟩ Example.earthCartTable Example.walking
          Example.backwardStep) Example.walking
        (Example.walking.time + Example.backwardStep.duration)).cop ≠
          Example.walking.cop + Example.backwardStep.cop_shift := by
  obtain ⟨i1, i2, -⟩ := initResponse_initialized ⟨Real.sqrt, Real.exp⟩ Example.earthCartTable
    Example.walking Example.backwardStep rfl
  have hret : computeResponse ⟨Real.sqrt, Real.exp⟩
      (initResponse ⟨Real.sqrt, Real.exp⟩ Example.earthCartTable Example.walking
        Example.backwardStep) Example.walking
      (Example.walking.time + Example.backwardStep.duration) = Example.walking := by
    unfold computeResponse
    rw [if_neg (by simp [i1]), if_pos (by
      rw [i2]
      simp [Example.walking, Example.backwardStep])]
  refine ⟨rfl, by simp [Example.earthCartTable, setModelProperties],
    by simp [Example.walking], by simp [Example.backwardStep], hret, ?_⟩
  rw [hret]
  intro h
  have h0 := congrFun h 0
  simp [Example.walking, Example.backwardStep] at h0


end LinearControlledCartTableModel

end simulation

end dwl
